import Mathlib

/-!
RemoteHub: USB/IP wire format, device list and import exchange, forwarding ring,
event bus, client manager and interface, VHCI attach, beacon, send and receive loops

A shallow embedding of the parts of RemoteHub that the specification's
testable properties talk about.

Conventions of the embedding

* A byte is a `Nat` below 256, a `uint16_t` a `Nat` below `2^16`, a `uint32_t`
  a `Nat` below `2^32`.  An `int32_t` stored in a `uint32_t`-sized slot is kept
  as its two's-complement `Nat`.
* `htons`/`htonl` depend on the byte order of the host.  Every function that
  calls them takes the host byte order as its first argument
  (`le = true` for a little-endian host), and `mem16`/`mem32` give the bytes a
  value occupies in the memory of such a host.  What reaches the wire is the
  memory image of the packed struct that is handed to `network_send_data`.
* Singly linked lists (`usb_head`, `usb_bus_info_head`, `buffer_head`) are Lean
  lists in link order.
-/

namespace RemoteHub

/-! ## Byte order -/

/-- Swap the two bytes of a 16-bit value. -/
def bswap16 (x : Nat) : Nat :=
  (x % 256) * 256 + x / 256 % 256

/-- Reverse the four bytes of a 32-bit value. -/
def bswap32 (x : Nat) : Nat :=
  (x % 256) * 16777216 + (x / 256 % 256) * 65536 + (x / 65536 % 256) * 256 + x / 16777216 % 256

/-- The libc `htons` on a host whose byte order is `le`. -/
def htons (le : Bool) (x : Nat) : Nat :=
  if le then bswap16 x else x % 65536

/-- The libc `ntohs`: the same permutation as `htons`. -/
def ntohs (le : Bool) (x : Nat) : Nat :=
  if le then bswap16 x else x % 65536

/-- The libc `htonl` on a host whose byte order is `le`. -/
def htonl (le : Bool) (x : Nat) : Nat :=
  if le then bswap32 x else x % 4294967296

/-- The libc `ntohl`: the same permutation as `htonl`. -/
def ntohl (le : Bool) (x : Nat) : Nat :=
  if le then bswap32 x else x % 4294967296

/-- The two bytes a `uint16_t` occupies in host memory, lowest address first. -/
def mem16 (le : Bool) (x : Nat) : List Nat :=
  if le then [x % 256, x / 256 % 256] else [x / 256 % 256, x % 256]

/-- The four bytes a `uint32_t` occupies in host memory, lowest address first. -/
def mem32 (le : Bool) (x : Nat) : List Nat :=
  if le then [x % 256, x / 256 % 256, x / 65536 % 256, x / 16777216 % 256]
  else [x / 16777216 % 256, x / 65536 % 256, x / 256 % 256, x % 256]

/-- Big-endian (network order) encoding of a 16-bit value. -/
def be16 (x : Nat) : List Nat :=
  [x / 256 % 256, x % 256]

/-- Big-endian (network order) encoding of a 32-bit value. -/
def be32 (x : Nat) : List Nat :=
  [x / 16777216 % 256, x / 65536 % 256, x / 256 % 256, x % 256]

/-- Every element of the list is a byte. -/
def bytes_ok (l : List Nat) : Prop :=
  ∀ b ∈ l, b < 256

instance (l : List Nat) : Decidable (bytes_ok l) := by
  unfold bytes_ok; infer_instance

/-! ## `struct usbip_usb_device` and `struct usbip_usb_interface` (remotehub.h) -/

/-- The packed `struct usbip_usb_device` of remotehub.h, fields in declaration order. -/
structure usbip_usb_device where
  path : List Nat
  busid : List Nat
  busnum : Nat
  devnum : Nat
  speed : Nat
  idVendor : Nat
  idProduct : Nat
  bcdDevice : Nat
  bDeviceClass : Nat
  bDeviceSubClass : Nat
  bDeviceProtocol : Nat
  bConfigurationValue : Nat
  bNumConfigurations : Nat
  bNumInterfaces : Nat
deriving DecidableEq, Repr

/-- The value is one the C type of each field can hold: `path` is 256 bytes,
`busid` 32 bytes, the `uint32_t`/`uint16_t`/`uint8_t` fields are in range. -/
def usbip_usb_device.wf (d : usbip_usb_device) : Prop :=
  d.path.length = 256 ∧ bytes_ok d.path ∧
  d.busid.length = 32 ∧ bytes_ok d.busid ∧
  d.busnum < 4294967296 ∧ d.devnum < 4294967296 ∧ d.speed < 4294967296 ∧
  d.idVendor < 65536 ∧ d.idProduct < 65536 ∧ d.bcdDevice < 65536 ∧
  d.bDeviceClass < 256 ∧ d.bDeviceSubClass < 256 ∧ d.bDeviceProtocol < 256 ∧
  d.bConfigurationValue < 256 ∧ d.bNumConfigurations < 256 ∧ d.bNumInterfaces < 256

instance (d : usbip_usb_device) : Decidable d.wf := by
  unfold usbip_usb_device.wf; infer_instance

/-- Code of `usbip_net_dev_to_network_order` (network_usbip.c). -/
def usbip_net_dev_to_network_order (le : Bool) (dev : usbip_usb_device) : usbip_usb_device :=
  { dev with
    bcdDevice := htons le dev.bcdDevice
    busnum := htonl le dev.busnum
    devnum := htonl le dev.devnum
    idProduct := htons le dev.idProduct
    idVendor := htons le dev.idVendor
    speed := htonl le dev.speed }

/-- Code of `usbip_net_dev_from_network_order` (network_usbip.c). -/
def usbip_net_dev_from_network_order (le : Bool) (dev : usbip_usb_device) : usbip_usb_device :=
  { dev with
    bcdDevice := ntohs le dev.bcdDevice
    busnum := ntohl le dev.busnum
    devnum := ntohl le dev.devnum
    idProduct := ntohs le dev.idProduct
    idVendor := ntohs le dev.idVendor
    speed := ntohl le dev.speed }

/-- The 312 bytes of a packed `struct usbip_usb_device` in host memory. -/
def usbip_usb_device.mem (le : Bool) (d : usbip_usb_device) : List Nat :=
  d.path ++ d.busid ++ mem32 le d.busnum ++ mem32 le d.devnum ++ mem32 le d.speed ++
  mem16 le d.idVendor ++ mem16 le d.idProduct ++ mem16 le d.bcdDevice ++
  [d.bDeviceClass, d.bDeviceSubClass, d.bDeviceProtocol, d.bConfigurationValue,
   d.bNumConfigurations, d.bNumInterfaces]

/-- Network-order (big-endian) wire image of a `struct usbip_usb_device`: the
312 bytes the specification calls a UsbDevice record. -/
def usbip_usb_device.wire (d : usbip_usb_device) : List Nat :=
  d.path ++ d.busid ++ be32 d.busnum ++ be32 d.devnum ++ be32 d.speed ++
  be16 d.idVendor ++ be16 d.idProduct ++ be16 d.bcdDevice ++
  [d.bDeviceClass, d.bDeviceSubClass, d.bDeviceProtocol, d.bConfigurationValue,
   d.bNumConfigurations, d.bNumInterfaces]

/-- The packed `struct usbip_usb_interface` of remotehub.h. -/
structure usbip_usb_interface where
  bInterfaceClass : Nat
  bInterfaceSubClass : Nat
  bInterfaceProtocol : Nat
  padding : Nat
deriving DecidableEq, Repr

/-- The 4 bytes of a `struct usbip_usb_interface` in memory. -/
def usbip_usb_interface.mem (i : usbip_usb_interface) : List Nat :=
  [i.bInterfaceClass, i.bInterfaceSubClass, i.bInterfaceProtocol, i.padding]

/-- The `struct usb_device_info` of remotehub.h; `interface` has
`RH_MAX_USB_INTERFACES` = 32 entries, the name buffers 64 bytes, the endpoint
tables 16 entries; `exported` is a `uint8_t` that only ever receives `true`/`false`. -/
structure usb_device_info where
  udev : usbip_usb_device
  interface : List usbip_usb_interface
  manufacturer_name : List Nat
  product_name : List Nat
  ep_in_type : List Nat
  ep_out_type : List Nat
  exported : Bool
deriving DecidableEq, Repr

/-- The interface array holds every interface the descriptor counts:
`get_basic_device_info` refuses a device with more than 32 interfaces. -/
def usb_device_info.wf (i : usb_device_info) : Prop :=
  i.interface.length = 32 ∧ i.udev.bNumInterfaces ≤ 32

instance (i : usb_device_info) : Decidable i.wf := by
  unfold usb_device_info.wf; infer_instance

/-! ## USB/IP data header and `struct usb_packet` (usbip.h) -/

def USBIP_CMD_SUBMIT : Nat := 1
def USBIP_CMD_UNLINK : Nat := 2
def USBIP_RET_SUBMIT : Nat := 3
def USBIP_RET_UNLINK : Nat := 4
def USBIP_DIR_OUT : Nat := 0
def USBIP_DIR_IN : Nat := 1

/-- The `struct usbip_header_basic` of usbip.h. -/
structure usbip_header_basic where
  command : Nat
  seqnum : Nat
  devid : Nat
  direction : Nat
  ep : Nat
deriving DecidableEq, Repr

/-- The `struct usbip_header` of usbip.h.  Its union `u` is 28 bytes; the
members overlay each other, so it is kept as the five 32-bit words `w0 .. w4`
followed by the 8 `setup` bytes:

* `cmd_submit` = `transfer_flags, transfer_buffer_length, start_frame,
  number_of_packets, interval` in `w0 .. w4`, then `setup`;
* `ret_submit` = `status, actual_length, start_frame, number_of_packets,
  error_count` in `w0 .. w4`;
* `cmd_unlink.seqnum` and `ret_unlink.status` are `w0`. -/
structure usbip_header where
  base : usbip_header_basic
  w0 : Nat
  w1 : Nat
  w2 : Nat
  w3 : Nat
  w4 : Nat
  setup : List Nat
deriving DecidableEq, Repr

/-- Two's-complement image of a C `int`/`int32_t` in a 32-bit word. -/
def u32_of_int (i : Int) : Nat :=
  (i % 4294967296).toNat

/-- The signed value of a 32-bit word read as `int32_t`. -/
def int_of_u32 (x : Nat) : Int :=
  if x % 4294967296 < 2147483648 then ((x % 4294967296 : Nat) : Int)
  else ((x % 4294967296 : Nat) : Int) - 4294967296

/-- A `struct libusb_iso_packet_descriptor` (libusb.h). -/
structure libusb_iso_packet_descriptor where
  length : Nat
  actual_length : Nat
  status : Int
deriving DecidableEq, Repr

/-- The fields of libusb's `struct libusb_transfer` that forwarding.c reads or
writes.  `cancel_requested` stands for the effect of `libusb_cancel_transfer`,
which libusb keeps inside the transfer. -/
structure libusb_transfer where
  endpoint : Nat
  type : Nat
  length : Int
  num_iso_packets : Int
  buffer : List Nat
  iso_packet_desc : List libusb_iso_packet_descriptor
  status : Int
  actual_length : Int
  cancel_requested : Bool
deriving DecidableEq, Repr

/-- The `struct usb_packet` of usbip.h; `xfer` is `none` for a NULL pointer.
The `f_dev` back pointer and `next` are implicit in the ring the packet is in. -/
structure usb_packet where
  ready : Bool
  submitted : Bool
  unlinked : Nat
  hdr : usbip_header
  xfer : Option libusb_transfer
deriving DecidableEq, Repr

/-! ## Link (network.c) -/

/-- What has gone out over an established link: the bytes the transport
accepted, in order, how many times `network_send` was called, and whether
`network_shut_link` was called on it. -/
structure est_conn where
  sent : List Nat
  calls : Nat
  shut : Bool
deriving DecidableEq, Repr

/-- Behaviour of the transport under a link: `net i n` is the value the `i`-th
call of `send` / `network_tls_send` returns when asked to send `n` bytes. -/
abbrev Transport := Nat → Nat → Int

/-- A transport that never fails: asked for `n > 0` bytes it takes between 1 and
`n` of them. -/
def Transport.good (net : Transport) : Prop :=
  ∀ i n, 0 < n → 0 < net i n ∧ net i n ≤ (n : Int)

/-- The transport that takes everything it is offered. -/
def net_all : Transport := fun _ n => (n : Int)

/-- Code of `network_send`: one call of the transport; the bytes it accepted
are on the wire. -/
def network_send (net : Transport) (link : est_conn) (data : List Nat) : Int × est_conn :=
  let ret := net link.calls data.length
  (ret, { link with sent := link.sent ++ data.take ret.toNat, calls := link.calls + 1 })

/-- Loop of `network_send_data`: `rest` is `data[snt .. len)`. -/
def network_send_data_loop (net : Transport) : Nat → est_conn → List Nat → Bool × est_conn
  | 0, link, _ => (true, link)
  | fuel + 1, link, rest =>
    if rest.length = 0 then (true, link)
    else
      let r := network_send net link rest
      if r.1 ≤ 0 then (false, r.2)
      else network_send_data_loop net fuel r.2 (rest.drop r.1.toNat)

/-- Code of `network_shut_link`. -/
def network_shut_link (link : est_conn) : est_conn :=
  { link with shut := true }

/-- Code of `network_send_data`.  Every iteration that does not return adds at
least one to `snt`, so `len + 1` iterations are never used up. -/
def network_send_data (net : Transport) (link : est_conn) (data : List Nat) : Bool × est_conn :=
  network_send_data_loop net (data.length + 1) link data

/-! ## Operation header (usbip.h, network_usbip.c) -/

def USBIP_DEFAULT_PROTOCOL_VERSION : Nat := 0x0111
def USBIP_ST_OK : Nat := 0
def USBIP_ST_NA : Nat := 1
def USBIP_ST_DEV_BUSY : Nat := 2
def USBIP_ST_DEV_ERR : Nat := 3
def USBIP_ST_NODEV : Nat := 4
def USBIP_ST_ERROR : Nat := 5
def USBIP_OP_REQ_IMPORT : Nat := 0x8003
def USBIP_OP_REP_IMPORT : Nat := 0x0003
def USBIP_OP_REQ_DEVLIST : Nat := 0x8005
def USBIP_OP_REP_DEVLIST : Nat := 0x0005

/-- The packed `struct usbip_op_common` of usbip.h. -/
structure usbip_op_common where
  version : Nat
  code : Nat
  status : Nat
deriving DecidableEq, Repr

/-- The 8 bytes of a `struct usbip_op_common` in host memory. -/
def usbip_op_common.mem (le : Bool) (h : usbip_op_common) : List Nat :=
  mem16 le h.version ++ mem16 le h.code ++ mem32 le h.status

/-- Code of `usbip_common_header_to_network_order`. -/
def usbip_common_header_to_network_order (le : Bool) (hdr : usbip_op_common) : usbip_op_common :=
  { hdr with
    code := htons le hdr.code
    status := htonl le hdr.status
    version := htons le hdr.version }

/-- Code of `usbip_net_send_usbip_header`. -/
def usbip_net_send_usbip_header (le : Bool) (net : Transport) (link : est_conn)
    (hdr : usbip_op_common) : Bool × est_conn :=
  network_send_data net link ((usbip_common_header_to_network_order le hdr).mem le)

/-- The `struct usbip_op_devlist_reply` of usbip.h. -/
structure usbip_op_devlist_reply where
  ndev : Nat
deriving DecidableEq, Repr

/-- Code of `usbip_net_devlist_reply_to_network_order`. -/
def usbip_net_devlist_reply_to_network_order (le : Bool) (hdr : usbip_op_devlist_reply) :
    usbip_op_devlist_reply :=
  { hdr with ndev := htonl le hdr.ndev }

/-- The `struct usbip_op_import_reply` of usbip.h. -/
structure usbip_op_import_reply where
  udev : usbip_usb_device
deriving DecidableEq, Repr

/-- Code of `usbip_net_import_reply_to_network_order`. -/
def usbip_net_import_reply_to_network_order (le : Bool) (hdr : usbip_op_import_reply) :
    usbip_op_import_reply :=
  { hdr with udev := usbip_net_dev_to_network_order le hdr.udev }

/-- Network-order wire image of an operation header: the 8 bytes of OpCommon. -/
def op_common_wire (version code status : Nat) : List Nat :=
  be16 version ++ be16 code ++ be32 status

/-! ## Server USB task (server/tasks/usb.c)

usb.h, which declares `struct forward_info` and `struct server_usb_device`, is
not among the sources; the two structures below hold the fields usb.c and
forwarding.c use, with the types their uses imply. -/

/-- The per-device forwarding state `struct forward_info` (fields used by usb.c and
forwarding.c).  `forwarding_thread` is the `pthread_t` of the monitor thread, 0
when there is none; `buffer_head` is the packet ring in link order;
`packets_ready` is taken to be a C `int`. -/
structure forward_info where
  forwarding_thread : Nat
  terminate : Bool
  link : Option est_conn
  buffer_head : List usb_packet
  packets_ready : Int
deriving DecidableEq, Repr

/-- One tracked device, `struct server_usb_device`: `info` and `fwd`; `next` is the
tail of the list the device is in. -/
structure server_usb_device where
  info : usb_device_info
  fwd : forward_info
deriving DecidableEq, Repr

/-- The globals of usb.c: `usb_head` and `usb_bus_info_head` (the `bus` field of each
`struct usb_bus_info`, in link order). -/
structure usb_task_state where
  usb_head : List server_usb_device
  usb_bus_info_head : List Int
deriving DecidableEq, Repr

/-- The libc `strcmp` on two `char` buffers; the end of a buffer counts as its
terminating NUL. -/
def strcmp : List Nat → List Nat → Int
  | [], [] => 0
  | [], b :: _ => 0 - (b : Int)
  | a :: _, [] => (a : Int)
  | a :: as, b :: bs =>
    if a ≠ b then (a : Int) - (b : Int)
    else if a = 0 then 0
    else strcmp as bs

/-- The C string held in a `char` buffer: the bytes before the first NUL. -/
def cstr (l : List Nat) : List Nat :=
  l.takeWhile (fun b => b ≠ 0)

/-- Code of `bus_is_disabled`: the head is looked at first, then every later entry. -/
def bus_is_disabled (usb_bus_info_head : List Int) (busnum : Int) : Bool :=
  match usb_bus_info_head with
  | [] => false
  | tmp :: rest =>
    if tmp = busnum then true
    else bus_is_disabled rest busnum

/-- Code of `port_is_disabled`: the port number is ignored. -/
def port_is_disabled (usb_bus_info_head : List Int) (busnum : Int) (_portnum : Int) : Bool :=
  bus_is_disabled usb_bus_info_head busnum

/-- Code of `rh_disable_usb_bus`; `alloc_ok` is whether `calloc` succeeds. -/
def rh_disable_usb_bus (st : usb_task_state) (busnum : Int) (alloc_ok : Bool) :
    Bool × usb_task_state :=
  if bus_is_disabled st.usb_bus_info_head busnum then (true, st)
  else if !alloc_ok then (false, st)
  else (true, { st with usb_bus_info_head := st.usb_bus_info_head ++ [busnum] })

/-- First loop of `get_devicelist`: the value of `available`. -/
def get_devicelist_available (get_exported : Bool) : List server_usb_device → Nat
  | [] => 0
  | tmp :: rest =>
    (if get_exported || !tmp.info.exported then 1 else 0) +
      get_devicelist_available get_exported rest

/-- Second loop of `get_devicelist`: `tmp_info` holds the `count` entries copied so
far; the loop stops once `count >= available`. -/
def get_devicelist_copy (get_exported : Bool) (available : Nat) :
    List server_usb_device → List usb_device_info → List usb_device_info
  | [], tmp_info => tmp_info
  | tmp :: rest, tmp_info =>
    let copied := if get_exported || !tmp.info.exported then tmp_info ++ [tmp.info] else tmp_info
    if copied.length ≥ available then copied
    else get_devicelist_copy get_exported available rest copied

/-- Code of `get_devicelist`: `none` when it returns false, else the array `*info`
(whose length is `*dev_count`).  `alloc_ok` is whether `calloc` succeeds. -/
def get_devicelist (usb_head : List server_usb_device) (get_exported : Bool) (alloc_ok : Bool) :
    Option (List usb_device_info) :=
  let available := get_devicelist_available get_exported usb_head
  if available > 0 then
    if !alloc_ok then none
    else some (get_devicelist_copy get_exported available usb_head [])
  else some []

/-- Inner loop of `handle_usbip_req_devicelist`: sends `interface[j]`,
`interface[j+1]`, ... for `k` more rounds; stops at the first failed send. -/
def devicelist_send_interfaces (net : Transport) (info : usb_device_info) :
    Nat → Nat → est_conn → Bool × est_conn
  | 0, _, link => (true, link)
  | k + 1, j, link =>
    let r := network_send_data net link (info.interface.getD j ⟨0, 0, 0, 0⟩).mem
    if !r.1 then (false, r.2)
    else devicelist_send_interfaces net info k (j + 1) r.2

/-- Outer loop of `handle_usbip_req_devicelist` over `list[i]`. -/
def devicelist_send_devices (le : Bool) (net : Transport) :
    List usb_device_info → est_conn → Bool × est_conn
  | [], link => (true, link)
  | info :: rest, link =>
    let usbip_dev := usbip_net_dev_to_network_order le info.udev
    let r := network_send_data net link (usbip_dev.mem le)
    if !r.1 then (false, r.2)
    else
      let r2 := devicelist_send_interfaces net info usbip_dev.bNumInterfaces 0 r.2
      if !r2.1 then (false, r2.2)
      else devicelist_send_devices le net rest r2.2

/-- Code of `handle_usbip_req_devicelist`: the link of the event after the call
(`none` when the event carries no link). -/
def handle_usbip_req_devicelist (le : Bool) (net : Transport)
    (usb_head : List server_usb_device) (alloc_ok : Bool) (ev_link : Option est_conn) :
    Option est_conn :=
  match ev_link with
  | none => none
  | some link =>
    let hdr : usbip_op_common :=
      { version := USBIP_DEFAULT_PROTOCOL_VERSION, code := USBIP_OP_REP_DEVLIST,
        status := USBIP_ST_OK }
    match get_devicelist usb_head false alloc_ok with
    | none =>
      some (usbip_net_send_usbip_header le net link { hdr with status := USBIP_ST_ERROR }).2
    | some list =>
      let r := usbip_net_send_usbip_header le net link hdr
      if !r.1 then some r.2
      else
        let rep_hdr := usbip_net_devlist_reply_to_network_order le
          { ndev := list.length % 4294967296 }
        let r2 := network_send_data net r.2 (mem32 le rep_hdr.ndev)
        if !r2.1 then some r2.2
        else some (devicelist_send_devices le net list r2.2).2

/-- What the specification says follows the operation header of a device-list
reply: `ndev`, then each UsbDevice record followed by its `bNumInterfaces`
UsbInterface records. -/
def devlist_reply_body (list : List usb_device_info) : List Nat :=
  be32 list.length ++
  (list.map (fun i =>
    i.udev.wire ++ ((i.interface.take i.udev.bNumInterfaces).map usbip_usb_interface.mem).flatten)).flatten

/-- Outcome of the libusb and pthread calls made by `forwarding_start`:
`libusb_open` succeeded, `claim_device` succeeded, and the thread id stored by
`pthread_create` (`none` when it fails). -/
structure fwd_start_env where
  open_ok : Bool
  claim_ok : Bool
  thread : Option Nat
deriving DecidableEq, Repr

/-- Code of `forwarding_start` (forwarding.c), the libusb and pthread calls
answered by `env`. -/
def forwarding_start (env : fwd_start_env) (dev : server_usb_device) :
    Bool × server_usb_device :=
  if dev.info.udev.bNumConfigurations ≠ 1 then (false, dev)
  else if !env.open_ok then (false, dev)
  else if !env.claim_ok then (false, dev)
  else
    match env.thread with
    | none => (false, { dev with fwd := { dev.fwd with forwarding_thread := 0 } })
    | some t => (true, { dev with fwd := { dev.fwd with forwarding_thread := t } })

/-- The `for_each_device` loop of `handle_usbip_req_import`: position and value of
the first device whose `busid` compares equal. -/
def import_find_device (busid : List Nat) : List server_usb_device →
    Option (Nat × server_usb_device)
  | [] => none
  | dev :: rest =>
    if strcmp dev.info.udev.busid busid = 0 then some (0, dev)
    else (import_find_device busid rest).map (fun r => (r.1 + 1, r.2))

/-- What `handle_usbip_req_import` leaves behind: its return value, the link of
the event, the tracked devices. -/
structure import_result where
  keep_link : Bool
  link : est_conn
  usb_head : List server_usb_device
deriving DecidableEq, Repr

/-- Code of `handle_usbip_req_import`.  `req` is what `network_recv_data` delivered
into `import_req.busid` (`none` when it failed). -/
def handle_usbip_req_import (le : Bool) (net : Transport) (st : usb_task_state)
    (env : fwd_start_env) (link : est_conn) (req : Option (List Nat)) : import_result :=
  match req with
  | none => { keep_link := false, link := link, usb_head := st.usb_head }
  | some busid =>
    let hdr : usbip_op_common :=
      { version := USBIP_DEFAULT_PROTOCOL_VERSION, code := USBIP_OP_REP_IMPORT,
        status := USBIP_ST_OK }
    match import_find_device busid st.usb_head with
    | none =>
      let r := usbip_net_send_usbip_header le net link { hdr with status := USBIP_ST_NODEV }
      { keep_link := false, link := r.2, usb_head := st.usb_head }
    | some (idx, dev) =>
      if port_is_disabled st.usb_bus_info_head (int_of_u32 dev.info.udev.busnum)
          (int_of_u32 dev.info.udev.devnum) then
        let r := usbip_net_send_usbip_header le net link { hdr with status := USBIP_ST_DEV_BUSY }
        { keep_link := false, link := r.2, usb_head := st.usb_head }
      else if dev.fwd.forwarding_thread ≠ 0 then
        let r := usbip_net_send_usbip_header le net link { hdr with status := USBIP_ST_DEV_BUSY }
        { keep_link := false, link := r.2, usb_head := st.usb_head }
      else
        let r := usbip_net_send_usbip_header le net link hdr
        if !r.1 then { keep_link := false, link := r.2, usb_head := st.usb_head }
        else
          let import_rep := usbip_net_import_reply_to_network_order le { udev := dev.info.udev }
          let r2 := network_send_data net r.2 (import_rep.udev.mem le)
          if !r2.1 then { keep_link := false, link := r2.2, usb_head := st.usb_head }
          else
            let dev1 := { dev with fwd := { dev.fwd with link := some r2.2 } }
            let f := forwarding_start env dev1
            if !f.1 then
              { keep_link := false, link := r2.2,
                usb_head := st.usb_head.set idx
                  { f.2 with fwd := { f.2.fwd with link := none } } }
            else
              { keep_link := true, link := r2.2, usb_head := st.usb_head.set idx f.2 }

/-- The `EVENT_REQ_IMPORT` case of `handle_event`: the result of
`handle_usbip_req_import`, and whether the link was closed and freed. -/
def handle_event_req_import (le : Bool) (net : Transport) (st : usb_task_state)
    (env : fwd_start_env) (link : est_conn) (req : Option (List Nat)) : import_result × Bool :=
  let r := handle_usbip_req_import le net st env link req
  (r, !r.keep_link)

/-- A device has bus-id `b`: its `busid` buffer holds the same C string. -/
def has_busid (b : List Nat) (dev : server_usb_device) : Bool :=
  cstr dev.info.udev.busid = cstr b

/-! ## Forwarding engine (server/util/forwarding.c) -/

def LIBUSB_TRANSFER_COMPLETED : Int := 0
def LIBUSB_TRANSFER_ERROR : Int := 1
def LIBUSB_TRANSFER_TIMED_OUT : Int := 2
def LIBUSB_TRANSFER_CANCELLED : Int := 3
def LIBUSB_TRANSFER_STALL : Int := 4
def LIBUSB_TRANSFER_NO_DEVICE : Int := 5
def LIBUSB_TRANSFER_OVERFLOW : Int := 6

def ENOENT : Int := 2
def EIO : Int := 5
def EPIPE : Int := 32
def EOVERFLOW : Int := 75
def ECONNRESET : Int := 104
def ESHUTDOWN : Int := 108
def ETIMEDOUT : Int := 110

def USB_ENDPOINT_XFER_CONTROL : Nat := 0
def USB_ENDPOINT_XFER_ISOC : Nat := 1
def USB_ENDPOINT_XFER_BULK : Nat := 2
def USB_ENDPOINT_XFER_INT : Nat := 3
def USB_ENDPOINT_NUMBER_MASK : Nat := 0x0f
def USB_DIR_IN : Nat := 0x80

/-- The `while (tmp->next)` walk of `enqueue_packet`: the packet is linked after the
last element. -/
def enqueue_packet_walk : List usb_packet → usb_packet → List usb_packet
  | [], packet => [packet]
  | tmp :: rest, packet => tmp :: enqueue_packet_walk rest packet

/-- Code of `enqueue_packet`. -/
def enqueue_packet (f_dev : forward_info) (packet : usb_packet) : forward_info :=
  match f_dev.buffer_head with
  | [] => { f_dev with buffer_head := [packet] }
  | head :: next => { f_dev with buffer_head := enqueue_packet_walk (head :: next) packet }

/-- The `while (tmp)` loop of `dequeue_ready_packet` over the chain after `prev`:
the first ready packet and the chain with it unlinked, or `none`. -/
def dequeue_ready_scan : List usb_packet → Option (usb_packet × List usb_packet)
  | [] => none
  | tmp :: rest =>
    if tmp.ready then some (tmp, rest)
    else
      match dequeue_ready_scan rest with
      | none => none
      | some (packet, rest1) => some (packet, tmp :: rest1)

/-- Code of `dequeue_ready_packet`: `*packet` when it returns true (`none` when it
returns false), and the state of the ring after it. -/
def dequeue_ready_packet (f_dev : forward_info) : Option usb_packet × forward_info :=
  match f_dev.buffer_head with
  | [] => (none, f_dev)
  | head :: next =>
    if head.ready then
      (some head, { f_dev with buffer_head := next, packets_ready := f_dev.packets_ready - 1 })
    else
      match dequeue_ready_scan next with
      | none => (none, f_dev)
      | some (packet, next1) =>
        (some packet,
          { f_dev with buffer_head := head :: next1, packets_ready := f_dev.packets_ready - 1 })

/-- The body of `if (found)` in `unlink_packet`: `unlinked` is set and
`libusb_cancel_transfer` is called on `unlink->xfer`.  The code does not test the
pointer: for a packet that has no transfer (the reply packet `handle_unlink`
enqueues when it finds nothing) libusb is handed a null pointer, which it
dereferences; there is no result then (`none`). -/
def unlink_mark (unlink_seqnum : Nat) (unlink : usb_packet) : Option usb_packet :=
  match unlink.xfer with
  | none => none
  | some x =>
    some { unlink with
           unlinked := unlink_seqnum
           xfer := some { x with cancel_requested := true } }

/-- The `while (tmp)` loop of `unlink_packet`, which starts at the head again: the
first packet of that seqnum, with the packets before it and those behind it. -/
def unlink_packet_scan (target_seqnum : Nat) :
    List usb_packet → Option (List usb_packet × usb_packet × List usb_packet)
  | [] => none
  | tmp :: rest =>
    if tmp.hdr.base.seqnum = target_seqnum then some ([], tmp, rest)
    else (unlink_packet_scan target_seqnum rest).map (fun r => (tmp :: r.1, r.2.1, r.2.2))

/-- Code of `unlink_packet`: the value returned and the ring afterwards; `none`
when `libusb_cancel_transfer` is handed a null pointer. -/
def unlink_packet (f_dev : forward_info) (target_seqnum unlink_seqnum : Nat) :
    Option (Bool × forward_info) :=
  match f_dev.buffer_head with
  | [] => some (false, f_dev)
  | head :: next =>
    let found :=
      if head.hdr.base.seqnum = target_seqnum then some ([], head, next)
      else unlink_packet_scan target_seqnum (head :: next)
    match found with
    | none => some (false, f_dev)
    | some (pre, unlink, post) =>
      (unlink_mark unlink_seqnum unlink).map
        (fun marked => (true, { f_dev with buffer_head := pre ++ marked :: post }))

/-- Code of `convert_libusb_status`. -/
def convert_libusb_status (xfer_status : Int) : Int :=
  if xfer_status = LIBUSB_TRANSFER_COMPLETED then 0
  else if xfer_status = LIBUSB_TRANSFER_ERROR then - EIO
  else if xfer_status = LIBUSB_TRANSFER_TIMED_OUT then -ETIMEDOUT
  else if xfer_status = LIBUSB_TRANSFER_CANCELLED then -ECONNRESET
  else if xfer_status = LIBUSB_TRANSFER_STALL then -EPIPE
  else if xfer_status = LIBUSB_TRANSFER_NO_DEVICE then -ESHUTDOWN
  else if xfer_status = LIBUSB_TRANSFER_OVERFLOW then -EOVERFLOW
  else -ENOENT

/-- What libusb has stored in a transfer when it calls the completion callback. -/
structure xfer_result where
  status : Int
  actual_length : Int
  buffer : List Nat
  iso_packet_desc : List libusb_iso_packet_descriptor
deriving DecidableEq, Repr

/-- The transfer as libusb hands it to the callback. -/
def libusb_transfer.completed (x : libusb_transfer) (res : xfer_result) : libusb_transfer :=
  { x with status := res.status, actual_length := res.actual_length, buffer := res.buffer,
           iso_packet_desc := res.iso_packet_desc }

/-- The part of `xfer_completion_callback` that writes the packet: everything up to
and including `packet->ready = true`, for the transfer `transfer` whose `user_data`
the packet is. -/
def xfer_completion_callback_packet (packet : usb_packet) (transfer : libusb_transfer) :
    usb_packet :=
  if transfer.status = LIBUSB_TRANSFER_CANCELLED then
    { packet with
      hdr := { packet.hdr with w0 := u32_of_int (convert_libusb_status transfer.status) }
      ready := true }
  else if transfer.status = LIBUSB_TRANSFER_NO_DEVICE then
    { packet with ready := true }
  else
    let act_len :=
      (((transfer.iso_packet_desc.take transfer.num_iso_packets.toNat).map
        (fun d => d.actual_length)).sum) % 4294967296
    { packet with
      hdr :=
        { packet.hdr with
          base := { packet.hdr.base with command := USBIP_RET_SUBMIT }
          w0 := u32_of_int (convert_libusb_status transfer.status)
          w1 := if transfer.num_iso_packets ≠ 0 then act_len
                else u32_of_int transfer.actual_length
          w2 := 0
          w3 := u32_of_int transfer.num_iso_packets
          w4 := 0 }
      ready := true }

/-- Code of `xfer_completion_callback` for the transfer of the packet at position `i`
of the ring, completed by libusb with `res`.  Nothing happens when there is no such
packet or it has no transfer. -/
def xfer_completion_callback (f_dev : forward_info) (i : Nat) (res : xfer_result) :
    forward_info :=
  match f_dev.buffer_head.get? i with
  | none => f_dev
  | some packet =>
    match packet.xfer with
    | none => f_dev
    | some x =>
      let transfer := x.completed res
      let packet1 := xfer_completion_callback_packet { packet with xfer := some transfer } transfer
      let shut := decide (transfer.status = LIBUSB_TRANSFER_NO_DEVICE)
      { f_dev with
        buffer_head := f_dev.buffer_head.set i packet1
        packets_ready := f_dev.packets_ready + 1
        link := if shut then f_dev.link.map network_shut_link else f_dev.link
        terminate := if shut then true else f_dev.terminate }

/-- Code of `get_xfer_type`; `ep` is the `uint8_t` argument. -/
def get_xfer_type (dev : server_usb_device) (dir : Nat) (ep : Nat) : Nat :=
  let epnum := ep &&& USB_ENDPOINT_NUMBER_MASK
  if ep = 0 then USB_ENDPOINT_XFER_CONTROL
  else if dir = USBIP_DIR_IN then dev.info.ep_in_type.getD epnum 0
  else dev.info.ep_out_type.getD epnum 0

/-- Code of `set_endpoint`. -/
def set_endpoint (ep : Nat) (dir : Nat) : Nat :=
  if ep = 0 then 0
  else if dir = USBIP_DIR_IN then ep ||| USB_DIR_IN
  else ep

/-- The packed `struct usbip_iso_packet_descriptor` of usbip.h. -/
structure usbip_iso_packet_descriptor where
  offset : Nat
  length : Nat
  actual_length : Nat
  status : Nat
deriving DecidableEq, Repr

/-- What the environment answers to the calls `handle_submit`, `submit_xfer` and
`handle_unlink` make: whether each allocation succeeds, what `network_recv_data`
delivers for the OUT payload and for the ISO descriptors (`none` when it fails),
and whether `libusb_submit_transfer` returns 0. -/
structure submit_io where
  packet_alloc_ok : Bool
  buffer_alloc_ok : Bool
  out_data : Option (List Nat)
  xfer_alloc_ok : Bool
  iso_alloc_ok : Bool
  iso_desc : Option (List usbip_iso_packet_descriptor)
  submit_ok : Bool
deriving DecidableEq, Repr

/-- Code of `receive_iso`: the descriptors of the transfer filled from the wire
(`none` when it returns -1). -/
def receive_iso (le : Bool) (io : submit_io) (num_iso : Nat) (xfer : libusb_transfer) :
    Option libusb_transfer :=
  if !io.iso_alloc_ok then none
  else
    match io.iso_desc with
    | none => none
    | some usbip_iso =>
      some { xfer with
        iso_packet_desc := (List.range num_iso).map (fun i =>
          let tmp_iso := usbip_iso.getD i ⟨0, 0, 0, 0⟩
          { length := ntohl le tmp_iso.length
            actual_length := ntohl le tmp_iso.actual_length
            status := int_of_u32 (ntohl le tmp_iso.status) }) }

/-- Code of `submit_xfer`; `intercept_control_packet` only issues requests to the
device and leaves the packet and the ring alone, so it does not appear. -/
def submit_xfer (le : Bool) (io : submit_io) (dev : server_usb_device) (packet : usb_packet)
    (data_buffer : List Nat) : Bool × server_usb_device :=
  let offset : Int := if packet.hdr.base.ep = 0 then 8 else 0
  let dir := packet.hdr.base.direction
  let ep := packet.hdr.base.ep % 256
  let xfer_type := get_xfer_type dev dir ep
  let num_iso : Int := if xfer_type ≠ USB_ENDPOINT_XFER_ISOC then 0 else int_of_u32 packet.hdr.w3
  if !io.xfer_alloc_ok then (false, dev)
  else
    let xfer : libusb_transfer :=
      { endpoint := set_endpoint ep dir, type := xfer_type,
        length := int_of_u32 packet.hdr.w1 + offset, num_iso_packets := num_iso,
        buffer := data_buffer, iso_packet_desc := [], status := 0, actual_length := 0,
        cancel_requested := false }
    let received := if num_iso > 0 then receive_iso le io num_iso.toNat xfer else some xfer
    match received with
    | none => (false, dev)
    | some xfer1 =>
      if !io.submit_ok then (false, dev)
      else (true, { dev with fwd := enqueue_packet dev.fwd { packet with xfer := some xfer1 } })

/-- The data buffer `handle_submit` builds: `bufsize + 8` zero bytes, the setup
bytes copied to its start, then the OUT payload stored at `offset`. -/
def submit_buffer (setup : List Nat) (bufsize : Nat) (offset : Nat) (payload : List Nat) :
    List Nat :=
  let base := (setup.take 8 ++ List.replicate (bufsize + 8) 0).take (bufsize + 8)
  base.take offset ++ payload.take bufsize ++ base.drop (offset + (payload.take bufsize).length)

/-- Code of `handle_submit`. -/
def handle_submit (le : Bool) (io : submit_io) (dev : server_usb_device) (hdr : usbip_header) :
    Bool × server_usb_device :=
  let bufsize := hdr.w1
  if !io.packet_alloc_ok then (false, dev)
  else
    let packet : usb_packet :=
      { ready := false, submitted := false, unlinked := 0, hdr := hdr, xfer := none }
    if !io.buffer_alloc_ok then (false, dev)
    else if hdr.base.direction = USBIP_DIR_IN then
      submit_xfer le io dev packet (submit_buffer hdr.setup bufsize 0 [])
    else if hdr.base.direction = USBIP_DIR_OUT then
      if bufsize ≠ 0 then
        match io.out_data with
        | none => (false, dev)
        | some payload =>
          submit_xfer le io dev packet
            (submit_buffer hdr.setup bufsize (if hdr.base.ep = 0 then 8 else 0) payload)
      else submit_xfer le io dev packet (submit_buffer hdr.setup bufsize 0 [])
    else (false, dev)

/-- Code of `handle_unlink`; `alloc_ok` is whether `calloc` succeeds.  `none` when
`unlink_packet` hands a null pointer to libusb. -/
def handle_unlink (alloc_ok : Bool) (dev : server_usb_device) (hdr : usbip_header) :
    Option (Bool × server_usb_device) :=
  let unlink_seqnum := hdr.base.seqnum
  let unlink_target_seqnum := hdr.w0
  match unlink_packet dev.fwd unlink_target_seqnum unlink_seqnum with
  | none => none
  | some r =>
    if r.1 then some (true, { dev with fwd := r.2 })
    else if !alloc_ok then some (false, dev)
    else
      let hdr1 : usbip_header :=
        { hdr with base := { hdr.base with command := USBIP_RET_UNLINK }, w0 := 0 }
      let packet : usb_packet :=
        { ready := true, submitted := false, unlinked := 0, hdr := hdr1, xfer := none }
      let f_dev := { dev.fwd with packets_ready := dev.fwd.packets_ready + 1 }
      some (true, { dev with fwd := enqueue_packet f_dev packet })

/-- Code of `usbip_base_header_to_host_endian`. -/
def usbip_base_header_to_host_endian (le : Bool) (hdr : usbip_header) : usbip_header :=
  { hdr with base :=
    { command := ntohl le hdr.base.command
      devid := ntohl le hdr.base.devid
      direction := ntohl le hdr.base.direction
      ep := ntohl le hdr.base.ep
      seqnum := ntohl le hdr.base.seqnum } }

/-- Code of `usbip_base_header_to_network_endian`. -/
def usbip_base_header_to_network_endian (le : Bool) (hdr : usbip_header) : usbip_header :=
  { hdr with base :=
    { command := htonl le hdr.base.command
      devid := htonl le hdr.base.devid
      direction := htonl le hdr.base.direction
      ep := htonl le hdr.base.ep
      seqnum := htonl le hdr.base.seqnum } }

/-- Code of `usbip_cmd_submit_header_to_host_endian`. -/
def usbip_cmd_submit_header_to_host_endian (le : Bool) (hdr : usbip_header) : usbip_header :=
  { hdr with
    w4 := ntohl le hdr.w4
    w3 := ntohl le hdr.w3
    w2 := ntohl le hdr.w2
    w1 := ntohl le hdr.w1
    w0 := ntohl le hdr.w0 }

/-- Code of `usbip_ret_submit_header_to_network_endian`. -/
def usbip_ret_submit_header_to_network_endian (le : Bool) (hdr : usbip_header) : usbip_header :=
  { hdr with
    w1 := htonl le hdr.w1
    w4 := htonl le hdr.w4
    w3 := htonl le hdr.w3
    w2 := htonl le hdr.w2
    w0 := htonl le hdr.w0 }

/-- Code of `usbip_cmd_unlink_header_to_host_endian`. -/
def usbip_cmd_unlink_header_to_host_endian (le : Bool) (hdr : usbip_header) : usbip_header :=
  { hdr with w0 := ntohl le hdr.w0 }

/-- Code of `usbip_ret_unlink_header_to_network_endian`. -/
def usbip_ret_unlink_header_to_network_endian (le : Bool) (hdr : usbip_header) : usbip_header :=
  { hdr with w0 := ntohl le hdr.w0 }

/-- The 48 bytes of a packed `struct usbip_header` in host memory. -/
def usbip_header.mem (le : Bool) (h : usbip_header) : List Nat :=
  mem32 le h.base.command ++ mem32 le h.base.seqnum ++ mem32 le h.base.devid ++
  mem32 le h.base.direction ++ mem32 le h.base.ep ++
  mem32 le h.w0 ++ mem32 le h.w1 ++ mem32 le h.w2 ++ mem32 le h.w3 ++ mem32 le h.w4 ++ h.setup

/-- The label `rx_exit` of `rx_server`: `terminate` is set and the thread returns. -/
def rx_exit (dev : server_usb_device) : Bool × server_usb_device :=
  (false, { dev with fwd := { dev.fwd with terminate := true } })

/-- One round of the RX loop of `rx_server` from the return of `network_recv_data`
on: `rx` is the header it stored (`none` when it failed).  The result is whether
the loop goes on (false: it went to `rx_exit`) and the device after; `none` when
`handle_unlink` hands a null pointer to libusb. -/
def rx_server_receive (le : Bool) (io : submit_io) (dev : server_usb_device)
    (rx : Option usbip_header) : Option (Bool × server_usb_device) :=
  match rx with
  | none => some (rx_exit dev)
  | some raw =>
    let hdr := usbip_base_header_to_host_endian le raw
    if hdr.base.command = USBIP_CMD_UNLINK then
      match handle_unlink io.packet_alloc_ok dev
          (usbip_cmd_unlink_header_to_host_endian le hdr) with
      | none => none
      | some r => some (if !r.1 then rx_exit r.2 else (true, r.2))
    else if hdr.base.command = USBIP_CMD_SUBMIT then
      let r := handle_submit le io dev (usbip_cmd_submit_header_to_host_endian le hdr)
      some (if !r.1 then rx_exit r.2 else (true, r.2))
    else some (rx_exit dev)

/-- One round of the RX loop of `rx_server`, from the check of `terminate` on, the
read included. -/
def rx_server_iteration (le : Bool) (io : submit_io) (dev : server_usb_device)
    (rx : Option usbip_header) : Option (Bool × server_usb_device) :=
  if dev.fwd.terminate then some (rx_exit dev)
  else rx_server_receive le io dev rx

/-- Code of `fill_iso`: the 16 bytes of the descriptor in memory. -/
def fill_iso (le : Bool) (libusb_iso : libusb_iso_packet_descriptor) (offset : Nat) : List Nat :=
  mem32 le (htonl le offset) ++ mem32 le (htonl le libusb_iso.length) ++
  mem32 le (htonl le libusb_iso.actual_length) ++
  mem32 le (htonl le (u32_of_int (convert_libusb_status libusb_iso.status)))

/-- First loop of `send_iso_xfer_data`: the data of each ISO packet, `offset`
advancing by `length`. -/
def send_iso_data_loop (net : Transport) (buffer : List Nat) :
    List libusb_iso_packet_descriptor → Nat → est_conn → Bool × est_conn
  | [], _, link => (true, link)
  | d :: rest, offset, link =>
    let r := network_send_data net link ((buffer.drop offset).take d.actual_length)
    if !r.1 then (false, r.2)
    else send_iso_data_loop net buffer rest ((offset + d.length) % 4294967296) r.2

/-- Second loop of `send_iso_xfer_data`: the descriptors. -/
def send_iso_desc_loop (le : Bool) (net : Transport) :
    List libusb_iso_packet_descriptor → Nat → est_conn → Bool × est_conn
  | [], _, link => (true, link)
  | d :: rest, offset, link =>
    let r := network_send_data net link (fill_iso le d offset)
    if !r.1 then (false, r.2)
    else send_iso_desc_loop le net rest ((offset + d.length) % 4294967296) r.2

/-- Code of `send_iso_xfer_data` for the transfer of the packet. -/
def send_iso_xfer_data (le : Bool) (net : Transport) (xfer : libusb_transfer)
    (usb_direction : Nat) (link : est_conn) : Bool × est_conn :=
  let descs := xfer.iso_packet_desc.take xfer.num_iso_packets.toNat
  let r :=
    if usb_direction = USBIP_DIR_IN then send_iso_data_loop net xfer.buffer descs 0 link
    else (true, link)
  if !r.1 then (false, r.2)
  else send_iso_desc_loop le net descs 0 r.2

/-- Code of `send_xfer_data` for the transfer of the packet. -/
def send_xfer_data (net : Transport) (xfer : libusb_transfer) (usb_direction : Nat)
    (link : est_conn) : Bool × est_conn :=
  let data_offset := if xfer.endpoint &&& 0x7f = 0 then 8 else 0
  if usb_direction = USBIP_DIR_IN then
    network_send_data net link ((xfer.buffer.drop data_offset).take xfer.actual_length.toNat)
  else (true, link)

/-- The rewrite `tx_server` applies to a dequeued packet whose `unlinked` is set. -/
def tx_rewrite_unlinked (packet : usb_packet) : usb_packet :=
  if packet.unlinked ≠ 0 then
    { packet with hdr :=
      { packet.hdr with
        base := { packet.hdr.base with command := USBIP_RET_UNLINK, seqnum := packet.unlinked }
        w0 := u32_of_int (-ECONNRESET) } }
  else packet

/-- What one round of the TX loop leaves behind: whether the loop goes on (false:
it went to `tx_exit`), the link, and the 48 header bytes handed to
`network_send_data` when that call returned true. -/
structure tx_result where
  running : Bool
  link : est_conn
  hdr_sent : Option (List Nat)
deriving DecidableEq, Repr

/-- The part of the TX loop of `tx_server` that follows a successful
`dequeue_ready_packet`, up to `free_usb_packet`.  A RET_SUBMIT packet without a
transfer (the C code would dereference NULL) ends the loop. -/
def tx_server_packet (le : Bool) (net : Transport) (link : est_conn) (packet0 : usb_packet) :
    tx_result :=
  let packet := tx_rewrite_unlinked packet0
  let command := packet.hdr.base.command
  let usb_direction := packet.hdr.base.direction
  let hdr := usbip_base_header_to_network_endian le packet.hdr
  if command = USBIP_RET_SUBMIT then
    let hdr1 := usbip_ret_submit_header_to_network_endian le hdr
    let r := network_send_data net link (hdr1.mem le)
    if !r.1 then { running := false, link := r.2, hdr_sent := none }
    else
      match packet.xfer with
      | none => { running := false, link := r.2, hdr_sent := some (hdr1.mem le) }
      | some xfer =>
        let r2 :=
          if xfer.type = USB_ENDPOINT_XFER_ISOC then
            send_iso_xfer_data le net xfer usb_direction r.2
          else send_xfer_data net xfer usb_direction r.2
        { running := r2.1, link := r2.2, hdr_sent := some (hdr1.mem le) }
  else if command = USBIP_RET_UNLINK then
    let hdr1 := usbip_ret_unlink_header_to_network_endian le hdr
    let r := network_send_data net link (hdr1.mem le)
    if !r.1 then { running := false, link := r.2, hdr_sent := none }
    else { running := true, link := r.2, hdr_sent := some (hdr1.mem le) }
  else { running := false, link := link, hdr_sent := none }

/-- One round of the TX loop of `tx_server`: the device after it and the header
bytes it put on the link, if any.  With `terminate` set the thread leaves through
`tx_exit`; with `packets_ready` zero it stays in `pthread_cond_wait` and nothing
changes. -/
def tx_server_iteration (le : Bool) (net : Transport) (dev : server_usb_device) :
    server_usb_device × Option (List Nat) :=
  if dev.fwd.terminate then (dev, none)
  else if dev.fwd.packets_ready = 0 then (dev, none)
  else
    match dev.fwd.link with
    | none => ({ dev with fwd := { dev.fwd with terminate := true } }, none)
    | some link =>
      match dequeue_ready_packet dev.fwd with
      | (none, _) => (dev, none)
      | (some packet, f_dev) =>
        let r := tx_server_packet le net link packet
        ({ dev with fwd :=
            { f_dev with link := some r.link
                         terminate := if r.running then f_dev.terminate else true } },
          r.hdr_sent)

/-- Big-endian reading of the 32-bit field at byte `off` of a wire image. -/
def wire_u32 (bytes : List Nat) (off : Nat) : Nat :=
  bytes.getD off 0 * 16777216 + bytes.getD (off + 1) 0 * 65536 +
  bytes.getD (off + 2) 0 * 256 + bytes.getD (off + 3) 0

/-- The `command` field of a USB/IP header on the wire. -/
def wire_command (bytes : List Nat) : Nat := wire_u32 bytes 0

/-- The `seqnum` field of a USB/IP header on the wire. -/
def wire_seqnum (bytes : List Nat) : Nat := wire_u32 bytes 4

/-- The `status` field (first word of the union) of a reply header on the wire. -/
def wire_status (bytes : List Nat) : Int := int_of_u32 (wire_u32 bytes 20)

/-! ## A forwarding session as interleaved atomic steps

RX, TX and the libusb event thread touch the ring under `buffer_lock`.  A run of
a session is a sequence of steps, each one round of a loop or one completion
callback; a dequeued packet is private to TX, so a whole TX round counts as one
step, and so does a whole RX round. -/

/-- One step of a session: a round of the RX loop with the header it read
(`none`: the read failed) and the answers of the environment; libusb completing
the transfer of the packet at position `i` of the ring with `res`; a round of the
TX loop. -/
inductive session_event where
  | rx (raw : Option usbip_header) (io : submit_io)
  | complete (i : Nat) (res : xfer_result)
  | tx
deriving DecidableEq, Repr

/-- A session under observation: the device, the request headers RX handed to
`handle_submit` / `handle_unlink` (host order, oldest first), how many of the
CMD_UNLINK among them found their target in the ring, and the header images TX
put on the link (oldest first). -/
structure session where
  dev : server_usb_device
  requests : List usbip_header
  merged : Nat
  wire : List (List Nat)
deriving DecidableEq, Repr

/-- The header the RX loop hands to a handler once `network_recv_data` returned,
after the conversions to host order: none when the read failed or the `switch`
takes its `default` case. -/
def rx_handled (le : Bool) (rx : Option usbip_header) : Option usbip_header :=
  match rx with
  | none => none
  | some raw =>
    let hdr := usbip_base_header_to_host_endian le raw
    if hdr.base.command = USBIP_CMD_UNLINK then
      some (usbip_cmd_unlink_header_to_host_endian le hdr)
    else if hdr.base.command = USBIP_CMD_SUBMIT then
      some (usbip_cmd_submit_header_to_host_endian le hdr)
    else none

/-- The header an RX round hands to a handler: none when the round ends before the
`switch` or in its `default` case. -/
def rx_request (le : Bool) (dev : server_usb_device) (rx : Option usbip_header) :
    Option usbip_header :=
  if dev.fwd.terminate then none
  else rx_handled le rx

/-- Whether the request is a CMD_UNLINK whose target `unlink_packet` finds. -/
def rx_merges (dev : server_usb_device) (req : Option usbip_header) : Bool :=
  match req with
  | none => false
  | some hdr =>
    hdr.base.command = USBIP_CMD_UNLINK &&
      (match unlink_packet dev.fwd hdr.w0 hdr.base.seqnum with
       | some r => r.1
       | none => false)

/-- Whether libusb can complete the transfer of packet `i` with `res`: the packet
is in the ring with a submitted transfer that has not completed yet, and the
status is CANCELLED only if cancellation was requested. -/
def complete_enabled (f_dev : forward_info) (i : Nat) (res : xfer_result) : Bool :=
  match f_dev.buffer_head.get? i with
  | none => false
  | some packet =>
    match packet.xfer with
    | none => false
    | some x =>
      !packet.ready && (decide (res.status ≠ LIBUSB_TRANSFER_CANCELLED) || x.cancel_requested)

/-- One step of a session; `none` when the step hands a null pointer to libusb,
which the process does not survive. -/
def session_step (le : Bool) (net : Transport) (s : session) :
    session_event → Option session
  | .rx raw io =>
    let req := rx_request le s.dev raw
    (rx_server_iteration le io s.dev raw).map (fun r =>
      { s with
        dev := r.2
        requests := s.requests ++ req.toList
        merged := s.merged + (if rx_merges s.dev req then 1 else 0) })
  | .complete i res =>
    if complete_enabled s.dev.fwd i res then
      some { s with dev := { s.dev with fwd := xfer_completion_callback s.dev.fwd i res } }
    else some s
  | .tx =>
    let r := tx_server_iteration le net s.dev
    some { s with dev := r.1, wire := s.wire ++ r.2.toList }

/-- A run: the steps taken in order; `none` when one of them has no result. -/
def session_run (le : Bool) (net : Transport) : session → List session_event → Option session
  | s, [] => some s
  | s, ev :: evs =>
    match session_step le net s ev with
    | none => none
    | some s1 => session_run le net s1 evs

/-- The session right after `monitor` started RX and TX for the device. -/
def session_start (dev : server_usb_device) : session :=
  { dev := dev, requests := [], merged := 0, wire := [] }

/-- A request header as it sits in the receive buffer: every 32-bit field in
network order. -/
def usbip_header.raw (le : Bool) (h : usbip_header) : usbip_header :=
  { base :=
      { command := htonl le h.base.command, seqnum := htonl le h.base.seqnum,
        devid := htonl le h.base.devid, direction := htonl le h.base.direction,
        ep := htonl le h.base.ep }
    w0 := htonl le h.w0, w1 := htonl le h.w1, w2 := htonl le h.w2, w3 := htonl le h.w3,
    w4 := htonl le h.w4, setup := h.setup }

/-- What a reply header on the wire says: command, seqnum, status. -/
def wire_reply (bytes : List Nat) : Nat × Nat × Int :=
  (wire_command bytes, wire_seqnum bytes, wire_status bytes)

/-- An environment in which every allocation and the submission succeed and
nothing has to be read from the link. -/
def io_ok : submit_io :=
  { packet_alloc_ok := true, buffer_alloc_ok := true, out_data := none, xfer_alloc_ok := true,
    iso_alloc_ok := true, iso_desc := none, submit_ok := true }

/-- A CMD_SUBMIT header for a 64-byte IN transfer on endpoint 1. -/
def cmd_submit_in (seqnum : Nat) : usbip_header :=
  { base := { command := USBIP_CMD_SUBMIT, seqnum := seqnum, devid := 0x00010001,
              direction := USBIP_DIR_IN, ep := 1 }
    w0 := 0, w1 := 64, w2 := 0, w3 := 0, w4 := 0, setup := List.replicate 8 0 }

/-- A CMD_UNLINK header with seqnum `seqnum` for the request `target`. -/
def cmd_unlink (seqnum target : Nat) : usbip_header :=
  { base := { command := USBIP_CMD_UNLINK, seqnum := seqnum, devid := 0x00010001,
              direction := 0, ep := 0 }
    w0 := target, w1 := 0, w2 := 0, w3 := 0, w4 := 0, setup := List.replicate 8 0 }

/-- A completion: status, `n` bytes transferred, the buffer filled with `0xAB`. -/
def res_of (status : Int) (n : Nat) : xfer_result :=
  { status := status, actual_length := n, buffer := List.replicate 72 0xAB,
    iso_packet_desc := [] }

/-! ## Concrete data used to exercise the definitions -/

/-- A forwarding state with no session: no thread, no link, empty ring. -/
def fwd_idle : forward_info :=
  { forwarding_thread := 0, terminate := false, link := none, buffer_head := [],
    packets_ready := 0 }

/-- The bus-id buffer holding the C string `s` (ASCII codes), NUL-padded to 32 bytes. -/
def busid_of (s : List Nat) : List Nat :=
  s ++ List.replicate (32 - s.length) 0

/-- A device record: bus 1, bus-id "1-1", VID:PID 046d:c52b, one configuration,
two interfaces. -/
def demo_udev : usbip_usb_device :=
  { path := List.replicate 256 0, busid := busid_of [49, 45, 49],
    busnum := 1, devnum := 1, speed := 2,
    idVendor := 0x046D, idProduct := 0xC52B, bcdDevice := 0x1201,
    bDeviceClass := 0, bDeviceSubClass := 0, bDeviceProtocol := 0,
    bConfigurationValue := 0, bNumConfigurations := 1, bNumInterfaces := 2 }

/-- Its `usb_device_info`: two interfaces, endpoint 1 IN bulk, endpoint 2 IN
interrupt, not exported. -/
def demo_info : usb_device_info :=
  { udev := demo_udev,
    interface := [⟨3, 1, 1, 0⟩, ⟨3, 0, 0, 0⟩] ++ List.replicate 30 ⟨0, 0, 0, 0⟩,
    manufacturer_name := List.replicate 64 0, product_name := List.replicate 64 0,
    ep_in_type := [0, 2, 3] ++ List.replicate 13 0, ep_out_type := List.replicate 16 0,
    exported := false }

/-- The tracked device with no forwarding session. -/
def demo_dev : server_usb_device :=
  { info := demo_info, fwd := fwd_idle }

/-- A fresh link: nothing sent yet. -/
def link0 : est_conn :=
  { sent := [], calls := 0, shut := false }

/-- The device while it is exported: forwarding thread 1, link up, empty ring. -/
def fwd_dev : server_usb_device :=
  { info := demo_info,
    fwd := { forwarding_thread := 1, terminate := false, link := some link0, buffer_head := [],
             packets_ready := 0 } }

/-- The packet `handle_submit` builds for `cmd_submit_in 10`, before its transfer
is attached. -/
def packet10 : usb_packet :=
  { ready := false, submitted := false, unlinked := 0, hdr := cmd_submit_in 10, xfer := none }

/-- A session on `fwd_dev` that received CMD_SUBMIT seq 10, then CMD_UNLINK with
seqnum 0 for it, and whose transfer then completed as CANCELLED. -/
def session_unlink_zero : Option session :=
  session_run true net_all (session_start fwd_dev)
    [.rx (some ((cmd_submit_in 10).raw true)) io_ok,
     .rx (some ((cmd_unlink 0 10).raw true)) io_ok,
     .complete 0 (res_of LIBUSB_TRANSFER_CANCELLED 0)]

/-- The exported demo device with the given ring, ready count and link. -/
def fwd_dev_of (ring : List usb_packet) (pr : Int) (link : est_conn) : server_usb_device :=
  { info := demo_info,
    fwd := { forwarding_thread := 1, terminate := false, link := some link,
             buffer_head := ring, packets_ready := pr } }

/-- The transfer `submit_xfer` sets up for `cmd_submit_in`: endpoint 0x81, bulk,
64 bytes, a zeroed buffer of 72 bytes. -/
def transfer_in : libusb_transfer :=
  { endpoint := set_endpoint 1 USBIP_DIR_IN, type := USB_ENDPOINT_XFER_BULK, length := 64,
    num_iso_packets := 0, buffer := submit_buffer (List.replicate 8 0) 64 0 [],
    iso_packet_desc := [], status := 0, actual_length := 0, cancel_requested := false }

/-- The packet in the ring after `handle_submit` of `cmd_submit_in seqnum`. -/
def packet_in (seqnum : Nat) : usb_packet :=
  { ready := false, submitted := false, unlinked := 0, hdr := cmd_submit_in seqnum,
    xfer := some transfer_in }

/-- The RX round that reads CMD_SUBMIT seq 10 (bulk IN, 64 bytes). -/
def s5_submit (le : Bool) : session_event :=
  .rx (some ((cmd_submit_in 10).raw le)) io_ok

/-- The RX round that reads CMD_UNLINK seq 11 for seq 10. -/
def s5_unlink (le : Bool) : session_event :=
  .rx (some ((cmd_unlink 11 10).raw le)) io_ok

/-- Every interleaving of scenario S5: the submit, then the unlink and the
completion of the transfer in either order, with any number of TX rounds before,
between and after them. -/
def s5_schedule (le : Bool) (unlink_first : Bool) (n0 n1 n2 n3 : Nat) (res : xfer_result) :
    List session_event :=
  List.replicate n0 session_event.tx ++ [s5_submit le] ++ List.replicate n1 session_event.tx ++
  (if unlink_first then
    [s5_unlink le] ++ List.replicate n2 session_event.tx ++ [session_event.complete 0 res]
   else
    [session_event.complete 0 res] ++ List.replicate n2 session_event.tx ++ [s5_unlink le]) ++
  List.replicate n3 session_event.tx

/-- The outcomes scenario S5 of the specification allows for the reply headers
(command, seqnum, status) on the wire. -/
def s5_expected (w : List (Nat × Nat × Int)) : Prop :=
  (∃ st : Int, 0 ≤ st ∧ w = [(USBIP_RET_SUBMIT, 10, st), (USBIP_RET_UNLINK, 11, 0)]) ∨
  w = [(USBIP_RET_SUBMIT, 10, -ECONNRESET)] ∨
  w = [(USBIP_RET_UNLINK, 11, 0)]

/-- The session on the demo device with the given ring, ready count, link and
observations. -/
def session_of (ring : List usb_packet) (pr : Int) (link : est_conn)
    (requests : List usbip_header) (merged : Nat) (wire : List (List Nat)) : session :=
  { dev := fwd_dev_of ring pr link, requests := requests, merged := merged, wire := wire }

/-- The session at the end of an interleaving of scenario S5 on the demo device. -/
def s5_final (le : Bool) (net : Transport) (unlink_first : Bool) (n0 n1 n2 n3 : Nat)
    (res : xfer_result) : Option session :=
  session_run le net (session_start fwd_dev) (s5_schedule le unlink_first n0 n1 n2 n3 res)

/-- The packet `p`, whose transfer is `x`, after libusb completed the transfer with
`res` and the completion callback ran. -/
def packet_completed (p : usb_packet) (x : libusb_transfer) (res : xfer_result) : usb_packet :=
  xfer_completion_callback_packet { p with xfer := some (x.completed res) } (x.completed res)

/-- The packet `p`, whose transfer is `x`, after `unlink_packet` marked it for the
CMD_UNLINK with seqnum `u` and asked libusb to cancel the transfer. -/
def packet_unlinked (u : Nat) (p : usb_packet) (x : libusb_transfer) : usb_packet :=
  { p with unlinked := u, xfer := some { x with cancel_requested := true } }

/-- The transfer of `packet_in` once its cancellation was requested. -/
def transfer_in_cancel : libusb_transfer :=
  { transfer_in with cancel_requested := true }

/-- The reply packet `handle_unlink` makes up for `cmd_unlink u t` when the target
is not in the ring. -/
def packet_late_unlink (u t : Nat) : usb_packet :=
  { ready := true, submitted := false, unlinked := 0,
    hdr := { cmd_unlink u t with
             base := { (cmd_unlink u t).base with command := USBIP_RET_UNLINK }, w0 := 0 },
    xfer := none }

/-- What holds of every packet in the ring of a session: its seqnum and its
`unlinked` are 32-bit values, its seqnum is the seqnum of a received request, and
so is its `unlinked` when that is set. -/
def packet_inv (requests : List usbip_header) (p : usb_packet) : Prop :=
  p.hdr.base.seqnum < 4294967296 ∧ p.unlinked < 4294967296 ∧
  (∃ q ∈ requests, q.base.seqnum = p.hdr.base.seqnum) ∧
  (p.unlinked ≠ 0 → ∃ q ∈ requests, q.base.seqnum = p.unlinked)

/-- The seqnum `tx_server` puts in the reply to a packet: its `unlinked` when that
is set, else the seqnum of its header. -/
def usb_packet.reply_seqnum (p : usb_packet) : Nat :=
  if p.unlinked ≠ 0 then p.unlinked else p.hdr.base.seqnum

/-- The seqnum a packet no longer answers to: that of its header once `unlinked`
is set. -/
def usb_packet.hidden_seqnum (p : usb_packet) : Multiset Nat :=
  if p.unlinked ≠ 0 then {p.hdr.base.seqnum} else 0

/-- The seqnums the replies to the packets of a ring will carry. -/
def ring_replies (ring : List usb_packet) : Multiset Nat :=
  Multiset.ofList (ring.map usb_packet.reply_seqnum)

/-- The header seqnums of the packets of a ring whose `unlinked` is set. -/
def ring_hidden (ring : List usb_packet) : Multiset Nat :=
  (ring.map usb_packet.hidden_seqnum).sum

/-- The seqnums of the reply headers on the wire. -/
def wire_seqnums (wire : List (List Nat)) : Multiset Nat :=
  Multiset.ofList (wire.map wire_seqnum)

/-- The seqnums of the requests received. -/
def request_seqnums (requests : List usbip_header) : Multiset Nat :=
  Multiset.ofList (requests.map (fun q => q.base.seqnum))

/-- The accounting of a session by `absorbed`, the seqnums that will get no reply
of their own: there is one per CMD_UNLINK that found its target, and the seqnums
on the wire, those the ring packets will be answered with, and the absorbed ones
are together the seqnums received. -/
def session_accounts (s : session) (absorbed : Multiset Nat) : Prop :=
  Multiset.card absorbed = s.merged ∧
  wire_seqnums s.wire + ring_replies s.dev.fwd.buffer_head + absorbed =
    request_seqnums s.requests

/-- What every step of a session keeps: while the session has not terminated it
has an accounting, whose absorbed seqnums include the hidden ones of the ring;
every ring packet satisfies `packet_inv`; every reply on the wire is RET_SUBMIT or
RET_UNLINK and carries the seqnum of a received request. -/
def session_inv (s : session) : Prop :=
  (s.dev.fwd.terminate = false →
    ∃ absorbed, session_accounts s absorbed ∧ ring_hidden s.dev.fwd.buffer_head ≤ absorbed) ∧
  (∀ p ∈ s.dev.fwd.buffer_head, packet_inv s.requests p) ∧
  (∀ b ∈ s.wire, (wire_command b = USBIP_RET_SUBMIT ∨ wire_command b = USBIP_RET_UNLINK) ∧
    ∃ q ∈ s.requests, q.base.seqnum = wire_seqnum b)

/-- Ring preservation in the words of the specification: the replies on the wire
are, as a multiset of (command, seqnum), the requests received with each one
replaced by a RET_SUBMIT or a RET_UNLINK of its seqnum. -/
def spec_ring_preservation (s : session) : Prop :=
  ∃ choice : List Nat, choice.length = s.requests.length ∧
    (∀ c ∈ choice, c = USBIP_RET_SUBMIT ∨ c = USBIP_RET_UNLINK) ∧
    Multiset.ofList (s.wire.map (fun b => (wire_command b, wire_seqnum b))) =
      Multiset.ofList (List.zipWith (fun c q => (c, q.base.seqnum)) choice s.requests)

/-- A session on `fwd_dev` over a good link: CMD_SUBMIT seq 10, its transfer
completes with 64 bytes, TX runs. -/
def session_single : Option session :=
  session_run true net_all (session_start fwd_dev)
    [.rx (some ((cmd_submit_in 10).raw true)) io_ok,
     .complete 0 (res_of LIBUSB_TRANSFER_COMPLETED 64),
     .tx]

/-- A session on `fwd_dev` over a good link: CMD_SUBMIT seq 10, then CMD_UNLINK
seq 11 for it while it is in the ring, the transfer completes as CANCELLED, TX
runs twice. -/
def session_unlink_found : Option session :=
  session_run true net_all (session_start fwd_dev)
    [.rx (some ((cmd_submit_in 10).raw true)) io_ok,
     .rx (some ((cmd_unlink 11 10).raw true)) io_ok,
     .complete 0 (res_of LIBUSB_TRANSFER_CANCELLED 0),
     .tx, .tx]

/-- A session on `fwd_dev` over a good link: CMD_SUBMIT seq 10 is completed and
answered, then CMD_UNLINK seq 11 for it arrives and TX runs again. -/
def session_unlink_late : Option session :=
  session_run true net_all (session_start fwd_dev)
    [.rx (some ((cmd_submit_in 10).raw true)) io_ok,
     .complete 0 (res_of LIBUSB_TRANSFER_COMPLETED 64),
     .tx,
     .rx (some ((cmd_unlink 11 10).raw true)) io_ok,
     .tx]

/-! ## Backpressure of the RX loop

`PACKET_BUF_SIZE` is a macro of usb.h, which is not among the sources; it enters
the definitions below as the parameter `packet_buf_size`. -/

/-- The number of ready packets in a ring. -/
def ready_count (ring : List usb_packet) : Int :=
  ((ring.countP (fun p => p.ready) : Nat) : Int)

/-- The device of a session whose ring holds only the reply packet `handle_unlink`
made up for CMD_UNLINK seq 11 (target 10 was not in the ring), TX not having run
yet. -/
def dev_late_unlink : server_usb_device :=
  fwd_dev_of [packet_late_unlink 11 10] 1 link0

/-! ## Logging (common/logging.c) and the event bus (common/event.c) -/

def LVL_CRIT : Int := 0
def LVL_ERR : Int := 1
def LVL_WARN : Int := 2
def LVL_INFO : Int := 3
def LVL_DBG : Int := 4
def LVL_TRC : Int := 5

/-- Whether a call of `rh_trace` at `level` ends in `abort()`: `rh_trace_print`
returns early when `level > debug_level`, and its `LVL_CRIT` case aborts. -/
def rh_trace_aborts (debug_level level : Int) : Bool :=
  !decide (level > debug_level) && decide (level = LVL_CRIT)

def EVENT_TERMINATE : Nat := 0x00

/-- The `struct rh_event_status` of event.h; `remote_server` is a 64-byte buffer. -/
structure rh_event_status where
  success : Nat
  devid : Nat
  port : Nat
  remote_server : List Nat
deriving DecidableEq, Repr

/-- The `struct rh_event` of event.h without `next`.  `data` is the buffer the
pointer refers to (`none` for NULL), `link` the connection the pointer refers to. -/
structure rh_event where
  type : Nat
  size : Nat
  data : Option (List Nat)
  sts : rh_event_status
  link : Option est_conn
deriving DecidableEq, Repr

/-- The `struct rh_task` of task.h; `event` is the mailbox in link order, `next` is
the tail of the task list. -/
structure rh_task where
  task_name : List Nat
  running : Bool
  event_mask : Nat
  event : List rh_event
deriving DecidableEq, Repr

/-- The file-scope state of event.c: the task list `head`, `running` and
`event_count` (a `uint32_t`). -/
structure event_bus where
  head : List rh_task
  running : Bool
  event_count : Nat
deriving DecidableEq, Repr

/-- The payload of an event: the `size` bytes at `data`. -/
def rh_event.payload (ev : rh_event) : List Nat :=
  (ev.data.getD []).take ev.size

/-- The `while (tmp->next != NULL)` walk of `event_insert` over the chain that
starts at `tmp`, with the running `depth`: the chain with `event` linked after its
last node, and the depth reached. -/
def event_insert_walk : List rh_event → rh_event → Nat → List rh_event × Nat
  | [], event, depth => ([event], depth)
  | [tmp], event, depth => ([tmp, event], depth)
  | tmp :: next :: rest, event, depth =>
    let r := event_insert_walk (next :: rest) event (depth + 1)
    (tmp :: r.1, r.2)

/-- Code of `event_insert`; `alloc_ok` is whether `calloc` succeeds.  The result is
the task afterwards, or `none` when the `LVL_CRIT` trace aborts the process. -/
def event_insert (debug_level : Int) (alloc_ok : Bool) (task : rh_task) (ev : rh_event)
    (data : Option (List Nat)) : Option rh_task :=
  if !alloc_ok then some task
  else
    let event : rh_event :=
      { type := ev.type, size := ev.size, data := data, link := ev.link, sts := ev.sts }
    match task.event with
    | [] => some { task with event := [event] }
    | tmp :: rest =>
      let r := event_insert_walk (tmp :: rest) event 1
      if r.2 > 100 ∧ rh_trace_aborts debug_level LVL_CRIT then none
      else some { task with event := r.1 }

/-- The `for_each_task` loop of `event_enqueue` over the tasks from position `i`
on; `alloc i` is whether the `calloc` of `event_insert` succeeds for the task at
position `i`.  The `malloc` of the payload copy is not checked by the code and is
taken to succeed. -/
def event_enqueue_tasks (debug_level : Int) (alloc : Nat → Bool) (event : rh_event) :
    Nat → List rh_task → Option (List rh_task)
  | _, [] => some []
  | i, task :: next =>
    if event.type &&& task.event_mask ≠ 0 then
      let data := if event.size ≠ 0 then some event.payload else none
      match event_insert debug_level (alloc i) task event data with
      | none => none
      | some task1 =>
        (event_enqueue_tasks debug_level alloc event (i + 1) next).map (fun l => task1 :: l)
    else (event_enqueue_tasks debug_level alloc event (i + 1) next).map (fun l => task :: l)

/-- Code of `event_enqueue`: the value returned and the state afterwards, or `none`
when the process is aborted on the way. -/
def event_enqueue (debug_level : Int) (alloc : Nat → Bool) (bus : event_bus)
    (event : rh_event) : Option (Bool × event_bus) :=
  if !bus.running then some (false, bus)
  else
    match event_enqueue_tasks debug_level alloc event 0 bus.head with
    | none => none
    | some head1 =>
      some (true,
        { head := head1
          running := if event.type = EVENT_TERMINATE then false else bus.running
          event_count := (bus.event_count + 1) % 4294967296 })

/-- What a call of `event_dequeue` comes to: it stays in `pthread_cond_wait`, it
returns false, or it returns true with `*event` set. -/
inductive dequeue_result where
  | waiting
  | stopped
  | event (ev : rh_event) (task : rh_task)
deriving DecidableEq, Repr

/-- Code of `event_dequeue`. -/
def event_dequeue (task : rh_task) : dequeue_result :=
  if task.running && task.event.isEmpty then .waiting
  else if !task.running then .stopped
  else
    match task.event with
    | [] => .waiting
    | ev :: next => .event ev { task with event := next }

/-- Successive calls of `event_dequeue` on one task, `n` of them, each returning
true: the events returned, in order, and the task afterwards; `none` when one of
the calls waits or returns false. -/
def event_dequeue_times : Nat → rh_task → Option (List rh_event × rh_task)
  | 0, task => some ([], task)
  | n + 1, task =>
    match event_dequeue task with
    | .event ev task1 =>
      (event_dequeue_times n task1).map (fun r => (ev :: r.1, r.2))
    | _ => none

/-- The node `event_insert` links into a mailbox for the event `ev`: its type,
size, status and link, and the copy `event_enqueue` made of its payload. -/
def rh_event.node (ev : rh_event) : rh_event :=
  { type := ev.type, size := ev.size,
    data := if ev.size ≠ 0 then some ev.payload else none,
    link := ev.link, sts := ev.sts }

/-- What the fan-out of `ev` does to one task: a node for `ev` at the tail of the
mailbox when the mask matches, nothing otherwise. -/
def rh_task.deliver (ev : rh_event) (task : rh_task) : rh_task :=
  if ev.type &&& task.event_mask ≠ 0 then { task with event := task.event ++ [ev.node] }
  else task

/-- Successive calls of `event_enqueue`, one per event, each returning true; every
event comes with the `calloc` results of its call.  `none` when a call aborts or
returns false. -/
def event_enqueue_all (debug_level : Int) :
    event_bus → List ((Nat → Bool) × rh_event) → Option event_bus
  | bus, [] => some bus
  | bus, (alloc, ev) :: rest =>
    match event_enqueue debug_level alloc bus ev with
    | some (true, bus1) => event_enqueue_all debug_level bus1 rest
    | _ => none

/-- An event status with every field zero, as `struct rh_event event = {0}` leaves it. -/
def sts_zero : rh_event_status :=
  { success := 0, devid := 0, port := 0, remote_server := List.replicate 64 0 }

/-- A task named by one letter, running, with the given mask and mailbox. -/
def demo_task (letter mask : Nat) (mailbox : List rh_event) : rh_task :=
  { task_name := letter :: List.replicate 31 0, running := true, event_mask := mask,
    event := mailbox }

/-- An event of the given type with a three-byte payload and no link. -/
def demo_event (type : Nat) : rh_event :=
  { type := type, size := 3, data := some [7, 8, 9, 10], sts := sts_zero, link := none }

/-- A running bus with three tasks: masks 0x02, 0x06 and 0x08, the second with one
event already in its mailbox. -/
def demo_bus : event_bus :=
  { head := [demo_task 65 0x02 [], demo_task 66 0x06 [(demo_event 0x04).node],
             demo_task 67 0x08 []],
    running := true, event_count := 0 }

/-- The task `demo_task 66 0x06` with one event of type 0x04 in its mailbox, in a
running bus of its own. -/
def bus_one_pending : event_bus :=
  { head := [demo_task 66 0x06 [(demo_event 0x04).node]], running := true, event_count := 0 }

/-! ## Client: attached devices (client/include/manager.h) and VHCI (client/util/vhci.c) -/

/-- The `struct client_usb_device` of manager.h; `next` is the tail of the list the
device is in.  `vhci_link` is the link the pointer refers to (`none` for NULL). -/
structure client_usb_device where
  info : usb_device_info
  server_ipv4 : List Nat
  ip_port : Int
  vhci_link : Option est_conn
  vhci_port : Int
  fwd_terminated : Bool
  local_fwd_socket : Int
  local_fwd_thread : Nat
deriving DecidableEq, Repr

def VHCI_MAX_PORTS : Nat := 16
def VHCI_PORT_AVAILABLE : Int := 0x04

def USB_SPEED_LOW : Nat := 1
def USB_SPEED_FULL : Nat := 2
def USB_SPEED_HIGH : Nat := 3
def USB_SPEED_WIRELESS : Nat := 4
def USB_SPEED_SUPER : Nat := 5
def USB_SPEED_SUPER_PLUS : Nat := 6

/-- The `struct vhci_port` of vhci.h: one row of the VHCI status table; `hub` is a
3-byte buffer, `local_busid` a 32-byte buffer. -/
structure vhci_port where
  port : Nat
  connfd : Int
  devid : Nat
  status : Int
  speed : Nat
  hub : List Nat
  local_busid : List Nat
deriving DecidableEq, Repr

/-- One of the two `for (int i = 0; i < VHCI_MAX_PORTS; i++)` loops of
`vhci_get_free_port`, from index `i` with `fuel` rounds left; `hub` is the string
the loop compares with.  A table of fewer than 16 rows is not what the code has:
reading past it counts as no port. -/
def vhci_free_port_scan (hub : List Nat) (port : List vhci_port) : Nat → Nat → Int
  | 0, _ => -1
  | fuel + 1, i =>
    match port.get? i with
    | none => -1
    | some p =>
      if strcmp p.hub hub = 0 ∧ p.status = VHCI_PORT_AVAILABLE then (i : Int)
      else vhci_free_port_scan hub port fuel (i + 1)

/-- Code of `vhci_get_free_port`; `parse` is the table `vhci_hub_parse` filled, `none`
when it returned false. -/
def vhci_get_free_port (parse : Option (List vhci_port)) (usb3_port : Bool) : Int :=
  match parse with
  | none => -1
  | some port =>
    if usb3_port then vhci_free_port_scan [115, 115] port VHCI_MAX_PORTS 0
    else vhci_free_port_scan [104, 115] port VHCI_MAX_PORTS 0

/-- The row is one `vhci_get_free_port` may return for the requested generation:
its status is VHCI_PORT_AVAILABLE and its hub string is "ss" for USB3, "hs" for
USB2. -/
def vhci_port.free (usb3_port : Bool) (p : vhci_port) : Prop :=
  p.status = VHCI_PORT_AVAILABLE ∧
  cstr p.hub = (if usb3_port then [115, 115] else [104, 115])

instance (usb3_port : Bool) (p : vhci_port) : Decidable (p.free usb3_port) := by
  unfold vhci_port.free; infer_instance

/-- The digits `printf` produces for an unsigned value, most significant first, in
front of `acc`; `fuel` bounds the number of digits. -/
def fmt_u_digits : Nat → Nat → List Nat → List Nat
  | 0, _, acc => acc
  | fuel + 1, n, acc =>
    let acc1 := (48 + n % 10) :: acc
    if n / 10 = 0 then acc1 else fmt_u_digits fuel (n / 10) acc1

/-- The characters of `%u` for the value `n`. -/
def fmt_u (n : Nat) : List Nat :=
  fmt_u_digits (n + 1) n []

/-- The characters of `%d` for the value `x`. -/
def fmt_d (x : Int) : List Nat :=
  if x < 0 then 45 :: fmt_u (-x).toNat else fmt_u x.toNat

/-- What `snprintf(buf, size, ...)` leaves in a buffer of `size` bytes that was all
zero, `text` being the formatted characters: at most `size - 1` of them, then NUL. -/
def snprintf_buf (size : Nat) (text : List Nat) : List Nat :=
  text.take (size - 1) ++ List.replicate (size - (text.take (size - 1)).length) 0

/-- What the system answers to `vhci_attach_device`: the table `vhci_hub_parse`
filled (`none` when it failed), the two descriptors of `socketpair` (`none` when it
failed), the thread `pthread_create` started (`none` when it failed), and whether
the open and the write of the attach file succeeded. -/
structure vhci_env where
  parse : Option (List vhci_port)
  socketpair : Option (Int × Int)
  thread : Option Nat
  write_ok : Bool
deriving DecidableEq, Repr

/-- Code of `setup_forward`: the value returned and the device afterwards. -/
def setup_forward (env : vhci_env) (dev : client_usb_device) : Int × client_usb_device :=
  match env.socketpair with
  | none => (-1, dev)
  | some (fd0, fd1) =>
    let dev1 := { dev with local_fwd_socket := fd1 }
    match env.thread with
    | none => (-1, dev1)
    | some thread => (fd0, { dev1 with local_fwd_thread := thread })

/-- The `devid` argument of the `snprintf` in `vhci_attach_device`:
`devnum | busnum << 16` on `uint32_t` operands. -/
def vhci_devid (udev : usbip_usb_device) : Nat :=
  udev.devnum ||| (udev.busnum <<< 16) % 4294967296

/-- The characters the `snprintf` of `vhci_attach_device` formats with
`"%u %d %u %u"`. -/
def vhci_attach_text (port socket : Int) (udev : usbip_usb_device) : List Nat :=
  fmt_u (u32_of_int port) ++ [32] ++ fmt_d socket ++ [32] ++ fmt_u (vhci_devid udev) ++ [32] ++
    fmt_u udev.speed

/-- What `vhci_attach_device` comes to: the value returned, the device afterwards,
and the bytes written to the attach file when the write took place. -/
structure vhci_attach_result where
  ok : Bool
  dev : client_usb_device
  written : Option (List Nat)
deriving DecidableEq, Repr

/-- Code of `vhci_attach_device`.  The whole 128-byte buffer `value` is handed to
`write`. -/
def vhci_attach_device (env : vhci_env) (dev : client_usb_device) (usb3_port : Bool) :
    vhci_attach_result :=
  let port := vhci_get_free_port env.parse usb3_port
  if port < 0 then { ok := false, dev := dev, written := none }
  else
    let r := setup_forward env dev
    let socket := r.1
    if socket < 0 then { ok := false, dev := r.2, written := none }
    else
      let value := snprintf_buf 128 (vhci_attach_text port socket dev.info.udev)
      if !env.write_ok then { ok := false, dev := r.2, written := none }
      else { ok := true, dev := { r.2 with vhci_port := port }, written := some value }

/-- A VHCI status table as the driver shows it: 8 high-speed rows then 8
super-speed rows; rows 0 and 8 are in use (status 6), the others available. -/
def demo_vhci_table : List vhci_port :=
  (List.range 16).map (fun i =>
    { port := i, connfd := 0, devid := 0, status := if i % 8 = 0 then 6 else 4, speed := 0,
      hub := if i < 8 then [104, 115, 0] else [115, 115, 0],
      local_busid := busid_of [48, 45, 48] })

/-- An attached device as `attach_remote_device` sets it up before the VHCI
attach: the import reply `demo_udev` with bus 3 and device 5, from the server
10.0.0.1:3240. -/
def demo_client_dev : client_usb_device :=
  { info :=
      { udev := { demo_udev with busnum := 3, devnum := 5 },
        interface := List.replicate 32 ⟨0, 0, 0, 0⟩,
        manufacturer_name := List.replicate 64 0, product_name := List.replicate 64 0,
        ep_in_type := List.replicate 16 0, ep_out_type := List.replicate 16 0,
        exported := false },
    server_ipv4 := [49, 48, 46, 48, 46, 48, 46, 49] ++ List.replicate 56 0,
    ip_port := 3240, vhci_link := some link0, vhci_port := 0, fwd_terminated := false,
    local_fwd_socket := -1, local_fwd_thread := 0 }

/-- A system in which the VHCI attach goes through: the table is
`demo_vhci_table`, `socketpair` gives descriptors 7 and 8, the thread starts, the
write succeeds. -/
def demo_vhci_env : vhci_env :=
  { parse := some demo_vhci_table, socketpair := some (7, 8), thread := some 1,
    write_ok := true }

/-! ## Client manager task (client/tasks/manager.c)

cli_interface.h, which declares `struct interface_request`, is not among the
sources; the structure below holds the fields manager.c and interface.c use. -/

def EVENT_SERVER_DISCOVERED : Nat := 0x0004
def EVENT_ATTACH_REQUESTED : Nat := 0x0008
def EVENT_ATTACHED : Nat := 0x0010
def EVENT_ATTACH_FAILED : Nat := 0x0020
def EVENT_DETACH_REQUESTED : Nat := 0x0040
def EVENT_DETACHED : Nat := 0x0080
def EVENT_DETACH_FAILED : Nat := 0x0100

def RH_IP_NAME_MAX_LEN : Nat := 64
def USBIP_BUSID_SIZE : Nat := 32

/-- The libc `strncmp`: at most `n` characters of each buffer are compared. -/
def strncmp (a b : List Nat) (n : Nat) : Int :=
  strcmp (a.take n) (b.take n)

/-- What `strncpy(dst, src, n)` leaves in a buffer of `size` bytes that was all
zero: at most `n` characters of the C string in `src`. -/
def strncpy_zeroed (size : Nat) (src : List Nat) (n : Nat) : List Nat :=
  (cstr src).take n ++ List.replicate (size - ((cstr src).take n).length) 0

/-- A request of the interface task to the manager (`struct interface_request`):
`ipv4` is a 64-byte buffer, `port` a `uint16_t`. -/
structure interface_request where
  ipv4 : List Nat
  port : Nat
  dev : usbip_usb_device
deriving DecidableEq, Repr

/-- The event `inform_attached`, `inform_attach_failed` and `inform_detached` hand
to `event_enqueue`: the payload is the device record as it lies in memory. -/
def inform_event (le : Bool) (type success : Nat) (dev : usbip_usb_device)
    (server_ip : List Nat) (port : Nat) : rh_event :=
  { type := type, size := 312, data := some (dev.mem le),
    sts := { success := success, devid := 0, port := port,
             remote_server := strncpy_zeroed RH_IP_NAME_MAX_LEN server_ip
               (RH_IP_NAME_MAX_LEN - 1) },
    link := none }

/-- Code of `inform_attached`. -/
def inform_attached (le : Bool) (dev : usbip_usb_device) (server_ip : List Nat) (port : Nat) :
    rh_event :=
  inform_event le EVENT_ATTACHED 1 dev server_ip port

/-- Code of `inform_attach_failed`. -/
def inform_attach_failed (le : Bool) (dev : usbip_usb_device) (server_ip : List Nat)
    (port : Nat) : rh_event :=
  inform_event le EVENT_ATTACH_FAILED 0 dev server_ip port

/-- Code of `inform_detached`. -/
def inform_detached (le : Bool) (dev : usbip_usb_device) (server_ip : List Nat) (port : Nat)
    (ok : Bool) : rh_event :=
  inform_event le (if ok then EVENT_DETACHED else EVENT_DETACH_FAILED) 1 dev server_ip port

/-- Code of `is_usb3`. -/
def is_usb3 (speed : Nat) : Bool :=
  speed = USB_SPEED_SUPER || speed = USB_SPEED_SUPER_PLUS

/-- What `exit_fwd` leaves in the device: the forwarding is stopped and joined, the
link closed and freed. -/
def exit_fwd (device : client_usb_device) : client_usb_device :=
  { device with fwd_terminated := false, vhci_link := none }

/-- The `for_each_remote_device` loop with a `break` at the first device for which
`found` holds: the position of that device in the list. -/
def find_remote_device (found : client_usb_device → Bool) :
    List client_usb_device → Option Nat
  | [] => none
  | dev :: next =>
    if found dev then some 0 else (find_remote_device found next).map (fun i => i + 1)

/-- The `while (tmp->next)` loop of `delete_device` over the chain that starts at
`tmp`; `device` is `k` links behind `tmp`.  At the first `tmp->next` whose bus-id
equals that of `device`, `tmp->next` becomes `device->next`. -/
def delete_device_walk (busid : List Nat) :
    List client_usb_device → Nat → Option (List client_usb_device)
  | [], _ => none
  | [_], _ => none
  | tmp :: nxt :: rest, k =>
    if strcmp nxt.info.udev.busid busid = 0 then some (tmp :: (nxt :: rest).drop k)
    else (delete_device_walk busid (nxt :: rest) (k - 1)).map (fun l => tmp :: l)

/-- Code of `delete_device` for the device at position `idx` of the list: the
value returned and the list afterwards. -/
def delete_device (usb_device_head : List client_usb_device) (idx : Nat) :
    Bool × List client_usb_device :=
  match usb_device_head, usb_device_head.get? idx with
  | head :: next, some device =>
    if strcmp head.info.udev.busid device.info.udev.busid = 0 then (true, next)
    else
      match delete_device_walk device.info.udev.busid (head :: next) idx with
      | some l => (true, l)
      | none => (false, head :: next)
  | l, _ => (false, l)

/-- What the system answers to `attach_remote_device`: whether `inet_pton` reads
the address, whether the `calloc` of the link succeeds, what
`exec_usbip_import_command` stores in `*dev` with the link it established (`none`
when it returns false), whether the `calloc` of the list item succeeds, and the
answers to `vhci_attach_device`. -/
structure attach_env where
  ip_ok : Bool
  link_alloc_ok : Bool
  import_reply : Option (usbip_usb_device × est_conn)
  item_alloc_ok : Bool
  vhci : vhci_env
deriving DecidableEq, Repr

/-- What a request handler of the manager comes to: the value returned, the list of
attached devices afterwards, the events handed to `event_enqueue`, and whether
`exec_usbip_import_command`, which opens the link to the server, was called. -/
structure manager_result where
  ret : Bool
  usb_device_head : List client_usb_device
  events : List rh_event
  import_called : Bool
deriving DecidableEq, Repr

/-- A `struct usb_device_info` with every byte zero, as `calloc` leaves it, but for
`udev`. -/
def usb_device_info_of (udev : usbip_usb_device) : usb_device_info :=
  { udev := udev, interface := List.replicate 32 ⟨0, 0, 0, 0⟩,
    manufacturer_name := List.replicate 64 0, product_name := List.replicate 64 0,
    ep_in_type := List.replicate 16 0, ep_out_type := List.replicate 16 0,
    exported := false }

/-- Code of `attach_remote_device`. -/
def attach_remote_device (le : Bool) (usb_device_head : List client_usb_device)
    (attach_cmd : interface_request) (env : attach_env) : manager_result :=
  let failed (called : Bool) : manager_result :=
    { ret := false, usb_device_head := usb_device_head,
      events := [inform_attach_failed le attach_cmd.dev attach_cmd.ipv4 attach_cmd.port],
      import_called := called }
  if !env.ip_ok then failed false
  else
    let device_exists :=
      (find_remote_device (fun dev =>
        decide (strncmp attach_cmd.dev.busid dev.info.udev.busid USBIP_BUSID_SIZE = 0) &&
        decide (strncmp dev.server_ipv4 attach_cmd.ipv4 RH_IP_NAME_MAX_LEN = 0) &&
        decide ((attach_cmd.port : Int) = dev.ip_port)) usb_device_head).isSome
    if device_exists then failed false
    else if !env.link_alloc_ok then failed false
    else
      match env.import_reply with
      | none => failed true
      | some (dev_at_busid, link) =>
        if attach_cmd.dev.idProduct ≠ dev_at_busid.idProduct then failed true
        else if attach_cmd.dev.idVendor ≠ dev_at_busid.idVendor then failed true
        else if !env.item_alloc_ok then failed true
        else
          let item : client_usb_device :=
            { info := usb_device_info_of dev_at_busid,
              server_ipv4 := strncpy_zeroed RH_IP_NAME_MAX_LEN attach_cmd.ipv4
                (RH_IP_NAME_MAX_LEN - 1),
              ip_port := attach_cmd.port, vhci_link := some link, vhci_port := 0,
              fwd_terminated := false, local_fwd_socket := -1, local_fwd_thread := 0 }
          let r := vhci_attach_device env.vhci item (is_usb3 attach_cmd.dev.speed)
          if !r.ok then failed true
          else
            { ret := true, usb_device_head := r.dev :: usb_device_head,
              events := [inform_attached le attach_cmd.dev attach_cmd.ipv4 attach_cmd.port],
              import_called := true }

/-- Code of `detach_remote_device`. -/
def detach_remote_device (le : Bool) (usb_device_head : List client_usb_device)
    (detach_cmd : interface_request) : manager_result :=
  match find_remote_device (fun dev =>
      decide (strcmp detach_cmd.dev.busid dev.info.udev.busid = 0) &&
      decide (strncmp dev.server_ipv4 detach_cmd.ipv4 RH_IP_NAME_MAX_LEN = 0) &&
      decide ((detach_cmd.port : Int) = dev.ip_port)) usb_device_head with
  | some idx =>
    let head1 := usb_device_head.modify exit_fwd idx
    { ret := true, usb_device_head := (delete_device head1 idx).2,
      events := [inform_detached le detach_cmd.dev detach_cmd.ipv4 detach_cmd.port true],
      import_called := false }
  | none =>
    { ret := false, usb_device_head := usb_device_head,
      events := [inform_detached le detach_cmd.dev detach_cmd.ipv4 detach_cmd.port false],
      import_called := false }

/-- The identity of an attached device: the C strings of its bus-id and of its
server address, as far as `strncmp` looks at them, and its port. -/
def client_usb_device.triple (d : client_usb_device) : List Nat × List Nat × Int :=
  (cstr (d.info.udev.busid.take USBIP_BUSID_SIZE), cstr (d.server_ipv4.take RH_IP_NAME_MAX_LEN),
    d.ip_port)

/-- The identity a request names: bus-id, server address and port. -/
def interface_request.triple (c : interface_request) : List Nat × List Nat × Int :=
  (cstr (c.dev.busid.take USBIP_BUSID_SIZE), cstr (c.ipv4.take RH_IP_NAME_MAX_LEN),
    (c.port : Int))

/-- A request the manager handles, with the answers of the system. -/
inductive manager_request where
  | attach (cmd : interface_request) (env : attach_env)
  | detach (cmd : interface_request)
deriving DecidableEq, Repr

/-- The list of attached devices after the manager handled one request. -/
def manager_step (le : Bool) (usb_device_head : List client_usb_device) :
    manager_request → List client_usb_device
  | .attach cmd env => (attach_remote_device le usb_device_head cmd env).usb_device_head
  | .detach cmd => (detach_remote_device le usb_device_head cmd).usb_device_head

/-- The list of attached devices after the manager handled the requests in order. -/
def manager_run (le : Bool) (usb_device_head : List client_usb_device)
    (reqs : List manager_request) : List client_usb_device :=
  reqs.foldl (manager_step le) usb_device_head

/-- The server answers an attach request with the device that was asked for, and
the address text fits its buffer: the record of the import reply carries the
bus-id of the request, and the address has fewer than 64 characters. -/
def manager_request.conforms : manager_request → Prop
  | .attach cmd env =>
    (∀ r, env.import_reply = some r →
      cstr (r.1.busid.take USBIP_BUSID_SIZE) = cstr (cmd.dev.busid.take USBIP_BUSID_SIZE)) ∧
    (cstr cmd.ipv4).length < RH_IP_NAME_MAX_LEN
  | .detach _ => True

/-- The address buffer holding the text "10.0.0.d" for a digit `d`. -/
def ipv4_of (d : Nat) : List Nat :=
  [49, 48, 46, 48, 46, 48, 46, 48 + d] ++ List.replicate 56 0

/-- An attached device with the given bus-id text, from the server 10.0.0.`d`:3240. -/
def client_dev_of (busid : List Nat) (d : Nat) : client_usb_device :=
  { info := usb_device_info_of { demo_udev with busid := busid_of busid },
    server_ipv4 := ipv4_of d, ip_port := 3240, vhci_link := some link0, vhci_port := d,
    fwd_terminated := false, local_fwd_socket := 8, local_fwd_thread := 1 }

/-- The request naming bus-id "1-1" at the server 10.0.0.`d`:3240. -/
def request_of (d : Nat) : interface_request :=
  { ipv4 := ipv4_of d, port := 3240, dev := demo_udev }

/-- A system in which an attach goes through, the server answering the import with
the record `udev`. -/
def attach_env_of (udev : usbip_usb_device) : attach_env :=
  { ip_ok := true, link_alloc_ok := true, import_reply := some (udev, link0),
    item_alloc_ok := true, vhci := demo_vhci_env }

/-- The attach request for bus-id "1-1" at 10.0.0.1:3240, answered by the server
with the record of bus-id "2-1". -/
def attach_other_busid : manager_request :=
  .attach (request_of 1) (attach_env_of { demo_udev with busid := busid_of [50, 45, 49] })

/-- The attach request for bus-id "1-1" at 10.0.0.1:3240, answered by the server
with the record of bus-id "1-1". -/
def attach_same_busid : manager_request :=
  .attach (request_of 1) (attach_env_of demo_udev)

/-! ## Beacon (common/include/beacon.h, client/tasks/beacon.c, server/tasks/beacon.c) -/

def REMOTEHUB_VERSION_MAJOR : Nat := 0
def REMOTEHUB_VERSION_MINOR : Nat := 0
def RH_SERVER_NAME_MAX_LEN : Nat := 64
def BEACON_IDENT : Nat := 0x5248424E

/-- The packed `struct beacon_packet` of beacon.h, fields in declaration order;
`name` is a 64-byte buffer, `use_tls` a `uint8_t`. -/
structure beacon_packet where
  ident : Nat
  id : Nat
  version_major : Nat
  version_minor : Nat
  name : List Nat
  port : Nat
  use_tls : Nat
  attention : Nat
deriving DecidableEq, Repr

/-- The bytes of a packed `struct beacon_packet` in host memory. -/
def beacon_packet.mem (le : Bool) (bc : beacon_packet) : List Nat :=
  mem32 le bc.ident ++ mem32 le bc.id ++ mem32 le bc.version_major ++
  mem32 le bc.version_minor ++ bc.name ++ mem16 le bc.port ++ [bc.use_tls] ++
  mem32 le bc.attention

/-- The `struct available_server` of beacon.h; `ip` and `name` are 64-byte buffers. -/
structure available_server where
  ip : List Nat
  id : Nat
  port : Nat
  version : Nat
  name : List Nat
deriving DecidableEq, Repr

/-- The 140 bytes of a `struct available_server` in host memory; the two padding
bytes behind `port` are zero, the structure being initialised with `{0}`. -/
def available_server.mem (le : Bool) (srv : available_server) : List Nat :=
  srv.ip ++ mem32 le srv.id ++ mem16 le srv.port ++ [0, 0] ++ mem32 le srv.version ++ srv.name

/-- Code of `beacon_from_network_order` (client/tasks/beacon.c). -/
def beacon_from_network_order (le : Bool) (bc : beacon_packet) : beacon_packet :=
  { bc with
    ident := ntohl le bc.ident
    id := ntohl le bc.id
    version_major := ntohl le bc.version_major
    version_minor := ntohl le bc.version_minor
    port := ntohs le bc.port
    attention := ntohl le bc.attention }

/-- The text of the `LVL_DBG` trace for a server with a greater major version. -/
def TRACE_NOT_COMPATIBLE : String := "Server is not compatible"

/-- The text of the `LVL_DBG` trace for a server with a greater minor version. -/
def TRACE_UNSUPPORTED_FEATURES : String := "Server may have unsupported features"

/-- The text of the `LVL_DBG` trace for a beacon that passed the first filter. -/
def TRACE_FOUND : String := "Found %s at %s:%d, version %d.%d"

/-- What `handle_packet` of the client comes to: the calls of `rh_trace` (level and
text) and the event handed to `event_enqueue`, if any. -/
structure beacon_result where
  traces : List (Int × String)
  event : Option rh_event
deriving DecidableEq, Repr

/-- Code of `handle_packet` (client/tasks/beacon.c): `use_tls` is the setting of
the client, `ip_text` the 63 bytes `memcpy` reads where `inet_ntoa` points. -/
def handle_packet (le : Bool) (use_tls : Bool) (bcn0 : beacon_packet) (ip_text : List Nat) :
    beacon_result :=
  let bcn := beacon_from_network_order le bcn0
  if bcn.ident = BEACON_IDENT ∧ bcn.use_tls = use_tls.toNat then
    if bcn.version_major > REMOTEHUB_VERSION_MAJOR then
      { traces := [(LVL_DBG, TRACE_FOUND), (LVL_DBG, TRACE_NOT_COMPATIBLE)], event := none }
    else
      let srv : available_server :=
        { ip := ip_text.take (RH_IP_NAME_MAX_LEN - 1) ++ [0],
          name := bcn.name.take (RH_SERVER_NAME_MAX_LEN - 1) ++ [0],
          port := bcn.port, version := bcn.port, id := bcn.id }
      let event : rh_event :=
        { type := EVENT_SERVER_DISCOVERED, data := some (srv.mem le), size := 140,
          sts := sts_zero, link := none }
      { traces :=
          (LVL_DBG, TRACE_FOUND) ::
            (if bcn.version_minor > REMOTEHUB_VERSION_MINOR then
              [(LVL_DBG, TRACE_UNSUPPORTED_FEATURES)] else []),
        event := some event }
  else { traces := [], event := none }

/-- Code of `beacon_to_network_order` (server/tasks/beacon.c). -/
def beacon_to_network_order (le : Bool) (bc : beacon_packet) : beacon_packet :=
  { bc with
    ident := htonl le bc.ident
    id := htonl le bc.id
    version_major := htonl le bc.version_major
    version_minor := htonl le bc.version_minor
    port := htons le bc.port
    attention := htonl le bc.attention }

/-- The file-scope state of server/tasks/beacon.c that `beacon_send` reads: `port`
(a `uint16_t`), `server_is_tls`, and the 64-byte buffer `server_name`. -/
structure beacon_state where
  port : Nat
  server_is_tls : Bool
  server_name : List Nat
deriving DecidableEq, Repr

/-- Code of `beacon_send`: the `sizeof(server_info)` bytes handed to `sendto`. -/
def beacon_send (le : Bool) (st : beacon_state) : List Nat :=
  let server_info : beacon_packet :=
    { ident := BEACON_IDENT, id := 0,
      version_major := REMOTEHUB_VERSION_MAJOR, version_minor := REMOTEHUB_VERSION_MINOR,
      name := st.server_name.take (RH_SERVER_NAME_MAX_LEN - 1) ++ [0],
      port := st.port, use_tls := st.server_is_tls.toNat, attention := 0 }
  (beacon_to_network_order le server_info).mem le

/-- The beacon state of a server named "hub" on port 3240 without TLS. -/
def demo_beacon_state : beacon_state :=
  { port := 3240, server_is_tls := false,
    server_name := [104, 117, 98] ++ List.replicate 61 0 }

/-- A beacon as it arrives from a server of version `major`.`minor` named "hub" on
port 3240 without TLS: every numeric field in network order, held in the memory of
a little-endian host. -/
def demo_beacon (major minor : Nat) : beacon_packet :=
  { ident := htonl true BEACON_IDENT, id := 0, version_major := htonl true major,
    version_minor := htonl true minor, name := [104, 117, 98] ++ List.replicate 61 0,
    port := htons true 3240, use_tls := 0, attention := 0 }

/-- The calls `forwarding_start` makes on the device, in program order. -/
inductive fwd_call where
  | libusb_open
  | claim_device
  | libusb_reset_device
  | pthread_create
  | release_device
deriving DecidableEq, Repr

/-- The libusb and pthread calls of `forwarding_start`, in the order the code makes
them, with the answers of `env`. -/
def forwarding_start_calls (env : fwd_start_env) (dev : server_usb_device) : List fwd_call :=
  if dev.info.udev.bNumConfigurations ≠ 1 then []
  else if !env.open_ok then [.libusb_open]
  else if !env.claim_ok then [.libusb_open, .claim_device]
  else
    match env.thread with
    | none =>
      [.libusb_open, .claim_device, .libusb_reset_device, .pthread_create, .release_device]
    | some _ => [.libusb_open, .claim_device, .libusb_reset_device, .pthread_create]

/-- What the one-second timer reads of a device to set `info.exported`
(`remove_detached_devices`): the flag now and the forwarding thread. -/
def server_usb_device.export_state (dev : server_usb_device) : Bool × Nat :=
  (dev.info.exported, dev.fwd.forwarding_thread)

/-- A device like `demo_dev` with two configurations. -/
def two_config_dev : server_usb_device :=
  { demo_dev with info := { demo_dev.info with
      udev := { demo_dev.info.udev with bNumConfigurations := 2 } } }

/-- The `rh_trace` calls of `event_insert`. -/
inductive event_insert_trace where
  | out_of_memory
  | depth (type : Nat) (depth : Nat)
  | got_stuck
deriving DecidableEq, Repr

/-- The level `event_insert` passes to `rh_trace` with each message. -/
def event_insert_trace.level : event_insert_trace → Int
  | .out_of_memory => LVL_ERR
  | .depth _ _ => LVL_DBG
  | .got_stuck => LVL_CRIT

/-- The `rh_trace` calls one call of `event_insert` makes, in program order:
nothing when the mailbox was empty, otherwise the depth message and, when
`depth > 100`, the "got stuck" message at `LVL_CRIT`. -/
def event_insert_traces (alloc_ok : Bool) (task : rh_task) (ev : rh_event) :
    List event_insert_trace :=
  if !alloc_ok then [.out_of_memory]
  else
    match task.event with
    | [] => []
    | tmp :: rest =>
      let r := event_insert_walk (tmp :: rest) ev 1
      if r.2 > 100 then [.depth ev.type r.2, .got_stuck] else [.depth ev.type r.2]

/-- A running task whose mailbox holds `n` events of type 0x02. -/
def task_with_backlog (n : Nat) : rh_task :=
  demo_task 65 0x02 (List.replicate n (demo_event 0x02).node)

/-- No entry of the mailbox of `task` is of type TERMINATE. -/
def rh_task.no_terminate (task : rh_task) : Prop :=
  ∀ x ∈ task.event, x.type ≠ EVENT_TERMINATE

/-- The event `rh_client_exit` enqueues: `struct rh_event event = {0}` with type TERMINATE. -/
def terminate_event : rh_event :=
  { type := EVENT_TERMINATE, size := 0, data := none, sts := sts_zero, link := none }

/-- The counter `packets_ready` agrees with the ring: it is the number of packets
whose `ready` flag is set. -/
def forward_info.ready_inv (f_dev : forward_info) : Prop :=
  f_dev.packets_ready = ready_count f_dev.buffer_head

/-! ## Client: interface task (client/tasks/interface.c) -/

def EVENT_TIMER_1S : Nat := 0x0001
def EVENT_TIMER_5S : Nat := 0x0002
def EVENT_DEVICELIST_REQUEST : Nat := 0x0200
def EVENT_DEVICELIST_READY : Nat := 0x0400
def EVENT_DEVICELIST_FAILED : Nat := 0x0800

/-- The mask `interface_task_init` gives the interface task. -/
def interface_event_mask : Nat :=
  EVENT_SERVER_DISCOVERED ||| EVENT_DEVICELIST_READY ||| EVENT_DEVICELIST_FAILED |||
  EVENT_ATTACHED ||| EVENT_DETACHED ||| EVENT_ATTACH_FAILED

/-- The mask `manager_task_init` gives the manager task. -/
def manager_event_mask : Nat :=
  EVENT_TIMER_5S ||| EVENT_DEVICELIST_REQUEST ||| EVENT_ATTACH_REQUESTED |||
  EVENT_DETACH_REQUESTED

/-- Which of the callbacks of interface.c are set (not NULL). -/
structure intf_callbacks where
  ATTACH_cb : Bool
  DETACH_cb : Bool
  GET_USBIP_DEVICELIST_cb : Bool
  SERVER_DISCOVERED_cb : Bool
deriving DecidableEq, Repr

/-- A call of one of the callbacks of interface.c with its arguments; `dev` is the
device record as it lies in memory, `list` the buffer behind the list pointer. -/
inductive intf_call where
  | attach (success : Bool) (server_ip : List Nat) (port : Nat) (dev : List Nat)
  | detach (success : Bool) (server_ip : List Nat) (port : Nat) (dev : List Nat)
  | devicelist (success : Bool) (server_ip : List Nat) (port : Nat)
      (list : Option (List Nat)) (dev_size : Nat)
  | server_discovered (srv : List Nat)
deriving DecidableEq, Repr

/-- Code of `handle_event` of interface.c: the callback it calls, if any. -/
def intf_handle_event (cb : intf_callbacks) (ev : rh_event) : Option intf_call :=
  let dev := (ev.data.getD []).take 312
  let port := ev.sts.port % 65536
  if ev.type = EVENT_ATTACHED then
    if cb.ATTACH_cb then some (.attach true ev.sts.remote_server port dev) else none
  else if ev.type = EVENT_DETACHED then
    if cb.DETACH_cb then some (.detach true ev.sts.remote_server port dev) else none
  else if ev.type = EVENT_ATTACH_FAILED then
    if cb.ATTACH_cb then some (.attach false ev.sts.remote_server port dev) else none
  else if ev.type = EVENT_DETACH_FAILED then
    if cb.DETACH_cb then some (.detach false ev.sts.remote_server port dev) else none
  else if ev.type = EVENT_DEVICELIST_FAILED then
    if cb.GET_USBIP_DEVICELIST_cb then
      some (.devicelist false ev.sts.remote_server port none 0)
    else none
  else if ev.type = EVENT_DEVICELIST_READY then
    if cb.GET_USBIP_DEVICELIST_cb then
      some (.devicelist true ev.sts.remote_server port ev.data (ev.size / 312))
    else none
  else if ev.type = EVENT_SERVER_DISCOVERED then
    if cb.SERVER_DISCOVERED_cb then some (.server_discovered (ev.data.getD [])) else none
  else none

/-- One round of `intf_loop`: `event_dequeue` on the interface task and, when it
returned an event, `handle_event`; `none` when the loop waits or stops. -/
def intf_loop_round (cb : intf_callbacks) (intf : rh_task) :
    Option (Option intf_call × rh_task) :=
  match event_dequeue intf with
  | .event ev intf1 => some (intf_handle_event cb ev, intf1)
  | _ => none

/-- The tasks of a running client in the order `rh_client_init` registers them:
timer, beacon, manager and interface, every mailbox empty. -/
def client_bus : event_bus :=
  { head := [demo_task 84 0 [], demo_task 66 0 [], demo_task 77 manager_event_mask [],
             demo_task 73 interface_event_mask []],
    running := true, event_count := 0 }

/-- Every callback of the interface subscribed. -/
def all_subscribed : intf_callbacks :=
  { ATTACH_cb := true, DETACH_cb := true, GET_USBIP_DEVICELIST_cb := true,
    SERVER_DISCOVERED_cb := true }

/-! ## Server: tracking devices (server/tasks/usb.c) -/

/-- Code of `device_already_exists`. -/
def device_already_exists (usb_head : List server_usb_device) (id : List Nat) : Bool :=
  match usb_head with
  | [] => false
  | tmp :: next =>
    if strcmp tmp.info.udev.busid id = 0 then true else device_already_exists next id

/-- Code of `insert_device`: the device becomes the head of the list. -/
def insert_device (usb_head : List server_usb_device) (device : server_usb_device) :
    List server_usb_device :=
  match usb_head with
  | [] => [device]
  | head :: next => device :: head :: next

/-- What libusb answers for one entry of the array `libusb_get_device_list` fills:
the `bDeviceClass` of its descriptor (`none` when `libusb_get_device_descriptor`
fails), the bus-id `get_busid` writes (`none` when it returns false), the bus
number, and the `info` `get_basic_device_info` stores (`none` when it returns
false). -/
structure libusb_device where
  bDeviceClass : Option Nat
  busid : Option (List Nat)
  bus_number : Int
  basic_info : Option usb_device_info
deriving DecidableEq, Repr

/-- The entry `add_new_devices` builds: `calloc` leaves every field zero, then
`get_basic_device_info` stores `info`. -/
def device_entry_of (info : usb_device_info) : server_usb_device :=
  { info := info,
    fwd := { forwarding_thread := 0, terminate := false, link := none, buffer_head := [],
             packets_ready := 0 } }

/-- Code of `add_new_devices` over the entries `devs[i]`, `devs[i+1]`, .. up to the
terminating NULL; `alloc i` is whether the `calloc` for `devs[i]` succeeds.  The
result is the value returned, the state afterwards and the records handed to
`inform_attached`, in order. -/
def add_new_devices (alloc : Nat → Bool) :
    Nat → usb_task_state → List libusb_device → Bool × usb_task_state × List usbip_usb_device
  | _, st, [] => (true, st, [])
  | i, st, dev :: rest =>
    match dev.bDeviceClass with
    | none => add_new_devices alloc (i + 1) st rest
    | some cls =>
      if cls = 0x09 then add_new_devices alloc (i + 1) st rest
      else
        match dev.busid with
        | none => add_new_devices alloc (i + 1) st rest
        | some busid =>
          if device_already_exists st.usb_head busid then add_new_devices alloc (i + 1) st rest
          else if bus_is_disabled st.usb_bus_info_head dev.bus_number then
            add_new_devices alloc (i + 1) st rest
          else if !alloc i then (false, st, [])
          else
            match dev.basic_info with
            | none => add_new_devices alloc (i + 1) st rest
            | some info =>
              let device_entry := device_entry_of info
              let r := add_new_devices alloc (i + 1)
                { st with usb_head := insert_device st.usb_head device_entry } rest
              (r.1, r.2.1, info.udev :: r.2.2)

/-- The `usb_device_info` of a second device: bus-id "1-2", one interface. -/
def demo_info_b : usb_device_info :=
  { demo_info with
    udev := { demo_udev with busid := busid_of [49, 45, 50], devnum := 2, idProduct := 0xC077,
                             bNumInterfaces := 1 } }

/-- What libusb answers for a device whose `get_basic_device_info` gives `info`. -/
def libusb_device_of (info : usb_device_info) : libusb_device :=
  { bDeviceClass := some info.udev.bDeviceClass, busid := some info.udev.busid,
    bus_number := 1, basic_info := some info }

/-- The server state with nothing tracked and no bus disabled. -/
def usb_task_empty : usb_task_state :=
  { usb_head := [], usb_bus_info_head := [] }

/-- The ISO sub-packets of a transfer: the first `num_iso_packets` descriptors. -/
def libusb_transfer.iso_descs (xfer : libusb_transfer) : List libusb_iso_packet_descriptor :=
  xfer.iso_packet_desc.take xfer.num_iso_packets.toNat

/-- The offset of sub-packet `i` as the specification has it: the lengths of the
sub-packets before it added up, as a `uint32_t`. -/
def spec_iso_offset (descs : List libusb_iso_packet_descriptor) (i : Nat) : Nat :=
  ((descs.take i).map (fun d => d.length)).sum % 4294967296

/-- The data the specification has an ISO IN reply carry: for each sub-packet in
order, its `actual_length` bytes of the buffer from its offset on. -/
def spec_iso_data (buffer : List Nat) (descs : List libusb_iso_packet_descriptor) : List Nat :=
  (descs.enum.map (fun p =>
    (buffer.drop (spec_iso_offset descs p.1)).take p.2.actual_length)).flatten

/-- The descriptor records the specification has follow: for each sub-packet in
order, 16 bytes holding offset, length, actual length and status, big-endian. -/
def spec_iso_descriptors (descs : List libusb_iso_packet_descriptor) : List Nat :=
  (descs.enum.map (fun p =>
    be32 (spec_iso_offset descs p.1) ++ be32 p.2.length ++ be32 p.2.actual_length ++
      be32 (u32_of_int (convert_libusb_status p.2.status)))).flatten

/-- A completed ISO IN transfer on endpoint 0x83 with two sub-packets of length 8:
the device delivered 3 bytes for the first and 8 for the second (with an error). -/
def transfer_iso_in : libusb_transfer :=
  { endpoint := 0x83, type := USB_ENDPOINT_XFER_ISOC, length := 16, num_iso_packets := 2,
    buffer := [1, 2, 3, 0, 0, 0, 0, 0, 11, 12, 13, 14, 15, 16, 17, 18],
    iso_packet_desc := [⟨8, 3, LIBUSB_TRANSFER_COMPLETED⟩, ⟨8, 8, LIBUSB_TRANSFER_ERROR⟩],
    status := LIBUSB_TRANSFER_COMPLETED, actual_length := 0, cancel_requested := false }

/-! ## Receiving side of a link, and the calls of the send and receive loops
(common/network.c) -/

/-- A transport as the socket calls behave: each call returns a value that is not
positive, or a count between 1 and the number of bytes asked for. -/
def Transport.bounded (net : Transport) : Prop :=
  ∀ i n, net i n ≤ 0 ∨ (1 ≤ net i n ∧ net i n ≤ (n : Int))

/-- The calls of `network_send` the loop of `network_send_data` makes, in order:
the number of bytes each was asked to send and the value it returned. -/
def network_send_data_log (net : Transport) : Nat → est_conn → List Nat → List (Nat × Int)
  | 0, _, _ => []
  | fuel + 1, link, rest =>
    if rest.length = 0 then []
    else
      let r := network_send net link rest
      if r.1 ≤ 0 then [(rest.length, r.1)]
      else (rest.length, r.1) :: network_send_data_log net fuel r.2 (rest.drop r.1.toNat)

/-- The receiving end of an established link: the bytes the peer has written that
were not read yet, after which the peer closes, and how many times `network_recv`
was called. -/
structure rx_conn where
  pending : List Nat
  calls : Nat
deriving DecidableEq, Repr

/-- Code of `network_recv`: one call of `recv` / `network_tls_recv` for `len`
bytes.  The value returned is the one the transport gives, cut down to what is
pending (0 once the peer has closed); the bytes are taken off the stream. -/
def network_recv (net : Transport) (link : rx_conn) (len : Nat) : Int × List Nat × rx_conn :=
  let ret := min (net link.calls len) (link.pending.length : Int)
  (ret, link.pending.take ret.toNat,
    { pending := link.pending.drop ret.toNat, calls := link.calls + 1 })

/-- Loop of `network_recv_data`: `remaining` is `len - rcvd`, `data` the bytes
stored in `data[0 .. rcvd)` so far. -/
def network_recv_data_loop (net : Transport) :
    Nat → rx_conn → Nat → List Nat → Bool × List Nat × rx_conn
  | 0, link, _, data => (true, data, link)
  | fuel + 1, link, remaining, data =>
    if remaining = 0 then (true, data, link)
    else
      let r := network_recv net link remaining
      if r.1 ≤ 0 then (false, data, r.2.2)
      else network_recv_data_loop net fuel r.2.2 (remaining - r.1.toNat) (data ++ r.2.1)

/-- Code of `network_recv_data`: the value returned, the bytes stored in `data` and
the link afterwards.  Every iteration that does not return adds at least one to
`rcvd`, so `len + 1` iterations are never used up. -/
def network_recv_data (net : Transport) (link : rx_conn) (len : Nat) :
    Bool × List Nat × rx_conn :=
  network_recv_data_loop net (len + 1) link len []

/-- The calls of `network_recv` the loop of `network_recv_data` makes, in order:
the number of bytes each was asked for and the value it returned. -/
def network_recv_data_log (net : Transport) : Nat → rx_conn → Nat → List (Nat × Int)
  | 0, _, _ => []
  | fuel + 1, link, remaining =>
    if remaining = 0 then []
    else
      let r := network_recv net link remaining
      if r.1 ≤ 0 then [(remaining, r.1)]
      else (remaining, r.1) :: network_recv_data_log net fuel r.2.2 (remaining - r.1.toNat)

/-- What the claim says of a run of one of the two loops: `ok` is the value
returned, `log` the calls made, `len` the number of bytes asked for.  The loop
makes at most `len` calls; it returns true iff every call returned a positive
count; and when it returns false the last call is the first one that returned a
value that is not positive. -/
def spec_all_or_fail (ok : Bool) (log : List (Nat × Int)) (len : Nat) : Prop :=
  log.length ≤ len ∧
  (ok = true ↔ ∀ c ∈ log, 0 < c.2) ∧
  (ok = false → ∃ pre c, log = pre ++ [c] ∧ c.2 ≤ 0 ∧ ∀ x ∈ pre, 0 < x.2)

/-- A transport that fails on its third call and takes 2 bytes on every other. -/
def net_third_fails : Transport := fun i n => if i = 2 then -1 else min 2 (n : Int)

/-! ## Client: device-list command (client/util/command.c) -/

/-- The `uint16_t` two bytes of host memory hold, lowest address first. -/
def load16 (le : Bool) (b : List Nat) : Nat :=
  if le then b.getD 0 0 + 256 * b.getD 1 0 else 256 * b.getD 0 0 + b.getD 1 0

/-- The `uint32_t` four bytes of host memory hold, lowest address first. -/
def load32 (le : Bool) (b : List Nat) : Nat :=
  if le then b.getD 0 0 + 256 * b.getD 1 0 + 65536 * b.getD 2 0 + 16777216 * b.getD 3 0
  else 16777216 * b.getD 0 0 + 65536 * b.getD 1 0 + 256 * b.getD 2 0 + b.getD 3 0

/-- The `struct usbip_op_common` that 8 bytes stored at its address make. -/
def usbip_op_common.load (le : Bool) (b : List Nat) : usbip_op_common :=
  { version := load16 le (b.take 2), code := load16 le ((b.drop 2).take 2),
    status := load32 le ((b.drop 4).take 4) }

/-- The packed `struct usbip_usb_device` that 312 bytes stored at its address make. -/
def usbip_usb_device.load (le : Bool) (b : List Nat) : usbip_usb_device :=
  { path := b.take 256, busid := (b.drop 256).take 32,
    busnum := load32 le ((b.drop 288).take 4),
    devnum := load32 le ((b.drop 292).take 4),
    speed := load32 le ((b.drop 296).take 4),
    idVendor := load16 le ((b.drop 300).take 2),
    idProduct := load16 le ((b.drop 302).take 2),
    bcdDevice := load16 le ((b.drop 304).take 2),
    bDeviceClass := b.getD 306 0, bDeviceSubClass := b.getD 307 0,
    bDeviceProtocol := b.getD 308 0, bConfigurationValue := b.getD 309 0,
    bNumConfigurations := b.getD 310 0, bNumInterfaces := b.getD 311 0 }

/-- Code of `usbip_common_header_from_network_order`. -/
def usbip_common_header_from_network_order (le : Bool) (hdr : usbip_op_common) :
    usbip_op_common :=
  { hdr with
    code := ntohs le hdr.code
    status := ntohl le hdr.status
    version := ntohs le hdr.version }

/-- Code of `usbip_net_recv_usbip_header`: the value returned, `*hdr` and the link
afterwards.  What a failed receive leaves in `*hdr` is not looked at by a caller. -/
def usbip_net_recv_usbip_header (le : Bool) (net : Transport) (link : rx_conn)
    (hdr : usbip_op_common) : Bool × usbip_op_common × rx_conn :=
  let r := network_recv_data net link 8
  if r.1 then
    (true, usbip_common_header_from_network_order le (usbip_op_common.load le r.2.1), r.2.2)
  else (false, hdr, r.2.2)

/-- Code of `usbip_net_devlist_reply_from_network_order`. -/
def usbip_net_devlist_reply_from_network_order (le : Bool) (hdr : usbip_op_devlist_reply) :
    usbip_op_devlist_reply :=
  { hdr with ndev := ntohl le hdr.ndev }

/-- The link `network_connect` sets up, seen from the client: what it sent, what
it has to read, and whether `network_close_link` was called on it. -/
structure client_link where
  tx : est_conn
  rx : rx_conn
  closed : Bool
deriving DecidableEq, Repr

/-- What `exec_usbip_devlist_command` leaves behind: the value returned, the array
at `*list` (`none` when it is NULL, not set or freed), `*len`, and the link
(`none` when `network_connect` failed). -/
structure devlist_command_result where
  ret : Bool
  list : Option (List usbip_usb_device)
  len : Nat
  link : Option client_link
deriving DecidableEq, Repr

/-- Inner loop of `exec_usbip_devlist_command`: `k` more interface records are
received into `interface` and dropped. -/
def devlist_recv_interfaces (net : Transport) : Nat → rx_conn → Bool × rx_conn
  | 0, link => (true, link)
  | k + 1, link =>
    let r := network_recv_data net link 4
    if !r.1 then (false, r.2.2)
    else devlist_recv_interfaces net k r.2.2

/-- Outer loop of `exec_usbip_devlist_command` for `k` more devices; `list` is the
part of the array filled so far. -/
def devlist_recv_devices (le : Bool) (net : Transport) :
    Nat → rx_conn → List usbip_usb_device → Bool × List usbip_usb_device × rx_conn
  | 0, link, list => (true, list, link)
  | k + 1, link, list =>
    let r := network_recv_data net link 312
    if !r.1 then (false, list, r.2.2)
    else
      let usbip_dev := usbip_net_dev_from_network_order le (usbip_usb_device.load le r.2.1)
      let r2 := devlist_recv_interfaces net usbip_dev.bNumInterfaces r.2.2
      if !r2.1 then (false, list ++ [usbip_dev], r2.2)
      else devlist_recv_devices le net k r2.2 (list ++ [usbip_dev])

/-- Code of `exec_usbip_devlist_command`.  `connect` is the link `network_connect`
sets up (`none` when it fails), `alloc_ok` whether `calloc` returns an array;
`net_tx` and `net_rx` are the transport under `network_send` and `network_recv`. -/
def exec_usbip_devlist_command (le : Bool) (net_tx net_rx : Transport)
    (connect : Option client_link) (alloc_ok : Bool) : devlist_command_result :=
  match connect with
  | none => { ret := false, list := none, len := 0, link := none }
  | some link =>
    let cmd : usbip_op_common :=
      { version := USBIP_DEFAULT_PROTOCOL_VERSION, code := USBIP_OP_REQ_DEVLIST,
        status := USBIP_ST_OK }
    let s := usbip_net_send_usbip_header le net_tx link.tx cmd
    if !s.1 then
      { ret := false, list := none, len := 0,
        link := some { tx := s.2, rx := link.rx, closed := true } }
    else
      let h := usbip_net_recv_usbip_header le net_rx link.rx
        (usbip_common_header_to_network_order le cmd)
      if !h.1 then
        { ret := false, list := none, len := 0,
          link := some { tx := s.2, rx := h.2.2, closed := true } }
      else if h.2.1.code ≠ USBIP_OP_REP_DEVLIST then
        { ret := false, list := none, len := 0,
          link := some { tx := s.2, rx := h.2.2, closed := true } }
      else if h.2.1.status ≠ USBIP_ST_OK then
        { ret := false, list := none, len := 0,
          link := some { tx := s.2, rx := h.2.2, closed := true } }
      else
        let r := network_recv_data net_rx h.2.2 4
        if !r.1 then
          { ret := false, list := none, len := 0,
            link := some { tx := s.2, rx := r.2.2, closed := true } }
        else
          let rep_hdr := usbip_net_devlist_reply_from_network_order le
            { ndev := load32 le r.2.1 }
          if !alloc_ok then
            { ret := false, list := none, len := 0,
              link := some { tx := s.2, rx := r.2.2, closed := false } }
          else
            let d := devlist_recv_devices le net_rx rep_hdr.ndev r.2.2 []
            if !d.1 then
              { ret := false, list := none, len := 0,
                link := some { tx := s.2, rx := d.2.2, closed := true } }
            else
              { ret := true, list := some d.2.1, len := (rep_hdr.ndev * 312) % 4294967296,
                link := some { tx := s.2, rx := d.2.2, closed := true } }

/-- What the specification has of one device in a device-list reply: its UsbDevice
record and its `bNumInterfaces` interface records. -/
def devlist_record (i : usb_device_info) : List Nat :=
  i.udev.wire ++ ((i.interface.take i.udev.bNumInterfaces).map usbip_usb_interface.mem).flatten

/-- The client's link right after `network_connect`, with `stream` to read. -/
def client_link_of (stream : List Nat) : client_link :=
  { tx := link0, rx := { pending := stream, calls := 0 }, closed := false }

/-- The bytes a little-endian server writes for a device-list request while it
tracks the devices 1-2 and 1-1, neither exported. -/
def demo_reply_stream : List Nat :=
  ((handle_usbip_req_devicelist true net_all [device_entry_of demo_info_b, demo_dev] true
    (some link0)).map est_conn.sent).getD []

/-- The packed `struct beacon_packet` that the 87 bytes `recvfrom` stored at its
address make. -/
def beacon_packet.load (le : Bool) (b : List Nat) : beacon_packet :=
  { ident := load32 le (b.take 4),
    id := load32 le ((b.drop 4).take 4),
    version_major := load32 le ((b.drop 8).take 4),
    version_minor := load32 le ((b.drop 12).take 4),
    name := (b.drop 16).take 64,
    port := load16 le ((b.drop 80).take 2),
    use_tls := b.getD 82 0,
    attention := load32 le ((b.drop 83).take 4) }

/-- The beacon of a server of version `major`.`minor` named "hub" on port 3240
without TLS, as the 87 bytes of the datagram. -/
def demo_beacon_wire (major minor : Nat) : List Nat :=
  be32 0x5248424E ++ be32 0 ++ be32 major ++ be32 minor ++
  ([104, 117, 98] ++ List.replicate 61 0) ++ be16 3240 ++ [0] ++ be32 0

/-! ## Theorems -/

set_option maxRecDepth 100000



theorem bswap16_bytes (a b : Nat) (ha : a < 256) (hb : b < 256) :
    bswap16 (a + 256 * b) = b + 256 * a := by
  unfold bswap16; omega

theorem bswap32_bytes (a b c d : Nat) (ha : a < 256) (hb : b < 256) (hc : c < 256)
    (hd : d < 256) :
    bswap32 (a + 256 * b + 65536 * c + 16777216 * d) = d + 256 * c + 65536 * b + 16777216 * a := by
  unfold bswap32; omega

theorem split16 (x : Nat) (h : x < 65536) : ∃ a b, a < 256 ∧ b < 256 ∧ x = a + 256 * b :=
  ⟨x % 256, x / 256, by omega, by omega, by omega⟩

theorem split32 (x : Nat) (h : x < 4294967296) :
    ∃ a b c d, a < 256 ∧ b < 256 ∧ c < 256 ∧ d < 256 ∧
      x = a + 256 * b + 65536 * c + 16777216 * d :=
  ⟨x % 256, x / 256 % 256, x / 65536 % 256, x / 16777216,
    by omega, by omega, by omega, by omega, by omega⟩

theorem bswap16_bswap16 (x : Nat) (h : x < 65536) : bswap16 (bswap16 x) = x := by
  obtain ⟨a, b, ha, hb, rfl⟩ := split16 x h
  rw [bswap16_bytes a b ha hb, bswap16_bytes b a hb ha]

theorem bswap32_bswap32 (x : Nat) (h : x < 4294967296) : bswap32 (bswap32 x) = x := by
  obtain ⟨a, b, c, d, ha, hb, hc, hd, rfl⟩ := split32 x h
  rw [bswap32_bytes a b c d ha hb hc hd, bswap32_bytes d c b a hd hc hb ha]

theorem bytes_of_be16 (a b : Nat) (ha : a < 256) (hb : b < 256) :
    (a * 256 + b) % 256 = b ∧ (a * 256 + b) / 256 % 256 = a := by
  omega

theorem bytes_of_be32 (a b c d : Nat) (ha : a < 256) (hb : b < 256) (hc : c < 256)
    (hd : d < 256) :
    (a * 16777216 + b * 65536 + c * 256 + d) % 256 = d ∧
    (a * 16777216 + b * 65536 + c * 256 + d) / 256 % 256 = c ∧
    (a * 16777216 + b * 65536 + c * 256 + d) / 65536 % 256 = b ∧
    (a * 16777216 + b * 65536 + c * 256 + d) / 16777216 % 256 = a := by
  omega

/-- What a host stores after `htons` is the big-endian image of the value. -/
theorem mem16_htons (le : Bool) (x : Nat) : mem16 le (htons le x) = be16 x := by
  cases le
  · simp only [mem16, htons, be16, Bool.false_eq_true, if_false]
    have h1 : x % 65536 / 256 % 256 = x / 256 % 256 := by omega
    have h2 : x % 65536 % 256 = x % 256 := by omega
    rw [h1, h2]
  · simp only [mem16, htons, be16, if_true, bswap16]
    obtain ⟨h1, h2⟩ := bytes_of_be16 (x % 256) (x / 256 % 256)
      (Nat.mod_lt _ (by norm_num)) (Nat.mod_lt _ (by norm_num))
    rw [h1, h2]

/-- What a host stores after `htonl` is the big-endian image of the value. -/
theorem mem32_htonl (le : Bool) (x : Nat) : mem32 le (htonl le x) = be32 x := by
  cases le
  · simp only [mem32, htonl, be32, Bool.false_eq_true, if_false]
    have h1 : x % 4294967296 / 16777216 % 256 = x / 16777216 % 256 := by omega
    have h2 : x % 4294967296 / 65536 % 256 = x / 65536 % 256 := by omega
    have h3 : x % 4294967296 / 256 % 256 = x / 256 % 256 := by omega
    have h4 : x % 4294967296 % 256 = x % 256 := by omega
    rw [h1, h2, h3, h4]
  · simp only [mem32, htonl, be32, if_true, bswap32]
    obtain ⟨h1, h2, h3, h4⟩ := bytes_of_be32 (x % 256) (x / 256 % 256) (x / 65536 % 256)
      (x / 16777216 % 256) (Nat.mod_lt _ (by norm_num)) (Nat.mod_lt _ (by norm_num))
      (Nat.mod_lt _ (by norm_num)) (Nat.mod_lt _ (by norm_num))
    rw [h1, h2, h3, h4]

theorem ntohs_htons (le : Bool) (x : Nat) (h : x < 65536) : ntohs le (htons le x) = x := by
  cases le
  · simp only [ntohs, htons, Bool.false_eq_true, if_false]; omega
  · simp only [ntohs, htons, if_true]; exact bswap16_bswap16 x h

theorem ntohl_htonl (le : Bool) (x : Nat) (h : x < 4294967296) : ntohl le (htonl le x) = x := by
  cases le
  · simp only [ntohl, htonl, Bool.false_eq_true, if_false]; omega
  · simp only [ntohl, htonl, if_true]; exact bswap32_bswap32 x h

/-- C1: for every `struct usbip_usb_device` value `d` (each field within the range of
its C type) and either host byte order, `usbip_net_dev_from_network_order` applied to
`usbip_net_dev_to_network_order d` is `d` again, in every field. -/
theorem C1_dev_network_order_roundtrip (le : Bool) (d : usbip_usb_device) (h : d.wf) :
    usbip_net_dev_from_network_order le (usbip_net_dev_to_network_order le d) = d := by
  obtain ⟨_, _, _, _, hb, hd, hs, hv, hp, hc, _⟩ := h
  cases d
  simp only [usbip_net_dev_from_network_order, usbip_net_dev_to_network_order] at *
  simp only [ntohl_htonl _ _ hb, ntohl_htonl _ _ hd, ntohl_htonl _ _ hs,
    ntohs_htons _ _ hv, ntohs_htons _ _ hp, ntohs_htons _ _ hc]

theorem C1_dev_network_order_roundtrip_witness :
    demo_udev.wf ∧
    usbip_net_dev_from_network_order true (usbip_net_dev_to_network_order true demo_udev) =
      demo_udev :=
  ⟨by decide, C1_dev_network_order_roundtrip true demo_udev (by decide)⟩


theorem network_send_data_loop_good (net : Transport) (hnet : net.good) :
    ∀ (fuel : Nat) (link : est_conn) (rest : List Nat), rest.length < fuel →
      (network_send_data_loop net fuel link rest).1 = true ∧
      (network_send_data_loop net fuel link rest).2.sent = link.sent ++ rest := by
  intro fuel
  induction fuel with
  | zero => intro link rest h; omega
  | succ n ih =>
    intro link rest h
    unfold network_send_data_loop
    by_cases hr : rest.length = 0
    · have : rest = [] := List.length_eq_zero.mp hr
      simp [this]
    · have hpos : 0 < rest.length := Nat.pos_of_ne_zero hr
      obtain ⟨h1, h2⟩ := hnet link.calls rest.length hpos
      have h3 : ¬ (net link.calls rest.length ≤ 0) := by omega
      simp only [hr, if_false, network_send, h3]
      have hk : 0 < (net link.calls rest.length).toNat := by omega
      have hlen : (rest.drop (net link.calls rest.length).toNat).length < n := by
        rw [List.length_drop]; omega
      obtain ⟨i1, i2⟩ := ih
        { link with sent := link.sent ++ rest.take (net link.calls rest.length).toNat,
                    calls := link.calls + 1 } (rest.drop (net link.calls rest.length).toNat) hlen
      refine ⟨i1, ?_⟩
      rw [i2]
      simp [List.append_assoc]

theorem network_send_data_good (net : Transport) (hnet : net.good) (link : est_conn)
    (data : List Nat) :
    (network_send_data net link data).1 = true ∧
    (network_send_data net link data).2.sent = link.sent ++ data :=
  network_send_data_loop_good net hnet (data.length + 1) link data (Nat.lt_succ_self _)

theorem net_all_good : net_all.good := by
  intro i n h
  simp only [net_all]
  omega

theorem usbip_op_common_mem_network (le : Bool) (hdr : usbip_op_common) :
    (usbip_common_header_to_network_order le hdr).mem le =
      op_common_wire hdr.version hdr.code hdr.status := by
  simp only [usbip_op_common.mem, usbip_common_header_to_network_order, op_common_wire,
    mem16_htons, mem32_htonl]

theorem usbip_net_send_usbip_header_good (le : Bool) (net : Transport) (hnet : net.good)
    (link : est_conn) (hdr : usbip_op_common) :
    (usbip_net_send_usbip_header le net link hdr).1 = true ∧
    (usbip_net_send_usbip_header le net link hdr).2.sent =
      link.sent ++ op_common_wire hdr.version hdr.code hdr.status := by
  unfold usbip_net_send_usbip_header
  rw [usbip_op_common_mem_network]
  exact network_send_data_good net hnet link _

theorem usbip_usb_device_mem_network (le : Bool) (d : usbip_usb_device) :
    (usbip_net_dev_to_network_order le d).mem le = d.wire := by
  simp only [usbip_usb_device.mem, usbip_net_dev_to_network_order, usbip_usb_device.wire,
    mem16_htons, mem32_htonl]

theorem devicelist_send_interfaces_good (net : Transport) (hnet : net.good)
    (info : usb_device_info) :
    ∀ (k j : Nat) (link : est_conn), j + k ≤ info.interface.length →
      (devicelist_send_interfaces net info k j link).1 = true ∧
      (devicelist_send_interfaces net info k j link).2.sent =
        link.sent ++ (((info.interface.drop j).take k).map usbip_usb_interface.mem).flatten := by
  intro k
  induction k with
  | zero => intro j link _; simp [devicelist_send_interfaces]
  | succ n ih =>
    intro j link h
    unfold devicelist_send_interfaces
    obtain ⟨s1, s2⟩ := network_send_data_good net hnet link
      (info.interface.getD j ⟨0, 0, 0, 0⟩).mem
    simp only [s1, Bool.not_true, Bool.false_eq_true, if_false]
    obtain ⟨i1, i2⟩ := ih (j + 1)
      (network_send_data net link (info.interface.getD j ⟨0, 0, 0, 0⟩).mem).2 (by omega)
    refine ⟨i1, ?_⟩
    rw [i2, s2]
    have hj : j < info.interface.length := by omega
    have hd : info.interface.drop j = info.interface[j] :: info.interface.drop (j + 1) :=
      List.drop_eq_getElem_cons hj
    have hg : info.interface.getD j ⟨0, 0, 0, 0⟩ = info.interface[j] := by
      simp [List.getD, List.getElem?_eq_getElem hj]
    rw [hd, hg, List.take_succ_cons, List.map_cons, List.flatten_cons, List.append_assoc]


theorem devicelist_send_devices_good (le : Bool) (net : Transport) (hnet : net.good) :
    ∀ (list : List usb_device_info) (link : est_conn), (∀ i ∈ list, i.wf) →
      (devicelist_send_devices le net list link).1 = true ∧
      (devicelist_send_devices le net list link).2.sent =
        link.sent ++ (list.map (fun i =>
          i.udev.wire ++
            ((i.interface.take i.udev.bNumInterfaces).map usbip_usb_interface.mem).flatten)).flatten := by
  intro list
  induction list with
  | nil => intro link _; simp [devicelist_send_devices]
  | cons info rest ih =>
    intro link hwf
    unfold devicelist_send_devices
    obtain ⟨hlen, hn⟩ := hwf info (List.mem_cons_self _ _)
    obtain ⟨s1, s2⟩ := network_send_data_good net hnet link
      ((usbip_net_dev_to_network_order le info.udev).mem le)
    simp only [s1, Bool.not_true, Bool.false_eq_true, if_false]
    have hcount : (usbip_net_dev_to_network_order le info.udev).bNumInterfaces =
        info.udev.bNumInterfaces := rfl
    obtain ⟨t1, t2⟩ := devicelist_send_interfaces_good net hnet info
      (usbip_net_dev_to_network_order le info.udev).bNumInterfaces 0
      (network_send_data net link ((usbip_net_dev_to_network_order le info.udev).mem le)).2
      (by rw [hcount]; omega)
    simp only [t1, Bool.not_true, Bool.false_eq_true, if_false]
    obtain ⟨i1, i2⟩ := ih
      (devicelist_send_interfaces net info
        (usbip_net_dev_to_network_order le info.udev).bNumInterfaces 0
        (network_send_data net link ((usbip_net_dev_to_network_order le info.udev).mem le)).2).2
      (fun i hi => hwf i (List.mem_cons_of_mem _ hi))
    refine ⟨i1, ?_⟩
    rw [i2, t2, s2, usbip_usb_device_mem_network, hcount, List.drop_zero, List.map_cons,
      List.flatten_cons]
    simp only [List.append_assoc]

/-- The devices `get_devicelist` selects: all of them when `get_exported`, else
those whose `exported` flag is clear. -/
theorem get_devicelist_available_eq (ge : Bool) (l : List server_usb_device) :
    get_devicelist_available ge l =
      (l.filter (fun d => ge || !d.info.exported)).length := by
  induction l with
  | nil => rfl
  | cons d rest ih =>
    simp only [get_devicelist_available, ih, List.filter_cons]
    by_cases h : (ge || !d.info.exported) = true
    · simp only [h, if_true, List.length_cons]; omega
    · simp only [h, if_false, Bool.false_eq_true]; omega

theorem get_devicelist_copy_eq (ge : Bool) (available : Nat) :
    ∀ (l : List server_usb_device) (acc : List usb_device_info),
      available = acc.length + (l.filter (fun d => ge || !d.info.exported)).length →
      get_devicelist_copy ge available l acc =
        acc ++ (l.filter (fun d => ge || !d.info.exported)).map (fun d => d.info) := by
  intro l
  induction l with
  | nil => intro acc _; simp [get_devicelist_copy]
  | cons d rest ih =>
    intro acc h
    unfold get_devicelist_copy
    by_cases hs : (ge || !d.info.exported) = true
    · simp only [hs, if_true, List.filter_cons, List.length_cons, List.map_cons] at h ⊢
      by_cases hstop : (acc ++ [d.info]).length ≥ available
      · simp only [hstop, if_true]
        have hz : (rest.filter (fun d => ge || !d.info.exported)).length = 0 := by
          simp only [List.length_append, List.length_singleton] at hstop; omega
        rw [List.length_eq_zero.mp hz]
        simp
      · simp only [hstop, if_false]
        rw [ih (acc ++ [d.info]) (by simp only [List.length_append, List.length_singleton]; omega)]
        simp
    · simp only [hs, if_false, List.filter_cons, Bool.false_eq_true] at h ⊢
      by_cases hstop : acc.length ≥ available
      · simp only [hstop, if_true]
        have hz : (rest.filter (fun d => ge || !d.info.exported)).length = 0 := by omega
        rw [List.length_eq_zero.mp hz]
        simp
      · simp only [hstop, if_false]
        exact ih acc h

theorem get_devicelist_eq (usb_head : List server_usb_device) (ge : Bool) :
    get_devicelist usb_head ge true =
      some ((usb_head.filter (fun d => ge || !d.info.exported)).map (fun d => d.info)) := by
  unfold get_devicelist
  simp only [get_devicelist_available_eq]
  by_cases h : (usb_head.filter (fun d => ge || !d.info.exported)).length > 0
  · simp only [h, if_true, Bool.not_true, Bool.false_eq_true, if_false]
    rw [get_devicelist_copy_eq ge _ usb_head [] (by simp)]
    simp
  · simp only [h, if_false]
    have hz : (usb_head.filter (fun d => ge || !d.info.exported)).length = 0 := by omega
    rw [List.length_eq_zero.mp hz]
    simp

theorem be32_mod (n : Nat) : be32 (n % 4294967296) = be32 n := by
  simp only [be32]
  have h1 : n % 4294967296 / 16777216 % 256 = n / 16777216 % 256 := by omega
  have h2 : n % 4294967296 / 65536 % 256 = n / 65536 % 256 := by omega
  have h3 : n % 4294967296 / 256 % 256 = n / 256 % 256 := by omega
  have h4 : n % 4294967296 % 256 = n % 256 := by omega
  rw [h1, h2, h3, h4]

/-- C2: on a link whose sends succeed, with `calloc` succeeding and every tracked
device holding at most 32 interfaces, `handle_usbip_req_devicelist` writes exactly:
the 8-byte operation header (version 0x0111, code 0x0005, status 0, big-endian),
then the number of listed devices as a big-endian u32, then for each listed device
its UsbDevice record in network order followed by its `bNumInterfaces` 4-byte
interface records; the listed devices are the tracked ones whose `exported` flag is
clear, in list order; when none is listed the reply is the 12 bytes
01 11 00 05 00 00 00 00 00 00 00 00. -/
theorem C2_devlist_reply_stream (le : Bool) (net : Transport) (usb_head : List server_usb_device)
    (link : est_conn) (hnet : net.good) (hwf : ∀ d ∈ usb_head, d.info.wf) :
    (handle_usbip_req_devicelist le net usb_head true (some link)).map est_conn.sent =
      some (link.sent ++ op_common_wire 0x0111 0x0005 0 ++
        devlist_reply_body ((usb_head.filter (fun d => !d.info.exported)).map (fun d => d.info))) ∧
    (usb_head.filter (fun d => !d.info.exported) = [] →
      (handle_usbip_req_devicelist le net usb_head true (some link)).map est_conn.sent =
        some (link.sent ++ [0x01, 0x11, 0x00, 0x05, 0, 0, 0, 0, 0, 0, 0, 0])) := by
  have key : (handle_usbip_req_devicelist le net usb_head true (some link)).map est_conn.sent =
      some (link.sent ++ op_common_wire 0x0111 0x0005 0 ++
        devlist_reply_body ((usb_head.filter (fun d => !d.info.exported)).map
          (fun d => d.info))) := by
    unfold handle_usbip_req_devicelist
    simp only [get_devicelist_eq, Bool.false_or]
    obtain ⟨h1, h2⟩ := usbip_net_send_usbip_header_good le net hnet link
      { version := USBIP_DEFAULT_PROTOCOL_VERSION, code := USBIP_OP_REP_DEVLIST,
        status := USBIP_ST_OK }
    simp only [h1, Bool.not_true, Bool.false_eq_true, if_false]
    obtain ⟨n1, n2⟩ := network_send_data_good net hnet
      (usbip_net_send_usbip_header le net link
        { version := USBIP_DEFAULT_PROTOCOL_VERSION, code := USBIP_OP_REP_DEVLIST,
          status := USBIP_ST_OK }).2
      (mem32 le (usbip_net_devlist_reply_to_network_order le
        { ndev := ((usb_head.filter (fun d => !d.info.exported)).map
          (fun d => d.info)).length % 4294967296 }).ndev)
    simp only [n1, Bool.not_true, Bool.false_eq_true, if_false]
    have hw : ∀ i ∈ (usb_head.filter (fun d => !d.info.exported)).map (fun d => d.info),
        i.wf := by
      intro i hi
      obtain ⟨d, hd, rfl⟩ := List.mem_map.mp hi
      exact hwf d (List.mem_filter.mp hd).1
    obtain ⟨d1, d2⟩ := devicelist_send_devices_good le net hnet _
      (network_send_data net
        (usbip_net_send_usbip_header le net link
          { version := USBIP_DEFAULT_PROTOCOL_VERSION, code := USBIP_OP_REP_DEVLIST,
            status := USBIP_ST_OK }).2
        (mem32 le (usbip_net_devlist_reply_to_network_order le
          { ndev := ((usb_head.filter (fun d => !d.info.exported)).map
            (fun d => d.info)).length % 4294967296 }).ndev)).2 hw
    simp only [Option.map_some']
    rw [d2, n2, h2]
    simp only [usbip_net_devlist_reply_to_network_order,
      mem32_htonl, be32_mod, devlist_reply_body, List.append_assoc,
      USBIP_DEFAULT_PROTOCOL_VERSION, USBIP_OP_REP_DEVLIST, USBIP_ST_OK]
  refine ⟨key, ?_⟩
  intro hnone
  rw [key, hnone]
  simp [op_common_wire, devlist_reply_body, be16, be32]


theorem C2_devlist_reply_stream_witness :
    Transport.good net_all ∧ (∀ d ∈ [demo_dev], d.info.wf) ∧
    (handle_usbip_req_devicelist true net_all [demo_dev] true (some link0)).map est_conn.sent =
      some (link0.sent ++ op_common_wire 0x0111 0x0005 0 ++
        devlist_reply_body (([demo_dev].filter (fun d => !d.info.exported)).map
          (fun d => d.info))) :=
  ⟨net_all_good, by decide,
    (C2_devlist_reply_stream true net_all [demo_dev] link0 net_all_good (by decide)).1⟩

/-- C3 (the code at the failing input): a device on bus 1 is tracked and not
exported; `rh_disable_usb_bus 1` then succeeds and bus 1 is disabled; the device
is still in the list `get_devicelist` hands to the device-list reply, whose
`ndev` is 1, while an import of the same device is refused with DEV_BUSY. -/
theorem C3_devlist_keeps_device_of_disabled_bus :
    (rh_disable_usb_bus { usb_head := [demo_dev], usb_bus_info_head := [] } 1 true).1 = true ∧
    bus_is_disabled
      (rh_disable_usb_bus { usb_head := [demo_dev], usb_bus_info_head := [] } 1
        true).2.usb_bus_info_head (int_of_u32 demo_dev.info.udev.busnum) = true ∧
    get_devicelist
      (rh_disable_usb_bus { usb_head := [demo_dev], usb_bus_info_head := [] } 1 true).2.usb_head
      false true = some [demo_dev.info] ∧
    ((handle_usbip_req_devicelist true net_all
      (rh_disable_usb_bus { usb_head := [demo_dev], usb_bus_info_head := [] } 1 true).2.usb_head
      true (some link0)).map (fun l => l.sent.take 12)) =
        some [0x01, 0x11, 0x00, 0x05, 0, 0, 0, 0, 0, 0, 0, 1] ∧
    (handle_usbip_req_import true net_all
      (rh_disable_usb_bus { usb_head := [demo_dev], usb_bus_info_head := [] } 1 true).2
      ⟨true, true, some 7⟩ link0 (some (busid_of [49, 45, 49]))).link.sent =
        [0x01, 0x11, 0x00, 0x03, 0, 0, 0, 2] := by
  refine ⟨by decide, by decide, rfl, ?_, ?_⟩
  · rfl
  · rfl


theorem strcmp_eq_zero_iff : ∀ (a b : List Nat), strcmp a b = 0 ↔ cstr a = cstr b := by
  intro a
  induction a with
  | nil =>
    intro b
    cases b with
    | nil => simp [strcmp, cstr]
    | cons y ys =>
      by_cases hy : y = 0
      · simp [strcmp, cstr, hy]
      · simp [strcmp, cstr, hy, List.takeWhile_cons]
  | cons x xs ih =>
    intro b
    cases b with
    | nil =>
      by_cases hx : x = 0
      · simp [strcmp, cstr, hx]
      · simp [strcmp, cstr, hx, List.takeWhile_cons]
    | cons y ys =>
      unfold strcmp
      by_cases hxy : x = y
      · subst hxy
        by_cases hx : x = 0
        · simp [cstr, hx, List.takeWhile_cons]
        · have := ih ys
          simp only [cstr] at this
          simp [cstr, hx, List.takeWhile_cons, this]
      · have hne : (x : Int) - (y : Int) ≠ 0 := by omega
        simp only [ne_eq, hxy, not_false_eq_true, if_true, hne, false_iff, cstr,
          List.takeWhile_cons]
        by_cases hx : x = 0
        · have hy : y ≠ 0 := fun h => hxy (by rw [hx, h])
          simp [hx, hy]
        · by_cases hy : y = 0
          · simp [hx, hy]
          · simp [hx, hy, hxy]

theorem import_find_device_spec (b : List Nat) :
    ∀ (l : List server_usb_device),
      (import_find_device b l).map Prod.snd = l.find? (has_busid b) ∧
      ∀ i d, import_find_device b l = some (i, d) → l.get? i = some d := by
  intro l
  induction l with
  | nil => simp [import_find_device]
  | cons dev rest ih =>
    unfold import_find_device
    by_cases h : strcmp dev.info.udev.busid b = 0
    · have hb : has_busid b dev = true := by
        simp only [has_busid, decide_eq_true_eq]
        exact (strcmp_eq_zero_iff _ _).mp h
      simp only [h, if_true, Option.map_some', List.find?_cons, hb]
      refine ⟨trivial, ?_⟩
      intro i d hid
      simp only [Option.some.injEq, Prod.mk.injEq] at hid
      obtain ⟨rfl, rfl⟩ := hid
      rfl
    · have hb : has_busid b dev = false := by
        simp only [has_busid, decide_eq_false_iff_not]
        exact fun hc => h ((strcmp_eq_zero_iff _ _).mpr hc)
      simp only [h, if_false, List.find?_cons, hb, Option.map_map]
      refine ⟨?_, ?_⟩
      · rw [← ih.1]
        cases import_find_device b rest <;> rfl
      · intro i d hid
        cases hr : import_find_device b rest with
        | none => rw [hr] at hid; simp at hid
        | some r =>
          rw [hr] at hid
          simp only [Option.map_some', Option.some.injEq, Prod.mk.injEq] at hid
          obtain ⟨rfl, rfl⟩ := hid
          have := ih.2 r.1 r.2 (by rw [hr])
          simpa using this

theorem bus_is_disabled_iff (buses : List Int) (busnum : Int) :
    bus_is_disabled buses busnum = true ↔ busnum ∈ buses := by
  induction buses with
  | nil => simp [bus_is_disabled]
  | cons x rest ih =>
    unfold bus_is_disabled
    by_cases h : x = busnum
    · simp [h]
    · simp only [h, if_false, ih, List.mem_cons]
      constructor
      · intro hm; exact Or.inr hm
      · intro hm
        rcases hm with hm | hm
        · exact absurd hm.symm h
        · exact hm

theorem int_of_u32_small (x : Nat) (h : x < 2147483648) : int_of_u32 x = (x : Int) := by
  unfold int_of_u32
  have : x % 4294967296 = x := Nat.mod_eq_of_lt (by omega)
  simp [this, h]


theorem op_common_wire_status_ne (pre x y : List Nat) (v c s t : Nat)
    (h : s % 256 ≠ t % 256) :
    pre ++ op_common_wire v c s ++ x ≠ pre ++ op_common_wire v c t ++ y := by
  intro heq
  simp only [List.append_assoc, List.append_cancel_left_eq, op_common_wire, be16, be32,
    List.cons_append, List.nil_append, List.cons.injEq] at heq
  exact h heq.2.2.2.2.2.2.2.1

/-- What `handle_usbip_req_import` does, by cases on the first tracked device with
the requested bus-id. -/
theorem handle_usbip_req_import_cases (le : Bool) (net : Transport) (st : usb_task_state)
    (env : fwd_start_env) (link : est_conn) (b : List Nat) (hnet : net.good)
    (hbus : ∀ d ∈ st.usb_head, d.info.udev.busnum < 2147483648) :
    (st.usb_head.find? (has_busid b) = none ∧
      (handle_usbip_req_import le net st env link (some b)).link.sent =
        link.sent ++ op_common_wire 0x0111 0x0003 USBIP_ST_NODEV ++ [] ∧
      (handle_usbip_req_import le net st env link (some b)).keep_link = false ∧
      (handle_usbip_req_import le net st env link (some b)).usb_head = st.usb_head) ∨
    (∃ d, st.usb_head.find? (has_busid b) = some d ∧
      (((d.info.udev.busnum : Int) ∈ st.usb_bus_info_head ∨ d.fwd.forwarding_thread ≠ 0) ∧
        (handle_usbip_req_import le net st env link (some b)).link.sent =
          link.sent ++ op_common_wire 0x0111 0x0003 USBIP_ST_DEV_BUSY ++ [] ∧
        (handle_usbip_req_import le net st env link (some b)).keep_link = false ∧
        (handle_usbip_req_import le net st env link (some b)).usb_head = st.usb_head ∨
       ¬ ((d.info.udev.busnum : Int) ∈ st.usb_bus_info_head ∨ d.fwd.forwarding_thread ≠ 0) ∧
        (handle_usbip_req_import le net st env link (some b)).link.sent =
          link.sent ++ op_common_wire 0x0111 0x0003 USBIP_ST_OK ++ d.info.udev.wire)) := by
  obtain ⟨hfind, _⟩ := import_find_device_spec b st.usb_head
  cases hf : import_find_device b st.usb_head with
  | none =>
    left
    rw [hf] at hfind
    have hr : handle_usbip_req_import le net st env link (some b) =
        { keep_link := false,
          link := (usbip_net_send_usbip_header le net link
            { version := USBIP_DEFAULT_PROTOCOL_VERSION, code := USBIP_OP_REP_IMPORT,
              status := USBIP_ST_NODEV }).2,
          usb_head := st.usb_head } := by
      unfold handle_usbip_req_import
      simp only [hf]
    obtain ⟨_, h2⟩ := usbip_net_send_usbip_header_good le net hnet link
      { version := USBIP_DEFAULT_PROTOCOL_VERSION, code := USBIP_OP_REP_IMPORT,
        status := USBIP_ST_NODEV }
    rw [hr]
    refine ⟨hfind.symm, ?_, rfl, rfl⟩
    simp only [h2, List.append_nil]
    rfl
  | some r =>
    obtain ⟨idx, dev⟩ := r
    right
    rw [hf] at hfind
    refine ⟨dev, hfind.symm, ?_⟩
    have hmem : dev ∈ st.usb_head := List.mem_of_find?_eq_some hfind.symm
    have hconv : int_of_u32 dev.info.udev.busnum = (dev.info.udev.busnum : Int) :=
      int_of_u32_small _ (hbus dev hmem)
    obtain ⟨_, hbusy⟩ := usbip_net_send_usbip_header_good le net hnet link
      { version := USBIP_DEFAULT_PROTOCOL_VERSION, code := USBIP_OP_REP_IMPORT,
        status := USBIP_ST_DEV_BUSY }
    have hbusy_r : (bus_is_disabled st.usb_bus_info_head (dev.info.udev.busnum : Int) = true ∨
        dev.fwd.forwarding_thread ≠ 0) →
        handle_usbip_req_import le net st env link (some b) =
        { keep_link := false,
          link := (usbip_net_send_usbip_header le net link
            { version := USBIP_DEFAULT_PROTOCOL_VERSION, code := USBIP_OP_REP_IMPORT,
              status := USBIP_ST_DEV_BUSY }).2,
          usb_head := st.usb_head } := by
      intro hc
      unfold handle_usbip_req_import
      simp only [hf, port_is_disabled, hconv]
      by_cases hd : bus_is_disabled st.usb_bus_info_head (dev.info.udev.busnum : Int) = true
      · simp only [hd, if_true]
      · have ht : dev.fwd.forwarding_thread ≠ 0 := hc.resolve_left hd
        simp only [hd, Bool.false_eq_true, if_false]
        rw [if_pos ht]
    by_cases hc : (dev.info.udev.busnum : Int) ∈ st.usb_bus_info_head ∨
        dev.fwd.forwarding_thread ≠ 0
    · left
      have hc2 : bus_is_disabled st.usb_bus_info_head (dev.info.udev.busnum : Int) = true ∨
          dev.fwd.forwarding_thread ≠ 0 :=
        hc.imp (bus_is_disabled_iff _ _).mpr id
      rw [hbusy_r hc2]
      refine ⟨hc, ?_, rfl, rfl⟩
      simp only [hbusy, List.append_nil]
      rfl
    · right
      refine ⟨hc, ?_⟩
      have hd : ¬ (bus_is_disabled st.usb_bus_info_head (dev.info.udev.busnum : Int) = true) :=
        fun h => hc (Or.inl ((bus_is_disabled_iff _ _).mp h))
      have ht : ¬ (dev.fwd.forwarding_thread ≠ 0) := fun h => hc (Or.inr h)
      obtain ⟨h1, h2⟩ := usbip_net_send_usbip_header_good le net hnet link
        { version := USBIP_DEFAULT_PROTOCOL_VERSION, code := USBIP_OP_REP_IMPORT,
          status := USBIP_ST_OK }
      obtain ⟨n1, n2⟩ := network_send_data_good net hnet
        (usbip_net_send_usbip_header le net link
          { version := USBIP_DEFAULT_PROTOCOL_VERSION, code := USBIP_OP_REP_IMPORT,
            status := USBIP_ST_OK }).2
        ((usbip_net_import_reply_to_network_order le { udev := dev.info.udev }).udev.mem le)
      have hr : (handle_usbip_req_import le net st env link (some b)).link =
          (network_send_data net
            (usbip_net_send_usbip_header le net link
              { version := USBIP_DEFAULT_PROTOCOL_VERSION, code := USBIP_OP_REP_IMPORT,
                status := USBIP_ST_OK }).2
            ((usbip_net_import_reply_to_network_order le
              { udev := dev.info.udev }).udev.mem le)).2 := by
        unfold handle_usbip_req_import
        simp only [hf, port_is_disabled, hconv, hd, if_false, Bool.false_eq_true]
        rw [if_neg ht]
        simp only [h1, n1, Bool.not_true, Bool.false_eq_true, if_false]
        split <;> rfl
      rw [hr, n2, h2]
      simp only [usbip_net_import_reply_to_network_order, usbip_usb_device_mem_network]
      rfl


/-- C4: for an import request with bus-id `b` (received in full, on a link whose
sends succeed), `handle_usbip_req_import` replies NODEV iff no tracked device has
bus-id `b`; otherwise, with `d` the first tracked device whose bus-id is `b`, it
replies DEV_BUSY iff the bus of `d` is disabled or `d` has a forwarding thread, and
else replies OK followed by the UsbDevice record of `d` in network order; after a
NODEV or DEV_BUSY reply it returns false, `handle_event` closes the link, and the
tracked devices are untouched (no forwarding session is started). -/
theorem C4_import_reply_policy (le : Bool) (net : Transport) (st : usb_task_state)
    (env : fwd_start_env) (link : est_conn) (b : List Nat) (hnet : net.good)
    (hbus : ∀ d ∈ st.usb_head, d.info.udev.busnum < 2147483648) :
    ((∀ d ∈ st.usb_head, has_busid b d = false) ↔
      (handle_usbip_req_import le net st env link (some b)).link.sent =
        link.sent ++ op_common_wire 0x0111 0x0003 USBIP_ST_NODEV) ∧
    (∀ d, st.usb_head.find? (has_busid b) = some d →
      ((((d.info.udev.busnum : Int) ∈ st.usb_bus_info_head ∨ d.fwd.forwarding_thread ≠ 0) ↔
        (handle_usbip_req_import le net st env link (some b)).link.sent =
          link.sent ++ op_common_wire 0x0111 0x0003 USBIP_ST_DEV_BUSY) ∧
       (¬ ((d.info.udev.busnum : Int) ∈ st.usb_bus_info_head ∨ d.fwd.forwarding_thread ≠ 0) →
        (handle_usbip_req_import le net st env link (some b)).link.sent =
          link.sent ++ op_common_wire 0x0111 0x0003 USBIP_ST_OK ++ d.info.udev.wire))) ∧
    (((handle_usbip_req_import le net st env link (some b)).link.sent =
        link.sent ++ op_common_wire 0x0111 0x0003 USBIP_ST_NODEV ∨
      (handle_usbip_req_import le net st env link (some b)).link.sent =
        link.sent ++ op_common_wire 0x0111 0x0003 USBIP_ST_DEV_BUSY) →
      (handle_usbip_req_import le net st env link (some b)).keep_link = false ∧
      (handle_event_req_import le net st env link (some b)).2 = true ∧
      (handle_usbip_req_import le net st env link (some b)).usb_head = st.usb_head) := by
  have hclose : (handle_usbip_req_import le net st env link (some b)).keep_link = false →
      (handle_event_req_import le net st env link (some b)).2 = true := by
    intro h
    simp only [handle_event_req_import, h, Bool.not_false]
  have ne_nb : ∀ x y : List Nat, link.sent ++ op_common_wire 0x0111 0x0003 USBIP_ST_NODEV ++ x ≠
      link.sent ++ op_common_wire 0x0111 0x0003 USBIP_ST_DEV_BUSY ++ y :=
    fun x y => op_common_wire_status_ne _ _ _ _ _ _ _ (by decide)
  have ne_no : ∀ x y : List Nat, link.sent ++ op_common_wire 0x0111 0x0003 USBIP_ST_NODEV ++ x ≠
      link.sent ++ op_common_wire 0x0111 0x0003 USBIP_ST_OK ++ y :=
    fun x y => op_common_wire_status_ne _ _ _ _ _ _ _ (by decide)
  have ne_bo : ∀ x y : List Nat,
      link.sent ++ op_common_wire 0x0111 0x0003 USBIP_ST_DEV_BUSY ++ x ≠
      link.sent ++ op_common_wire 0x0111 0x0003 USBIP_ST_OK ++ y :=
    fun x y => op_common_wire_status_ne _ _ _ _ _ _ _ (by decide)
  rcases handle_usbip_req_import_cases le net st env link b hnet hbus with
    ⟨hnone, hsent, hkeep, hhead⟩ | ⟨d0, hsome, hcase⟩
  · rw [List.append_nil] at hsent
    refine ⟨⟨fun _ => hsent, fun _ d hd => ?_⟩, ?_, fun _ => ⟨hkeep, hclose hkeep, hhead⟩⟩
    · have := List.find?_eq_none.mp hnone d hd
      simpa using this
    · intro d hd
      rw [hnone] at hd
      exact absurd hd (by simp)
  · have hmem : d0 ∈ st.usb_head := List.mem_of_find?_eq_some hsome
    have hb0 : has_busid b d0 = true := List.find?_some hsome
    have hnot_all : ¬ (∀ d ∈ st.usb_head, has_busid b d = false) := by
      intro hall
      rw [hall d0 hmem] at hb0
      exact absurd hb0 (by simp)
    rcases hcase with ⟨hc, hsent, hkeep, hhead⟩ | ⟨hc, hsent⟩
    · rw [List.append_nil] at hsent
      refine ⟨⟨fun h => absurd h hnot_all, fun h => ?_⟩, ?_, fun _ => ⟨hkeep, hclose hkeep, hhead⟩⟩
      · rw [hsent] at h
        exact absurd h.symm (by simpa using ne_nb [] [])
      · intro d hd
        rw [hsome] at hd
        obtain rfl := Option.some.inj hd
        exact ⟨⟨fun _ => hsent, fun _ => hc⟩, fun hn => absurd hc hn⟩
    · refine ⟨⟨fun h => absurd h hnot_all, fun h => ?_⟩, ?_, ?_⟩
      · rw [hsent] at h
        exact absurd h.symm (by simpa using ne_no [] d0.info.udev.wire)
      · intro d hd
        rw [hsome] at hd
        obtain rfl := Option.some.inj hd
        refine ⟨⟨fun h => absurd h hc, fun h => ?_⟩, fun _ => hsent⟩
        rw [hsent] at h
        exact absurd h.symm (by simpa using ne_bo [] d0.info.udev.wire)
      · intro h
        rw [hsent] at h
        rcases h with h | h
        · exact absurd h.symm (by simpa using ne_no [] d0.info.udev.wire)
        · exact absurd h.symm (by simpa using ne_bo [] d0.info.udev.wire)

theorem C4_import_reply_policy_witness :
    Transport.good net_all ∧
    (∀ d ∈ [demo_dev], d.info.udev.busnum < 2147483648) ∧
    (handle_usbip_req_import true net_all { usb_head := [demo_dev], usb_bus_info_head := [7] }
      ⟨true, true, some 5⟩ link0 (some (busid_of [49, 45, 49]))).link.sent =
        link0.sent ++ op_common_wire 0x0111 0x0003 USBIP_ST_OK ++ demo_dev.info.udev.wire :=
  ⟨net_all_good, by decide,
    ((C4_import_reply_policy true net_all { usb_head := [demo_dev], usb_bus_info_head := [7] }
      ⟨true, true, some 5⟩ link0 (busid_of [49, 45, 49]) net_all_good (by decide)).2.1
        demo_dev (by decide)).2 (by decide)⟩


/-- C5: `convert_libusb_status` maps COMPLETED to 0, ERROR to -EIO, TIMED_OUT to
-ETIMEDOUT, CANCELLED to -ECONNRESET, STALL to -EPIPE, NO_DEVICE to -ESHUTDOWN,
OVERFLOW to -EOVERFLOW and every other value to -ENOENT; the result is 0 only
for COMPLETED. -/
theorem C5_convert_libusb_status_table :
    convert_libusb_status LIBUSB_TRANSFER_COMPLETED = 0 ∧
    convert_libusb_status LIBUSB_TRANSFER_ERROR = - EIO ∧
    convert_libusb_status LIBUSB_TRANSFER_TIMED_OUT = -ETIMEDOUT ∧
    convert_libusb_status LIBUSB_TRANSFER_CANCELLED = -ECONNRESET ∧
    convert_libusb_status LIBUSB_TRANSFER_STALL = -EPIPE ∧
    convert_libusb_status LIBUSB_TRANSFER_NO_DEVICE = -ESHUTDOWN ∧
    convert_libusb_status LIBUSB_TRANSFER_OVERFLOW = -EOVERFLOW ∧
    (∀ s : Int, s ≠ LIBUSB_TRANSFER_COMPLETED → s ≠ LIBUSB_TRANSFER_ERROR →
      s ≠ LIBUSB_TRANSFER_TIMED_OUT → s ≠ LIBUSB_TRANSFER_CANCELLED →
      s ≠ LIBUSB_TRANSFER_STALL → s ≠ LIBUSB_TRANSFER_NO_DEVICE →
      s ≠ LIBUSB_TRANSFER_OVERFLOW → convert_libusb_status s = -ENOENT) ∧
    (∀ s : Int, convert_libusb_status s = 0 ↔ s = LIBUSB_TRANSFER_COMPLETED) ∧
    (∀ s : Int, convert_libusb_status s ≤ 0) := by
  refine ⟨by decide, by decide, by decide, by decide, by decide, by decide, by decide, ?_, ?_, ?_⟩
  · intro s h0 h1 h2 h3 h4 h5 h6
    simp only [convert_libusb_status, h0, h1, h2, h3, h4, h5, h6, if_false]
  · intro s
    unfold convert_libusb_status
    simp only [LIBUSB_TRANSFER_COMPLETED, LIBUSB_TRANSFER_ERROR, LIBUSB_TRANSFER_TIMED_OUT,
      LIBUSB_TRANSFER_CANCELLED, LIBUSB_TRANSFER_STALL, LIBUSB_TRANSFER_NO_DEVICE,
      LIBUSB_TRANSFER_OVERFLOW, EIO, ETIMEDOUT, ECONNRESET, EPIPE, ESHUTDOWN, EOVERFLOW, ENOENT]
    split_ifs <;> constructor <;> intro h <;> first | omega | exact h.elim
  · intro s
    unfold convert_libusb_status
    simp only [LIBUSB_TRANSFER_COMPLETED, LIBUSB_TRANSFER_ERROR, LIBUSB_TRANSFER_TIMED_OUT,
      LIBUSB_TRANSFER_CANCELLED, LIBUSB_TRANSFER_STALL, LIBUSB_TRANSFER_NO_DEVICE,
      LIBUSB_TRANSFER_OVERFLOW, EIO, ETIMEDOUT, ECONNRESET, EPIPE, ESHUTDOWN, EOVERFLOW, ENOENT]
    split_ifs <;> omega


theorem enqueue_packet_walk_eq (l : List usb_packet) (p : usb_packet) :
    enqueue_packet_walk l p = l ++ [p] := by
  induction l with
  | nil => rfl
  | cons x xs ih => simp [enqueue_packet_walk, ih]

theorem enqueue_packet_eq (f_dev : forward_info) (p : usb_packet) :
    enqueue_packet f_dev p = { f_dev with buffer_head := f_dev.buffer_head ++ [p] } := by
  unfold enqueue_packet
  cases h : f_dev.buffer_head with
  | nil => simp
  | cons x xs => simp [enqueue_packet_walk_eq]

/-- A list with an element satisfying `P` splits at the first such element. -/
theorem exists_first_split {α : Type} (P : α → Prop) [DecidablePred P] (l : List α)
    (h : ∃ p ∈ l, P p) :
    ∃ pre p post, l = pre ++ p :: post ∧ (∀ q ∈ pre, ¬ P q) ∧ P p := by
  induction l with
  | nil => obtain ⟨p, hp, _⟩ := h; simp at hp
  | cons x xs ih =>
    by_cases hx : P x
    · exact ⟨[], x, xs, rfl, by simp, hx⟩
    · obtain ⟨p, hp, hpp⟩ := h
      rcases List.mem_cons.mp hp with rfl | hp
      · exact absurd hpp hx
      · obtain ⟨pre, q, post, he, hpre, hq⟩ := ih ⟨p, hp, hpp⟩
        refine ⟨x :: pre, q, post, by rw [he]; rfl, ?_, hq⟩
        intro r hr
        rcases List.mem_cons.mp hr with rfl | hr
        · exact hx
        · exact hpre r hr

theorem dequeue_ready_scan_none (l : List usb_packet) (h : ∀ q ∈ l, q.ready = false) :
    dequeue_ready_scan l = none := by
  induction l with
  | nil => rfl
  | cons x xs ih =>
    have hx : x.ready = false := h x (List.mem_cons_self _ _)
    have := ih (fun q hq => h q (List.mem_cons_of_mem _ hq))
    simp [dequeue_ready_scan, hx, this]

theorem dequeue_ready_scan_split (pre : List usb_packet) (p : usb_packet)
    (post : List usb_packet) (hpre : ∀ q ∈ pre, q.ready = false) (hp : p.ready = true) :
    dequeue_ready_scan (pre ++ p :: post) = some (p, pre ++ post) := by
  induction pre with
  | nil => simp [dequeue_ready_scan, hp]
  | cons x xs ih =>
    have hx : x.ready = false := hpre x (List.mem_cons_self _ _)
    have := ih (fun q hq => hpre q (List.mem_cons_of_mem _ hq))
    simp [dequeue_ready_scan, hx, this]

theorem dequeue_ready_packet_some (f_dev : forward_info)
    (h : ∃ p ∈ f_dev.buffer_head, p.ready = true) :
    ∃ pre p post, f_dev.buffer_head = pre ++ p :: post ∧
      (∀ q ∈ pre, q.ready = false) ∧ p.ready = true ∧
      dequeue_ready_packet f_dev =
        (some p, { f_dev with buffer_head := pre ++ post,
                              packets_ready := f_dev.packets_ready - 1 }) := by
  obtain ⟨pre, p, post, he, hpre, hp⟩ :=
    exists_first_split (fun q : usb_packet => q.ready = true) f_dev.buffer_head h
  have hpre2 : ∀ q ∈ pre, q.ready = false := fun q hq => by
    simpa using hpre q hq
  refine ⟨pre, p, post, he, hpre2, hp, ?_⟩
  unfold dequeue_ready_packet
  rw [he]
  cases pre with
  | nil => simp [hp]
  | cons x xs =>
    have hx : x.ready = false := hpre2 x (List.mem_cons_self _ _)
    have hs := dequeue_ready_scan_split xs p post
      (fun q hq => hpre2 q (List.mem_cons_of_mem _ hq)) hp
    simp [hx, hs]

theorem dequeue_ready_packet_none (f_dev : forward_info)
    (h : ∀ p ∈ f_dev.buffer_head, p.ready = false) :
    dequeue_ready_packet f_dev = (none, f_dev) := by
  unfold dequeue_ready_packet
  cases he : f_dev.buffer_head with
  | nil => rfl
  | cons x xs =>
    rw [he] at h
    have hx : x.ready = false := h x (List.mem_cons_self _ _)
    have hs := dequeue_ready_scan_none xs (fun q hq => h q (List.mem_cons_of_mem _ hq))
    simp [hx, hs]

/-- C7: when some packet of the ring is ready, `dequeue_ready_packet` returns the
first ready packet in ring order, the ring afterwards is the old ring with exactly
that packet taken out (its not-yet-ready predecessors and everything behind it
stay, in order) and the ready count is one less; when no packet is ready it
returns false and leaves the ring and the ready count as they were. -/
theorem C7_dequeue_first_ready (f_dev : forward_info) :
    ((∃ p ∈ f_dev.buffer_head, p.ready = true) →
      ∃ pre p post, f_dev.buffer_head = pre ++ p :: post ∧
        (∀ q ∈ pre, q.ready = false) ∧ p.ready = true ∧
        dequeue_ready_packet f_dev =
          (some p, { f_dev with buffer_head := pre ++ post,
                                packets_ready := f_dev.packets_ready - 1 })) ∧
    ((∀ p ∈ f_dev.buffer_head, p.ready = false) →
      dequeue_ready_packet f_dev = (none, f_dev)) :=
  ⟨dequeue_ready_packet_some f_dev, dequeue_ready_packet_none f_dev⟩

theorem unlink_packet_scan_none (t : Nat) (l : List usb_packet)
    (h : ∀ q ∈ l, q.hdr.base.seqnum ≠ t) : unlink_packet_scan t l = none := by
  induction l with
  | nil => rfl
  | cons x xs ih =>
    have hx : x.hdr.base.seqnum ≠ t := h x (List.mem_cons_self _ _)
    have := ih (fun q hq => h q (List.mem_cons_of_mem _ hq))
    simp [unlink_packet_scan, hx, this]

theorem unlink_packet_scan_split (t : Nat) (pre : List usb_packet) (p : usb_packet)
    (post : List usb_packet) (hpre : ∀ q ∈ pre, q.hdr.base.seqnum ≠ t)
    (hp : p.hdr.base.seqnum = t) :
    unlink_packet_scan t (pre ++ p :: post) = some (pre, p, post) := by
  induction pre with
  | nil => simp [unlink_packet_scan, hp]
  | cons x xs ih =>
    have hx : x.hdr.base.seqnum ≠ t := hpre x (List.mem_cons_self _ _)
    have := ih (fun q hq => hpre q (List.mem_cons_of_mem _ hq))
    simp [unlink_packet_scan, hx, this]

/-- The packet the search of `unlink_packet` stops at is the first one of the ring
with the target seqnum; what happens next is `unlink_mark` on that packet. -/
theorem unlink_packet_found (f_dev : forward_info) (t u : Nat) (pre : List usb_packet)
    (p : usb_packet) (post : List usb_packet) (he : f_dev.buffer_head = pre ++ p :: post)
    (hpre : ∀ q ∈ pre, q.hdr.base.seqnum ≠ t) (hp : p.hdr.base.seqnum = t) :
    unlink_packet f_dev t u =
      (unlink_mark u p).map
        (fun marked => (true, { f_dev with buffer_head := pre ++ marked :: post })) := by
  unfold unlink_packet
  rw [he]
  cases pre with
  | nil => simp [hp]
  | cons x xs =>
    have hx : x.hdr.base.seqnum ≠ t := hpre x (List.mem_cons_self _ _)
    have hs := unlink_packet_scan_split t (x :: xs) p post hpre hp
    simp only [List.cons_append] at hs ⊢
    simp [hx, hs]

theorem unlink_packet_not_found (f_dev : forward_info) (t u : Nat)
    (h : ∀ q ∈ f_dev.buffer_head, q.hdr.base.seqnum ≠ t) :
    unlink_packet f_dev t u = some (false, f_dev) := by
  unfold unlink_packet
  cases he : f_dev.buffer_head with
  | nil => rfl
  | cons x xs =>
    rw [he] at h
    have hx : x.hdr.base.seqnum ≠ t := h x (List.mem_cons_self _ _)
    have hs := unlink_packet_scan_none t (x :: xs) h
    simp [hx, hs]

/-- On a packet that has a transfer, `unlink_mark` records the seqnum of the
CMD_UNLINK and requests the cancellation; nothing else changes. -/
theorem unlink_mark_of_xfer (u : Nat) (p : usb_packet) (x : libusb_transfer)
    (hx : p.xfer = some x) :
    unlink_mark u p = some (packet_unlinked u p x) := by
  simp [unlink_mark, hx, packet_unlinked]

/-- On a packet without a transfer `unlink_mark` has no result: the null pointer
goes to `libusb_cancel_transfer`. -/
theorem unlink_mark_no_xfer (u : Nat) (p : usb_packet) (hx : p.xfer = none) :
    unlink_mark u p = none := by
  simp [unlink_mark, hx]

theorem unlink_mark_some (u : Nat) (p p1 : usb_packet) (h : unlink_mark u p = some p1) :
    ∃ x, p.xfer = some x ∧ p1 = packet_unlinked u p x := by
  cases hx : p.xfer with
  | none => rw [unlink_mark_no_xfer u p hx] at h; exact absurd h (by simp)
  | some x =>
    rw [unlink_mark_of_xfer u p x hx] at h
    exact ⟨x, rfl, (Option.some.inj h).symm⟩

theorem unlink_mark_fields (u : Nat) (p p1 : usb_packet) (h : unlink_mark u p = some p1) :
    p1.unlinked = u ∧ p1.hdr = p.hdr ∧ p1.ready = p.ready ∧ p1.submitted = p.submitted ∧
    p1.xfer = p.xfer.map (fun x => { x with cancel_requested := true }) := by
  obtain ⟨x, hx, rfl⟩ := unlink_mark_some u p p1 h
  simp [hx, packet_unlinked]

/-- C8: for a CMD_UNLINK header with seqnum `u` (`hdr.base.seqnum`) and target `s`
(`hdr.w0`), `calloc` succeeding.  If no packet of the ring has seqnum `s`,
`handle_unlink` appends at the tail one new packet that is ready, whose header is
RET_UNLINK with seqnum `u` and status 0, and adds one to the ready count.  If the
first packet of the ring with seqnum `s` has a transfer, `handle_unlink` sets
`unlinked = u` on it and asks libusb to cancel the transfer, changes nothing else
in it, and the ring keeps its packets and the ready count its value.  If that
packet has no transfer, as the RET_UNLINK packet of an earlier CMD_UNLINK that TX
has not sent yet, `handle_unlink` has no result: `unlink_packet` hands the null
pointer to `libusb_cancel_transfer`.  So it is for CMD_UNLINK seq 11 with target
10 on an empty ring followed by CMD_UNLINK seq 12 with target 11. -/
theorem C8_handle_unlink_null_transfer (dev : server_usb_device) (hdr : usbip_header) :
    ((∀ p ∈ dev.fwd.buffer_head, p.hdr.base.seqnum ≠ hdr.w0) →
      ∃ packet : usb_packet,
        packet.ready = true ∧ packet.unlinked = 0 ∧ packet.xfer = none ∧
        packet.hdr.base.command = USBIP_RET_UNLINK ∧
        packet.hdr.base.seqnum = hdr.base.seqnum ∧ packet.hdr.w0 = 0 ∧
        handle_unlink true dev hdr =
          some (true, { dev with fwd :=
            { dev.fwd with buffer_head := dev.fwd.buffer_head ++ [packet],
                           packets_ready := dev.fwd.packets_ready + 1 } })) ∧
    ((∃ p ∈ dev.fwd.buffer_head, p.hdr.base.seqnum = hdr.w0) →
      ∃ pre p post, dev.fwd.buffer_head = pre ++ p :: post ∧
        (∀ q ∈ pre, q.hdr.base.seqnum ≠ hdr.w0) ∧ p.hdr.base.seqnum = hdr.w0 ∧
        (∀ x, p.xfer = some x →
          handle_unlink true dev hdr =
            some (true, { dev with fwd :=
              { dev.fwd with buffer_head :=
                  pre ++ { p with unlinked := hdr.base.seqnum,
                                  xfer := some { x with cancel_requested := true } } ::
                    post } })) ∧
        (p.xfer = none → handle_unlink true dev hdr = none)) ∧
    handle_unlink true fwd_dev (cmd_unlink 11 10) = some (true, dev_late_unlink) ∧
    dev_late_unlink.fwd.buffer_head.map
      (fun p => (p.hdr.base.command, p.hdr.base.seqnum, p.ready, p.xfer)) =
      [(USBIP_RET_UNLINK, 11, true, none)] ∧
    handle_unlink true dev_late_unlink (cmd_unlink 12 11) = none ∧
    session_run true net_all (session_start fwd_dev)
      [.rx (some ((cmd_unlink 11 10).raw true)) io_ok,
       .rx (some ((cmd_unlink 12 11).raw true)) io_ok] = none := by
  refine ⟨?_, ?_, by rfl, by rfl, by rfl, by rfl⟩
  · intro h
    refine ⟨{ ready := true, submitted := false, unlinked := 0,
              hdr := { hdr with base := { hdr.base with command := USBIP_RET_UNLINK }, w0 := 0 },
              xfer := none }, rfl, rfl, rfl, rfl, rfl, rfl, ?_⟩
    unfold handle_unlink
    simp [unlink_packet_not_found dev.fwd hdr.w0 hdr.base.seqnum h, enqueue_packet_eq]
  · intro h
    obtain ⟨pre, p, post, he, hpre, hp⟩ :=
      exists_first_split (fun q : usb_packet => q.hdr.base.seqnum = hdr.w0) dev.fwd.buffer_head h
    have hf := unlink_packet_found dev.fwd hdr.w0 hdr.base.seqnum pre p post he hpre hp
    refine ⟨pre, p, post, he, hpre, hp, ?_, ?_⟩
    · intro x hx
      unfold handle_unlink
      simp [hf, unlink_mark_of_xfer _ p x hx, packet_unlinked]
    · intro hx
      unfold handle_unlink
      simp [hf, unlink_mark_no_xfer _ p hx]


theorem mem32_ntohl (le : Bool) (x : Nat) : mem32 le (ntohl le x) = be32 x :=
  mem32_htonl le x

theorem be32_value (a : Nat) :
    a / 16777216 % 256 * 16777216 + a / 65536 % 256 * 65536 + a / 256 % 256 * 256 + a % 256 =
      a % 4294967296 := by
  omega

theorem int_of_u32_of_int (i : Int) (h1 : -2147483648 ≤ i) (h2 : i < 2147483648) :
    int_of_u32 (u32_of_int i) = i := by
  unfold int_of_u32 u32_of_int
  have hnn : 0 ≤ i % 4294967296 := Int.emod_nonneg _ (by norm_num)
  have hlt : i % 4294967296 < 4294967296 := Int.emod_lt_of_pos _ (by norm_num)
  have hcast : (((i % 4294967296).toNat : Nat) : Int) = i % 4294967296 := Int.toNat_of_nonneg hnn
  have hmod : (i % 4294967296).toNat % 4294967296 = (i % 4294967296).toNat := by
    apply Nat.mod_eq_of_lt
    omega
  rw [hmod]
  split_ifs with h <;> omega

/-- The header image TX sends for a RET_SUBMIT: every 32-bit field big-endian. -/
theorem ret_submit_image (le : Bool) (h : usbip_header) :
    (usbip_ret_submit_header_to_network_endian le
      (usbip_base_header_to_network_endian le h)).mem le =
    be32 h.base.command ++ be32 h.base.seqnum ++ be32 h.base.devid ++ be32 h.base.direction ++
    be32 h.base.ep ++ be32 h.w0 ++ be32 h.w1 ++ be32 h.w2 ++ be32 h.w3 ++ be32 h.w4 ++
    h.setup := by
  simp only [usbip_header.mem, usbip_ret_submit_header_to_network_endian,
    usbip_base_header_to_network_endian, mem32_htonl]

/-- The header image TX sends for a RET_UNLINK: the base and the status word are
big-endian, the other 24 bytes of the union go out as they sit in memory. -/
theorem ret_unlink_image (le : Bool) (h : usbip_header) :
    (usbip_ret_unlink_header_to_network_endian le
      (usbip_base_header_to_network_endian le h)).mem le =
    be32 h.base.command ++ be32 h.base.seqnum ++ be32 h.base.devid ++ be32 h.base.direction ++
    be32 h.base.ep ++ be32 h.w0 ++ mem32 le h.w1 ++ mem32 le h.w2 ++ mem32 le h.w3 ++
    mem32 le h.w4 ++ h.setup := by
  simp only [usbip_header.mem, usbip_ret_unlink_header_to_network_endian,
    usbip_base_header_to_network_endian, mem32_htonl, mem32_ntohl]

theorem wire_reply_image (a b c d e f : Nat) (rest : List Nat) :
    wire_reply (be32 a ++ be32 b ++ be32 c ++ be32 d ++ be32 e ++ be32 f ++ rest) =
      (a % 4294967296, b % 4294967296, int_of_u32 f) := by
  have hf : int_of_u32 (f % 4294967296) = int_of_u32 f := by
    simp only [int_of_u32, Nat.mod_mod]
  simp only [wire_reply, wire_command, wire_seqnum, wire_status, wire_u32, be32,
    List.cons_append, List.nil_append, List.getD_cons_succ, List.getD_cons_zero,
    List.append_assoc, be32_value, hf]

theorem wire_reply_ret_submit (le : Bool) (h : usbip_header) :
    wire_reply ((usbip_ret_submit_header_to_network_endian le
      (usbip_base_header_to_network_endian le h)).mem le) =
      (h.base.command % 4294967296, h.base.seqnum % 4294967296, int_of_u32 h.w0) := by
  rw [ret_submit_image]
  simp only [List.append_assoc]
  have := wire_reply_image h.base.command h.base.seqnum h.base.devid h.base.direction h.base.ep
    h.w0 (be32 h.w1 ++ (be32 h.w2 ++ (be32 h.w3 ++ (be32 h.w4 ++ h.setup))))
  simpa only [List.append_assoc] using this

theorem wire_reply_ret_unlink (le : Bool) (h : usbip_header) :
    wire_reply ((usbip_ret_unlink_header_to_network_endian le
      (usbip_base_header_to_network_endian le h)).mem le) =
      (h.base.command % 4294967296, h.base.seqnum % 4294967296, int_of_u32 h.w0) := by
  rw [ret_unlink_image]
  simp only [List.append_assoc]
  have := wire_reply_image h.base.command h.base.seqnum h.base.devid h.base.direction h.base.ep
    h.w0 (mem32 le h.w1 ++ (mem32 le h.w2 ++ (mem32 le h.w3 ++ (mem32 le h.w4 ++ h.setup))))
  simpa only [List.append_assoc] using this

/-- Whatever header a TX round sends is the RET_SUBMIT or the RET_UNLINK image of
the packet's header after the `unlinked` rewrite. -/
theorem tx_server_packet_hdr_sent (le : Bool) (net : Transport) (link : est_conn)
    (p : usb_packet) (bytes : List Nat)
    (h : (tx_server_packet le net link p).hdr_sent = some bytes) :
    ((tx_rewrite_unlinked p).hdr.base.command = USBIP_RET_SUBMIT ∧
      bytes = (usbip_ret_submit_header_to_network_endian le
        (usbip_base_header_to_network_endian le (tx_rewrite_unlinked p).hdr)).mem le) ∨
    ((tx_rewrite_unlinked p).hdr.base.command = USBIP_RET_UNLINK ∧
      bytes = (usbip_ret_unlink_header_to_network_endian le
        (usbip_base_header_to_network_endian le (tx_rewrite_unlinked p).hdr)).mem le) := by
  unfold tx_server_packet at h
  by_cases h3 : (tx_rewrite_unlinked p).hdr.base.command = USBIP_RET_SUBMIT
  · left
    refine ⟨h3, ?_⟩
    simp only [h3, if_true] at h
    cases hs : (network_send_data net link
      ((usbip_ret_submit_header_to_network_endian le
        (usbip_base_header_to_network_endian le (tx_rewrite_unlinked p).hdr)).mem le)).1 with
    | false =>
      simp only [hs, Bool.not_false, if_true] at h
      exact absurd h (by simp)
    | true =>
      simp only [hs, Bool.not_true, Bool.false_eq_true, if_false] at h
      cases hx : (tx_rewrite_unlinked p).xfer with
      | none => rw [hx] at h; simpa using h.symm
      | some x => rw [hx] at h; simpa using h.symm
  · by_cases h4 : (tx_rewrite_unlinked p).hdr.base.command = USBIP_RET_UNLINK
    · right
      refine ⟨h4, ?_⟩
      have h34 : USBIP_RET_UNLINK ≠ USBIP_RET_SUBMIT := by decide
      simp only [h4, h34, if_false, if_true] at h
      cases hs : (network_send_data net link
        ((usbip_ret_unlink_header_to_network_endian le
          (usbip_base_header_to_network_endian le (tx_rewrite_unlinked p).hdr)).mem le)).1 with
      | false =>
        simp only [hs, Bool.not_false, if_true] at h
        exact absurd h (by simp)
      | true =>
        simp only [hs, Bool.not_true, Bool.false_eq_true, if_false] at h
        simpa using h.symm
    · simp only [h3, if_false, h4] at h
      exact absurd h (by simp)

/-- With sends succeeding, a packet whose command is RET_SUBMIT or RET_UNLINK after
the `unlinked` rewrite gets its header sent. -/
theorem tx_server_packet_sends (le : Bool) (net : Transport) (hnet : net.good)
    (link : est_conn) (p : usb_packet)
    (h : (tx_rewrite_unlinked p).hdr.base.command = USBIP_RET_SUBMIT ∨
      (tx_rewrite_unlinked p).hdr.base.command = USBIP_RET_UNLINK) :
    ∃ bytes, (tx_server_packet le net link p).hdr_sent = some bytes := by
  unfold tx_server_packet
  rcases h with h | h
  · simp only [h, if_true]
    have hs := (network_send_data_good net hnet link
      ((usbip_ret_submit_header_to_network_endian le
        (usbip_base_header_to_network_endian le (tx_rewrite_unlinked p).hdr)).mem le)).1
    simp only [hs, Bool.not_true, Bool.false_eq_true, if_false]
    cases (tx_rewrite_unlinked p).xfer <;> exact ⟨_, rfl⟩
  · have h3 : (tx_rewrite_unlinked p).hdr.base.command ≠ USBIP_RET_SUBMIT := by
      rw [h]; decide
    simp only [h3, if_false, h, if_true]
    have hs := (network_send_data_good net hnet link
      ((usbip_ret_unlink_header_to_network_endian le
        (usbip_base_header_to_network_endian le (tx_rewrite_unlinked p).hdr)).mem le)).1
    simp only [hs, Bool.not_true, Bool.false_eq_true, if_false]
    exact ⟨_, rfl⟩

theorem tx_rewrite_unlinked_zero (p : usb_packet) (h : p.unlinked = 0) :
    tx_rewrite_unlinked p = p := by
  simp [tx_rewrite_unlinked, h]

theorem tx_rewrite_unlinked_set (p : usb_packet) (h : p.unlinked ≠ 0) :
    (tx_rewrite_unlinked p).hdr.base.command = USBIP_RET_UNLINK ∧
    (tx_rewrite_unlinked p).hdr.base.seqnum = p.unlinked ∧
    (tx_rewrite_unlinked p).hdr.w0 = u32_of_int (-ECONNRESET) := by
  simp [tx_rewrite_unlinked, h]

/-- The completion callback keeps `base.seqnum` and `unlinked`, sets `ready`, and
turns the command into RET_SUBMIT unless the status is CANCELLED or NO_DEVICE, in
which case the command stays. -/
theorem xfer_completion_callback_packet_fields (p : usb_packet) (t : libusb_transfer) :
    (xfer_completion_callback_packet p t).hdr.base.seqnum = p.hdr.base.seqnum ∧
    (xfer_completion_callback_packet p t).unlinked = p.unlinked ∧
    (xfer_completion_callback_packet p t).ready = true ∧
    (xfer_completion_callback_packet p t).xfer = p.xfer ∧
    (t.status ≠ LIBUSB_TRANSFER_CANCELLED → t.status ≠ LIBUSB_TRANSFER_NO_DEVICE →
      (xfer_completion_callback_packet p t).hdr.base.command = USBIP_RET_SUBMIT ∧
      (xfer_completion_callback_packet p t).hdr.w0 =
        u32_of_int (convert_libusb_status t.status)) ∧
    (t.status = LIBUSB_TRANSFER_CANCELLED ∨ t.status = LIBUSB_TRANSFER_NO_DEVICE →
      (xfer_completion_callback_packet p t).hdr.base.command = p.hdr.base.command) := by
  unfold xfer_completion_callback_packet
  have hne : LIBUSB_TRANSFER_NO_DEVICE ≠ LIBUSB_TRANSFER_CANCELLED := by decide
  by_cases hc : t.status = LIBUSB_TRANSFER_CANCELLED
  · simp [hc]
  · by_cases hn : t.status = LIBUSB_TRANSFER_NO_DEVICE
    · simp [hn, hne]
    · simp [hc, hn]

/-- C6 (as amended): take a packet built from a CMD_SUBMIT header and let the
completion callback run on it.  If it was never unlinked, any header TX sends for
it is RET_SUBMIT with the seqnum of that CMD_SUBMIT header, and with sends
succeeding one is sent whenever the completion status is neither CANCELLED nor
NO_DEVICE.  If it was unlinked, before or after the completion, by a CMD_UNLINK
with a nonzero seqnum `u` (the packet has its transfer, so the marking has a
result), the header TX sends is RET_UNLINK with seqnum `u` and status
-ECONNRESET. -/
theorem C6_tx_reply_header (le : Bool) (net : Transport) (link : est_conn) (p0 : usb_packet)
    (t : libusb_transfer) (u : Nat) (hnet : net.good)
    (hcmd : p0.hdr.base.command = USBIP_CMD_SUBMIT) (hseq : p0.hdr.base.seqnum < 4294967296)
    (h0 : p0.unlinked = 0) (hu : u < 4294967296) :
    (∀ bytes,
      (tx_server_packet le net link (xfer_completion_callback_packet p0 t)).hdr_sent =
        some bytes →
      wire_command bytes = USBIP_RET_SUBMIT ∧ wire_seqnum bytes = p0.hdr.base.seqnum) ∧
    (t.status ≠ LIBUSB_TRANSFER_CANCELLED → t.status ≠ LIBUSB_TRANSFER_NO_DEVICE →
      ∃ bytes,
        (tx_server_packet le net link (xfer_completion_callback_packet p0 t)).hdr_sent =
          some bytes) ∧
    (u ≠ 0 → ∀ x, p0.xfer = some x →
      ∃ p1, unlink_mark u p0 = some p1 ∧
        ∃ bytes,
          (tx_server_packet le net link (xfer_completion_callback_packet p1 t)).hdr_sent =
            some bytes ∧
          wire_reply bytes = (USBIP_RET_UNLINK, u, -ECONNRESET)) ∧
    (u ≠ 0 → ∀ x, p0.xfer = some x →
      ∃ p1, unlink_mark u (xfer_completion_callback_packet p0 t) = some p1 ∧
        ∃ bytes,
          (tx_server_packet le net link p1).hdr_sent = some bytes ∧
          wire_reply bytes = (USBIP_RET_UNLINK, u, -ECONNRESET)) := by
  obtain ⟨cseq, cunl, _, cx, cok, ckeep⟩ := xfer_completion_callback_packet_fields p0 t
  have hrw : tx_rewrite_unlinked (xfer_completion_callback_packet p0 t) =
      xfer_completion_callback_packet p0 t :=
    tx_rewrite_unlinked_zero _ (by rw [cunl, h0])
  have unlinked_case : ∀ p : usb_packet, p.unlinked = u → u ≠ 0 →
      ∃ bytes, (tx_server_packet le net link p).hdr_sent = some bytes ∧
        wire_reply bytes = (USBIP_RET_UNLINK, u, -ECONNRESET) := by
    intro p hp hne
    obtain ⟨r1, r2, r3⟩ := tx_rewrite_unlinked_set p (by rw [hp]; exact hne)
    obtain ⟨bytes, hb⟩ := tx_server_packet_sends le net hnet link p (Or.inr r1)
    refine ⟨bytes, hb, ?_⟩
    rcases tx_server_packet_hdr_sent le net link p bytes hb with ⟨hc, _⟩ | ⟨_, he⟩
    · rw [r1] at hc
      exact absurd hc (by decide)
    · rw [he, wire_reply_ret_unlink, r1, r2, r3, hp, Nat.mod_eq_of_lt hu,
        int_of_u32_of_int _ (by decide) (by decide)]
      rfl
  refine ⟨?_, ?_, ?_, ?_⟩
  · intro bytes hb
    have hcmd_cases : (xfer_completion_callback_packet p0 t).hdr.base.command = USBIP_RET_SUBMIT ∨
        (xfer_completion_callback_packet p0 t).hdr.base.command = USBIP_CMD_SUBMIT := by
      by_cases hc : t.status = LIBUSB_TRANSFER_CANCELLED
      · right; rw [ckeep (Or.inl hc), hcmd]
      · by_cases hn : t.status = LIBUSB_TRANSFER_NO_DEVICE
        · right; rw [ckeep (Or.inr hn), hcmd]
        · left; exact (cok hc hn).1
    rcases tx_server_packet_hdr_sent le net link _ bytes hb with ⟨hc, he⟩ | ⟨hc, _⟩
    · rw [hrw] at hc he
      have hw := wire_reply_ret_submit le (xfer_completion_callback_packet p0 t).hdr
      rw [← he, hc, cseq, Nat.mod_eq_of_lt hseq] at hw
      exact ⟨congrArg Prod.fst hw, congrArg (fun x => x.2.1) hw⟩
    · rw [hrw] at hc
      rcases hcmd_cases with h | h
      · rw [h] at hc; exact absurd hc (by decide)
      · rw [h] at hc; exact absurd hc (by decide)
  · intro hc hn
    exact tx_server_packet_sends le net hnet link _ (Or.inl (by rw [hrw]; exact (cok hc hn).1))
  · intro hne x hx
    refine ⟨_, unlink_mark_of_xfer u p0 x hx, ?_⟩
    exact unlinked_case _ ((xfer_completion_callback_packet_fields _ t).2.1.trans rfl) hne
  · intro hne x hx
    refine ⟨_, unlink_mark_of_xfer u _ x (cx.trans hx), ?_⟩
    exact unlinked_case _ rfl hne

theorem C6_tx_reply_header_witness :
    Transport.good net_all ∧ (packet_in 10).hdr.base.command = USBIP_CMD_SUBMIT ∧
    (packet_in 10).hdr.base.seqnum < 4294967296 ∧ (packet_in 10).unlinked = 0 ∧
    (∃ p1,
      unlink_mark 11 (xfer_completion_callback_packet (packet_in 10)
          { endpoint := 0x81, type := 2, length := 64, num_iso_packets := 0, buffer := [],
            iso_packet_desc := [], status := 0, actual_length := 64,
            cancel_requested := false }) = some p1 ∧
      ∃ bytes,
        (tx_server_packet true net_all link0 p1).hdr_sent = some bytes ∧
        wire_reply bytes = (USBIP_RET_UNLINK, 11, -ECONNRESET)) :=
  ⟨net_all_good, rfl, by decide, rfl,
    (C6_tx_reply_header true net_all link0 (packet_in 10) _ 11 net_all_good rfl (by decide) rfl
      (by decide)).2.2.2 (by decide) transfer_in rfl⟩

/-- C6 (counterexample to the claim as stated): CMD_SUBMIT seq 10 is received, then
CMD_UNLINK with seqnum 0 and target 10, which finds the packet, leaves
`unlinked = 0` on it and requests cancellation; the transfer completes as
CANCELLED.  TX then takes the packet from the ring and sends no header at all (not
RET_UNLINK with seqnum 0): the command is still CMD_SUBMIT, the round ends in
`tx_exit`. -/
theorem C6_counterexample_unlink_seqnum_zero :
    ∃ s, session_unlink_zero = some s ∧
    s.merged = 1 ∧
    s.dev.fwd.buffer_head.map
      (fun p => (p.ready, p.unlinked, p.hdr.base.command, p.hdr.base.seqnum,
        p.xfer.map (fun x => x.cancel_requested))) =
      [(true, 0, USBIP_CMD_SUBMIT, 10, some true)] ∧
    (tx_server_iteration true net_all s.dev).2 = none ∧
    (tx_server_iteration true net_all s.dev).1.fwd.buffer_head = [] ∧
    (tx_server_iteration true net_all s.dev).1.fwd.terminate = true ∧
    ¬ (∃ bytes, (tx_server_iteration true net_all s.dev).2 = some bytes ∧
      wire_reply bytes = (USBIP_RET_UNLINK, 0, -ECONNRESET)) := by
  have hs : ∃ s, session_unlink_zero = some s := by
    rw [← Option.isSome_iff_exists]; rfl
  obtain ⟨s, hs⟩ := hs
  have hd : s = session_unlink_zero.get (by rw [hs]; rfl) := by simp [hs]
  have h : (tx_server_iteration true net_all s.dev).2 = none := by rw [hd]; rfl
  refine ⟨s, hs, by rw [hd]; rfl, by rw [hd]; rfl, h, by rw [hd]; rfl, by rw [hd]; rfl, ?_⟩
  rintro ⟨bytes, hb, _⟩
  rw [h] at hb
  exact absurd hb (by simp)

/-- C9 (counterexample to the claim as stated): CMD_SUBMIT seq 10 and CMD_UNLINK
seq 11 for it arrive before the transfer completes; the cancellation completes the
transfer as CANCELLED and TX runs.  The only reply header on the wire is RET_UNLINK
seq 11 with status -ECONNRESET, which is none of the three outcomes listed. -/
theorem C9_counterexample_unlink_before_completion :
    ∃ s, session_run true net_all (session_start fwd_dev)
      (s5_schedule true true 0 0 0 1 (res_of LIBUSB_TRANSFER_CANCELLED 0)) = some s ∧
    s.wire.map wire_reply = [(USBIP_RET_UNLINK, 11, -ECONNRESET)] ∧
    ¬ s5_expected (s.wire.map wire_reply) := by
  have hs : ∃ s, session_run true net_all (session_start fwd_dev)
      (s5_schedule true true 0 0 0 1 (res_of LIBUSB_TRANSFER_CANCELLED 0)) = some s := by
    rw [← Option.isSome_iff_exists]; rfl
  obtain ⟨s, hs⟩ := hs
  have hd : s = (session_run true net_all (session_start fwd_dev)
      (s5_schedule true true 0 0 0 1 (res_of LIBUSB_TRANSFER_CANCELLED 0))).get
        (by rw [hs]; rfl) := by simp [hs]
  have h : s.wire.map wire_reply = [(USBIP_RET_UNLINK, 11, -ECONNRESET)] := by rw [hd]; rfl
  refine ⟨s, hs, h, ?_⟩
  rw [h]
  rintro (⟨st, _, hst⟩ | hb | hc)
  · exact absurd (congrArg List.length hst) (by simp)
  · exact absurd hb (by decide)
  · exact absurd hc (by decide)

theorem session_run_append (le : Bool) (net : Transport) (s : session)
    (a b : List session_event) :
    session_run le net s (a ++ b) =
      (session_run le net s a).bind (fun s1 => session_run le net s1 b) := by
  induction a generalizing s with
  | nil => rfl
  | cons e es ih =>
    simp only [List.cons_append, session_run]
    cases session_step le net s e with
    | none => rfl
    | some s1 => exact ih s1

theorem session_run_cons (le : Bool) (net : Transport) (s : session) (e : session_event)
    (es : List session_event) :
    session_run le net s (e :: es) =
      (session_step le net s e).bind (fun s1 => session_run le net s1 es) := by
  simp only [session_run]
  cases session_step le net s e <;> rfl

theorem session_run_nil (le : Bool) (net : Transport) (s : session) :
    session_run le net s [] = some s := rfl

/-- A TX round with nothing ready changes nothing. -/
theorem session_step_tx_idle (le : Bool) (net : Transport) (s : session)
    (ht : s.dev.fwd.terminate = false) (hp : s.dev.fwd.packets_ready = 0) :
    session_step le net s session_event.tx = some s := by
  simp [session_step, tx_server_iteration, ht, hp]

theorem session_run_tx_idle (le : Bool) (net : Transport) (s : session)
    (ht : s.dev.fwd.terminate = false) (hp : s.dev.fwd.packets_ready = 0) (n : Nat) :
    session_run le net s (List.replicate n session_event.tx) = some s := by
  induction n with
  | zero => rfl
  | succ k ih =>
    rw [List.replicate_succ, session_run_cons, session_step_tx_idle le net s ht hp,
      Option.some_bind, ih]

theorem htonl_zero (le : Bool) : htonl le 0 = 0 := by
  cases le <;> rfl

theorem ntohl_zero (le : Bool) : ntohl le 0 = 0 := by
  cases le <;> rfl

theorem raw_host_submit_in (le : Bool) (n : Nat) (hn : n < 4294967296) :
    usbip_cmd_submit_header_to_host_endian le
      (usbip_base_header_to_host_endian le ((cmd_submit_in n).raw le)) = cmd_submit_in n := by
  simp only [usbip_header.raw, usbip_base_header_to_host_endian,
    usbip_cmd_submit_header_to_host_endian, cmd_submit_in,
    ntohl_htonl le n hn, ntohl_htonl le USBIP_CMD_SUBMIT (by decide),
    ntohl_htonl le 0x00010001 (by decide), ntohl_htonl le USBIP_DIR_IN (by decide),
    ntohl_htonl le 1 (by decide), ntohl_htonl le 0 (by decide), ntohl_htonl le 64 (by decide)]

theorem raw_host_unlink (le : Bool) (u t : Nat) (hu : u < 4294967296) (ht : t < 4294967296) :
    usbip_cmd_unlink_header_to_host_endian le
      (usbip_base_header_to_host_endian le ((cmd_unlink u t).raw le)) = cmd_unlink u t := by
  simp only [usbip_header.raw, usbip_base_header_to_host_endian,
    usbip_cmd_unlink_header_to_host_endian, cmd_unlink, htonl_zero, ntohl_zero,
    ntohl_htonl le u hu, ntohl_htonl le t ht, ntohl_htonl le USBIP_CMD_UNLINK (by decide),
    ntohl_htonl le 0x00010001 (by decide), ntohl_htonl le 0 (by decide)]

theorem raw_host_base_submit_in (le : Bool) (n : Nat) (hn : n < 4294967296) :
    (usbip_base_header_to_host_endian le ((cmd_submit_in n).raw le)).base =
      (cmd_submit_in n).base := by
  simp only [usbip_header.raw, usbip_base_header_to_host_endian, cmd_submit_in,
    ntohl_htonl le n hn, ntohl_htonl le USBIP_CMD_SUBMIT (by decide),
    ntohl_htonl le 0x00010001 (by decide), ntohl_htonl le USBIP_DIR_IN (by decide),
    ntohl_htonl le 1 (by decide)]

theorem raw_host_base_unlink (le : Bool) (u t : Nat) (hu : u < 4294967296) :
    (usbip_base_header_to_host_endian le ((cmd_unlink u t).raw le)).base =
      (cmd_unlink u t).base := by
  simp only [usbip_header.raw, usbip_base_header_to_host_endian, cmd_unlink, htonl_zero,
    ntohl_zero, ntohl_htonl le u hu, ntohl_htonl le USBIP_CMD_UNLINK (by decide),
    ntohl_htonl le 0x00010001 (by decide)]

/-- The RX round for CMD_SUBMIT seq `n` on an empty ring. -/
theorem session_step_submit_in (le : Bool) (net : Transport) (n : Nat) (hn : n < 4294967296)
    (ring : List usb_packet) (pr : Int) (link : est_conn) (reqs : List usbip_header)
    (merged : Nat) (wire : List (List Nat)) :
    session_step le net (session_of ring pr link reqs merged wire)
      (session_event.rx (some ((cmd_submit_in n).raw le)) io_ok) =
    some (session_of (ring ++ [packet_in n]) pr link (reqs ++ [cmd_submit_in n]) merged
      wire) := by
  have hb := raw_host_base_submit_in le n hn
  have hh := raw_host_submit_in le n hn
  have hc : (usbip_base_header_to_host_endian le ((cmd_submit_in n).raw le)).base.command =
      USBIP_CMD_SUBMIT := by rw [hb]; rfl
  have hne : USBIP_CMD_SUBMIT ≠ USBIP_CMD_UNLINK := by decide
  have hsub : handle_submit le io_ok (fwd_dev_of ring pr link) (cmd_submit_in n) =
      (true, fwd_dev_of (ring ++ [packet_in n]) pr link) := by
    simp only [handle_submit, submit_xfer, enqueue_packet_eq]
    have h1 : get_xfer_type (fwd_dev_of ring pr link) (cmd_submit_in n).base.direction
        ((cmd_submit_in n).base.ep % 256) = USB_ENDPOINT_XFER_BULK := by
      simp only [cmd_submit_in, Nat.reduceMod]
      rfl
    have h2 : int_of_u32 64 = 64 := by decide
    simp only [h1]
    simp [io_ok, cmd_submit_in, USBIP_DIR_IN, USB_ENDPOINT_XFER_BULK, USB_ENDPOINT_XFER_ISOC,
      fwd_dev_of, packet_in, transfer_in, h2]
  have hterm : (fwd_dev_of ring pr link).fwd.terminate = false := rfl
  simp only [session_step, session_of, rx_request, rx_handled, rx_server_iteration,
    rx_server_receive, rx_merges, hc, hh, hne, hsub, hterm]
  rfl

/-- The RX round for CMD_UNLINK `u` of `t` when the ring holds just the target. -/
theorem session_step_unlink_found (le : Bool) (net : Transport) (u t : Nat)
    (hu : u < 4294967296) (ht : t < 4294967296) (p : usb_packet) (hp : p.hdr.base.seqnum = t)
    (x : libusb_transfer) (hx : p.xfer = some x)
    (pr : Int) (link : est_conn) (reqs : List usbip_header) (merged : Nat)
    (wire : List (List Nat)) :
    session_step le net (session_of [p] pr link reqs merged wire)
      (session_event.rx (some ((cmd_unlink u t).raw le)) io_ok) =
    some (session_of [packet_unlinked u p x] pr link (reqs ++ [cmd_unlink u t]) (merged + 1)
      wire) := by
  have hb := raw_host_base_unlink le u t hu
  have hh := raw_host_unlink le u t hu ht
  have hc : (usbip_base_header_to_host_endian le ((cmd_unlink u t).raw le)).base.command =
      USBIP_CMD_UNLINK := by rw [hb]; rfl
  have hfound : unlink_packet (fwd_dev_of [p] pr link).fwd t u =
      some (true, (fwd_dev_of [packet_unlinked u p x] pr link).fwd) := by
    simp [unlink_packet, fwd_dev_of, hp, unlink_mark_of_xfer u p x hx]
  have hun : handle_unlink io_ok.packet_alloc_ok (fwd_dev_of [p] pr link) (cmd_unlink u t) =
      some (true, fwd_dev_of [packet_unlinked u p x] pr link) := by
    simp only [handle_unlink]
    have e1 : (cmd_unlink u t).w0 = t := rfl
    have e2 : (cmd_unlink u t).base.seqnum = u := rfl
    rw [e1, e2, hfound]
    rfl
  have hm : rx_merges (fwd_dev_of [p] pr link) (some (cmd_unlink u t)) = true := by
    simp only [rx_merges]
    have e1 : (cmd_unlink u t).w0 = t := rfl
    have e2 : (cmd_unlink u t).base.seqnum = u := rfl
    rw [e1, e2, hfound]
    rfl
  have hterm : (fwd_dev_of [p] pr link).fwd.terminate = false := rfl
  simp only [session_step, session_of, rx_request, rx_handled, rx_server_iteration,
    rx_server_receive, hc, hh, hun, hm, hterm,
    if_true, if_false, Bool.not_true, Bool.false_eq_true, Option.toList, Option.map_some']

/-- The RX round for CMD_UNLINK `u` of `t` when the ring is empty. -/
theorem session_step_unlink_late (le : Bool) (net : Transport) (u t : Nat)
    (hu : u < 4294967296) (ht : t < 4294967296)
    (pr : Int) (link : est_conn) (reqs : List usbip_header) (merged : Nat)
    (wire : List (List Nat)) :
    session_step le net (session_of [] pr link reqs merged wire)
      (session_event.rx (some ((cmd_unlink u t).raw le)) io_ok) =
    some (session_of [packet_late_unlink u t] (pr + 1) link (reqs ++ [cmd_unlink u t]) merged
      wire) := by
  have hb := raw_host_base_unlink le u t hu
  have hh := raw_host_unlink le u t hu ht
  have hc : (usbip_base_header_to_host_endian le ((cmd_unlink u t).raw le)).base.command =
      USBIP_CMD_UNLINK := by rw [hb]; rfl
  have hnf : unlink_packet (fwd_dev_of [] pr link).fwd t u =
      some (false, (fwd_dev_of [] pr link).fwd) := rfl
  have hun : handle_unlink io_ok.packet_alloc_ok (fwd_dev_of [] pr link) (cmd_unlink u t) =
      some (true, fwd_dev_of [packet_late_unlink u t] (pr + 1) link) := by
    simp only [handle_unlink]
    have e1 : (cmd_unlink u t).w0 = t := rfl
    have e2 : (cmd_unlink u t).base.seqnum = u := rfl
    rw [e1, e2, hnf]
    rfl
  have hm : rx_merges (fwd_dev_of [] pr link) (some (cmd_unlink u t)) = false := by
    simp only [rx_merges]
    have e1 : (cmd_unlink u t).w0 = t := rfl
    have e2 : (cmd_unlink u t).base.seqnum = u := rfl
    rw [e1, e2, hnf]
    rfl
  have hterm : (fwd_dev_of [] pr link).fwd.terminate = false := rfl
  simp only [session_step, session_of, rx_request, rx_handled, rx_server_iteration,
    rx_server_receive, hc, hh, hun, hm, hterm,
    if_true, if_false, Bool.not_true, Bool.false_eq_true, Option.toList, Nat.add_zero,
    Option.map_some']

/-- The completion of the transfer of the only packet in the ring. -/
theorem session_step_complete_single (le : Bool) (net : Transport) (p : usb_packet)
    (x : libusb_transfer) (res : xfer_result) (hx : p.xfer = some x) (hr : p.ready = false)
    (hen : res.status ≠ LIBUSB_TRANSFER_CANCELLED ∨ x.cancel_requested = true)
    (hnd : res.status ≠ LIBUSB_TRANSFER_NO_DEVICE)
    (pr : Int) (link : est_conn) (reqs : List usbip_header) (merged : Nat)
    (wire : List (List Nat)) :
    session_step le net (session_of [p] pr link reqs merged wire)
      (session_event.complete 0 res) =
    some (session_of [packet_completed p x res] (pr + 1) link reqs merged wire) := by
  have hst : (x.completed res).status = res.status := rfl
  have hen2 : complete_enabled (fwd_dev_of [p] pr link).fwd 0 res = true := by
    simp only [complete_enabled, fwd_dev_of, List.get?_cons_zero, hx, hr]
    rcases hen with h | h
    · simp [h]
    · simp [h]
  simp only [session_step, session_of, hen2, if_true]
  simp only [xfer_completion_callback, fwd_dev_of, packet_completed,
    List.get?_cons_zero, hx, hst, hnd, decide_False, Bool.false_eq_true, if_false,
    List.set_cons_zero]

theorem send_xfer_data_good (net : Transport) (hnet : net.good) (xfer : libusb_transfer)
    (dir : Nat) (link : est_conn) : (send_xfer_data net xfer dir link).1 = true := by
  unfold send_xfer_data
  by_cases h : dir = USBIP_DIR_IN
  · simp only [h, if_true]
    exact (network_send_data_good net hnet link _).1
  · simp only [h, if_false]

/-- A TX round when the ring holds one packet, ready and to be answered with
RET_UNLINK (it was unlinked, or it is a synthesised reply): the header goes out and
the ring is empty. -/
theorem session_step_tx_single_unlink (le : Bool) (net : Transport) (hnet : net.good)
    (p : usb_packet) (hr : p.ready = true)
    (hc : (tx_rewrite_unlinked p).hdr.base.command = USBIP_RET_UNLINK)
    (pr : Int) (hpr : pr ≠ 0) (link : est_conn) (reqs : List usbip_header) (merged : Nat)
    (wire : List (List Nat)) :
    ∃ link1, session_step le net (session_of [p] pr link reqs merged wire) session_event.tx =
      some (session_of [] (pr - 1) link1 reqs merged
        (wire ++ [(usbip_ret_unlink_header_to_network_endian le
          (usbip_base_header_to_network_endian le (tx_rewrite_unlinked p).hdr)).mem le])) := by
  have h3 : (tx_rewrite_unlinked p).hdr.base.command ≠ USBIP_RET_SUBMIT := by
    rw [hc]; decide
  have hs := (network_send_data_good net hnet link
    ((usbip_ret_unlink_header_to_network_endian le
      (usbip_base_header_to_network_endian le (tx_rewrite_unlinked p).hdr)).mem le)).1
  have hpk : tx_server_packet le net link p =
      { running := true,
        link := (network_send_data net link
          ((usbip_ret_unlink_header_to_network_endian le
            (usbip_base_header_to_network_endian le (tx_rewrite_unlinked p).hdr)).mem le)).2,
        hdr_sent := some ((usbip_ret_unlink_header_to_network_endian le
          (usbip_base_header_to_network_endian le (tx_rewrite_unlinked p).hdr)).mem le) } := by
    have h34 : USBIP_RET_UNLINK ≠ USBIP_RET_SUBMIT := by decide
    unfold tx_server_packet
    simp only [hc, h34, if_false, if_true, hs, Bool.not_true, Bool.false_eq_true]
  refine ⟨(network_send_data net link
    ((usbip_ret_unlink_header_to_network_endian le
      (usbip_base_header_to_network_endian le (tx_rewrite_unlinked p).hdr)).mem le)).2, ?_⟩
  simp only [session_step, session_of, tx_server_iteration, fwd_dev_of, Bool.false_eq_true,
    if_false, hpr, dequeue_ready_packet, hr, if_true, hpk, Option.toList]

/-- A TX round when the ring holds one packet, ready, not unlinked and marked
RET_SUBMIT by the callback, with a non-isochronous transfer: the header goes out and
the ring is empty. -/
theorem session_step_tx_single_submit (le : Bool) (net : Transport) (hnet : net.good)
    (p : usb_packet) (x : libusb_transfer) (hr : p.ready = true) (hu : p.unlinked = 0)
    (hc : p.hdr.base.command = USBIP_RET_SUBMIT) (hx : p.xfer = some x)
    (hty : x.type ≠ USB_ENDPOINT_XFER_ISOC)
    (pr : Int) (hpr : pr ≠ 0) (link : est_conn) (reqs : List usbip_header) (merged : Nat)
    (wire : List (List Nat)) :
    ∃ link1, session_step le net (session_of [p] pr link reqs merged wire) session_event.tx =
      some (session_of [] (pr - 1) link1 reqs merged
        (wire ++ [(usbip_ret_submit_header_to_network_endian le
          (usbip_base_header_to_network_endian le p.hdr)).mem le])) := by
  have hrw : tx_rewrite_unlinked p = p := tx_rewrite_unlinked_zero p hu
  have hs := (network_send_data_good net hnet link
    ((usbip_ret_submit_header_to_network_endian le
      (usbip_base_header_to_network_endian le p.hdr)).mem le)).1
  have hd := send_xfer_data_good net hnet x p.hdr.base.direction
    (network_send_data net link
      ((usbip_ret_submit_header_to_network_endian le
        (usbip_base_header_to_network_endian le p.hdr)).mem le)).2
  have hpk : tx_server_packet le net link p =
      { running := true,
        link := (send_xfer_data net x p.hdr.base.direction
          (network_send_data net link
            ((usbip_ret_submit_header_to_network_endian le
              (usbip_base_header_to_network_endian le p.hdr)).mem le)).2).2,
        hdr_sent := some ((usbip_ret_submit_header_to_network_endian le
          (usbip_base_header_to_network_endian le p.hdr)).mem le) } := by
    unfold tx_server_packet
    simp only [hrw, hc, if_true, hs, Bool.not_true, Bool.false_eq_true, if_false, hx, hty, hd]
  refine ⟨(send_xfer_data net x p.hdr.base.direction
    (network_send_data net link
      ((usbip_ret_submit_header_to_network_endian le
        (usbip_base_header_to_network_endian le p.hdr)).mem le)).2).2, ?_⟩
  simp only [session_step, session_of, tx_server_iteration, fwd_dev_of, Bool.false_eq_true,
    if_false, hpr, dequeue_ready_packet, hr, if_true, hpk, Option.toList]

/-- What the completion leaves in the packet. -/
theorem packet_completed_fields (p : usb_packet) (x : libusb_transfer) (res : xfer_result) :
    (packet_completed p x res).hdr.base.seqnum = p.hdr.base.seqnum ∧
    (packet_completed p x res).unlinked = p.unlinked ∧
    (packet_completed p x res).ready = true ∧
    (packet_completed p x res).xfer = some (x.completed res) ∧
    (res.status ≠ LIBUSB_TRANSFER_CANCELLED → res.status ≠ LIBUSB_TRANSFER_NO_DEVICE →
      (packet_completed p x res).hdr.base.command = USBIP_RET_SUBMIT ∧
      (packet_completed p x res).hdr.w0 = u32_of_int (convert_libusb_status res.status)) := by
  obtain ⟨h1, h2, h3, h4, h5, _⟩ := xfer_completion_callback_packet_fields
    { p with xfer := some (x.completed res) } (x.completed res)
  exact ⟨h1, h2, h3, h4, h5⟩

theorem session_run_tx_idle_of (le : Bool) (net : Transport) (ring : List usb_packet)
    (link : est_conn) (reqs : List usbip_header) (merged : Nat) (wire : List (List Nat))
    (n : Nat) :
    session_run le net (session_of ring 0 link reqs merged wire)
      (List.replicate n session_event.tx) = some (session_of ring 0 link reqs merged wire) :=
  session_run_tx_idle le net _ rfl rfl n

theorem convert_libusb_status_range (s : Int) :
    -2147483648 ≤ convert_libusb_status s ∧ convert_libusb_status s < 2147483648 := by
  unfold convert_libusb_status
  simp only [ETIMEDOUT, EIO, ECONNRESET, EPIPE, ESHUTDOWN, EOVERFLOW, ENOENT]
  split_ifs <;> constructor <;> omega

/-- C9 (as amended): the session receives CMD_SUBMIT seq 10 (bulk IN, 64 bytes) and
then CMD_UNLINK seq 11 for it; the transfer completes with any status but
NO_DEVICE (CANCELLED only once cancellation was requested), before or after the
unlink; TX runs any number of rounds in between and at least once at the end; no
send fails.  Each of RX, TX and the completion callback acts as one step.  Then
the ring ends empty and the reply headers on the wire are: RET_SUBMIT seq 10 with
the converted completion status followed by RET_UNLINK seq 11 status 0, when the
transfer completed and TX sent its reply before the unlink arrived; RET_UNLINK
seq 11 with status -ECONNRESET and nothing else, in every other interleaving.  No
seqnum appears twice. -/
theorem C9_unlink_race_outcomes (le : Bool) (net : Transport) (res : xfer_result)
    (unlink_first : Bool) (n0 n1 n2 n3 : Nat) (hnet : net.good)
    (hnd : res.status ≠ LIBUSB_TRANSFER_NO_DEVICE)
    (hcan : res.status = LIBUSB_TRANSFER_CANCELLED → unlink_first = true) :
    ∃ s, s5_final le net unlink_first n0 n1 n2 (n3 + 1) res = some s ∧
    s.dev.fwd.buffer_head = [] ∧
    s.dev.fwd.terminate = false ∧
    s.wire.map wire_reply =
      (if unlink_first = false ∧ 0 < n2 then
        [(USBIP_RET_SUBMIT, 10, convert_libusb_status res.status), (USBIP_RET_UNLINK, 11, 0)]
       else [(USBIP_RET_UNLINK, 11, -ECONNRESET)]) ∧
    (s.wire.map wire_seqnum).Nodup := by
  have hstart : session_start fwd_dev = session_of [] 0 link0 [] 0 [] := rfl
  have e0 : (1 : Int) - 1 = 0 := by norm_num
  have e1 : (0 : Int) + 1 = 1 := by norm_num
  have hone : (1 : Int) ≠ 0 := by norm_num
  have key : ∃ link1 img,
      s5_final le net unlink_first n0 n1 n2 (n3 + 1) res =
        some (session_of [] 0 link1 [cmd_submit_in 10, cmd_unlink 11 10]
          (if unlink_first = false ∧ 0 < n2 then 0 else 1) img) ∧
      img.map wire_reply =
        (if unlink_first = false ∧ 0 < n2 then
          [(USBIP_RET_SUBMIT, 10, convert_libusb_status res.status), (USBIP_RET_UNLINK, 11, 0)]
         else [(USBIP_RET_UNLINK, 11, -ECONNRESET)]) := by
    unfold s5_final s5_schedule s5_submit s5_unlink
    rw [hstart]
    simp only [session_run_append, session_run_tx_idle_of, session_run_cons, session_run_nil,
      Option.some_bind, Option.bind_some]
    rw [session_step_submit_in le net 10 (by decide)]
    simp only [List.nil_append, session_run_tx_idle_of, Option.some_bind]
    cases unlink_first with
    | true =>
      simp only [if_true, session_run_append, session_run_cons, session_run_nil,
        Option.some_bind, Option.bind_some]
      rw [session_step_unlink_found le net 11 10 (by decide) (by decide) (packet_in 10) rfl
        transfer_in rfl]
      simp only [session_run_tx_idle_of, Option.some_bind]
      rw [session_step_complete_single le net (packet_unlinked 11 (packet_in 10) transfer_in)
        transfer_in_cancel res rfl rfl (Or.inr rfl) hnd, e1]
      obtain ⟨_, hunl, hrdy, _, _⟩ := packet_completed_fields
        (packet_unlinked 11 (packet_in 10) transfer_in) transfer_in_cancel res
      have hu11 : (packet_unlinked 11 (packet_in 10) transfer_in).unlinked = 11 := rfl
      rw [hu11] at hunl
      obtain ⟨r1, r2, r3⟩ := tx_rewrite_unlinked_set
        (packet_completed (packet_unlinked 11 (packet_in 10) transfer_in) transfer_in_cancel
          res)
        (by rw [hunl]; decide)
      obtain ⟨link1, hstep⟩ := session_step_tx_single_unlink le net hnet _ hrdy r1 1 hone link0
        ([cmd_submit_in 10] ++ [cmd_unlink 11 10]) (0 + 1) []
      rw [Option.some_bind, List.replicate_succ, session_run_cons, hstep, Option.some_bind, e0,
        session_run_tx_idle_of]
      refine ⟨link1, _, rfl, ?_⟩
      simp only [Bool.true_eq_false, false_and, if_false, List.nil_append, List.map_cons,
        List.map_nil]
      rw [wire_reply_ret_unlink, r1, r2, r3, hunl, int_of_u32_of_int _ (by decide) (by decide)]
      rfl
    | false =>
      have hnc : res.status ≠ LIBUSB_TRANSFER_CANCELLED := fun h => by
        have := hcan h
        exact absurd this (by decide)
      simp only [Bool.false_eq_true, if_false, session_run_append, session_run_cons,
        session_run_nil, Option.some_bind, Option.bind_some]
      rw [session_step_complete_single le net (packet_in 10) transfer_in res rfl rfl
        (Or.inl hnc) hnd, e1]
      simp only [Option.some_bind]
      obtain ⟨hseq, hunl, hrdy, hxf, hok⟩ := packet_completed_fields
        (packet_in 10) transfer_in res
      obtain ⟨hcmd, hw0⟩ := hok hnc hnd
      have hs10 : (packet_in 10).hdr.base.seqnum = 10 := rfl
      have hu0 : (packet_in 10).unlinked = 0 := rfl
      rw [hs10] at hseq
      rw [hu0] at hunl
      cases n2 with
      | zero =>
        simp only [List.replicate_zero, session_run_nil, Option.some_bind]
        rw [session_step_unlink_found le net 11 10 (by decide) (by decide) _ hseq _ hxf]
        obtain ⟨r1, r2, r3⟩ := tx_rewrite_unlinked_set
          (packet_unlinked 11 (packet_completed (packet_in 10) transfer_in res)
            (libusb_transfer.completed transfer_in res))
          (by simp [packet_unlinked])
        obtain ⟨link1, hstep⟩ := session_step_tx_single_unlink le net hnet
          (packet_unlinked 11 (packet_completed (packet_in 10) transfer_in res)
            (libusb_transfer.completed transfer_in res)) hrdy r1 1 hone
          link0 ([cmd_submit_in 10] ++ [cmd_unlink 11 10]) (0 + 1) []
        rw [Option.some_bind, List.replicate_succ, session_run_cons, hstep, Option.some_bind,
          e0, session_run_tx_idle_of]
        refine ⟨link1, _, rfl, ?_⟩
        simp only [lt_self_iff_false, and_false, if_false, List.nil_append, List.map_cons,
          List.map_nil]
        rw [wire_reply_ret_unlink, r1, r2, r3, int_of_u32_of_int _ (by decide) (by decide)]
        rfl
      | succ k =>
        obtain ⟨link1, hstep⟩ := session_step_tx_single_submit le net hnet
          (packet_completed (packet_in 10) transfer_in res)
          (libusb_transfer.completed transfer_in res) hrdy hunl hcmd hxf
          (show USB_ENDPOINT_XFER_BULK ≠ USB_ENDPOINT_XFER_ISOC by decide) 1 hone
          link0 [cmd_submit_in 10] 0 []
        rw [List.replicate_succ, session_run_cons, hstep, Option.some_bind, e0,
          session_run_tx_idle_of, Option.some_bind]
        rw [session_step_unlink_late le net 11 10 (by decide) (by decide), e1, Option.some_bind]
        obtain ⟨link2, hstep2⟩ := session_step_tx_single_unlink le net hnet
          (packet_late_unlink 11 10) rfl rfl 1 hone link1
          ([cmd_submit_in 10] ++ [cmd_unlink 11 10]) 0
          ([] ++ [(usbip_ret_submit_header_to_network_endian le
            (usbip_base_header_to_network_endian le
              (packet_completed (packet_in 10) transfer_in res).hdr)).mem le])
        rw [List.replicate_succ, session_run_cons, hstep2, Option.some_bind, e0,
          session_run_tx_idle_of]
        refine ⟨link2,
          [(usbip_ret_submit_header_to_network_endian le
            (usbip_base_header_to_network_endian le
              (packet_completed (packet_in 10) transfer_in res).hdr)).mem le,
           (usbip_ret_unlink_header_to_network_endian le
            (usbip_base_header_to_network_endian le
              (tx_rewrite_unlinked (packet_late_unlink 11 10)).hdr)).mem le], ?_, ?_⟩
        · simp
        · simp only [Nat.zero_lt_succ, and_self, if_true, List.nil_append, List.map_cons,
            List.map_append, List.map_nil, List.singleton_append]
          rw [wire_reply_ret_submit, wire_reply_ret_unlink, hcmd, hseq, hw0,
            int_of_u32_of_int _ (convert_libusb_status_range _).1
              (convert_libusb_status_range _).2]
          rfl
  obtain ⟨link1, img, hfinal, himg⟩ := key
  refine ⟨_, hfinal, rfl, rfl, himg, ?_⟩
  have hseqs : (session_of [] 0 link1 [cmd_submit_in 10, cmd_unlink 11 10]
      (if unlink_first = false ∧ 0 < n2 then 0 else 1) img).wire.map wire_seqnum =
      (img.map wire_reply).map (fun r => r.2.1) := by
    simp [session_of, wire_reply]
  rw [hseqs, himg]
  split_ifs
  · simp only [List.map_cons, List.map_nil]
    decide
  · decide

theorem C9_unlink_race_outcomes_witness :
    Transport.good net_all ∧
    (res_of LIBUSB_TRANSFER_COMPLETED 64).status ≠ LIBUSB_TRANSFER_NO_DEVICE ∧
    ((res_of LIBUSB_TRANSFER_COMPLETED 64).status = LIBUSB_TRANSFER_CANCELLED → false = true) ∧
    (∃ s, s5_final true net_all false 0 0 1 1 (res_of LIBUSB_TRANSFER_COMPLETED 64) = some s ∧
      s.wire.map wire_reply = [(USBIP_RET_SUBMIT, 10, 0), (USBIP_RET_UNLINK, 11, 0)]) :=
  ⟨net_all_good, by decide, by decide,
    (C9_unlink_race_outcomes true net_all (res_of LIBUSB_TRANSFER_COMPLETED 64) false 0 0 1 0
      net_all_good (by decide) (by decide)).imp (fun _ h => ⟨h.1, h.2.2.2.1⟩)⟩

theorem ntohl_lt (le : Bool) (x : Nat) : ntohl le x < 4294967296 := by
  cases le
  · simp only [ntohl, Bool.false_eq_true, if_false]
    omega
  · simp only [ntohl, if_true, bswap32]
    omega

/-- Either `handle_submit` fails and leaves the device alone, or it appends one
packet carrying the header, not ready and not unlinked. -/
theorem handle_submit_effect (le : Bool) (io : submit_io) (dev : server_usb_device)
    (hdr : usbip_header) :
    ((handle_submit le io dev hdr).1 = false ∧ (handle_submit le io dev hdr).2 = dev) ∨
    ((handle_submit le io dev hdr).1 = true ∧ ∃ x,
      (handle_submit le io dev hdr).2 =
        { dev with fwd := { dev.fwd with buffer_head := dev.fwd.buffer_head ++
          [{ ready := false, submitted := false, unlinked := 0, hdr := hdr,
             xfer := some x }] } }) := by
  have hsub : ∀ buf : List Nat,
      ((submit_xfer le io dev
          { ready := false, submitted := false, unlinked := 0, hdr := hdr, xfer := none }
          buf).1 = false ∧
        (submit_xfer le io dev
          { ready := false, submitted := false, unlinked := 0, hdr := hdr, xfer := none }
          buf).2 = dev) ∨
      ((submit_xfer le io dev
          { ready := false, submitted := false, unlinked := 0, hdr := hdr, xfer := none }
          buf).1 = true ∧ ∃ x,
        (submit_xfer le io dev
          { ready := false, submitted := false, unlinked := 0, hdr := hdr, xfer := none }
          buf).2 =
          { dev with fwd := { dev.fwd with buffer_head := dev.fwd.buffer_head ++
            [{ ready := false, submitted := false, unlinked := 0, hdr := hdr,
               xfer := some x }] } }) := by
    intro buf
    unfold submit_xfer
    simp only [enqueue_packet_eq]
    by_cases h1 : (!io.xfer_alloc_ok) = true
    · rw [if_pos h1]
      left; exact ⟨rfl, rfl⟩
    · rw [if_neg h1]
      split
      · left; exact ⟨rfl, rfl⟩
      · by_cases h2 : (!io.submit_ok) = true
        · rw [if_pos h2]
          left; exact ⟨rfl, rfl⟩
        · rw [if_neg h2]
          right; exact ⟨rfl, _, rfl⟩
  unfold handle_submit
  simp only []
  by_cases h1 : (!io.packet_alloc_ok) = true
  · rw [if_pos h1]
    left; exact ⟨rfl, rfl⟩
  · rw [if_neg h1]
    by_cases h2 : (!io.buffer_alloc_ok) = true
    · rw [if_pos h2]
      left; exact ⟨rfl, rfl⟩
    · rw [if_neg h2]
      by_cases h3 : hdr.base.direction = USBIP_DIR_IN
      · rw [if_pos h3]
        exact hsub _
      · rw [if_neg h3]
        by_cases h4 : hdr.base.direction = USBIP_DIR_OUT
        · rw [if_pos h4]
          by_cases h5 : hdr.w1 ≠ 0
          · rw [if_pos h5]
            cases io.out_data with
            | none => left; exact ⟨rfl, rfl⟩
            | some payload => exact hsub _
          · rw [if_neg h5]
            exact hsub _
        · rw [if_neg h4]
          left; exact ⟨rfl, rfl⟩

/-- What `handle_unlink` does when it has a result, by whether the target is in the
ring. -/
theorem handle_unlink_effect (a : Bool) (dev : server_usb_device) (hdr : usbip_header)
    (r : Bool × server_usb_device) (hr : handle_unlink a dev hdr = some r) :
    (∃ pre p x post, dev.fwd.buffer_head = pre ++ p :: post ∧ p.xfer = some x ∧
      (∃ f, unlink_packet dev.fwd hdr.w0 hdr.base.seqnum = some (true, f)) ∧
      r = (true, { dev with fwd :=
          { dev.fwd with
            buffer_head := pre ++ packet_unlinked hdr.base.seqnum p x :: post } })) ∨
    ((∃ f, unlink_packet dev.fwd hdr.w0 hdr.base.seqnum = some (false, f)) ∧
      ((a = false ∧ r = (false, dev)) ∨
       (a = true ∧ r =
        (true, { dev with fwd :=
          { dev.fwd with
            buffer_head := dev.fwd.buffer_head ++
              [{ ready := true, submitted := false, unlinked := 0,
                 hdr := { hdr with base := { hdr.base with command := USBIP_RET_UNLINK },
                                   w0 := 0 },
                 xfer := none }],
            packets_ready := dev.fwd.packets_ready + 1 } })))) := by
  by_cases h : ∃ p ∈ dev.fwd.buffer_head, p.hdr.base.seqnum = hdr.w0
  · left
    obtain ⟨pre, p, post, he, hpre, hp⟩ :=
      exists_first_split (fun q : usb_packet => q.hdr.base.seqnum = hdr.w0) dev.fwd.buffer_head h
    have hf := unlink_packet_found dev.fwd hdr.w0 hdr.base.seqnum pre p post he hpre hp
    cases hx : p.xfer with
    | none =>
      rw [unlink_mark_no_xfer _ p hx] at hf
      unfold handle_unlink at hr
      simp [hf] at hr
    | some x =>
      rw [unlink_mark_of_xfer _ p x hx] at hf
      refine ⟨pre, p, x, post, he, hx, ⟨_, hf⟩, ?_⟩
      unfold handle_unlink at hr
      simp [hf] at hr
      exact hr.symm
  · right
    have hn : ∀ q ∈ dev.fwd.buffer_head, q.hdr.base.seqnum ≠ hdr.w0 :=
      fun q hq hc => h ⟨q, hq, hc⟩
    have hf := unlink_packet_not_found dev.fwd hdr.w0 hdr.base.seqnum hn
    refine ⟨⟨_, hf⟩, ?_⟩
    cases a with
    | false =>
      left
      refine ⟨rfl, ?_⟩
      unfold handle_unlink at hr
      simp [hf] at hr
      exact hr.symm
    | true =>
      right
      refine ⟨rfl, ?_⟩
      unfold handle_unlink at hr
      simp [hf, enqueue_packet_eq] at hr
      exact hr.symm

/-- A TX round that goes on has sent a header. -/
theorem tx_server_packet_running (le : Bool) (net : Transport) (link : est_conn)
    (p : usb_packet) (h : (tx_server_packet le net link p).running = true) :
    ∃ bytes, (tx_server_packet le net link p).hdr_sent = some bytes := by
  cases hs : (tx_server_packet le net link p).hdr_sent with
  | some bytes => exact ⟨bytes, rfl⟩
  | none =>
    exfalso
    unfold tx_server_packet at h hs
    simp only [] at h hs
    by_cases h3 : (tx_rewrite_unlinked p).hdr.base.command = USBIP_RET_SUBMIT
    · rw [if_pos h3] at h hs
      by_cases hsend : (!(network_send_data net link
          ((usbip_ret_submit_header_to_network_endian le
            (usbip_base_header_to_network_endian le
              (tx_rewrite_unlinked p).hdr)).mem le)).1) = true
      · rw [if_pos hsend] at h
        exact absurd h (by simp)
      · rw [if_neg hsend] at hs
        cases hx : (tx_rewrite_unlinked p).xfer with
        | none => rw [hx] at hs; exact absurd hs (by simp)
        | some x => rw [hx] at hs; exact absurd hs (by simp)
    · rw [if_neg h3] at h hs
      by_cases h4 : (tx_rewrite_unlinked p).hdr.base.command = USBIP_RET_UNLINK
      · rw [if_pos h4] at h hs
        by_cases hsend : (!(network_send_data net link
            ((usbip_ret_unlink_header_to_network_endian le
              (usbip_base_header_to_network_endian le
                (tx_rewrite_unlinked p).hdr)).mem le)).1) = true
        · rw [if_pos hsend] at h
          exact absurd h (by simp)
        · rw [if_neg hsend] at hs
          exact absurd hs (by simp)
      · rw [if_neg h4] at h
        exact absurd h (by simp)

/-- Either `dequeue_ready_packet` finds nothing and changes nothing, or it takes
one packet out of the ring. -/
theorem dequeue_ready_packet_effect (f_dev : forward_info) :
    dequeue_ready_packet f_dev = (none, f_dev) ∨
    ∃ pre p post, f_dev.buffer_head = pre ++ p :: post ∧
      dequeue_ready_packet f_dev =
        (some p, { f_dev with buffer_head := pre ++ post,
                              packets_ready := f_dev.packets_ready - 1 }) := by
  by_cases h : ∃ p ∈ f_dev.buffer_head, p.ready = true
  · right
    obtain ⟨pre, p, post, he, _, _, hd⟩ := dequeue_ready_packet_some f_dev h
    exact ⟨pre, p, post, he, hd⟩
  · left
    apply dequeue_ready_packet_none
    intro p hp
    cases hr : p.ready with
    | false => rfl
    | true => exact absurd ⟨p, hp, hr⟩ h

theorem packet_inv_mono (r x : List usbip_header) (p : usb_packet) (h : packet_inv r p) :
    packet_inv (r ++ x) p := by
  obtain ⟨h1, h2, ⟨q, hq, hqs⟩, h4⟩ := h
  refine ⟨h1, h2, ⟨q, List.mem_append_left _ hq, hqs⟩, ?_⟩
  intro hu
  obtain ⟨q2, hq2, hq2s⟩ := h4 hu
  exact ⟨q2, List.mem_append_left _ hq2, hq2s⟩

/-- What reading one request does to the ring when it has a result, by what became
of the header read. -/
theorem rx_server_receive_effect (le : Bool) (io : submit_io) (dev : server_usb_device)
    (raw : Option usbip_header) (r : Bool × server_usb_device)
    (hr : rx_server_receive le io dev raw = some r) :
    (rx_handled le raw = none ∧ r.1 = false ∧
      r.2.fwd.buffer_head = dev.fwd.buffer_head ∧
      r.2.fwd.packets_ready = dev.fwd.packets_ready ∧
      r.2.fwd.terminate = true) ∨
    (∃ hdr, rx_handled le raw = some hdr ∧ hdr.base.seqnum < 4294967296 ∧
      ((r.1 = false ∧ r.2.fwd.terminate = true ∧
        r.2.fwd.buffer_head = dev.fwd.buffer_head ∧
        r.2.fwd.packets_ready = dev.fwd.packets_ready) ∨
       (r.1 = true ∧ rx_merges dev (some hdr) = false ∧
        r.2.fwd.terminate = dev.fwd.terminate ∧
        ∃ p, r.2.fwd.buffer_head = dev.fwd.buffer_head ++ [p] ∧
          p.hdr.base.seqnum = hdr.base.seqnum ∧ p.unlinked = 0 ∧
          r.2.fwd.packets_ready = dev.fwd.packets_ready + (if p.ready then 1 else 0)) ∨
       (r.1 = true ∧ rx_merges dev (some hdr) = true ∧
        r.2.fwd.terminate = dev.fwd.terminate ∧
        r.2.fwd.packets_ready = dev.fwd.packets_ready ∧
        ∃ pre p x post, dev.fwd.buffer_head = pre ++ p :: post ∧ p.xfer = some x ∧
          r.2.fwd.buffer_head = pre ++ packet_unlinked hdr.base.seqnum p x :: post))) := by
  unfold rx_handled
  unfold rx_server_receive at hr
  cases raw with
  | none =>
    left
    simp only [Option.some.injEq] at hr
    subst hr
    exact ⟨rfl, rfl, rfl, rfl, rfl⟩
  | some raw =>
    simp only [] at hr ⊢
    have hseq0 : (usbip_base_header_to_host_endian le raw).base.seqnum < 4294967296 :=
      ntohl_lt le _
    by_cases hu : (usbip_base_header_to_host_endian le raw).base.command = USBIP_CMD_UNLINK
    · rw [if_pos hu] at hr ⊢
      right
      refine ⟨_, rfl, hseq0, ?_⟩
      have hcmd : (usbip_cmd_unlink_header_to_host_endian le
          (usbip_base_header_to_host_endian le raw)).base.command = USBIP_CMD_UNLINK := hu
      cases hh : handle_unlink io.packet_alloc_ok dev
          (usbip_cmd_unlink_header_to_host_endian le (usbip_base_header_to_host_endian le raw))
        with
      | none => rw [hh] at hr; exact absurd hr (by simp)
      | some r0 =>
        rw [hh] at hr
        simp only [Option.some.injEq] at hr
        rcases handle_unlink_effect io.packet_alloc_ok dev _ r0 hh
          with ⟨pre, p, x, post, he, hx, ⟨f, hfound⟩, hres⟩ | ⟨⟨f, hnf⟩, ⟨_, hres⟩ | ⟨_, hres⟩⟩
        · right; right
          subst hres
          subst hr
          refine ⟨rfl, ?_, rfl, rfl, pre, p, x, post, he, hx, rfl⟩
          simp only [rx_merges, hcmd, hfound, decide_True, Bool.and_self]
        · left
          subst hres
          subst hr
          exact ⟨rfl, rfl, rfl, rfl⟩
        · right; left
          subst hres
          subst hr
          refine ⟨rfl, ?_, rfl, _, rfl, rfl, rfl, ?_⟩
          · simp only [rx_merges, hcmd, hnf, decide_True, Bool.and_false]
          · simp
    · rw [if_neg hu] at hr ⊢
      by_cases hs : (usbip_base_header_to_host_endian le raw).base.command = USBIP_CMD_SUBMIT
      · rw [if_pos hs] at hr ⊢
        right
        refine ⟨_, rfl, hseq0, ?_⟩
        have hcmd : (usbip_cmd_submit_header_to_host_endian le
            (usbip_base_header_to_host_endian le raw)).base.command ≠ USBIP_CMD_UNLINK := hu
        have hm : rx_merges dev (some (usbip_cmd_submit_header_to_host_endian le
            (usbip_base_header_to_host_endian le raw))) = false := by
          simp only [rx_merges, hcmd, decide_False, Bool.false_and]
        simp only [Option.some.injEq] at hr
        rcases handle_submit_effect le io dev
          (usbip_cmd_submit_header_to_host_endian le (usbip_base_header_to_host_endian le raw))
          with ⟨h1, h2⟩ | ⟨h1, x, h2⟩
        · left
          simp only [h1, h2, Bool.not_false, if_true] at hr
          subst hr
          exact ⟨rfl, rfl, rfl, rfl⟩
        · right; left
          simp only [h1, h2, Bool.not_true, Bool.false_eq_true, if_false] at hr
          subst hr
          refine ⟨rfl, hm, rfl, _, rfl, rfl, rfl, ?_⟩
          simp
      · rw [if_neg hs] at hr ⊢
        left
        simp only [Option.some.injEq] at hr
        subst hr
        exact ⟨rfl, rfl, rfl, rfl, rfl⟩

/-- What one RX round does to the ring when it has a result, by what became of the
header it read. -/
theorem rx_server_iteration_effect (le : Bool) (io : submit_io) (dev : server_usb_device)
    (raw : Option usbip_header) (r : Bool × server_usb_device)
    (hr : rx_server_iteration le io dev raw = some r) :
    (rx_request le dev raw = none ∧
      r.2.fwd.buffer_head = dev.fwd.buffer_head ∧
      r.2.fwd.terminate = true) ∨
    (∃ hdr, rx_request le dev raw = some hdr ∧ hdr.base.seqnum < 4294967296 ∧
      dev.fwd.terminate = false ∧
      ((r.2.fwd.terminate = true ∧
        r.2.fwd.buffer_head = dev.fwd.buffer_head) ∨
       (rx_merges dev (some hdr) = false ∧
        r.2.fwd.terminate = false ∧
        ∃ p, r.2.fwd.buffer_head =
          dev.fwd.buffer_head ++ [p] ∧
          p.hdr.base.seqnum = hdr.base.seqnum ∧ p.unlinked = 0) ∨
       (rx_merges dev (some hdr) = true ∧
        r.2.fwd.terminate = false ∧
        ∃ pre p x post, dev.fwd.buffer_head = pre ++ p :: post ∧ p.xfer = some x ∧
          r.2.fwd.buffer_head =
            pre ++ packet_unlinked hdr.base.seqnum p x :: post))) := by
  unfold rx_request
  unfold rx_server_iteration at hr
  by_cases ht : dev.fwd.terminate = true
  · rw [if_pos ht] at hr ⊢
    simp only [Option.some.injEq] at hr
    subst hr
    left; exact ⟨rfl, rfl, rfl⟩
  · rw [if_neg ht] at hr ⊢
    have htf : dev.fwd.terminate = false := by simpa using ht
    rcases rx_server_receive_effect le io dev raw r hr with
      ⟨h1, _, h2, _, h3⟩ | ⟨hdr, h1, h2, h3 | h3 | h3⟩
    · left; exact ⟨h1, h2, h3⟩
    · right; exact ⟨hdr, h1, h2, htf, Or.inl ⟨h3.2.1, h3.2.2.1⟩⟩
    · right
      obtain ⟨_, hm, hterm, p, hring, hps, hpu, _⟩ := h3
      exact ⟨hdr, h1, h2, htf, Or.inr (Or.inl ⟨hm, hterm.trans htf, p, hring, hps, hpu⟩)⟩
    · right
      obtain ⟨_, hm, hterm, _, hring⟩ := h3
      exact ⟨hdr, h1, h2, htf, Or.inr (Or.inr ⟨hm, hterm.trans htf, hring⟩)⟩

/-- The completion callback keeps the ring's length, and each packet's seqnum and
`unlinked`; it never clears `terminate`. -/
theorem xfer_completion_callback_effect (f : forward_info) (i : Nat) (res : xfer_result) :
    (xfer_completion_callback f i res).buffer_head.length = f.buffer_head.length ∧
    ((xfer_completion_callback f i res).terminate = false → f.terminate = false) ∧
    (∀ p1 ∈ (xfer_completion_callback f i res).buffer_head, ∃ p ∈ f.buffer_head,
      p1.hdr.base.seqnum = p.hdr.base.seqnum ∧ p1.unlinked = p.unlinked) := by
  unfold xfer_completion_callback
  cases hg : f.buffer_head.get? i with
  | none => exact ⟨rfl, id, fun p hp => ⟨p, hp, rfl, rfl⟩⟩
  | some packet =>
    simp only []
    cases hx : packet.xfer with
    | none => exact ⟨rfl, id, fun p hp => ⟨p, hp, rfl, rfl⟩⟩
    | some x =>
      simp only []
      have hmem : packet ∈ f.buffer_head := List.get?_mem hg
      refine ⟨by simp, ?_, ?_⟩
      · intro h
        by_cases hs : (x.completed res).status = LIBUSB_TRANSFER_NO_DEVICE
        · simp [hs] at h
        · simpa [hs] using h
      · intro p1 hp1
        rcases List.mem_or_eq_of_mem_set hp1 with h | h
        · exact ⟨p1, h, rfl, rfl⟩
        · obtain ⟨h1, h2, _⟩ := xfer_completion_callback_packet_fields
            { packet with xfer := some (x.completed res) } (x.completed res)
          exact ⟨packet, hmem, by rw [h, h1], by rw [h, h2]⟩

/-- What one TX round does: nothing is sent and the ring stays, or one packet
leaves the ring and any header sent is its reply. -/
theorem tx_server_iteration_effect (le : Bool) (net : Transport) (dev : server_usb_device) :
    ((tx_server_iteration le net dev).2 = none ∧
      (tx_server_iteration le net dev).1.fwd.buffer_head = dev.fwd.buffer_head ∧
      ((tx_server_iteration le net dev).1.fwd.terminate = false → dev.fwd.terminate = false)) ∨
    (∃ pre p post, dev.fwd.buffer_head = pre ++ p :: post ∧
      (tx_server_iteration le net dev).1.fwd.buffer_head = pre ++ post ∧
      dev.fwd.terminate = false ∧
      ((tx_server_iteration le net dev).1.fwd.terminate = false →
        ∃ b, (tx_server_iteration le net dev).2 = some b) ∧
      (∀ b, (tx_server_iteration le net dev).2 = some b →
        (wire_command b = USBIP_RET_SUBMIT ∨ wire_command b = USBIP_RET_UNLINK) ∧
        wire_seqnum b =
          (if p.unlinked ≠ 0 then p.unlinked else p.hdr.base.seqnum) % 4294967296)) := by
  unfold tx_server_iteration
  by_cases ht : dev.fwd.terminate = true
  · rw [if_pos ht]
    left; exact ⟨rfl, rfl, id⟩
  · rw [if_neg ht]
    have htf : dev.fwd.terminate = false := by simpa using ht
    by_cases hp : dev.fwd.packets_ready = 0
    · rw [if_pos hp]
      left; exact ⟨rfl, rfl, id⟩
    · rw [if_neg hp]
      cases hl : dev.fwd.link with
      | none =>
        left
        refine ⟨rfl, rfl, ?_⟩
        intro h
        exact absurd h (by simp)
      | some link =>
        simp only []
        rcases dequeue_ready_packet_effect dev.fwd with hd | ⟨pre, p, post, he, hd⟩
        · rw [hd]
          left; exact ⟨rfl, rfl, id⟩
        · rw [hd]
          right
          refine ⟨pre, p, post, he, rfl, htf, ?_, ?_⟩
          · intro h
            simp only [htf] at h
            by_cases hr : (tx_server_packet le net link p).running = true
            · exact tx_server_packet_running le net link p hr
            · simp [hr] at h
          · intro b hb
            simp only [] at hb
            rcases tx_server_packet_hdr_sent le net link p b hb with ⟨hc, hbe⟩ | ⟨hc, hbe⟩
            · have hw := wire_reply_ret_submit le (tx_rewrite_unlinked p).hdr
              rw [← hbe, hc] at hw
              refine ⟨Or.inl (congrArg Prod.fst hw), ?_⟩
              have h2 : wire_seqnum b = (tx_rewrite_unlinked p).hdr.base.seqnum % 4294967296 :=
                congrArg (fun x => x.2.1) hw
              rw [h2]
              by_cases hu : p.unlinked ≠ 0
              · rw [if_pos hu, (tx_rewrite_unlinked_set p hu).2.1]
              · rw [if_neg hu, tx_rewrite_unlinked_zero p (by simpa using hu)]
            · have hw := wire_reply_ret_unlink le (tx_rewrite_unlinked p).hdr
              rw [← hbe, hc] at hw
              refine ⟨Or.inr (congrArg Prod.fst hw), ?_⟩
              have h2 : wire_seqnum b = (tx_rewrite_unlinked p).hdr.base.seqnum % 4294967296 :=
                congrArg (fun x => x.2.1) hw
              rw [h2]
              by_cases hu : p.unlinked ≠ 0
              · rw [if_pos hu, (tx_rewrite_unlinked_set p hu).2.1]
              · rw [if_neg hu, tx_rewrite_unlinked_zero p (by simpa using hu)]

theorem reply_seqnum_mem (r : List usbip_header) (p : usb_packet) (h : packet_inv r p) :
    p.reply_seqnum < 4294967296 ∧ ∃ q ∈ r, q.base.seqnum = p.reply_seqnum := by
  unfold usb_packet.reply_seqnum
  by_cases hu : p.unlinked ≠ 0
  · rw [if_pos hu]
    exact ⟨h.2.1, h.2.2.2 hu⟩
  · rw [if_neg hu]
    exact ⟨h.1, h.2.2.1⟩

theorem ring_replies_middle (pre post : List usb_packet) (p : usb_packet) :
    ring_replies (pre ++ p :: post) = {p.reply_seqnum} + ring_replies (pre ++ post) := by
  unfold ring_replies
  rw [List.map_append, List.map_cons, List.map_append, ← Multiset.coe_add, ← Multiset.coe_add,
    ← Multiset.cons_coe, Multiset.add_cons, Multiset.singleton_add]

theorem ring_hidden_middle (pre post : List usb_packet) (p : usb_packet) :
    ring_hidden (pre ++ p :: post) = p.hidden_seqnum + ring_hidden (pre ++ post) := by
  unfold ring_hidden
  rw [List.map_append, List.map_cons, List.map_append, List.sum_append, List.sum_cons,
    List.sum_append]
  abel

theorem wire_seqnums_append (wire : List (List Nat)) (b : List Nat) :
    wire_seqnums (wire ++ [b]) = wire_seqnums wire + {wire_seqnum b} := by
  unfold wire_seqnums
  rw [List.map_append, ← Multiset.coe_add]
  rfl

theorem request_seqnums_append (r : List usbip_header) (q : usbip_header) :
    request_seqnums (r ++ [q]) = request_seqnums r + {q.base.seqnum} := by
  unfold request_seqnums
  rw [List.map_append, ← Multiset.coe_add]
  rfl

theorem list_set_split {α : Type} (l : List α) (i : Nat) (x y : α) (h : l.get? i = some x) :
    l = l.take i ++ x :: l.drop (i + 1) ∧ l.set i y = l.take i ++ y :: l.drop (i + 1) := by
  have hlt : i < l.length := by
    rcases Nat.lt_or_ge i l.length with h1 | h1
    · exact h1
    · rw [List.get?_eq_none.mpr h1] at h; cases h
  constructor
  · have h2 := List.get?_eq_get hlt
    rw [h2] at h
    injection h with h
    rw [← h]
    simp
  · rw [List.set_eq_take_append_cons_drop, if_pos hlt]

/-- The completion callback leaves the ring as it is or replaces one packet by one
with the same seqnum and `unlinked`; it never clears `terminate`. -/
theorem xfer_completion_callback_ring (f : forward_info) (i : Nat) (res : xfer_result) :
    ((xfer_completion_callback f i res).terminate = false → f.terminate = false) ∧
    ((xfer_completion_callback f i res).buffer_head = f.buffer_head ∨
     ∃ pre p post p1, f.buffer_head = pre ++ p :: post ∧
      (xfer_completion_callback f i res).buffer_head = pre ++ p1 :: post ∧
      p1.hdr.base.seqnum = p.hdr.base.seqnum ∧ p1.unlinked = p.unlinked) := by
  refine ⟨(xfer_completion_callback_effect f i res).2.1, ?_⟩
  unfold xfer_completion_callback
  cases hg : f.buffer_head.get? i with
  | none => exact Or.inl rfl
  | some packet =>
    simp only []
    cases hx : packet.xfer with
    | none => exact Or.inl rfl
    | some x =>
      simp only []
      obtain ⟨h1, h2, _⟩ := xfer_completion_callback_packet_fields
        { packet with xfer := some (x.completed res) } (x.completed res)
      exact Or.inr ⟨_, packet, _, _, (list_set_split _ i packet packet hg).1,
        (list_set_split _ i packet _ hg).2, h1, h2⟩

theorem reply_seqnum_of_fields (p p1 : usb_packet) (hs : p1.hdr.base.seqnum = p.hdr.base.seqnum)
    (hu : p1.unlinked = p.unlinked) :
    p1.reply_seqnum = p.reply_seqnum ∧ p1.hidden_seqnum = p.hidden_seqnum := by
  unfold usb_packet.reply_seqnum usb_packet.hidden_seqnum
  rw [hs, hu]
  exact ⟨rfl, rfl⟩

theorem packet_inv_of_fields (r : List usbip_header) (p p1 : usb_packet)
    (hs : p1.hdr.base.seqnum = p.hdr.base.seqnum) (hu : p1.unlinked = p.unlinked)
    (h : packet_inv r p) : packet_inv r p1 := by
  unfold packet_inv
  rw [hs, hu]
  exact h

/-- An RX round keeps `session_inv`. -/
theorem session_step_rx_inv (le : Bool) (net : Transport) (s : session)
    (raw : Option usbip_header) (io : submit_io) (h : session_inv s) (s2 : session)
    (hs : session_step le net s (.rx raw io) = some s2) : session_inv s2 := by
  obtain ⟨r, hr, hs1⟩ : ∃ r, rx_server_iteration le io s.dev raw = some r ∧
      s2 = { s with
             dev := r.2
             requests := s.requests ++ (rx_request le s.dev raw).toList
             merged := s.merged + (if rx_merges s.dev (rx_request le s.dev raw) then 1 else 0) } := by
    simp only [session_step, Option.map_eq_some'] at hs
    obtain ⟨r, hr, e⟩ := hs
    exact ⟨r, hr, e.symm⟩
  subst hs1
  set s1 : session :=
    { s with
      dev := r.2
      requests := s.requests ++ (rx_request le s.dev raw).toList
      merged := s.merged + (if rx_merges s.dev (rx_request le s.dev raw) then 1 else 0) }
    with hs1
  obtain ⟨hA, hP, hW⟩ := h
  have hWire : ∀ x, ∀ b ∈ s.wire,
      (wire_command b = USBIP_RET_SUBMIT ∨ wire_command b = USBIP_RET_UNLINK) ∧
      ∃ q ∈ s.requests ++ x, q.base.seqnum = wire_seqnum b := by
    intro x b hb
    obtain ⟨hc, q, hq, hqs⟩ := hW b hb
    exact ⟨hc, q, List.mem_append_left _ hq, hqs⟩
  rcases rx_server_iteration_effect le io s.dev raw r hr with
    ⟨hreq, hring, hterm⟩ | ⟨hdr, hreq, hlt, htf, hcase⟩
  · refine ⟨?_, ?_, hWire _⟩
    · intro ht
      have ht2 : r.2.fwd.terminate = false := ht
      rw [hterm] at ht2
      cases ht2
    · intro p hp
      have hp2 : p ∈ r.2.fwd.buffer_head := hp
      rw [hring] at hp2
      exact packet_inv_mono _ _ p (hP p hp2)
  · have hR : s1.requests = s.requests ++ [hdr] := by
      show s.requests ++ (rx_request le s.dev raw).toList = _
      rw [hreq]
      rfl
    have hM : s1.merged =
        s.merged + (if rx_merges s.dev (some hdr) then 1 else 0) := by
      show s.merged + (if rx_merges s.dev (rx_request le s.dev raw) then 1 else 0) = _
      rw [hreq]
    have hmemR : hdr ∈ s.requests ++ [hdr] := by simp
    rcases hcase with ⟨hterm, hring⟩ | ⟨hm, hterm, p, hring, hps, hpu⟩ |
      ⟨hm, hterm, pre, p, x, post, he, hx, hring⟩
    · refine ⟨?_, ?_, hWire _⟩
      · intro ht
        have ht2 : r.2.fwd.terminate = false := ht
        rw [hterm] at ht2
        cases ht2
      · intro p hp
        have hp2 : p ∈ r.2.fwd.buffer_head := hp
        rw [hring] at hp2
        exact packet_inv_mono _ _ p (hP p hp2)
    · refine ⟨?_, ?_, hWire _⟩
      · intro _
        obtain ⟨A, ⟨hcard, heq⟩, hle⟩ := hA htf
        have hrs : p.reply_seqnum = hdr.base.seqnum := by
          simp [usb_packet.reply_seqnum, hpu, hps]
        have hhs : p.hidden_seqnum = 0 := by
          simp [usb_packet.hidden_seqnum, hpu]
        refine ⟨A, ⟨?_, ?_⟩, ?_⟩
        · rw [hM, hm]
          simpa using hcard
        · show wire_seqnums s.wire +
            ring_replies r.2.fwd.buffer_head + A =
            request_seqnums s1.requests
          rw [hR, hring, request_seqnums_append, ← heq, ring_replies_middle, List.append_nil,
            hrs]
          abel
        · show ring_hidden r.2.fwd.buffer_head ≤ A
          rw [hring, ring_hidden_middle, List.append_nil, hhs, zero_add]
          exact hle
      · intro q hq
        have hq2 : q ∈ r.2.fwd.buffer_head := hq
        rw [hring] at hq2
        rw [hR]
        rcases List.mem_append.mp hq2 with h1 | h1
        · exact packet_inv_mono _ _ q (hP q h1)
        · have hqp : q = p := by simpa using h1
          rw [hqp]
          refine ⟨by rw [hps]; exact hlt, by rw [hpu]; decide, ⟨hdr, hmemR, hps.symm⟩, ?_⟩
          intro hne
          exact absurd hpu hne
    · have hpin : packet_inv s.requests p := hP p (by rw [he]; simp)
      refine ⟨?_, ?_, hWire _⟩
      · intro _
        obtain ⟨A, ⟨hcard, heq⟩, hle⟩ := hA htf
        rw [he, ring_replies_middle] at heq
        rw [he, ring_hidden_middle] at hle
        have hgoal : ∀ A1 : Multiset Nat, Multiset.card A1 = s.merged + 1 →
            wire_seqnums s.wire + ({(packet_unlinked hdr.base.seqnum p x).reply_seqnum} +
              ring_replies (pre ++ post)) + A1 = request_seqnums s.requests + {hdr.base.seqnum} →
            (packet_unlinked hdr.base.seqnum p x).hidden_seqnum + ring_hidden (pre ++ post) ≤ A1 →
            ∃ absorbed, session_accounts s1 absorbed ∧
              ring_hidden s1.dev.fwd.buffer_head ≤ absorbed := by
          intro A1 h1 h2 h3
          refine ⟨A1, ⟨?_, ?_⟩, ?_⟩
          · rw [hM, hm]
            simpa using h1
          · show wire_seqnums s.wire +
              ring_replies r.2.fwd.buffer_head + A1 =
              request_seqnums s1.requests
            rw [hR, hring, request_seqnums_append, ring_replies_middle]
            exact h2
          · show ring_hidden r.2.fwd.buffer_head ≤ A1
            rw [hring, ring_hidden_middle]
            exact h3
        by_cases hu : hdr.base.seqnum = 0
        · have hr1 : (packet_unlinked hdr.base.seqnum p x).reply_seqnum = p.hdr.base.seqnum := by
            simp [usb_packet.reply_seqnum, packet_unlinked, hu]
          have hh1 : (packet_unlinked hdr.base.seqnum p x).hidden_seqnum = 0 := by
            simp [usb_packet.hidden_seqnum, packet_unlinked, hu]
          rw [hr1, hh1, hu] at hgoal
          by_cases hv : p.unlinked ≠ 0
          · have hr0 : p.reply_seqnum = p.unlinked := by
              simp [usb_packet.reply_seqnum, hv]
            have hh0 : p.hidden_seqnum = {p.hdr.base.seqnum} := by
              simp [usb_packet.hidden_seqnum, hv]
            rw [hr0] at heq
            rw [hh0] at hle
            obtain ⟨c, hc⟩ := Multiset.le_iff_exists_add.mp hle
            apply hgoal ({0} + ({p.unlinked} + (ring_hidden (pre ++ post) + c)))
            · rw [← hcard, hc]
              simp only [Multiset.card_add, Multiset.card_singleton]
              omega
            · rw [← heq, hc]
              abel
            · exact Multiset.le_iff_exists_add.mpr ⟨{0} + {p.unlinked} + c, by abel⟩
          · have hv0 : p.unlinked = 0 := by simpa using hv
            have hr0 : p.reply_seqnum = p.hdr.base.seqnum := by
              simp [usb_packet.reply_seqnum, hv0]
            have hh0 : p.hidden_seqnum = 0 := by
              simp [usb_packet.hidden_seqnum, hv0]
            rw [hr0] at heq
            rw [hh0] at hle
            apply hgoal ({0} + A)
            · rw [← hcard]
              simp only [Multiset.card_add, Multiset.card_singleton]
              omega
            · rw [← heq]
              abel
            · exact le_trans hle (Multiset.le_iff_exists_add.mpr ⟨{0}, by abel⟩)
        · have hr1 : (packet_unlinked hdr.base.seqnum p x).reply_seqnum = hdr.base.seqnum := by
            simp [usb_packet.reply_seqnum, packet_unlinked, hu]
          have hh1 : (packet_unlinked hdr.base.seqnum p x).hidden_seqnum = {p.hdr.base.seqnum} := by
            simp [usb_packet.hidden_seqnum, packet_unlinked, hu]
          rw [hr1, hh1] at hgoal
          apply hgoal ({p.reply_seqnum} + A)
          · rw [← hcard]
            simp only [Multiset.card_add, Multiset.card_singleton]
            omega
          · rw [← heq]
            abel
          · by_cases hv : p.unlinked ≠ 0
            · have hh0 : p.hidden_seqnum = {p.hdr.base.seqnum} := by
                simp [usb_packet.hidden_seqnum, hv]
              rw [hh0] at hle
              exact le_trans hle (Multiset.le_iff_exists_add.mpr ⟨{p.reply_seqnum}, by abel⟩)
            · have hv0 : p.unlinked = 0 := by simpa using hv
              have hr0 : p.reply_seqnum = p.hdr.base.seqnum := by
                simp [usb_packet.reply_seqnum, hv0]
              have hh0 : p.hidden_seqnum = 0 := by
                simp [usb_packet.hidden_seqnum, hv0]
              rw [hh0, zero_add] at hle
              rw [hr0]
              exact add_le_add_left hle _
      · intro q hq
        have hq2 : q ∈ r.2.fwd.buffer_head := hq
        rw [hring] at hq2
        rw [hR]
        have hold : ∀ x ∈ s.dev.fwd.buffer_head, packet_inv (s.requests ++ [hdr]) x :=
          fun x hx => packet_inv_mono _ _ x (hP x hx)
        rcases List.mem_append.mp hq2 with h1 | h1
        · exact hold q (by rw [he]; exact List.mem_append_left _ h1)
        · rcases List.mem_cons.mp h1 with h2 | h2
          · rw [h2]
            have hp2 := hold p (by rw [he]; simp)
            exact ⟨hp2.1, hlt, hp2.2.2.1, fun _ => ⟨hdr, hmemR, rfl⟩⟩
          · exact hold q (by rw [he]; exact List.mem_append_right _ (List.mem_cons_of_mem _ h2))

/-- A completion keeps `session_inv`. -/
theorem session_step_complete_inv (le : Bool) (net : Transport) (s : session) (i : Nat)
    (res : xfer_result) (h : session_inv s) (s2 : session)
    (hs : session_step le net s (.complete i res) = some s2) : session_inv s2 := by
  have hs1 : s2 = (if complete_enabled s.dev.fwd i res = true then
      { s with dev := { s.dev with fwd := xfer_completion_callback s.dev.fwd i res } }
      else s) := by
    simp only [session_step] at hs
    split_ifs at hs ⊢ <;> exact (Option.some.inj hs).symm
  subst hs1
  obtain ⟨hA, hP, hW⟩ := h
  by_cases hen : complete_enabled s.dev.fwd i res = true
  · rw [if_pos hen]
    obtain ⟨hterm, hring⟩ := xfer_completion_callback_ring s.dev.fwd i res
    refine ⟨?_, ?_, hW⟩
    · intro ht
      obtain ⟨A, ⟨hcard, heq⟩, hle⟩ := hA (hterm ht)
      refine ⟨A, ⟨hcard, ?_⟩, ?_⟩
      · show wire_seqnums s.wire +
          ring_replies (xfer_completion_callback s.dev.fwd i res).buffer_head + A =
          request_seqnums s.requests
        rcases hring with h1 | ⟨pre, p, post, p1, he, he1, hs, hu⟩
        · rw [h1]
          exact heq
        · rw [he1, ring_replies_middle, (reply_seqnum_of_fields p p1 hs hu).1,
            ← ring_replies_middle, ← he]
          exact heq
      · show ring_hidden (xfer_completion_callback s.dev.fwd i res).buffer_head ≤ A
        rcases hring with h1 | ⟨pre, p, post, p1, he, he1, hs, hu⟩
        · rw [h1]
          exact hle
        · rw [he1, ring_hidden_middle, (reply_seqnum_of_fields p p1 hs hu).2,
            ← ring_hidden_middle, ← he]
          exact hle
    · intro q hq
      obtain ⟨p, hp, hs, hu⟩ := (xfer_completion_callback_effect s.dev.fwd i res).2.2 q hq
      exact packet_inv_of_fields _ p q hs hu (hP p hp)
  · rw [if_neg hen]
    exact ⟨hA, hP, hW⟩

/-- A TX round keeps `session_inv`. -/
theorem session_step_tx_inv (le : Bool) (net : Transport) (s : session) (h : session_inv s)
    (s2 : session) (hs : session_step le net s .tx = some s2) : session_inv s2 := by
  have hs1 : s2 = { s with dev := (tx_server_iteration le net s.dev).1,
                           wire := s.wire ++ (tx_server_iteration le net s.dev).2.toList } :=
    (Option.some.inj hs).symm
  subst hs1
  set s1 : session :=
    { s with dev := (tx_server_iteration le net s.dev).1,
             wire := s.wire ++ (tx_server_iteration le net s.dev).2.toList } with hs1
  obtain ⟨hA, hP, hW⟩ := h
  rcases tx_server_iteration_effect le net s.dev with
    ⟨hnone, hring, hterm⟩ | ⟨pre, p, post, he, hring, htf, hsent, hb⟩
  · have hwire : s1.wire = s.wire := by
      show s.wire ++ (tx_server_iteration le net s.dev).2.toList = s.wire
      rw [hnone]
      exact List.append_nil _
    refine ⟨?_, ?_, ?_⟩
    · intro ht
      obtain ⟨A, ⟨hcard, heq⟩, hle⟩ := hA (hterm ht)
      refine ⟨A, ⟨hcard, ?_⟩, ?_⟩
      · show wire_seqnums s1.wire +
          ring_replies (tx_server_iteration le net s.dev).1.fwd.buffer_head + A =
          request_seqnums s.requests
        rw [hwire, hring]
        exact heq
      · show ring_hidden (tx_server_iteration le net s.dev).1.fwd.buffer_head ≤ A
        rw [hring]
        exact hle
    · intro q hq
      have hq2 : q ∈ (tx_server_iteration le net s.dev).1.fwd.buffer_head := hq
      rw [hring] at hq2
      exact hP q hq2
    · intro b hbm
      rw [hwire] at hbm
      exact hW b hbm
  · have hpin : packet_inv s.requests p := hP p (by rw [he]; simp)
    obtain ⟨hplt, hpq⟩ := reply_seqnum_mem _ p hpin
    have hreply : ∀ b, (tx_server_iteration le net s.dev).2 = some b →
        (wire_command b = USBIP_RET_SUBMIT ∨ wire_command b = USBIP_RET_UNLINK) ∧
        wire_seqnum b = p.reply_seqnum := by
      intro b hbe
      obtain ⟨hc, hsq⟩ := hb b hbe
      refine ⟨hc, ?_⟩
      rw [hsq]
      exact Nat.mod_eq_of_lt hplt
    refine ⟨?_, ?_, ?_⟩
    · intro ht
      obtain ⟨b, hbe⟩ := hsent ht
      obtain ⟨A, ⟨hcard, heq⟩, hle⟩ := hA htf
      have hwire : s1.wire = s.wire ++ [b] := by
        show s.wire ++ (tx_server_iteration le net s.dev).2.toList = _
        rw [hbe]
        rfl
      refine ⟨A, ⟨hcard, ?_⟩, ?_⟩
      · show wire_seqnums s1.wire +
          ring_replies (tx_server_iteration le net s.dev).1.fwd.buffer_head + A =
          request_seqnums s.requests
        rw [hwire, hring, wire_seqnums_append, (hreply b hbe).2, ← heq, he, ring_replies_middle]
        abel
      · show ring_hidden (tx_server_iteration le net s.dev).1.fwd.buffer_head ≤ A
        rw [hring]
        rw [he, ring_hidden_middle] at hle
        exact le_trans (Multiset.le_iff_exists_add.mpr ⟨p.hidden_seqnum, by abel⟩) hle
    · intro q hq
      have hq2 : q ∈ (tx_server_iteration le net s.dev).1.fwd.buffer_head := hq
      rw [hring] at hq2
      apply hP q
      rw [he]
      rcases List.mem_append.mp hq2 with h1 | h1
      · exact List.mem_append_left _ h1
      · exact List.mem_append_right _ (List.mem_cons_of_mem _ h1)
    · intro b hbm
      have hbm2 : b ∈ s.wire ++ (tx_server_iteration le net s.dev).2.toList := hbm
      rcases List.mem_append.mp hbm2 with h1 | h1
      · exact hW b h1
      · cases hr : (tx_server_iteration le net s.dev).2 with
        | none =>
          rw [hr] at h1
          cases h1
        | some b1 =>
          rw [hr] at h1
          have hbb : b = b1 := by simpa using h1
          rw [hbb]
          obtain ⟨hc, hsq⟩ := hreply b1 hr
          rw [hsq]
          exact ⟨hc, hpq⟩

/-- Every step of a session keeps `session_inv`. -/
theorem session_step_inv (le : Bool) (net : Transport) (s : session) (ev : session_event)
    (h : session_inv s) (s2 : session) (hs : session_step le net s ev = some s2) :
    session_inv s2 := by
  cases ev with
  | rx raw io => exact session_step_rx_inv le net s raw io h s2 hs
  | complete i res => exact session_step_complete_inv le net s i res h s2 hs
  | tx => exact session_step_tx_inv le net s h s2 hs

/-- A run keeps `session_inv`. -/
theorem session_run_inv (le : Bool) (net : Transport) (evs : List session_event) :
    ∀ s s2 : session, session_inv s → session_run le net s evs = some s2 →
      session_inv s2 := by
  induction evs with
  | nil =>
    intro s s2 h hs
    rw [session_run_nil] at hs
    exact (Option.some.inj hs) ▸ h
  | cons ev rest ih =>
    intro s s2 h hs
    rw [session_run_cons] at hs
    cases h1 : session_step le net s ev with
    | none => rw [h1] at hs; exact absurd hs (by simp)
    | some s1 =>
      rw [h1, Option.some_bind] at hs
      exact ih s1 s2 (session_step_inv le net s ev h s1 h1) hs

/-- A session that starts with an empty ring satisfies `session_inv`. -/
theorem session_start_inv (dev : server_usb_device) (h : dev.fwd.buffer_head = []) :
    session_inv (session_start dev) := by
  refine ⟨?_, ?_, ?_⟩
  · intro _
    refine ⟨0, ⟨rfl, ?_⟩, ?_⟩
    · show wire_seqnums [] + ring_replies dev.fwd.buffer_head + 0 = request_seqnums []
      rw [h]
      rfl
    · show ring_hidden dev.fwd.buffer_head ≤ 0
      rw [h]
      exact le_refl _
  · intro p hp
    have hp2 : p ∈ dev.fwd.buffer_head := hp
    rw [h] at hp2
    cases hp2
  · intro b hb
    cases hb

/-- C10 (amended): on a forwarding session that starts with an empty ring, in the
state `s` reached after any sequence of RX rounds, completions and TX rounds, over
any link:
every reply header TX put on the wire is RET_SUBMIT or RET_UNLINK and carries the
seqnum of a request RX received; and while the session has not terminated, the
seqnums on the wire, the seqnums the packets still in the ring will be answered
with, and one absorbed seqnum for each CMD_UNLINK that found its target in the
ring make up exactly the multiset of seqnums received.  So no seqnum is answered
more often than it was received, and once the ring is drained with no CMD_UNLINK
having found its target, the replies answer the requests one for one. -/
theorem C10_ring_preservation_accounting (le : Bool) (net : Transport) (dev : server_usb_device)
    (evs : List session_event) (h0 : dev.fwd.buffer_head = []) (s : session)
    (hs : session_run le net (session_start dev) evs = some s) :
    (∀ b ∈ s.wire,
      (wire_command b = USBIP_RET_SUBMIT ∨ wire_command b = USBIP_RET_UNLINK) ∧
      ∃ q ∈ s.requests, q.base.seqnum = wire_seqnum b) ∧
    (s.dev.fwd.terminate = false →
      (∃ absorbed : Multiset Nat,
        Multiset.card absorbed = s.merged ∧
        wire_seqnums s.wire + ring_replies s.dev.fwd.buffer_head + absorbed =
          request_seqnums s.requests) ∧
      wire_seqnums s.wire ≤ request_seqnums s.requests ∧
      (s.merged = 0 → s.dev.fwd.buffer_head = [] →
        wire_seqnums s.wire = request_seqnums s.requests)) := by
  obtain ⟨hA, _, hW⟩ := session_run_inv le net evs _ s (session_start_inv dev h0) hs
  refine ⟨hW, ?_⟩
  intro ht
  obtain ⟨A, ⟨hcard, heq⟩, _⟩ := hA ht
  refine ⟨⟨A, hcard, heq⟩, ?_, ?_⟩
  · rw [← heq, add_assoc]
    exact Multiset.le_add_right _ _
  · intro hm hr
    rw [hm] at hcard
    rw [Multiset.card_eq_zero.mp hcard, hr] at heq
    rw [← heq]
    show _ = _ + ring_replies [] + 0
    rw [add_zero]
    exact (add_zero _).symm

theorem C10_ring_preservation_accounting_witness :
    fwd_dev.fwd.buffer_head = [] ∧
    ∃ s, session_single = some s ∧
      s.wire.map wire_reply = [(USBIP_RET_SUBMIT, 10, 0)] ∧
      wire_seqnums s.wire = request_seqnums s.requests := by
  have hs : ∃ s, session_single = some s := by
    rw [← Option.isSome_iff_exists]; rfl
  obtain ⟨s, hs⟩ := hs
  have hd : s = session_single.get (by rw [hs]; rfl) := by simp [hs]
  exact ⟨rfl, s, hs, by rw [hd]; rfl,
    ((C10_ring_preservation_accounting true net_all fwd_dev
      [.rx (some ((cmd_submit_in 10).raw true)) io_ok,
       .complete 0 (res_of LIBUSB_TRANSFER_COMPLETED 64),
       .tx] rfl s hs).2 (by rw [hd]; rfl)).2.2 (by rw [hd]; rfl) (by rw [hd]; rfl)⟩

/-- C10 (counterexample to the claim as stated): on a good link, CMD_SUBMIT seq 10
and CMD_UNLINK seq 11 for it are received, the transfer completes as CANCELLED and
TX drains the ring.  Two requests were received and one reply was sent, RET_UNLINK
seq 11: the session goes on, the ring is empty, and no reply carries seqnum 10, so
the replies are not the requests with each replaced by its reply.  When the
CMD_UNLINK arrives after the reply to seq 10 left, the one CMD_SUBMIT is followed by
two replies. -/
theorem C10_counterexample_unlink_absorbs_request :
    ∃ sf sl, session_unlink_found = some sf ∧ session_unlink_late = some sl ∧
    sf.dev.fwd.terminate = false ∧
    sf.dev.fwd.buffer_head = [] ∧
    sf.requests.map (fun q => (q.base.command, q.base.seqnum)) =
      [(USBIP_CMD_SUBMIT, 10), (USBIP_CMD_UNLINK, 11)] ∧
    sf.wire.map wire_reply = [(USBIP_RET_UNLINK, 11, -ECONNRESET)] ∧
    ¬ spec_ring_preservation sf ∧
    sl.requests.map (fun q => (q.base.command, q.base.seqnum)) =
      [(USBIP_CMD_SUBMIT, 10), (USBIP_CMD_UNLINK, 11)] ∧
    sl.wire.map wire_reply =
      [(USBIP_RET_SUBMIT, 10, 0), (USBIP_RET_UNLINK, 11, 0)] := by
  have hf : ∃ s, session_unlink_found = some s := by
    rw [← Option.isSome_iff_exists]; rfl
  have hl : ∃ s, session_unlink_late = some s := by
    rw [← Option.isSome_iff_exists]; rfl
  obtain ⟨sf, hf⟩ := hf
  obtain ⟨sl, hl⟩ := hl
  have hdf : sf = session_unlink_found.get (by rw [hf]; rfl) := by simp [hf]
  have hdl : sl = session_unlink_late.get (by rw [hl]; rfl) := by simp [hl]
  refine ⟨sf, sl, hf, hl, by rw [hdf]; rfl, by rw [hdf]; rfl, by rw [hdf]; rfl,
    by rw [hdf]; rfl, ?_, by rw [hdl]; rfl, by rw [hdl]; rfl⟩
  rintro ⟨choice, hl, _, heq⟩
  have hc := congrArg Multiset.card heq
  have hw : sf.wire.length = 1 := by rw [hdf]; rfl
  have hr : sf.requests.length = 2 := by rw [hdf]; rfl
  simp only [Multiset.coe_card, List.length_map, List.length_zipWith, hw, hl, hr] at hc
  exact absurd hc (by decide)

/-- The specification's ring preservation does hold on sessions in which no
CMD_UNLINK finds its target: a single CMD_SUBMIT that is answered, and a
CMD_UNLINK that arrives after the reply left. -/
theorem spec_ring_preservation_holds :
    (∃ s, session_single = some s ∧ spec_ring_preservation s) ∧
    (∃ s, session_unlink_late = some s ∧ spec_ring_preservation s) := by
  have h1 : ∃ s, session_single = some s := by
    rw [← Option.isSome_iff_exists]; rfl
  have h2 : ∃ s, session_unlink_late = some s := by
    rw [← Option.isSome_iff_exists]; rfl
  obtain ⟨s1, h1⟩ := h1
  obtain ⟨s2, h2⟩ := h2
  have hd1 : s1 = session_single.get (by rw [h1]; rfl) := by simp [h1]
  have hd2 : s2 = session_unlink_late.get (by rw [h2]; rfl) := by simp [h2]
  refine ⟨⟨s1, h1, [USBIP_RET_SUBMIT], by rw [hd1]; rfl, ?_, by rw [hd1]; rfl⟩,
    ⟨s2, h2, [USBIP_RET_SUBMIT, USBIP_RET_UNLINK], by rw [hd2]; rfl, ?_, by rw [hd2]; rfl⟩⟩
  · intro c hc
    simp only [List.mem_singleton] at hc
    exact Or.inl hc
  · intro c hc
    simp only [List.mem_cons, List.mem_singleton, List.not_mem_nil, or_false] at hc
    exact hc

theorem ready_count_append (a b : List usb_packet) :
    ready_count (a ++ b) = ready_count a + ready_count b := by
  unfold ready_count
  rw [List.countP_append]
  push_cast
  rfl

theorem ready_count_cons (p : usb_packet) (l : List usb_packet) :
    ready_count (p :: l) = (if p.ready then 1 else 0) + ready_count l := by
  unfold ready_count
  rw [List.countP_cons]
  by_cases h : p.ready = true
  · simp [h]; omega
  · simp [h]

theorem ready_count_middle (pre post : List usb_packet) (p : usb_packet) :
    ready_count (pre ++ p :: post) = (if p.ready then 1 else 0) + ready_count (pre ++ post) := by
  rw [ready_count_append, ready_count_cons, ready_count_append]
  omega

/-- An enabled completion raises `packets_ready` and the number of ready packets
in the ring by one each. -/
theorem xfer_completion_callback_ready (f : forward_info) (i : Nat) (res : xfer_result)
    (hen : complete_enabled f i res = true) :
    (xfer_completion_callback f i res).packets_ready -
      ready_count (xfer_completion_callback f i res).buffer_head =
    f.packets_ready - ready_count f.buffer_head := by
  unfold complete_enabled at hen
  unfold xfer_completion_callback
  cases hg : f.buffer_head.get? i with
  | none => rfl
  | some packet =>
    rw [hg] at hen
    simp only [] at hen ⊢
    cases hx : packet.xfer with
    | none => rfl
    | some x =>
      rw [hx] at hen
      simp only [Bool.and_eq_true, Bool.not_eq_true'] at hen
      simp only []
      obtain ⟨_, _, hr, _⟩ := xfer_completion_callback_packet_fields
        { packet with xfer := some (x.completed res) } (x.completed res)
      obtain ⟨h1, h2⟩ := list_set_split f.buffer_head i packet
        (xfer_completion_callback_packet { packet with xfer := some (x.completed res) }
          (x.completed res)) hg
      rw [h2, ready_count_middle, hr]
      have h3 : ready_count f.buffer_head =
          (if packet.ready = true then 1 else 0) +
            ready_count (f.buffer_head.take i ++ f.buffer_head.drop (i + 1)) := by
        rw [← ready_count_middle, ← h1]
      rw [h3, hen.1]
      simp only [if_true, Bool.false_eq_true, if_false]
      omega

theorem event_insert_walk_eq (event : rh_event) :
    ∀ (l : List rh_event) (depth : Nat), l ≠ [] →
      event_insert_walk l event depth = (l ++ [event], depth + l.length - 1) := by
  intro l
  induction l with
  | nil => intro _ h; exact absurd rfl h
  | cons x xs ih =>
    intro depth _
    cases xs with
    | nil => simp [event_insert_walk]
    | cons y ys =>
      have h2 := ih (depth + 1) (by simp)
      simp only [event_insert_walk, h2, List.cons_append, List.length_cons]
      refine Prod.ext rfl ?_
      show depth + 1 + (ys.length + 1) - 1 = depth + (ys.length + 1 + 1) - 1
      omega

/-- With `calloc` succeeding, `event_insert` appends the node at the tail of the
mailbox, unless the mailbox already held more than 100 events and the `LVL_CRIT`
trace aborts. -/
theorem event_insert_alloc (debug_level : Int) (task : rh_task) (ev : rh_event)
    (data : Option (List Nat)) :
    event_insert debug_level true task ev data =
      if task.event.length > 100 ∧ rh_trace_aborts debug_level LVL_CRIT = true then none
      else some { task with event := task.event ++
        [{ type := ev.type, size := ev.size, data := data, link := ev.link, sts := ev.sts }] } := by
  unfold event_insert
  cases he : task.event with
  | nil => simp
  | cons x xs =>
    simp only [Bool.not_true, Bool.false_eq_true, if_false]
    rw [event_insert_walk_eq _ (x :: xs) 1 (by simp)]
    simp only [List.length_cons]
    have h1 : 1 + (xs.length + 1) - 1 = xs.length + 1 := by omega
    rw [h1]

/-- With every `calloc` succeeding, the task loop of `event_enqueue` delivers the
event to each task, when it comes to its end. -/
theorem event_enqueue_tasks_alloc (debug_level : Int) (alloc : Nat → Bool)
    (halloc : ∀ i, alloc i = true) (ev : rh_event) :
    ∀ (l : List rh_task) (i : Nat),
      (∀ r, event_enqueue_tasks debug_level alloc ev i l = some r →
        r = l.map (rh_task.deliver ev)) ∧
      ((∀ t ∈ l, ev.type &&& t.event_mask ≠ 0 → t.event.length ≤ 100) →
        event_enqueue_tasks debug_level alloc ev i l = some (l.map (rh_task.deliver ev))) := by
  intro l
  induction l with
  | nil =>
    intro i
    refine ⟨?_, fun _ => rfl⟩
    intro r hr
    simp only [event_enqueue_tasks, Option.some.injEq] at hr
    rw [← hr]
    rfl
  | cons t rest ih =>
    intro i
    obtain ⟨ih1, ih2⟩ := ih (i + 1)
    by_cases hm : ev.type &&& t.event_mask ≠ 0
    · have hd : rh_task.deliver ev t = { t with event := t.event ++ [ev.node] } := by
        simp only [rh_task.deliver, hm, ne_eq, not_false_eq_true, if_true]
      have hstep : event_enqueue_tasks debug_level alloc ev i (t :: rest) =
          if t.event.length > 100 ∧ rh_trace_aborts debug_level LVL_CRIT = true then none
          else (event_enqueue_tasks debug_level alloc ev (i + 1) rest).map
            (fun l => rh_task.deliver ev t :: l) := by
        simp only [event_enqueue_tasks, hm, ne_eq, not_false_eq_true, if_true, halloc i,
          event_insert_alloc]
        by_cases hab : t.event.length > 100 ∧ rh_trace_aborts debug_level LVL_CRIT = true
        · rw [if_pos hab, if_pos hab]
        · rw [if_neg hab, if_neg hab, hd]
          rfl
      refine ⟨?_, ?_⟩
      · intro r hr
        rw [hstep] at hr
        by_cases hab : t.event.length > 100 ∧ rh_trace_aborts debug_level LVL_CRIT = true
        · rw [if_pos hab] at hr
          cases hr
        · rw [if_neg hab] at hr
          cases hrest : event_enqueue_tasks debug_level alloc ev (i + 1) rest with
          | none => rw [hrest] at hr; cases hr
          | some r1 =>
            rw [hrest] at hr
            simp only [Option.map_some', Option.some.injEq] at hr
            rw [← hr, ih1 r1 hrest]
            rfl
      · intro hlen
        rw [hstep]
        have hab : ¬ (t.event.length > 100 ∧ rh_trace_aborts debug_level LVL_CRIT = true) := by
          intro h
          have := hlen t (List.mem_cons_self _ _) hm
          omega
        rw [if_neg hab, ih2 (fun x hx => hlen x (List.mem_cons_of_mem _ hx))]
        rfl
    · have hd : rh_task.deliver ev t = t := by
        simp only [rh_task.deliver, hm, if_false]
      have hstep : event_enqueue_tasks debug_level alloc ev i (t :: rest) =
          (event_enqueue_tasks debug_level alloc ev (i + 1) rest).map
            (fun l => rh_task.deliver ev t :: l) := by
        simp only [event_enqueue_tasks, hm, if_false, hd]
      refine ⟨?_, ?_⟩
      · intro r hr
        rw [hstep] at hr
        cases hrest : event_enqueue_tasks debug_level alloc ev (i + 1) rest with
        | none => rw [hrest] at hr; cases hr
        | some r1 =>
          rw [hrest] at hr
          simp only [Option.map_some', Option.some.injEq] at hr
          rw [← hr, ih1 r1 hrest]
          rfl
      · intro hlen
        rw [hstep, ih2 (fun x hx => hlen x (List.mem_cons_of_mem _ hx))]
        rfl

theorem rh_event_node_payload (ev : rh_event) : ev.node.payload = ev.payload := by
  unfold rh_event.node rh_event.payload
  by_cases h : ev.size = 0
  · simp [h]
  · simp [h, rh_event.payload, List.take_take]

/-- C12: the bus is running and every `calloc` succeeds.  When `event_enqueue`
returns true, the task list is the old one with, for every task whose mask has a
bit in common with the event's type, one node appended at the tail of the mailbox,
carrying the event's type, size, status and link and a copy of its payload; every
other task is as before.  It does return true when no matching mailbox holds more
than 100 events (beyond that the `LVL_CRIT` trace of `event_insert` may abort). -/
theorem C12_event_fan_out (debug_level : Int) (alloc : Nat → Bool) (bus : event_bus)
    (e : rh_event) (hrun : bus.running = true) (halloc : ∀ i, alloc i = true) :
    (∀ bus1, event_enqueue debug_level alloc bus e = some (true, bus1) →
      bus1.head = bus.head.map (rh_task.deliver e)) ∧
    ((∀ t ∈ bus.head, e.type &&& t.event_mask ≠ 0 → t.event.length ≤ 100) →
      ∃ bus1, event_enqueue debug_level alloc bus e = some (true, bus1)) ∧
    (∀ t : rh_task, e.type &&& t.event_mask ≠ 0 →
      (t.deliver e).event = t.event ++ [e.node] ∧
      (t.deliver e).task_name = t.task_name ∧ (t.deliver e).running = t.running ∧
      (t.deliver e).event_mask = t.event_mask ∧
      e.node.type = e.type ∧ e.node.size = e.size ∧ e.node.sts = e.sts ∧
      e.node.link = e.link ∧ e.node.payload = e.payload) ∧
    (∀ t : rh_task, e.type &&& t.event_mask = 0 → t.deliver e = t) := by
  obtain ⟨h1, h2⟩ := event_enqueue_tasks_alloc debug_level alloc halloc e bus.head 0
  have hunf : event_enqueue debug_level alloc bus e =
      match event_enqueue_tasks debug_level alloc e 0 bus.head with
      | none => none
      | some head1 =>
        some (true,
          { head := head1
            running := if e.type = EVENT_TERMINATE then false else bus.running
            event_count := (bus.event_count + 1) % 4294967296 }) := by
    unfold event_enqueue
    rw [hrun]
    rfl
  refine ⟨?_, ?_, ?_, ?_⟩
  · intro bus1 hb
    rw [hunf] at hb
    cases hr : event_enqueue_tasks debug_level alloc e 0 bus.head with
    | none => rw [hr] at hb; cases hb
    | some r =>
      rw [hr] at hb
      simp only [Option.some.injEq, Prod.mk.injEq, true_and] at hb
      rw [← hb]
      exact h1 r hr
  · intro hlen
    rw [hunf, h2 hlen]
    exact ⟨_, rfl⟩
  · intro t hm
    have hd : rh_task.deliver e t = { t with event := t.event ++ [e.node] } := by
      simp only [rh_task.deliver, hm, ne_eq, not_false_eq_true, if_true]
    rw [hd]
    exact ⟨rfl, rfl, rfl, rfl, rfl, rfl, rfl, rfl, rh_event_node_payload e⟩
  · intro t hm
    simp only [rh_task.deliver, hm, ne_eq, not_true_eq_false, if_false]

theorem C12_event_fan_out_witness :
    demo_bus.running = true ∧ (∀ i : Nat, (fun _ : Nat => true) i = true) ∧
    ∃ bus1, event_enqueue 0 (fun _ => true) demo_bus (demo_event 0x02) = some (true, bus1) ∧
      bus1.head.map (fun t => t.event.map (fun ev => (ev.type, ev.data))) =
        [[(0x02, some [7, 8, 9])], [(0x04, some [7, 8, 9]), (0x02, some [7, 8, 9])], []] := by
  refine ⟨rfl, fun _ => rfl, ?_⟩
  obtain ⟨bus1, hb⟩ := (C12_event_fan_out 0 (fun _ => true) demo_bus (demo_event 0x02) rfl
    (fun _ => rfl)).2.1 (by decide)
  refine ⟨bus1, hb, ?_⟩
  rw [(C12_event_fan_out 0 (fun _ => true) demo_bus (demo_event 0x02) rfl
    (fun _ => rfl)).1 bus1 hb]
  rfl

theorem event_enqueue_tasks_no_match (debug_level : Int) (alloc : Nat → Bool) (ev : rh_event) :
    ∀ (l : List rh_task) (i : Nat), (∀ t ∈ l, ev.type &&& t.event_mask = 0) →
      event_enqueue_tasks debug_level alloc ev i l = some l := by
  intro l
  induction l with
  | nil => intro _ _; rfl
  | cons t rest ih =>
    intro i h
    have ht : ev.type &&& t.event_mask = 0 := h t (List.mem_cons_self _ _)
    simp only [event_enqueue_tasks, ht, ne_eq, not_true_eq_false, if_false,
      ih (i + 1) (fun x hx => h x (List.mem_cons_of_mem _ hx)), Option.map_some']

/-- C14: while the bus is running, `event_enqueue` of an event of type
EVENT_TERMINATE returns true, clears `running` and delivers the event to no task;
and in every state in which `running` is clear (nothing in event.c sets it again),
`event_enqueue` of any event returns false and leaves the whole state, every
mailbox included, as it is. -/
theorem C14_terminate_stops_enqueue (debug_level : Int) (alloc : Nat → Bool) (bus : event_bus)
    (e : rh_event) (hrun : bus.running = true) (ht : e.type = EVENT_TERMINATE) :
    (∃ bus1, event_enqueue debug_level alloc bus e = some (true, bus1) ∧
      bus1.running = false ∧ bus1.head = bus.head ∧
      ∀ (alloc2 : Nat → Bool) (e2 : rh_event),
        event_enqueue debug_level alloc2 bus1 e2 = some (false, bus1)) ∧
    (∀ bus2 : event_bus, bus2.running = false →
      ∀ (alloc2 : Nat → Bool) (e2 : rh_event),
        event_enqueue debug_level alloc2 bus2 e2 = some (false, bus2)) := by
  have hstop : ∀ bus2 : event_bus, bus2.running = false →
      ∀ (alloc2 : Nat → Bool) (e2 : rh_event),
        event_enqueue debug_level alloc2 bus2 e2 = some (false, bus2) := by
    intro bus2 h2 alloc2 e2
    unfold event_enqueue
    rw [h2]
    rfl
  refine ⟨?_, hstop⟩
  have hno : ∀ t ∈ bus.head, e.type &&& t.event_mask = 0 := by
    intro t _
    rw [ht]
    exact Nat.zero_and _
  have hres : event_enqueue debug_level alloc bus e =
      some (true, { head := bus.head, running := false,
                    event_count := (bus.event_count + 1) % 4294967296 }) := by
    unfold event_enqueue
    rw [hrun, event_enqueue_tasks_no_match debug_level alloc e bus.head 0 hno]
    simp [ht]
  exact ⟨_, hres, rfl, rfl, hstop _ rfl⟩

theorem C14_terminate_stops_enqueue_witness :
    demo_bus.running = true ∧
    ({ demo_event 0x02 with type := EVENT_TERMINATE } : rh_event).type = EVENT_TERMINATE ∧
    ∃ bus1, event_enqueue 0 (fun _ => true) demo_bus
        { demo_event 0x02 with type := EVENT_TERMINATE } = some (true, bus1) ∧
      bus1.running = false ∧ bus1.head = demo_bus.head ∧
      event_enqueue 0 (fun _ => true) bus1 (demo_event 0x02) = some (false, bus1) := by
  refine ⟨rfl, rfl, ?_⟩
  obtain ⟨bus1, h1, h2, h3, h4⟩ := (C14_terminate_stops_enqueue 0 (fun _ => true) demo_bus
    { demo_event 0x02 with type := EVENT_TERMINATE } rfl rfl).1
  exact ⟨bus1, h1, h2, h3, h4 _ _⟩

theorem event_dequeue_times_prefix :
    ∀ (m r : List rh_event) (task : rh_task), task.running = true → task.event = m ++ r →
      event_dequeue_times m.length task = some (m, { task with event := r }) := by
  intro m
  induction m with
  | nil =>
    intro r task _ he
    have he2 : task.event = r := he
    show some (([] : List rh_event), task) = some ([], { task with event := r })
    rw [← he2]
  | cons x xs ih =>
    intro r task hrun he
    have hd : event_dequeue task = .event x { task with event := xs ++ r } := by
      unfold event_dequeue
      rw [hrun, he]
      rfl
    have hstep : event_dequeue_times (x :: xs).length task =
        (event_dequeue_times xs.length { task with event := xs ++ r }).map
          (fun q => (x :: q.1, q.2)) := by
      simp only [List.length_cons, event_dequeue_times, hd]
    rw [hstep, ih r { task with event := xs ++ r } hrun rfl]
    rfl

/-- With the bus running and every `calloc` succeeding, a call of `event_enqueue`
that returns true has delivered the event to each task. -/
theorem event_enqueue_delivers (debug_level : Int) (alloc : Nat → Bool) (bus : event_bus)
    (e : rh_event) (hrun : bus.running = true) (halloc : ∀ i, alloc i = true) :
    ∀ bus1, event_enqueue debug_level alloc bus e = some (true, bus1) →
      bus1.head = bus.head.map (rh_task.deliver e) := by
  intro bus1 hb
  unfold event_enqueue at hb
  rw [hrun] at hb
  simp only [Bool.not_true, Bool.false_eq_true, if_false] at hb
  cases hr : event_enqueue_tasks debug_level alloc e 0 bus.head with
  | none => rw [hr] at hb; cases hb
  | some r =>
    rw [hr] at hb
    simp only [Option.some.injEq, Prod.mk.injEq, true_and] at hb
    rw [← hb]
    exact (event_enqueue_tasks_alloc debug_level alloc halloc e bus.head 0).1 r hr

/-- With every `calloc` succeeding, a run of `event_enqueue` calls that all return
true delivers the events, in order, to each task. -/
theorem event_enqueue_all_alloc (debug_level : Int) :
    ∀ (evs : List ((Nat → Bool) × rh_event)) (bus bus1 : event_bus),
      (∀ p ∈ evs, ∀ i, p.1 i = true) →
      event_enqueue_all debug_level bus evs = some bus1 →
      bus1.head = bus.head.map (fun t => evs.foldl (fun t1 p => rh_task.deliver p.2 t1) t) := by
  intro evs
  induction evs with
  | nil =>
    intro bus bus1 _ h
    simp only [event_enqueue_all, Option.some.injEq] at h
    rw [← h]
    simp
  | cons p rest ih =>
    intro bus bus1 hal h
    obtain ⟨alloc, ev⟩ := p
    have hrun : bus.running = true := by
      by_cases hr : bus.running = true
      · exact hr
      · have hf : bus.running = false := by simpa using hr
        simp [event_enqueue_all, event_enqueue, hf] at h
    cases hq : event_enqueue debug_level alloc bus ev with
    | none => simp [event_enqueue_all, hq] at h
    | some q =>
      obtain ⟨ok, bus2⟩ := q
      cases ok with
      | false => simp [event_enqueue_all, hq] at h
      | true =>
        have h2 : event_enqueue_all debug_level bus2 rest = some bus1 := by
          simpa [event_enqueue_all, hq] using h
        have hhead := (event_enqueue_delivers debug_level alloc bus ev hrun
          (hal (alloc, ev) (List.mem_cons_self _ _))) bus2 hq
        rw [ih bus2 bus1 (fun x hx => hal x (List.mem_cons_of_mem _ hx)) h2, hhead,
          List.map_map]
        rfl

theorem foldl_deliver_match (t : rh_task) :
    ∀ (evs : List ((Nat → Bool) × rh_event)) (m : List rh_event),
      (∀ p ∈ evs, p.2.type &&& t.event_mask ≠ 0) →
      evs.foldl (fun t1 p => rh_task.deliver p.2 t1) { t with event := m } =
        { t with event := m ++ evs.map (fun p => p.2.node) } := by
  intro evs
  induction evs with
  | nil => intro m _; simp
  | cons p rest ih =>
    intro m h
    have hp : p.2.type &&& t.event_mask ≠ 0 := h p (List.mem_cons_self _ _)
    have hd : rh_task.deliver p.2 { t with event := m } = { t with event := m ++ [p.2.node] } := by
      simp only [rh_task.deliver, hp, ne_eq, not_false_eq_true, if_true]
    rw [List.foldl_cons, hd, ih (m ++ [p.2.node]) (fun x hx => h x (List.mem_cons_of_mem _ hx))]
    simp

theorem deliver_length_le (ev : rh_event) (t : rh_task) :
    (rh_task.deliver ev t).event.length ≤ t.event.length + 1 := by
  unfold rh_task.deliver
  by_cases h : ev.type &&& t.event_mask ≠ 0
  · rw [if_pos h]
    simp
  · rw [if_neg h]
    omega

/-- A run of `event_enqueue` calls comes to its end, every call returning true,
when the bus is running, no event is EVENT_TERMINATE, every `calloc` succeeds and
no mailbox grows beyond 101 events. -/
theorem event_enqueue_all_returns (debug_level : Int) :
    ∀ (evs : List ((Nat → Bool) × rh_event)) (bus : event_bus), bus.running = true →
      (∀ p ∈ evs, p.2.type ≠ EVENT_TERMINATE) → (∀ p ∈ evs, ∀ i, p.1 i = true) →
      (∀ t ∈ bus.head, t.event.length + evs.length ≤ 101) →
      ∃ bus1, event_enqueue_all debug_level bus evs = some bus1 := by
  intro evs
  induction evs with
  | nil => intro bus _ _ _ _; exact ⟨bus, rfl⟩
  | cons p rest ih =>
    intro bus hrun hty hal hroom
    obtain ⟨alloc, ev⟩ := p
    have hal0 : ∀ i, alloc i = true := hal (alloc, ev) (List.mem_cons_self _ _)
    have hty0 : ev.type ≠ EVENT_TERMINATE := hty (alloc, ev) (List.mem_cons_self _ _)
    have hlen : ∀ t ∈ bus.head, ev.type &&& t.event_mask ≠ 0 → t.event.length ≤ 100 := by
      intro t ht _
      have := hroom t ht
      simp only [List.length_cons] at this
      omega
    have hq : event_enqueue debug_level alloc bus ev =
        some (true, { head := bus.head.map (rh_task.deliver ev), running := true,
                      event_count := (bus.event_count + 1) % 4294967296 }) := by
      unfold event_enqueue
      rw [hrun, (event_enqueue_tasks_alloc debug_level alloc hal0 ev bus.head 0).2 hlen]
      simp [hty0]
    have hroom2 : ∀ t ∈ bus.head.map (rh_task.deliver ev), t.event.length + rest.length ≤ 101 := by
      intro t ht
      obtain ⟨t0, ht0, hte⟩ := List.mem_map.mp ht
      have h1 := hroom t0 ht0
      have h2 := deliver_length_le ev t0
      rw [← hte]
      simp only [List.length_cons] at h1
      omega
    obtain ⟨bus1, hb⟩ := ih
      { head := bus.head.map (rh_task.deliver ev), running := true,
        event_count := (bus.event_count + 1) % 4294967296 } rfl
      (fun x hx => hty x (List.mem_cons_of_mem _ hx))
      (fun x hx => hal x (List.mem_cons_of_mem _ hx)) hroom2
    refine ⟨bus1, ?_⟩
    simp only [event_enqueue_all, hq]
    exact hb

/-- C13 (amended): a running task whose mailbox holds the events `t.event` is in the
task list; `event_enqueue` is called for events that all match its mask, every
`calloc` succeeding.  When the calls return true, the mailbox is the old one
followed by a node per event, in enqueue order; as many calls of `event_dequeue` as
the mailbox has events all return true and hand out first the events that were
there and then the new ones in enqueue order, leaving the mailbox empty; so when
the mailbox was empty before, as many calls as there were events return them in
enqueue order and leave the task as it was.  The calls of `event_enqueue` do
return true when the bus is running and no mailbox grows beyond 101 events. -/
theorem C13_mailbox_fifo (debug_level : Int) (bus : event_bus)
    (evs : List ((Nat → Bool) × rh_event)) (i : Nat) (t : rh_task)
    (hget : bus.head.get? i = some t) (hrunning : t.running = true)
    (hmatch : ∀ p ∈ evs, p.2.type &&& t.event_mask ≠ 0)
    (halloc : ∀ p ∈ evs, ∀ j, p.1 j = true) :
    (∀ bus1, event_enqueue_all debug_level bus evs = some bus1 →
      ∃ t1, bus1.head.get? i = some t1 ∧
        t1.event = t.event ++ evs.map (fun p => p.2.node) ∧
        event_dequeue_times (t.event.length + evs.length) t1 =
          some (t.event ++ evs.map (fun p => p.2.node), { t with event := [] }) ∧
        (t.event = [] →
          event_dequeue_times evs.length t1 = some (evs.map (fun p => p.2.node), t))) ∧
    (bus.running = true → (∀ t2 ∈ bus.head, t2.event.length + evs.length ≤ 101) →
      ∃ bus1, event_enqueue_all debug_level bus evs = some bus1) := by
  refine ⟨?_, ?_⟩
  · intro bus1 henq
    have hhead := event_enqueue_all_alloc debug_level evs bus bus1 halloc henq
    have ht1 : evs.foldl (fun t1 p => rh_task.deliver p.2 t1) t =
        { t with event := t.event ++ evs.map (fun p => p.2.node) } :=
      foldl_deliver_match t evs t.event hmatch
    refine ⟨{ t with event := t.event ++ evs.map (fun p => p.2.node) }, ?_, rfl, ?_, ?_⟩
    · rw [hhead, List.get?_eq_getElem?, List.getElem?_map, ← List.get?_eq_getElem?, hget,
        Option.map_some', ht1]
    · have h := event_dequeue_times_prefix (t.event ++ evs.map (fun p => p.2.node)) []
        { t with event := t.event ++ evs.map (fun p => p.2.node) } hrunning
        (List.append_nil _).symm
      rw [List.length_append, List.length_map] at h
      exact h
    · intro he
      have h := event_dequeue_times_prefix (evs.map (fun p => p.2.node)) []
        { t with event := t.event ++ evs.map (fun p => p.2.node) } hrunning
        (by rw [he]; simp)
      rw [List.length_map] at h
      rw [h]
      have ht : ({ t with event := [] } : rh_task) = t := by
        cases t
        simp only [rh_task.mk.injEq, true_and] at he ⊢
        exact he.symm
      show some (_, ({ t with event := [] } : rh_task)) = _
      rw [ht]
  · intro hrun hroom
    have hty : ∀ p ∈ evs, p.2.type ≠ EVENT_TERMINATE := by
      intro p hp h0
      have := hmatch p hp
      rw [h0] at this
      exact this (Nat.zero_and _)
    exact event_enqueue_all_returns debug_level evs bus hrun hty halloc hroom

theorem C13_mailbox_fifo_witness :
    demo_bus.head.get? 0 = some (demo_task 65 0x02 []) ∧
    (demo_task 65 0x02 []).running = true ∧
    (∀ p ∈ [((fun _ : Nat => true), demo_event 0x02), ((fun _ : Nat => true), demo_event 0x03)],
      p.2.type &&& (demo_task 65 0x02 []).event_mask ≠ 0) ∧
    (∀ p ∈ [((fun _ : Nat => true), demo_event 0x02), ((fun _ : Nat => true), demo_event 0x03)],
      ∀ j : Nat, p.1 j = true) ∧
    ∃ bus1 t1,
      event_enqueue_all 0 demo_bus
        [((fun _ : Nat => true), demo_event 0x02), ((fun _ : Nat => true), demo_event 0x03)] =
        some bus1 ∧
      bus1.head.get? 0 = some t1 ∧
      event_dequeue_times 2 t1 =
        some ([(demo_event 0x02).node, (demo_event 0x03).node], demo_task 65 0x02 []) := by
  have hm : ∀ p ∈ [((fun _ : Nat => true), demo_event 0x02),
      ((fun _ : Nat => true), demo_event 0x03)],
      p.2.type &&& (demo_task 65 0x02 []).event_mask ≠ 0 := by
    intro p hp
    simp only [List.mem_cons, List.mem_singleton, List.not_mem_nil, or_false] at hp
    rcases hp with h | h <;> rw [h] <;> decide
  have ha : ∀ p ∈ [((fun _ : Nat => true), demo_event 0x02),
      ((fun _ : Nat => true), demo_event 0x03)], ∀ j : Nat, p.1 j = true := by
    intro p hp j
    simp only [List.mem_cons, List.mem_singleton, List.not_mem_nil, or_false] at hp
    rcases hp with h | h <;> rw [h]
  have hc := C13_mailbox_fifo 0 demo_bus
    [((fun _ : Nat => true), demo_event 0x02), ((fun _ : Nat => true), demo_event 0x03)]
    0 (demo_task 65 0x02 []) rfl rfl hm ha
  obtain ⟨bus1, hb⟩ := hc.2 rfl (by decide)
  obtain ⟨t1, h1, _, _, h4⟩ := hc.1 bus1 hb
  exact ⟨rfl, rfl, hm, ha, bus1, t1, hb, h1, h4 rfl⟩

/-- C13 (counterexample to the claim as stated): a running task with mask 0x06
holds one event of type 0x04 in its mailbox when an event of type 0x02, which
matches its mask, is enqueued.  The one call of `event_dequeue` that follows
returns the event of type 0x04 that was there before, not the event just
enqueued, and leaves the new event in the mailbox, not the mailbox as it was. -/
theorem C13_counterexample_mailbox_not_empty :
    bus_one_pending.head = [demo_task 66 0x06 [(demo_event 0x04).node]] ∧
    (demo_event 0x02).type &&& (demo_task 66 0x06 []).event_mask ≠ 0 ∧
    (event_enqueue_all 0 bus_one_pending [((fun _ : Nat => true), demo_event 0x02)]).map
        (fun b => b.head.map (event_dequeue_times 1)) =
      some [some ([(demo_event 0x04).node], demo_task 66 0x06 [(demo_event 0x02).node])] ∧
    (event_enqueue_all 0 bus_one_pending [((fun _ : Nat => true), demo_event 0x02)]).map
        (fun b => b.head.map (event_dequeue_times 1)) ≠
      some [some ([(demo_event 0x02).node], demo_task 66 0x06 [(demo_event 0x04).node])] := by
  have h : (event_enqueue_all 0 bus_one_pending [((fun _ : Nat => true), demo_event 0x02)]).map
        (fun b => b.head.map (event_dequeue_times 1)) =
      some [some ([(demo_event 0x04).node], demo_task 66 0x06 [(demo_event 0x02).node])] := by
    rfl
  refine ⟨rfl, by decide, h, ?_⟩
  rw [h]
  decide

/-- The scan from row `i` to the end of the table: -1 when no row from `i` on is
free, else the first free row from `i` on. -/
theorem vhci_free_port_scan_spec (hub : List Nat) (port : List vhci_port) :
    ∀ (fuel i : Nat), i + fuel = port.length →
      (vhci_free_port_scan hub port fuel i = -1 ∧
        ∀ j p, i ≤ j → port.get? j = some p →
          ¬ (strcmp p.hub hub = 0 ∧ p.status = VHCI_PORT_AVAILABLE)) ∨
      (∃ k p, i ≤ k ∧ port.get? k = some p ∧ vhci_free_port_scan hub port fuel i = (k : Int) ∧
        (strcmp p.hub hub = 0 ∧ p.status = VHCI_PORT_AVAILABLE) ∧
        ∀ j q, i ≤ j → j < k → port.get? j = some q →
          ¬ (strcmp q.hub hub = 0 ∧ q.status = VHCI_PORT_AVAILABLE)) := by
  intro fuel
  induction fuel with
  | zero =>
    intro i hi
    left
    refine ⟨rfl, ?_⟩
    intro j p hj hp
    have hlt : j < port.length := by
      rcases Nat.lt_or_ge j port.length with h | h
      · exact h
      · rw [List.get?_eq_none.mpr h] at hp; cases hp
    omega
  | succ fuel ih =>
    intro i hi
    have hlt : i < port.length := by omega
    have hg : port.get? i = some (port.get ⟨i, hlt⟩) := List.get?_eq_get hlt
    by_cases hf : strcmp (port.get ⟨i, hlt⟩).hub hub = 0 ∧
        (port.get ⟨i, hlt⟩).status = VHCI_PORT_AVAILABLE
    · right
      refine ⟨i, _, le_refl _, hg, ?_, hf, ?_⟩
      · simp only [vhci_free_port_scan, hg, hf, and_self, if_true]
      · intro j q h1 h2 _
        omega
    · have hstep : vhci_free_port_scan hub port (fuel + 1) i =
          vhci_free_port_scan hub port fuel (i + 1) := by
        simp only [vhci_free_port_scan, hg, hf, if_false]
      rw [hstep]
      rcases ih (i + 1) (by omega) with ⟨h1, h2⟩ | ⟨k, p, h1, h2, h3, h4, h5⟩
      · left
        refine ⟨h1, ?_⟩
        intro j p hj hp
        rcases Nat.eq_or_lt_of_le hj with h | h
        · subst h
          rw [hg] at hp
          injection hp with hp
          rw [← hp]
          exact hf
        · exact h2 j p h hp
      · right
        refine ⟨k, p, by omega, h2, h3, h4, ?_⟩
        intro j q hj hjk hq
        rcases Nat.eq_or_lt_of_le hj with h | h
        · subst h
          rw [hg] at hq
          injection hq with hq
          rw [← hq]
          exact hf
        · exact h5 j q h hjk hq

theorem vhci_port_free_iff (usb3_port : Bool) (p : vhci_port) :
    p.free usb3_port ↔
      (strcmp p.hub (if usb3_port then [115, 115] else [104, 115]) = 0 ∧
        p.status = VHCI_PORT_AVAILABLE) := by
  unfold vhci_port.free
  rw [strcmp_eq_zero_iff]
  cases usb3_port
  · simp only [Bool.false_eq_true, if_false]
    have h : cstr [104, 115] = [104, 115] := by decide
    rw [h]
    exact And.comm
  · simp only [if_true]
    have h : cstr [115, 115] = [115, 115] := by decide
    rw [h]
    exact And.comm

theorem vhci_get_free_port_scan (port : List vhci_port) (usb3_port : Bool) :
    vhci_get_free_port (some port) usb3_port =
      vhci_free_port_scan (if usb3_port then [115, 115] else [104, 115]) port VHCI_MAX_PORTS 0 := by
  cases usb3_port <;> rfl

/-- C17: for a table of 16 parsed rows, `vhci_get_free_port` returns the smallest
index of a row whose status is VHCI_PORT_AVAILABLE and whose hub is "ss" (USB3
requested) or "hs" (USB2 requested), and returns -1 exactly when no row is such. -/
theorem C17_vhci_get_free_port (port : List vhci_port) (usb3_port : Bool)
    (hlen : port.length = 16) :
    (vhci_get_free_port (some port) usb3_port = -1 ↔ ∀ p ∈ port, ¬ p.free usb3_port) ∧
    (∀ i : Nat, vhci_get_free_port (some port) usb3_port = (i : Int) ↔
      ∃ p, port.get? i = some p ∧ p.free usb3_port ∧
        ∀ j q, j < i → port.get? j = some q → ¬ q.free usb3_port) := by
  rw [vhci_get_free_port_scan]
  have hspec := vhci_free_port_scan_spec (if usb3_port then [115, 115] else [104, 115]) port
    VHCI_MAX_PORTS 0 (by rw [hlen]; rfl)
  rcases hspec with ⟨h1, h2⟩ | ⟨k, p, _, hk, hres, hfree, hmin⟩
  · have hnone : ∀ p ∈ port, ¬ p.free usb3_port := by
      intro p hp
      obtain ⟨n, hn⟩ := List.get?_of_mem hp
      rw [vhci_port_free_iff]
      exact h2 n p (Nat.zero_le _) hn
    refine ⟨⟨fun _ => hnone, fun _ => h1⟩, ?_⟩
    intro i
    rw [h1]
    constructor
    · intro h
      omega
    · rintro ⟨p, hp, hf, _⟩
      exact absurd hf (hnone p (List.get?_mem hp))
  · rw [hres]
    have hpf : p.free usb3_port := (vhci_port_free_iff usb3_port p).mpr hfree
    refine ⟨⟨fun h => by omega, fun h => absurd hpf (h p (List.get?_mem hk))⟩, ?_⟩
    intro i
    constructor
    · intro h
      have hik : k = i := by omega
      subst hik
      refine ⟨p, hk, hpf, ?_⟩
      intro j q hj hq
      rw [vhci_port_free_iff]
      exact hmin j q (Nat.zero_le _) hj hq
    · rintro ⟨p2, hp2, hf2, hmin2⟩
      have hki : k = i := by
        rcases Nat.lt_trichotomy k i with h | h | h
        · exact absurd hpf (hmin2 k p h hk)
        · exact h
        · exact absurd ((vhci_port_free_iff usb3_port p2).mp hf2)
            (hmin i p2 (Nat.zero_le _) h hp2)
      rw [hki]

theorem C17_vhci_get_free_port_witness :
    demo_vhci_table.length = 16 ∧
    vhci_get_free_port (some demo_vhci_table) true = 9 ∧
    ∃ p, demo_vhci_table.get? 9 = some p ∧ p.free true ∧
      ∀ j q, j < 9 → demo_vhci_table.get? j = some q → ¬ q.free true :=
  ⟨rfl, rfl, ((C17_vhci_get_free_port demo_vhci_table true rfl).2 9).mp rfl⟩

theorem fmt_u_digits_length :
    ∀ (fuel n : Nat) (acc : List Nat) (k : Nat), n < 10 ^ k → 1 ≤ k →
      (fmt_u_digits fuel n acc).length ≤ acc.length + k := by
  intro fuel
  induction fuel with
  | zero => intro n acc k _ _; simp [fmt_u_digits]
  | succ fuel ih =>
    intro n acc k hn hk
    unfold fmt_u_digits
    simp only []
    by_cases h0 : n / 10 = 0
    · rw [if_pos h0]
      simp only [List.length_cons]
      omega
    · rw [if_neg h0]
      have hk2 : 2 ≤ k := by
        rcases Nat.lt_or_ge k 2 with h | h
        · have hk1 : k = 1 := by omega
          rw [hk1] at hn
          exfalso
          apply h0
          simp only [pow_one] at hn
          omega
        · exact h
      have hdiv : n / 10 < 10 ^ (k - 1) := by
        have hp : 10 ^ k = 10 ^ (k - 1) * 10 := by
          rw [← pow_succ]
          congr 1
          omega
        rw [hp] at hn
        exact Nat.div_lt_of_lt_mul (by rw [Nat.mul_comm]; exact hn)
      have := ih (n / 10) ((48 + n % 10) :: acc) (k - 1) hdiv (by omega)
      simp only [List.length_cons] at this
      omega

theorem fmt_u_digits_ne_zero :
    ∀ (fuel n : Nat) (acc : List Nat), (∀ b ∈ acc, b ≠ 0) →
      ∀ b ∈ fmt_u_digits fuel n acc, b ≠ 0 := by
  intro fuel
  induction fuel with
  | zero => intro n acc h; exact h
  | succ fuel ih =>
    intro n acc h
    have h1 : ∀ b ∈ (48 + n % 10) :: acc, b ≠ 0 := by
      intro b hb
      rcases List.mem_cons.mp hb with hb | hb
      · omega
      · exact h b hb
    unfold fmt_u_digits
    simp only []
    by_cases h0 : n / 10 = 0
    · rw [if_pos h0]
      exact h1
    · rw [if_neg h0]
      exact ih (n / 10) _ h1

theorem fmt_u_length (n : Nat) (h : n < 4294967296) : (fmt_u n).length ≤ 10 := by
  have := fmt_u_digits_length (n + 1) n [] 10 (by omega) (by omega)
  simpa [fmt_u] using this

theorem fmt_u_ne_zero (n : Nat) : ∀ b ∈ fmt_u n, b ≠ 0 :=
  fmt_u_digits_ne_zero (n + 1) n [] (fun _ hb => by cases hb)

theorem cstr_append_zeros (t : List Nat) (m : Nat) (h : ∀ b ∈ t, b ≠ 0) :
    cstr (t ++ List.replicate m 0) = t := by
  unfold cstr
  induction t with
  | nil =>
    cases m with
    | zero => rfl
    | succ m => simp [List.replicate_succ, List.takeWhile_cons]
  | cons x xs ih =>
    have hx : x ≠ 0 := h x (List.mem_cons_self _ _)
    simp only [List.cons_append, List.takeWhile_cons, hx, ne_eq, not_false_eq_true,
      decide_True, if_true]
    rw [ih (fun b hb => h b (List.mem_cons_of_mem _ hb))]

theorem vhci_free_port_scan_lt (hub : List Nat) (port : List vhci_port) :
    ∀ (fuel i : Nat), vhci_free_port_scan hub port fuel i < ((i + fuel : Nat) : Int) := by
  intro fuel
  induction fuel with
  | zero => intro i; simp only [vhci_free_port_scan]; omega
  | succ fuel ih =>
    intro i
    unfold vhci_free_port_scan
    cases hg : port.get? i with
    | none => simp only []; omega
    | some p =>
      simp only []
      by_cases hf : strcmp p.hub hub = 0 ∧ p.status = VHCI_PORT_AVAILABLE
      · rw [if_pos hf]
        omega
      · rw [if_neg hf]
        have := ih (i + 1)
        omega

theorem vhci_get_free_port_lt (parse : Option (List vhci_port)) (usb3_port : Bool) :
    vhci_get_free_port parse usb3_port < 16 := by
  cases parse with
  | none => simp only [vhci_get_free_port]; omega
  | some port =>
    rw [vhci_get_free_port_scan]
    have := vhci_free_port_scan_lt (if usb3_port then [115, 115] else [104, 115]) port
      VHCI_MAX_PORTS 0
    simpa [VHCI_MAX_PORTS] using this

/-- For a bus number and a device number below `2^16`, `devid` has the bus number
in its high half and the device number in its low half. -/
theorem vhci_devid_halves (udev : usbip_usb_device) (hb : udev.busnum < 65536)
    (hd : udev.devnum < 65536) :
    vhci_devid udev = udev.busnum * 65536 + udev.devnum ∧
    vhci_devid udev / 65536 = udev.busnum ∧ vhci_devid udev % 65536 = udev.devnum := by
  have h1 : vhci_devid udev = udev.busnum * 65536 + udev.devnum := by
    unfold vhci_devid
    rw [Nat.shiftLeft_eq]
    have hlt : udev.busnum * 2 ^ 16 < 4294967296 := by omega
    rw [Nat.mod_eq_of_lt hlt, Nat.lor_comm]
    have h := Nat.mul_add_lt_is_or (show udev.devnum < 2 ^ 16 by omega) udev.busnum
    rw [Nat.mul_comm] at h
    rw [← h]
  refine ⟨h1, ?_, ?_⟩ <;> rw [h1] <;> omega

theorem u32_of_int_nonneg (i : Int) (h0 : 0 ≤ i) (h1 : i < 4294967296) :
    u32_of_int i = i.toNat := by
  unfold u32_of_int
  rw [Int.emod_eq_of_lt h0 h1]

theorem snprintf_buf_short (text : List Nat) (hl : text.length ≤ 127)
    (hz : ∀ b ∈ text, b ≠ 0) :
    (snprintf_buf 128 text).length = 128 ∧ cstr (snprintf_buf 128 text) = text := by
  unfold snprintf_buf
  have ht : text.take (128 - 1) = text := List.take_of_length_le (by omega)
  rw [ht]
  refine ⟨?_, cstr_append_zeros text _ hz⟩
  rw [List.length_append, List.length_replicate]
  omega

/-- C18: when `vhci_attach_device` writes the attach file (a port was free and the
forwarding socket was set up), the 128 bytes it writes hold the C string
`"<port> <socket> <devid> <speed>"`, each number in decimal and NUL-padded to the
end of the buffer, where `devid` is `devnum | busnum << 16` in 32-bit unsigned
arithmetic; for a bus number and a device number below `2^16` the high half of
`devid` is the bus number and the low half the device number. -/
theorem C18_vhci_attach_text (env : vhci_env) (dev : client_usb_device) (usb3_port : Bool)
    (value : List Nat) (hwf : dev.info.udev.wf)
    (hsock : (setup_forward env dev).1 < 2147483648)
    (hw : (vhci_attach_device env dev usb3_port).written = some value) :
    0 ≤ vhci_get_free_port env.parse usb3_port ∧ 0 ≤ (setup_forward env dev).1 ∧
    value.length = 128 ∧
    cstr value =
      fmt_u (vhci_get_free_port env.parse usb3_port).toNat ++ [32] ++
      fmt_u (setup_forward env dev).1.toNat ++ [32] ++
      fmt_u (vhci_devid dev.info.udev) ++ [32] ++ fmt_u dev.info.udev.speed ∧
    vhci_devid dev.info.udev =
      dev.info.udev.devnum ||| (dev.info.udev.busnum <<< 16) % 4294967296 ∧
    (dev.info.udev.busnum < 65536 → dev.info.udev.devnum < 65536 →
      vhci_devid dev.info.udev / 65536 = dev.info.udev.busnum ∧
      vhci_devid dev.info.udev % 65536 = dev.info.udev.devnum) := by
  have hplt := vhci_get_free_port_lt env.parse usb3_port
  obtain ⟨_, _, _, _, _, hdn, hspeed, _⟩ := hwf
  unfold vhci_attach_device at hw
  simp only [] at hw
  by_cases hp : vhci_get_free_port env.parse usb3_port < 0
  · rw [if_pos hp] at hw
    cases hw
  · rw [if_neg hp] at hw
    by_cases hs : (setup_forward env dev).1 < 0
    · rw [if_pos hs] at hw
      cases hw
    · rw [if_neg hs] at hw
      cases hwo : env.write_ok with
      | false =>
        rw [hwo] at hw
        cases hw
      | true =>
        rw [hwo] at hw
        simp only [Bool.not_true, Bool.false_eq_true, if_false, Option.some.injEq] at hw
        have hp0 : 0 ≤ vhci_get_free_port env.parse usb3_port := by omega
        have hs0 : 0 ≤ (setup_forward env dev).1 := by omega
        have htext : vhci_attach_text (vhci_get_free_port env.parse usb3_port)
            (setup_forward env dev).1 dev.info.udev =
            fmt_u (vhci_get_free_port env.parse usb3_port).toNat ++ [32] ++
            fmt_u (setup_forward env dev).1.toNat ++ [32] ++
            fmt_u (vhci_devid dev.info.udev) ++ [32] ++ fmt_u dev.info.udev.speed := by
          unfold vhci_attach_text fmt_d
          rw [u32_of_int_nonneg _ hp0 (by omega), if_neg hs]
        rw [htext] at hw
        have hdev : vhci_devid dev.info.udev < 4294967296 := by
          unfold vhci_devid
          have h1 := Nat.mod_lt (dev.info.udev.busnum <<< 16) (show 0 < 4294967296 by norm_num)
          exact Nat.or_lt_two_pow (n := 32) hdn h1
        have hl1 := fmt_u_length (vhci_get_free_port env.parse usb3_port).toNat (by omega)
        have hl2 := fmt_u_length (setup_forward env dev).1.toNat (by omega)
        have hl3 := fmt_u_length (vhci_devid dev.info.udev) hdev
        have hl4 := fmt_u_length dev.info.udev.speed hspeed
        have hbuf := snprintf_buf_short
          (fmt_u (vhci_get_free_port env.parse usb3_port).toNat ++ [32] ++
            fmt_u (setup_forward env dev).1.toNat ++ [32] ++
            fmt_u (vhci_devid dev.info.udev) ++ [32] ++ fmt_u dev.info.udev.speed)
          (by simp only [List.length_append, List.length_singleton]; omega)
          (by
            intro b hb
            simp only [List.mem_append, List.mem_singleton] at hb
            rcases hb with (((((h | h) | h) | h) | h) | h) | h
            · exact fmt_u_ne_zero _ b h
            · omega
            · exact fmt_u_ne_zero _ b h
            · omega
            · exact fmt_u_ne_zero _ b h
            · omega
            · exact fmt_u_ne_zero _ b h)
        rw [hw] at hbuf
        exact ⟨hp0, hs0, hbuf.1, hbuf.2, rfl,
          fun hb hd => (vhci_devid_halves dev.info.udev hb hd).2⟩

theorem C18_vhci_attach_text_witness :
    demo_client_dev.info.udev.wf ∧
    (setup_forward demo_vhci_env demo_client_dev).1 < 2147483648 ∧
    (vhci_attach_device demo_vhci_env demo_client_dev false).written =
      some ([49, 32, 55, 32, 49, 57, 54, 54, 49, 51, 32, 50] ++ List.replicate 116 0) ∧
    cstr ([49, 32, 55, 32, 49, 57, 54, 54, 49, 51, 32, 50] ++ List.replicate 116 0) =
      fmt_u 1 ++ [32] ++ fmt_u 7 ++ [32] ++ fmt_u (vhci_devid demo_client_dev.info.udev) ++
        [32] ++ fmt_u 2 ∧
    vhci_devid demo_client_dev.info.udev / 65536 = 3 ∧
    vhci_devid demo_client_dev.info.udev % 65536 = 5 := by
  have hw : (vhci_attach_device demo_vhci_env demo_client_dev false).written =
      some ([49, 32, 55, 32, 49, 57, 54, 54, 49, 51, 32, 50] ++ List.replicate 116 0) := by rfl
  have hc := C18_vhci_attach_text demo_vhci_env demo_client_dev false _ (by decide)
    (by decide) hw
  exact ⟨by decide, by decide, hw, hc.2.2.2.1, hc.2.2.2.2.2 (by decide) (by decide)⟩

/-- C16 (the code at the failing input): two devices with bus-id "1-1" are
attached, from 10.0.0.1:3240 and from 10.0.0.2:3240, and the one from 10.0.0.2 is
detached.  `detach_remote_device` finds it by its triple, but `delete_device`
compares bus-ids only and unlinks the head: DETACHED is emitted, the device from
10.0.0.1 is gone from the list and the one from 10.0.0.2 is still in it.  With the
two behind a device "2-1" and around a device "3-1", the same request drops all
three of them. -/
theorem C16_detach_unlinks_entry_of_other_server :
    (detach_remote_device true [client_dev_of [49, 45, 49] 1, client_dev_of [49, 45, 49] 2]
      (request_of 2)).ret = true ∧
    (detach_remote_device true [client_dev_of [49, 45, 49] 1, client_dev_of [49, 45, 49] 2]
      (request_of 2)).events.map (fun ev => ev.type) = [EVENT_DETACHED] ∧
    (detach_remote_device true [client_dev_of [49, 45, 49] 1, client_dev_of [49, 45, 49] 2]
      (request_of 2)).usb_device_head = [exit_fwd (client_dev_of [49, 45, 49] 2)] ∧
    (detach_remote_device true [client_dev_of [49, 45, 49] 1, client_dev_of [49, 45, 49] 2]
      (request_of 2)).usb_device_head ≠ [client_dev_of [49, 45, 49] 1] ∧
    (detach_remote_device true
      [client_dev_of [50, 45, 49] 1, client_dev_of [49, 45, 49] 1, client_dev_of [51, 45, 49] 1,
       client_dev_of [49, 45, 49] 2]
      (request_of 2)).usb_device_head = [client_dev_of [50, 45, 49] 1] := by
  refine ⟨by rfl, by rfl, by rfl, by decide, by rfl⟩

theorem strncmp_eq_zero_iff (a b : List Nat) (n : Nat) :
    strncmp a b n = 0 ↔ cstr (a.take n) = cstr (b.take n) :=
  strcmp_eq_zero_iff _ _

theorem cstr_take : ∀ (l : List Nat) (n : Nat), cstr (l.take n) = (cstr l).take n := by
  intro l
  induction l with
  | nil => intro n; simp [cstr]
  | cons x xs ih =>
    intro n
    cases n with
    | zero => simp [cstr]
    | succ n =>
      have h := ih n
      unfold cstr at h ⊢
      by_cases hx : x = 0
      · simp [List.takeWhile_cons, hx]
      · simp only [List.take_succ_cons, List.takeWhile_cons, hx, ne_eq, not_false_eq_true,
          decide_True, if_true, h]

theorem cstr_ne_zero (l : List Nat) : ∀ b ∈ cstr l, b ≠ 0 := by
  intro b hb
  have := List.mem_takeWhile_imp hb
  simpa using this

theorem find_remote_device_isSome (found : client_usb_device → Bool) :
    ∀ l : List client_usb_device,
      (find_remote_device found l).isSome = true ↔ ∃ d ∈ l, found d = true := by
  intro l
  induction l with
  | nil => simp [find_remote_device]
  | cons x xs ih =>
    unfold find_remote_device
    by_cases hx : found x = true
    · simp [hx]
    · simp only [hx, Bool.false_eq_true, if_false, Option.isSome_map', ih, List.mem_cons,
        exists_eq_or_imp, false_or]

/-- The check of `attach_remote_device` finds a device exactly when the triple of
the request is the triple of a device in the list. -/
theorem attach_device_exists_iff (cmd : interface_request) (l : List client_usb_device) :
    (find_remote_device (fun dev =>
        decide (strncmp cmd.dev.busid dev.info.udev.busid USBIP_BUSID_SIZE = 0) &&
        decide (strncmp dev.server_ipv4 cmd.ipv4 RH_IP_NAME_MAX_LEN = 0) &&
        decide ((cmd.port : Int) = dev.ip_port)) l).isSome = true ↔
      cmd.triple ∈ l.map client_usb_device.triple := by
  rw [find_remote_device_isSome, List.mem_map]
  constructor
  · rintro ⟨d, hd, hf⟩
    simp only [Bool.and_eq_true, decide_eq_true_eq, strncmp_eq_zero_iff] at hf
    refine ⟨d, hd, ?_⟩
    unfold client_usb_device.triple interface_request.triple
    rw [hf.1.1, hf.1.2, hf.2]
  · rintro ⟨d, hd, ht⟩
    refine ⟨d, hd, ?_⟩
    unfold client_usb_device.triple interface_request.triple at ht
    simp only [Prod.mk.injEq] at ht
    simp only [Bool.and_eq_true, decide_eq_true_eq, strncmp_eq_zero_iff]
    exact ⟨⟨ht.1.symm, ht.2.1⟩, ht.2.2.symm⟩

theorem setup_forward_triple (env : vhci_env) (dev : client_usb_device) :
    (setup_forward env dev).2.triple = dev.triple := by
  unfold setup_forward
  cases env.socketpair with
  | none => rfl
  | some fds =>
    cases env.thread with
    | none => rfl
    | some th => rfl

theorem vhci_attach_device_triple (env : vhci_env) (item : client_usb_device) (u : Bool) :
    (vhci_attach_device env item u).dev.triple = item.triple := by
  unfold vhci_attach_device
  simp only []
  by_cases h1 : vhci_get_free_port env.parse u < 0
  · rw [if_pos h1]
  · rw [if_neg h1]
    by_cases h2 : (setup_forward env item).1 < 0
    · rw [if_pos h2]
      exact setup_forward_triple env item
    · rw [if_neg h2]
      cases env.write_ok with
      | false => exact setup_forward_triple env item
      | true => exact setup_forward_triple env item

theorem delete_device_walk_sublist (busid : List Nat) :
    ∀ (l : List client_usb_device) (k : Nat) (r : List client_usb_device),
      delete_device_walk busid l k = some r → r.Sublist l := by
  intro l
  induction l with
  | nil => intro k r h; simp [delete_device_walk] at h
  | cons x xs ih =>
    intro k r h
    cases xs with
    | nil => simp [delete_device_walk] at h
    | cons y ys =>
      unfold delete_device_walk at h
      by_cases hm : strcmp y.info.udev.busid busid = 0
      · rw [if_pos hm] at h
        injection h with h
        rw [← h]
        exact List.Sublist.cons₂ _ (List.drop_sublist _ _)
      · rw [if_neg hm] at h
        cases hw : delete_device_walk busid (y :: ys) (k - 1) with
        | none => rw [hw] at h; cases h
        | some r1 =>
          rw [hw] at h
          simp only [Option.map_some', Option.some.injEq] at h
          rw [← h]
          exact List.Sublist.cons₂ _ (ih (k - 1) r1 hw)

theorem delete_device_sublist (l : List client_usb_device) (idx : Nat) :
    (delete_device l idx).2.Sublist l := by
  unfold delete_device
  cases l with
  | nil => simp
  | cons x xs =>
    cases hg : (x :: xs).get? idx with
    | none => simp
    | some device =>
      simp only []
      by_cases hm : strcmp x.info.udev.busid device.info.udev.busid = 0
      · rw [if_pos hm]
        exact List.sublist_cons_self _ _
      · rw [if_neg hm]
        cases hw : delete_device_walk device.info.udev.busid (x :: xs) idx with
        | none => exact List.Sublist.refl _
        | some r => exact delete_device_walk_sublist _ _ _ _ hw

theorem modify_exit_fwd_triple : ∀ (l : List client_usb_device) (idx : Nat),
    (l.modify exit_fwd idx).map client_usb_device.triple = l.map client_usb_device.triple := by
  intro l
  induction l with
  | nil => intro idx; cases idx <;> rfl
  | cons x xs ih =>
    intro idx
    cases idx with
    | zero => rfl
    | succ n =>
      show (x :: xs.modify exit_fwd n).map client_usb_device.triple = _
      rw [List.map_cons, ih n, List.map_cons]

/-- The list after `attach_remote_device` is the old one, or the old one with the
new item at its head; the latter only when no device of the list has the triple of
the request. -/
theorem attach_remote_device_head (le : Bool) (head : List client_usb_device)
    (cmd : interface_request) (env : attach_env) :
    (attach_remote_device le head cmd env).usb_device_head = head ∨
    (cmd.triple ∉ head.map client_usb_device.triple ∧
      ∃ reply link, env.import_reply = some (reply, link) ∧
        (attach_remote_device le head cmd env).usb_device_head =
          (vhci_attach_device env.vhci
            { info := usb_device_info_of reply,
              server_ipv4 := strncpy_zeroed RH_IP_NAME_MAX_LEN cmd.ipv4 (RH_IP_NAME_MAX_LEN - 1),
              ip_port := cmd.port, vhci_link := some link, vhci_port := 0,
              fwd_terminated := false, local_fwd_socket := -1, local_fwd_thread := 0 }
            (is_usb3 cmd.dev.speed)).dev :: head) := by
  unfold attach_remote_device
  simp only []
  cases hip : env.ip_ok with
  | false => left; rfl
  | true =>
    simp only [Bool.not_true, Bool.false_eq_true, if_false]
    by_cases hex : (find_remote_device (fun dev =>
        decide (strncmp cmd.dev.busid dev.info.udev.busid USBIP_BUSID_SIZE = 0) &&
        decide (strncmp dev.server_ipv4 cmd.ipv4 RH_IP_NAME_MAX_LEN = 0) &&
        decide ((cmd.port : Int) = dev.ip_port)) head).isSome = true
    · rw [if_pos hex]
      left; rfl
    · rw [if_neg hex]
      have hnot : cmd.triple ∉ head.map client_usb_device.triple := by
        intro h
        exact hex ((attach_device_exists_iff cmd head).mpr h)
      cases hla : env.link_alloc_ok with
      | false => left; rfl
      | true =>
        simp only [Bool.not_true, Bool.false_eq_true, if_false]
        cases himp : env.import_reply with
        | none => left; rfl
        | some r =>
          obtain ⟨reply, link⟩ := r
          simp only []
          by_cases hprod : cmd.dev.idProduct ≠ reply.idProduct
          · rw [if_pos hprod]
            left; rfl
          · rw [if_neg hprod]
            by_cases hven : cmd.dev.idVendor ≠ reply.idVendor
            · rw [if_pos hven]
              left; rfl
            · rw [if_neg hven]
              cases hia : env.item_alloc_ok with
              | false => left; rfl
              | true =>
                simp only [Bool.not_true, Bool.false_eq_true, if_false]
                cases hok : (vhci_attach_device env.vhci
                    { info := usb_device_info_of reply,
                      server_ipv4 := strncpy_zeroed RH_IP_NAME_MAX_LEN cmd.ipv4
                        (RH_IP_NAME_MAX_LEN - 1),
                      ip_port := cmd.port, vhci_link := some link, vhci_port := 0,
                      fwd_terminated := false, local_fwd_socket := -1, local_fwd_thread := 0 }
                    (is_usb3 cmd.dev.speed)).ok with
                | false => left; rfl
                | true =>
                  right
                  exact ⟨hnot, reply, link, rfl, rfl⟩

theorem strncpy_zeroed_cstr (src : List Nat) (h : (cstr src).length < RH_IP_NAME_MAX_LEN) :
    cstr ((strncpy_zeroed RH_IP_NAME_MAX_LEN src (RH_IP_NAME_MAX_LEN - 1)).take
      RH_IP_NAME_MAX_LEN) = cstr (src.take RH_IP_NAME_MAX_LEN) := by
  have h64 : RH_IP_NAME_MAX_LEN = 64 := rfl
  rw [h64] at h ⊢
  unfold strncpy_zeroed
  have ht : (cstr src).take (64 - 1) = cstr src := List.take_of_length_le (by omega)
  rw [ht, cstr_take src 64, List.take_of_length_le (l := cstr src) (by omega)]
  have hlen : (cstr src ++ List.replicate (64 - (cstr src).length) 0).length ≤ 64 := by
    rw [List.length_append, List.length_replicate]
    omega
  rw [List.take_of_length_le hlen]
  exact cstr_append_zeros _ _ (cstr_ne_zero src)

/-- An attach request that conforms keeps the triples of the list distinct. -/
theorem attach_remote_device_nodup (le : Bool) (head : List client_usb_device)
    (cmd : interface_request) (env : attach_env)
    (hc : (manager_request.attach cmd env).conforms)
    (hn : (head.map client_usb_device.triple).Nodup) :
    ((attach_remote_device le head cmd env).usb_device_head.map
      client_usb_device.triple).Nodup := by
  rcases attach_remote_device_head le head cmd env with h | ⟨hnot, reply, link, himp, h⟩
  · rw [h]
    exact hn
  · rw [h, List.map_cons, vhci_attach_device_triple]
    obtain ⟨hbus, hip⟩ := hc
    have hb := hbus (reply, link) himp
    have ht : client_usb_device.triple
        { info := usb_device_info_of reply,
          server_ipv4 := strncpy_zeroed RH_IP_NAME_MAX_LEN cmd.ipv4 (RH_IP_NAME_MAX_LEN - 1),
          ip_port := cmd.port, vhci_link := some link, vhci_port := 0,
          fwd_terminated := false, local_fwd_socket := -1, local_fwd_thread := 0 } =
        cmd.triple := by
      unfold client_usb_device.triple interface_request.triple
      simp only [usb_device_info_of]
      rw [strncpy_zeroed_cstr cmd.ipv4 hip]
      simp only [] at hb
      rw [hb]
    rw [ht]
    exact List.nodup_cons.mpr ⟨hnot, hn⟩

/-- A detach request keeps the triples of the list distinct. -/
theorem detach_remote_device_nodup (le : Bool) (head : List client_usb_device)
    (cmd : interface_request) (hn : (head.map client_usb_device.triple).Nodup) :
    ((detach_remote_device le head cmd).usb_device_head.map client_usb_device.triple).Nodup := by
  unfold detach_remote_device
  cases hf : find_remote_device (fun dev =>
      decide (strcmp cmd.dev.busid dev.info.udev.busid = 0) &&
      decide (strncmp dev.server_ipv4 cmd.ipv4 RH_IP_NAME_MAX_LEN = 0) &&
      decide ((cmd.port : Int) = dev.ip_port)) head with
  | none => exact hn
  | some idx =>
    simp only []
    have hs := (delete_device_sublist (head.modify exit_fwd idx) idx).map client_usb_device.triple
    rw [modify_exit_fwd_triple] at hs
    exact hs.nodup hn

theorem manager_run_nodup (le : Bool) :
    ∀ (reqs : List manager_request) (head : List client_usb_device),
      (∀ r ∈ reqs, r.conforms) → (head.map client_usb_device.triple).Nodup →
      ((manager_run le head reqs).map client_usb_device.triple).Nodup := by
  intro reqs
  induction reqs with
  | nil => intro head _ hn; exact hn
  | cons r rest ih =>
    intro head hc hn
    show ((manager_run le (manager_step le head r) rest).map client_usb_device.triple).Nodup
    apply ih _ (fun x hx => hc x (List.mem_cons_of_mem _ hx))
    cases r with
    | attach cmd env =>
      exact attach_remote_device_nodup le head cmd env (hc _ (List.mem_cons_self _ _)) hn
    | detach cmd => exact detach_remote_device_nodup le head cmd hn

/-- C15 (amended): an attach request whose triple (bus-id, server address, port) is
the triple of a device already in the attached list makes `attach_remote_device`
return false, hand ATTACH_FAILED to the event bus and nothing else, open no link
and leave the list as it is.  And as long as every import reply carries the bus-id
that was requested and the address text fits its buffer, the list the manager
builds from the empty list by attach and detach requests never holds two devices
with the same triple. -/
theorem C15_attach_rejects_duplicate (le : Bool) (head : List client_usb_device)
    (cmd : interface_request) (env : attach_env) :
    (cmd.triple ∈ head.map client_usb_device.triple →
      attach_remote_device le head cmd env =
        { ret := false, usb_device_head := head,
          events := [inform_attach_failed le cmd.dev cmd.ipv4 cmd.port],
          import_called := false } ∧
      (inform_attach_failed le cmd.dev cmd.ipv4 cmd.port).type = EVENT_ATTACH_FAILED) ∧
    (∀ reqs : List manager_request, (∀ r ∈ reqs, r.conforms) →
      ((manager_run le [] reqs).map client_usb_device.triple).Nodup) := by
  refine ⟨?_, fun reqs hc => manager_run_nodup le reqs [] hc List.nodup_nil⟩
  intro h
  refine ⟨?_, rfl⟩
  have hex := (attach_device_exists_iff cmd head).mpr h
  unfold attach_remote_device
  simp only []
  cases env.ip_ok with
  | false => rfl
  | true =>
    simp only [Bool.not_true, Bool.false_eq_true, if_false]
    rw [if_pos hex]

/-- C15 (counterexample to the claim as stated): the attach request for bus-id
"1-1" at 10.0.0.1:3240 is answered by the server with the record of bus-id "2-1",
which `attach_remote_device` stores.  The same request, answered the same way, is
then not rejected: the check compares the requested bus-id "1-1" with the stored
"2-1".  The list holds two devices with the same triple. -/
theorem C15_counterexample_reply_with_other_busid :
    (manager_run true [] [attach_other_busid, attach_other_busid]).map
        client_usb_device.triple =
      [([50, 45, 49], [49, 48, 46, 48, 46, 48, 46, 49], 3240),
       ([50, 45, 49], [49, 48, 46, 48, 46, 48, 46, 49], 3240)] ∧
    ¬ ((manager_run true [] [attach_other_busid, attach_other_busid]).map
        client_usb_device.triple).Nodup ∧
    (attach_remote_device true (manager_run true [] [attach_other_busid]) (request_of 1)
      (attach_env_of { demo_udev with busid := busid_of [50, 45, 49] })).ret = true := by
  have h : (manager_run true [] [attach_other_busid, attach_other_busid]).map
        client_usb_device.triple =
      [([50, 45, 49], [49, 48, 46, 48, 46, 48, 46, 49], 3240),
       ([50, 45, 49], [49, 48, 46, 48, 46, 48, 46, 49], 3240)] := by rfl
  refine ⟨h, ?_, by rfl⟩
  rw [h]
  intro hn
  exact (List.nodup_cons.mp hn).1 (List.mem_singleton.mpr rfl)

/-- When the server answers with the record that was asked for, the request
conforms, the first attach stores the device and the second is rejected. -/
theorem attach_same_busid_conforms :
    attach_same_busid.conforms ∧
    (manager_run true [] [attach_same_busid]).map client_usb_device.triple =
      [([49, 45, 49], [49, 48, 46, 48, 46, 48, 46, 49], 3240)] ∧
    manager_run true [] [attach_same_busid, attach_same_busid] =
      manager_run true [] [attach_same_busid] := by
  refine ⟨⟨?_, by decide⟩, by rfl, by rfl⟩
  intro r hr
  have h2 : r = (demo_udev, link0) := by
    have h3 : (attach_env_of demo_udev).import_reply = some (demo_udev, link0) := rfl
    rw [h3] at hr
    injection hr with hr
    exact hr.symm
  rw [h2]
  rfl

/-- The filter of `handle_packet` on the packet as converted: SERVER_DISCOVERED is
handed to the event bus exactly when, after the conversion from network order, `ident` is 0x5248424E, the
`use_tls` byte equals the client's setting and `version_major` is not greater than
the client's major version.  A `version_minor` greater than the client's minor
adds the trace "Server may have unsupported features" and the server is reported
all the same: a 0.1 server is reported to this 0.0 client, a 1.0 server is not. -/
theorem handle_packet_cases (le : Bool) (use_tls : Bool) (bcn : beacon_packet)
    (ip_text : List Nat) :
    ((handle_packet le use_tls bcn ip_text).event.isSome = true ↔
      ((beacon_from_network_order le bcn).ident = 0x5248424E ∧
       (beacon_from_network_order le bcn).use_tls = use_tls.toNat ∧
       ¬ (beacon_from_network_order le bcn).version_major > REMOTEHUB_VERSION_MAJOR)) ∧
    (∀ ev, (handle_packet le use_tls bcn ip_text).event = some ev →
      ev.type = EVENT_SERVER_DISCOVERED) ∧
    ((LVL_DBG, TRACE_UNSUPPORTED_FEATURES) ∈ (handle_packet le use_tls bcn ip_text).traces ↔
      ((handle_packet le use_tls bcn ip_text).event.isSome = true ∧
       (beacon_from_network_order le bcn).version_minor > REMOTEHUB_VERSION_MINOR)) ∧
    ((beacon_from_network_order le bcn).ident = 0x5248424E →
      (beacon_from_network_order le bcn).use_tls = use_tls.toNat →
      (beacon_from_network_order le bcn).version_major = 0 →
      (beacon_from_network_order le bcn).version_minor = 1 →
      (handle_packet le use_tls bcn ip_text).event.isSome = true) ∧
    ((beacon_from_network_order le bcn).version_major = 1 →
      (handle_packet le use_tls bcn ip_text).event = none) := by
  have hid : BEACON_IDENT = 0x5248424E := rfl
  have hmaj : REMOTEHUB_VERSION_MAJOR = 0 := rfl
  have hne : TRACE_UNSUPPORTED_FEATURES ≠ TRACE_FOUND := by decide
  have hne2 : TRACE_UNSUPPORTED_FEATURES ≠ TRACE_NOT_COMPATIBLE := by decide
  unfold handle_packet
  simp only []
  by_cases h1 : (beacon_from_network_order le bcn).ident = BEACON_IDENT ∧
      (beacon_from_network_order le bcn).use_tls = use_tls.toNat
  · rw [if_pos h1]
    by_cases h2 : (beacon_from_network_order le bcn).version_major > REMOTEHUB_VERSION_MAJOR
    · rw [if_pos h2]
      refine ⟨?_, ?_, ?_, ?_, ?_⟩
      · simp only [Option.isSome_none, Bool.false_eq_true, false_iff]
        intro h
        exact h.2.2 h2
      · intro ev h
        cases h
      · simp only [List.mem_cons, Prod.mk.injEq, hne, hne2, and_false, List.mem_singleton,
          List.not_mem_nil, or_self, Option.isSome_none, Bool.false_eq_true, false_and]
      · intro _ _ h0 _
        rw [h0, hmaj] at h2
        exact absurd h2 (by decide)
      · intro _
        rfl
    · rw [if_neg h2]
      refine ⟨?_, ?_, ?_, ?_, ?_⟩
      · simp only [Option.isSome_some, true_iff]
        exact ⟨hid ▸ h1.1, h1.2, h2⟩
      · intro ev h
        injection h with h
        rw [← h]
      · by_cases h3 : (beacon_from_network_order le bcn).version_minor > REMOTEHUB_VERSION_MINOR
        · simp [h3]
        · simp [h3, hne]
      · intro _ _ _ _
        rfl
      · intro h0
        rw [h0, hmaj] at h2
        exact absurd (show (1 : Nat) > 0 by decide) h2
  · rw [if_neg h1]
    refine ⟨?_, ?_, ?_, ?_, ?_⟩
    · simp only [Option.isSome_none, Bool.false_eq_true, false_iff]
      intro h
      exact h1 ⟨hid.symm ▸ h.1, h.2.1⟩
    · intro ev h
      cases h
    · simp
    · intro ha hb _ _
      exact absurd ⟨hid.symm ▸ ha, hb⟩ h1
    · intro _
      rfl

/-- What `ntohl` makes of the word four bytes of memory hold: their big-endian
value, on either host. -/
theorem ntohl_load32_bytes (le : Bool) (a b c d : Nat) (ha : a < 256) (hb : b < 256)
    (hc : c < 256) (hd : d < 256) :
    ntohl le (load32 le [a, b, c, d]) = a * 16777216 + b * 65536 + c * 256 + d := by
  cases le
  · simp only [ntohl, load32, Bool.false_eq_true, if_false, List.getD_cons_zero,
      List.getD_cons_succ]
    omega
  · simp only [ntohl, load32, if_true, List.getD_cons_zero, List.getD_cons_succ]
    rw [bswap32_bytes a b c d ha hb hc hd]
    omega

/-- An entry of a buffer inside its length, by `getD`. -/
theorem getD_of_lt (w : List Nat) (j : Nat) (hj : j < w.length) : w.getD j 0 = w[j] := by
  rw [List.getD_eq_getElem?_getD, List.getElem?_eq_getElem hj]
  rfl

/-- Four bytes of a buffer from position `k` on. -/
theorem drop_take_four (w : List Nat) (k : Nat) (h : k + 4 ≤ w.length) :
    (w.drop k).take 4 = [w.getD k 0, w.getD (k + 1) 0, w.getD (k + 2) 0, w.getD (k + 3) 0] := by
  rw [getD_of_lt w k (by omega), getD_of_lt w (k + 1) (by omega), getD_of_lt w (k + 2) (by omega),
    getD_of_lt w (k + 3) (by omega)]
  apply List.ext_getElem
  · simp only [List.length_take, List.length_drop, List.length_cons, List.length_nil]
    omega
  · intro i h1 h2
    simp only [List.length_cons, List.length_nil] at h2
    rw [List.getElem_take, List.getElem_drop]
    rcases i with _ | _ | _ | _ | i
    · rfl
    · rfl
    · rfl
    · rfl
    · omega

/-- The value the client has in a 32-bit field of a received beacon after
`beacon_from_network_order`: the big-endian reading of its four bytes. -/
theorem ntohl_load32_wire (le : Bool) (w : List Nat) (hb : bytes_ok w) (k : Nat)
    (h : k + 4 ≤ w.length) : ntohl le (load32 le ((w.drop k).take 4)) = wire_u32 w k := by
  have hbyte : ∀ j, j < w.length → w.getD j 0 < 256 := by
    intro j hj
    rw [getD_of_lt w j hj]
    exact hb _ (List.getElem_mem _)
  rw [drop_take_four w k h, ntohl_load32_bytes le _ _ _ _ (hbyte k (by omega))
    (hbyte (k + 1) (by omega)) (hbyte (k + 2) (by omega)) (hbyte (k + 3) (by omega))]
  rfl

/-- The fields the client compares, for a received datagram of 87 bytes: what
`beacon_from_network_order` leaves in them is the big-endian reading of the bytes
on the wire, whatever the byte order of the host. -/
theorem beacon_load_fields (le : Bool) (w : List Nat) (hlen : w.length = 87)
    (hb : bytes_ok w) :
    (beacon_from_network_order le (beacon_packet.load le w)).ident = wire_u32 w 0 ∧
    (beacon_from_network_order le (beacon_packet.load le w)).version_major = wire_u32 w 8 ∧
    (beacon_from_network_order le (beacon_packet.load le w)).version_minor = wire_u32 w 12 ∧
    (beacon_from_network_order le (beacon_packet.load le w)).use_tls = w.getD 82 0 := by
  refine ⟨?_, ?_, ?_, rfl⟩
  · exact ntohl_load32_wire le w hb 0 (by omega)
  · exact ntohl_load32_wire le w hb 8 (by omega)
  · exact ntohl_load32_wire le w hb 12 (by omega)

/-- C19: for a received beacon datagram `w` (87 bytes), on a client of either byte
order: `handle_packet` hands SERVER_DISCOVERED to the event bus exactly when the
big-endian word at offset 0 of the datagram (`ident`) is 0x5248424E, the byte at
offset 82 (`use_tls`) equals the client's setting, and the big-endian word at
offset 8 (`version_major`) is not greater than the client's major version.  A
big-endian word at offset 12 (`version_minor`) greater than the client's minor
adds the trace "Server may have unsupported features" and the server is reported
all the same: a 0.1 server is reported to this 0.0 client, a 1.0 server is not. -/
theorem C19_beacon_filter (le : Bool) (use_tls : Bool) (w : List Nat) (ip_text : List Nat)
    (hlen : w.length = 87) (hb : bytes_ok w) :
    ((handle_packet le use_tls (beacon_packet.load le w) ip_text).event.isSome = true ↔
      (wire_u32 w 0 = 0x5248424E ∧ w.getD 82 0 = use_tls.toNat ∧
       ¬ wire_u32 w 8 > REMOTEHUB_VERSION_MAJOR)) ∧
    (∀ ev, (handle_packet le use_tls (beacon_packet.load le w) ip_text).event = some ev →
      ev.type = EVENT_SERVER_DISCOVERED) ∧
    ((LVL_DBG, TRACE_UNSUPPORTED_FEATURES) ∈
        (handle_packet le use_tls (beacon_packet.load le w) ip_text).traces ↔
      ((handle_packet le use_tls (beacon_packet.load le w) ip_text).event.isSome = true ∧
       wire_u32 w 12 > REMOTEHUB_VERSION_MINOR)) ∧
    (wire_u32 w 0 = 0x5248424E → w.getD 82 0 = use_tls.toNat → wire_u32 w 8 = 0 →
      wire_u32 w 12 = 1 →
      (handle_packet le use_tls (beacon_packet.load le w) ip_text).event.isSome = true ∧
      (LVL_DBG, TRACE_UNSUPPORTED_FEATURES) ∈
        (handle_packet le use_tls (beacon_packet.load le w) ip_text).traces) ∧
    (wire_u32 w 8 = 1 →
      (handle_packet le use_tls (beacon_packet.load le w) ip_text).event = none) := by
  obtain ⟨f1, f2, f3, f4⟩ := beacon_load_fields le w hlen hb
  have h := handle_packet_cases le use_tls (beacon_packet.load le w) ip_text
  rw [f1, f2, f3, f4] at h
  obtain ⟨h1, h2, h3, h4, h5⟩ := h
  refine ⟨h1, h2, h3, ?_, h5⟩
  intro a b c d
  have hrep := h4 a b c d
  refine ⟨hrep, h3.mpr ⟨hrep, ?_⟩⟩
  rw [d]
  decide

theorem C19_beacon_filter_witness :
    ((demo_beacon_wire 0 1).length = 87 ∧ bytes_ok (demo_beacon_wire 0 1)) ∧
    ((handle_packet true false (beacon_packet.load true (demo_beacon_wire 0 1))
        (ipv4_of 1)).event.isSome = true ∧
      (LVL_DBG, TRACE_UNSUPPORTED_FEATURES) ∈
        (handle_packet true false (beacon_packet.load true (demo_beacon_wire 0 1))
          (ipv4_of 1)).traces) ∧
    ((demo_beacon_wire 1 0).length = 87 ∧ bytes_ok (demo_beacon_wire 1 0)) ∧
    (handle_packet false false (beacon_packet.load false (demo_beacon_wire 1 0))
        (ipv4_of 1)).event = none :=
  ⟨⟨by decide, by unfold bytes_ok; decide⟩,
   (C19_beacon_filter true false (demo_beacon_wire 0 1) (ipv4_of 1) (by decide)
      (by unfold bytes_ok; decide)).2.2.2.1 (by decide) (by decide) (by decide) (by decide),
   ⟨by decide, by unfold bytes_ok; decide⟩,
   (C19_beacon_filter false false (demo_beacon_wire 1 0) (ipv4_of 1) (by decide)
      (by unfold bytes_ok; decide)).2.2.2.2 (by decide)⟩

/-- Scenario S6 of the specification on concrete beacons: a 0.1 server is reported
with the trace about unsupported features, a 1.0 server is dropped. -/
theorem beacon_s6_examples :
    ((handle_packet true false (demo_beacon 0 1) (ipv4_of 1)).event.map (fun ev => ev.type) =
      some EVENT_SERVER_DISCOVERED) ∧
    (handle_packet true false (demo_beacon 0 1) (ipv4_of 1)).traces =
      [(LVL_DBG, TRACE_FOUND), (LVL_DBG, TRACE_UNSUPPORTED_FEATURES)] ∧
    (handle_packet true false (demo_beacon 1 0) (ipv4_of 1)).event = none ∧
    (handle_packet true true (demo_beacon 0 0) (ipv4_of 1)).event = none := by
  refine ⟨by rfl, by rfl, by rfl, by rfl⟩

/-- C20 (amended): the datagram `beacon_send` hands to `sendto` is 87 bytes long:
`ident` (0x5248424E), `id`, `version_major`, `version_minor` as big-endian 32-bit
words, the 64 bytes of `name` (63 bytes of the server name and a NUL), `port` as a
big-endian 16-bit word, the `use_tls` byte, and `attention` as a big-endian 32-bit
word, in that order. -/
theorem C20_beacon_wire_image (le : Bool) (st : beacon_state)
    (hname : st.server_name.length = 64) :
    beacon_send le st =
      be32 0x5248424E ++ be32 0 ++ be32 REMOTEHUB_VERSION_MAJOR ++
      be32 REMOTEHUB_VERSION_MINOR ++ (st.server_name.take 63 ++ [0]) ++ be16 st.port ++
      [st.server_is_tls.toNat] ++ be32 0 ∧
    (beacon_send le st).length = 87 := by
  have himg : beacon_send le st =
      be32 0x5248424E ++ be32 0 ++ be32 REMOTEHUB_VERSION_MAJOR ++
      be32 REMOTEHUB_VERSION_MINOR ++ (st.server_name.take 63 ++ [0]) ++ be16 st.port ++
      [st.server_is_tls.toNat] ++ be32 0 := by
    unfold beacon_send beacon_to_network_order beacon_packet.mem
    simp only [mem32_htonl, mem16_htons]
    rfl
  refine ⟨himg, ?_⟩
  rw [himg]
  simp only [List.length_append, List.length_take, hname, be32, be16, List.length_cons,
    List.length_nil]
  rfl

theorem C20_beacon_wire_image_witness :
    demo_beacon_state.server_name.length = 64 ∧
    beacon_send true demo_beacon_state =
      [0x52, 0x48, 0x42, 0x4E] ++ [0, 0, 0, 0] ++ [0, 0, 0, 0] ++ [0, 0, 0, 0] ++
      ([104, 117, 98] ++ List.replicate 61 0) ++ [0x0C, 0xA8] ++ [0] ++ [0, 0, 0, 0] ∧
    (beacon_send true demo_beacon_state).length = 87 := by
  have h := C20_beacon_wire_image true demo_beacon_state rfl
  refine ⟨rfl, ?_, h.2⟩
  rw [h.1]
  rfl

/-- C20 (counterexample to the claim as stated): the beacon of a server named "hub"
on port 3240 is 87 bytes on the wire, not 90. -/
theorem C20_counterexample_beacon_is_87_bytes :
    (beacon_send true demo_beacon_state).length = 87 ∧
    (beacon_send true demo_beacon_state).length ≠ 90 ∧
    (beacon_send false demo_beacon_state).length ≠ 90 := by
  have h1 : (beacon_send true demo_beacon_state).length = 87 := by rfl
  have h2 : (beacon_send false demo_beacon_state).length = 87 := by rfl
  refine ⟨h1, ?_, ?_⟩
  · rw [h1]; decide
  · rw [h2]; decide

/-- Replacing an element by one with the same image leaves the mapped list alone. -/
theorem map_set_same {α β : Type} (f : α → β) :
    ∀ (l : List α) (i : Nat) (d x : α), l.get? i = some d → f x = f d →
      (l.set i x).map f = l.map f := by
  intro l
  induction l with
  | nil => intro i d x h _; simp at h
  | cons a rest ih =>
    intro i d x h hf
    cases i with
    | zero =>
      simp only [List.get?_cons_zero, Option.some.injEq] at h
      simp [List.set, hf, h]
    | succ i =>
      simp only [List.get?_cons_succ] at h
      simp only [List.set, List.map_cons, ih i d x h hf]

/-- What `forwarding_start` does with a device that is not single-configuration. -/
theorem forwarding_start_multi_config (env : fwd_start_env) (dev : server_usb_device)
    (h : dev.info.udev.bNumConfigurations ≠ 1) :
    forwarding_start env dev = (false, dev) ∧ forwarding_start_calls env dev = [] := by
  simp [forwarding_start, forwarding_start_calls, h]

/-- C22: for a device whose `bNumConfigurations` is not 1, `forwarding_start`
returns false and leaves the device as it was, having made none of its calls (no
`libusb_open`, no `claim_device`, no `pthread_create`); and an import request that
selects such a device never keeps the link, and leaves the `exported` flag and the
forwarding thread of every tracked device unchanged, so the device is not exported. -/
theorem C22_multi_config_rejected (env : fwd_start_env) (dev : server_usb_device)
    (h : dev.info.udev.bNumConfigurations ≠ 1) :
    forwarding_start env dev = (false, dev) ∧
    forwarding_start_calls env dev = [] ∧
    ∀ (le : Bool) (net : Transport) (st : usb_task_state) (link : est_conn)
      (busid : List Nat) (idx : Nat),
      import_find_device busid st.usb_head = some (idx, dev) →
      (handle_usbip_req_import le net st env link (some busid)).keep_link = false ∧
      (handle_usbip_req_import le net st env link (some busid)).usb_head.map
          server_usb_device.export_state =
        st.usb_head.map server_usb_device.export_state := by
  refine ⟨(forwarding_start_multi_config env dev h).1,
    (forwarding_start_multi_config env dev h).2, ?_⟩
  intro le net st link busid idx hfind
  have hget := (import_find_device_spec busid st.usb_head).2 idx dev hfind
  have hfs : ∀ l : Option est_conn,
      forwarding_start env { dev with fwd := { dev.fwd with link := l } } =
        (false, { dev with fwd := { dev.fwd with link := l } }) :=
    fun l => (forwarding_start_multi_config env
      { dev with fwd := { dev.fwd with link := l } } h).1
  simp only [handle_usbip_req_import, hfind]
  split_ifs with h1 h2 h3 h4 h5
  · exact ⟨rfl, rfl⟩
  · exact ⟨rfl, rfl⟩
  · exact ⟨rfl, rfl⟩
  · exact ⟨rfl, rfl⟩
  · refine ⟨rfl, map_set_same _ _ _ dev _ hget ?_⟩
    rw [hfs]
    rfl
  · rw [hfs] at h5
    simp at h5

theorem C22_multi_config_rejected_witness :
    two_config_dev.info.udev.bNumConfigurations ≠ 1 ∧
    forwarding_start { open_ok := true, claim_ok := true, thread := some 7 } two_config_dev =
      (false, two_config_dev) ∧
    forwarding_start_calls { open_ok := true, claim_ok := true, thread := some 7 }
      two_config_dev = [] :=
  ⟨by decide,
   (C22_multi_config_rejected { open_ok := true, claim_ok := true, thread := some 7 }
      two_config_dev (by decide)).1,
   (C22_multi_config_rejected { open_ok := true, claim_ok := true, thread := some 7 }
      two_config_dev (by decide)).2.1⟩

/-- C26: `get_xfer_type` returns CONTROL for endpoint 0 whatever the tables hold;
for another endpoint it returns the entry `ep & 0x0F` of `ep_in_type` when the
direction is IN and of `ep_out_type` for any other direction, and that index is
below 16, inside the 16-entry tables. -/
theorem C26_get_xfer_type (dev : server_usb_device) (dir ep : Nat)
    (hin : dev.info.ep_in_type.length = 16) (hout : dev.info.ep_out_type.length = 16) :
    (ep = 0 → get_xfer_type dev dir ep = USB_ENDPOINT_XFER_CONTROL) ∧
    (ep ≠ 0 → dir = USBIP_DIR_IN →
      dev.info.ep_in_type.get? (ep &&& 0x0F) = some (get_xfer_type dev dir ep)) ∧
    (ep ≠ 0 → dir ≠ USBIP_DIR_IN →
      dev.info.ep_out_type.get? (ep &&& 0x0F) = some (get_xfer_type dev dir ep)) ∧
    ep &&& 0x0F < 16 := by
  have hlt : ep &&& 0x0F < 16 := Nat.lt_succ_of_le Nat.and_le_right
  refine ⟨?_, ?_, ?_, hlt⟩
  · intro h
    simp [get_xfer_type, h]
  · intro h hd
    simp only [get_xfer_type, h, hd, if_false, if_true, USB_ENDPOINT_NUMBER_MASK]
    rw [List.getD_eq_getElem?_getD, List.get?_eq_getElem?,
      List.getElem?_eq_getElem (by rw [hin]; exact hlt)]
    rfl
  · intro h hd
    simp only [get_xfer_type, h, hd, if_false, USB_ENDPOINT_NUMBER_MASK]
    rw [List.getD_eq_getElem?_getD, List.get?_eq_getElem?,
      List.getElem?_eq_getElem (by rw [hout]; exact hlt)]
    rfl

theorem C26_get_xfer_type_witness :
    (demo_dev.info.ep_in_type.length = 16 ∧ demo_dev.info.ep_out_type.length = 16) ∧
    demo_dev.info.ep_in_type.get? (0x81 &&& 0x0F) =
      some (get_xfer_type demo_dev USBIP_DIR_IN 0x81) ∧
    0x81 &&& 0x0F < 16 :=
  ⟨⟨by decide, by decide⟩,
   (C26_get_xfer_type demo_dev USBIP_DIR_IN 0x81 (by decide) (by decide)).2.1 (by decide) rfl,
   (C26_get_xfer_type demo_dev USBIP_DIR_IN 0x81 (by decide) (by decide)).2.2.2⟩

/-- The traces of `event_insert` in terms of the mailbox length before the call. -/
theorem event_insert_traces_eq (task : rh_task) (ev : rh_event) :
    event_insert_traces true task ev =
      if task.event.length = 0 then []
      else if 100 < task.event.length then [.depth ev.type task.event.length, .got_stuck]
      else [.depth ev.type task.event.length] := by
  unfold event_insert_traces
  cases h : task.event with
  | nil => simp
  | cons tmp rest =>
    simp only [Bool.not_true, Bool.false_eq_true, if_false]
    rw [event_insert_walk_eq ev (tmp :: rest) 1 (by simp)]
    simp only [List.length_cons, Nat.add_one_ne_zero, if_false]
    have e : 1 + (rest.length + 1) - 1 = rest.length + 1 := by omega
    rw [e]

/-- The result of `event_insert` in terms of the mailbox length before the call. -/
theorem event_insert_eq (debug_level : Int) (task : rh_task) (ev : rh_event)
    (data : Option (List Nat)) :
    event_insert debug_level true task ev data =
      if 100 < task.event.length ∧ rh_trace_aborts debug_level LVL_CRIT = true then none
      else some { task with event := task.event ++
        [{ type := ev.type, size := ev.size, data := data, link := ev.link, sts := ev.sts }] } := by
  unfold event_insert
  cases h : task.event with
  | nil => simp
  | cons tmp rest =>
    simp only [Bool.not_true, Bool.false_eq_true, if_false]
    rw [event_insert_walk_eq _ (tmp :: rest) 1 (by simp)]
    have e : 1 + (rest.length + 1) - 1 = rest.length + 1 := by omega
    simp only [List.length_cons, gt_iff_lt, e]

/-- C25, as the code has it: `depth` counts the entries the mailbox held before
the insertion, so `event_insert` makes the `LVL_CRIT` "got stuck" trace exactly
when the mailbox held more than 100 entries before the insertion, which is when it
holds more than 101 after it; it makes no `LVL_CRIT` trace when the mailbox holds
at most 101 entries after the insertion.  The new entry is linked before the trace,
and at a debug level that prints `LVL_CRIT` the trace aborts the process. -/
theorem C25_got_stuck_trace_above_101 (task : rh_task) (ev : rh_event)
    (data : Option (List Nat)) :
    (event_insert_trace.got_stuck ∈ event_insert_traces true task ev ↔
      101 < task.event.length + 1) ∧
    (task.event.length + 1 ≤ 101 →
      ∀ t ∈ event_insert_traces true task ev, t.level ≠ LVL_CRIT) ∧
    (∀ (debug_level : Int) (task1 : rh_task),
      event_insert debug_level true task ev data = some task1 →
        task1.event.length = task.event.length + 1) ∧
    (∀ debug_level : Int, LVL_CRIT ≤ debug_level →
      (event_insert debug_level true task ev data = none ↔ 101 < task.event.length + 1)) := by
  refine ⟨?_, ?_, ?_, ?_⟩
  · rw [event_insert_traces_eq]
    split_ifs with h0 h1
    · simp; omega
    · simp; omega
    · simp; omega
  · intro hle t ht
    rw [event_insert_traces_eq] at ht
    split_ifs at ht with h0 h1
    · simp at ht
    · omega
    · simp only [List.mem_singleton] at ht
      rw [ht]
      simp [event_insert_trace.level, LVL_DBG, LVL_CRIT]
  · intro debug_level task1 h
    rw [event_insert_eq] at h
    split_ifs at h with h1
    simp only [Option.some.injEq] at h
    rw [← h]
    simp
  · intro debug_level hl
    rw [event_insert_eq]
    have hab : rh_trace_aborts debug_level LVL_CRIT = true := by
      simp only [rh_trace_aborts, LVL_CRIT] at hl ⊢
      simp only [gt_iff_lt, decide_True, Bool.and_true, Bool.not_eq_true', decide_eq_false_iff_not,
        not_lt]
      exact hl
    simp only [hab, and_true]
    split_ifs with h1
    · simp; omega
    · simp; omega

/-- C25, counterexample: a mailbox holding 100 entries holds 101 after the
insertion, more than 100, and `event_insert` makes the depth trace only, no
`LVL_CRIT` trace, and returns normally even at a debug level that prints
everything. -/
theorem C25_counterexample_101_entries_no_trace :
    (task_with_backlog 100).event.length = 100 ∧
    (∃ task1, event_insert LVL_TRC true (task_with_backlog 100) (demo_event 0x02)
        (some [7, 8, 9]) = some task1 ∧ task1.event.length = 101) ∧
    event_insert_traces true (task_with_backlog 100) (demo_event 0x02) =
      [.depth 0x02 100] ∧
    event_insert_trace.got_stuck ∉
      event_insert_traces true (task_with_backlog 100) (demo_event 0x02) := by
  have hlen : (task_with_backlog 100).event.length = 100 := by
    simp [task_with_backlog, demo_task]
  refine ⟨hlen, ?_, ?_, ?_⟩
  · rw [event_insert_eq]
    simp [hlen]
  · rw [event_insert_traces_eq]
    simp [hlen, demo_event]
  · rw [event_insert_traces_eq]
    simp [hlen]

/-- A mailbox `event_insert` returns is the old one, or the old one with a node of
the type of the event at its tail. -/
theorem event_insert_mailbox (debug_level : Int) (alloc_ok : Bool) (task task1 : rh_task)
    (ev : rh_event) (data : Option (List Nat))
    (h : event_insert debug_level alloc_ok task ev data = some task1) :
    task1.event = task.event ∨
    task1.event = task.event ++
      [{ type := ev.type, size := ev.size, data := data, link := ev.link, sts := ev.sts }] := by
  cases alloc_ok with
  | false =>
    simp only [event_insert, Bool.not_false, if_true, Option.some.injEq] at h
    rw [← h]
    exact Or.inl rfl
  | true =>
    rw [event_insert_eq] at h
    split_ifs at h
    simp only [Option.some.injEq] at h
    rw [← h]
    exact Or.inr rfl

/-- The fan-out of an event keeps mailboxes free of TERMINATE entries. -/
theorem event_enqueue_tasks_no_terminate (debug_level : Int) (alloc : Nat → Bool)
    (ev : rh_event) :
    ∀ (l : List rh_task) (i : Nat) (l1 : List rh_task),
      event_enqueue_tasks debug_level alloc ev i l = some l1 →
      (∀ t ∈ l, t.no_terminate) → ∀ t ∈ l1, t.no_terminate := by
  intro l
  induction l with
  | nil =>
    intro i l1 h _ t ht
    simp only [event_enqueue_tasks, Option.some.injEq] at h
    rw [← h] at ht
    simp at ht
  | cons task next ih =>
    intro i l1 h hall t ht
    have hnext : ∀ t ∈ next, t.no_terminate := fun t ht => hall t (List.mem_cons_of_mem _ ht)
    unfold event_enqueue_tasks at h
    by_cases hm : ev.type &&& task.event_mask ≠ 0
    · rw [if_pos hm] at h
      dsimp only at h
      cases hins : event_insert debug_level (alloc i) task ev
          (if ev.size ≠ 0 then some ev.payload else none) with
      | none =>
        rw [hins] at h
        simp at h
      | some task1 =>
        rw [hins] at h
        simp only [Option.map_eq_some'] at h
        obtain ⟨l2, hl2, hl1⟩ := h
        rw [← hl1] at ht
        rcases List.mem_cons.mp ht with hhead | htail
        · have hty : ev.type ≠ EVENT_TERMINATE := by
            intro h0
            rw [h0] at hm
            simp [EVENT_TERMINATE] at hm
          rw [hhead]
          intro x hx
          rcases event_insert_mailbox _ _ _ _ _ _ hins with he | he
          · rw [he] at hx
            exact hall task (List.mem_cons_self _ _) x hx
          · rw [he] at hx
            rcases List.mem_append.mp hx with hx1 | hx1
            · exact hall task (List.mem_cons_self _ _) x hx1
            · simp only [List.mem_singleton] at hx1
              rw [hx1]
              exact hty
        · exact ih (i + 1) l2 hl2 hnext t htail
    · rw [if_neg hm] at h
      simp only [Option.map_eq_some'] at h
      obtain ⟨l2, hl2, hl1⟩ := h
      rw [← hl1] at ht
      rcases List.mem_cons.mp ht with hhead | htail
      · rw [hhead]
        exact hall task (List.mem_cons_self _ _)
      · exact ih (i + 1) l2 hl2 hnext t htail

/-- C30: `event_enqueue` of a TERMINATE event (type 0) never aborts and leaves the
task list, and with it every mailbox, as it was, whatever the masks of the tasks
are; every `event_enqueue` keeps mailboxes free of TERMINATE entries; and
`event_dequeue` on a mailbox free of them returns no TERMINATE event and leaves the
mailbox free of them.  So no task observes TERMINATE through `event_dequeue`. -/
theorem C30_terminate_never_in_mailbox (debug_level : Int) (alloc : Nat → Bool)
    (bus : event_bus) (e : rh_event) (ht : e.type = EVENT_TERMINATE) :
    (∃ r bus1, event_enqueue debug_level alloc bus e = some (r, bus1) ∧
      bus1.head = bus.head) ∧
    (∀ (alloc2 : Nat → Bool) (e2 : rh_event) (r : Bool) (bus1 : event_bus),
      (∀ t ∈ bus.head, t.no_terminate) →
      event_enqueue debug_level alloc2 bus e2 = some (r, bus1) →
      ∀ t ∈ bus1.head, t.no_terminate) ∧
    (∀ (task task1 : rh_task) (ev : rh_event), task.no_terminate →
      event_dequeue task = .event ev task1 →
      ev.type ≠ EVENT_TERMINATE ∧ task1.no_terminate) := by
  refine ⟨?_, ?_, ?_⟩
  · have hno : ∀ t ∈ bus.head, e.type &&& t.event_mask = 0 := by
      intro t _
      rw [ht]
      simp [EVENT_TERMINATE]
    unfold event_enqueue
    by_cases hrun : bus.running = true
    · simp only [hrun, Bool.not_true, Bool.false_eq_true, if_false,
        event_enqueue_tasks_no_match debug_level alloc e bus.head 0 hno]
      exact ⟨_, _, rfl, rfl⟩
    · simp only [hrun, Bool.not_eq_true] at hrun ⊢
      simp only [hrun, Bool.not_false, if_true]
      exact ⟨_, _, rfl, rfl⟩
  · intro alloc2 e2 r bus1 hall h
    unfold event_enqueue at h
    by_cases hrun : bus.running = true
    · simp only [hrun, Bool.not_true, Bool.false_eq_true, if_false] at h
      cases htasks : event_enqueue_tasks debug_level alloc2 e2 0 bus.head with
      | none => simp [htasks] at h
      | some head1 =>
        simp only [htasks, Option.some.injEq, Prod.mk.injEq] at h
        rw [← h.2]
        exact event_enqueue_tasks_no_terminate debug_level alloc2 e2 bus.head 0 head1 htasks hall
    · simp only [Bool.not_eq_true] at hrun
      simp only [hrun, Bool.not_false, if_true, Option.some.injEq, Prod.mk.injEq] at h
      rw [← h.2]
      exact hall
  · intro task task1 ev hno h
    unfold event_dequeue at h
    cases hev : task.event with
    | nil =>
      rw [hev] at h
      by_cases hr : task.running = true <;> simp [hr] at h
    | cons x next =>
      rw [hev] at h
      by_cases hr : task.running = true
      · simp only [hr, List.isEmpty_cons, Bool.and_false, Bool.false_eq_true, if_false,
          Bool.not_true, dequeue_result.event.injEq] at h
        have hx : ∀ y ∈ x :: next, y.type ≠ EVENT_TERMINATE := by
          rw [← hev]
          exact hno
        refine ⟨?_, ?_⟩
        · rw [← h.1]
          exact hx x (List.mem_cons_self _ _)
        · rw [← h.2]
          intro y hy
          exact hx y (List.mem_cons_of_mem _ hy)
      · simp [hr] at h

theorem C30_terminate_never_in_mailbox_witness :
    terminate_event.type = EVENT_TERMINATE ∧
    ∃ r bus1, event_enqueue 0 (fun _ => true) demo_bus terminate_event = some (r, bus1) ∧
      bus1.head = demo_bus.head :=
  ⟨rfl, (C30_terminate_never_in_mailbox 0 (fun _ => true) demo_bus terminate_event rfl).1⟩

/-- The counter agrees with the ring once the difference is the one of a state in
which it agreed. -/
theorem ready_inv_of_diff (f g : forward_info) (h : f.ready_inv)
    (hd : g.packets_ready - ready_count g.buffer_head =
      f.packets_ready - ready_count f.buffer_head) : g.ready_inv := by
  unfold forward_info.ready_inv at h ⊢
  omega

/-- Marking a packet unlinked leaves its `ready` flag alone. -/
theorem unlink_packet_ready (f : forward_info) (t u : Nat) (r : Bool × forward_info)
    (hr : unlink_packet f t u = some r) :
    r.2.packets_ready - ready_count r.2.buffer_head =
      f.packets_ready - ready_count f.buffer_head := by
  by_cases h : ∃ p ∈ f.buffer_head, p.hdr.base.seqnum = t
  · obtain ⟨pre, p, post, he, hpre, hp⟩ :=
      exists_first_split (fun q : usb_packet => q.hdr.base.seqnum = t) f.buffer_head h
    rw [unlink_packet_found f t u pre p post he hpre hp, Option.map_eq_some'] at hr
    obtain ⟨p1, hm, e⟩ := hr
    obtain ⟨_, _, hrdy, _⟩ := unlink_mark_fields u p p1 hm
    subst e
    simp only []
    rw [he, ready_count_middle, ready_count_middle, hrdy]
  · have hn : ∀ q ∈ f.buffer_head, q.hdr.base.seqnum ≠ t := fun q hq hc => h ⟨q, hq, hc⟩
    rw [unlink_packet_not_found f t u hn] at hr
    simp only [Option.some.injEq] at hr
    subst hr
    rfl

/-- Taking a ready packet out lowers the counter with the ring. -/
theorem dequeue_ready_packet_ready (f : forward_info) :
    (dequeue_ready_packet f).2.packets_ready -
        ready_count (dequeue_ready_packet f).2.buffer_head =
      f.packets_ready - ready_count f.buffer_head := by
  by_cases h : ∃ p ∈ f.buffer_head, p.ready = true
  · obtain ⟨pre, p, post, he, _, hp, hres⟩ := dequeue_ready_packet_some f h
    rw [hres, he]
    simp only []
    rw [ready_count_middle, hp]
    simp only [if_true]
    omega
  · have hn : ∀ p ∈ f.buffer_head, p.ready = false := by
      intro p hp
      cases hr : p.ready with
      | false => rfl
      | true => exact absurd ⟨p, hp, hr⟩ h
    rw [dequeue_ready_packet_none f hn]

/-- C29: `packets_ready` equals the number of ring packets whose `ready` flag is
set.  The equality holds for the empty ring with the counter at zero, and each
session operation keeps it: `enqueue_packet` of a packet that is not ready,
`handle_submit` (which enqueues the new packet through `submit_xfer`, or leaves the
ring alone when it fails), the completion callback for a ring packet whose transfer
is pending, `handle_unlink` (marking the target, or appending the ready RET_UNLINK
packet and adding one) and `unlink_packet` in whatever state they return, and
`dequeue_ready_packet` whether it finds a ready packet or not. -/
theorem C29_packets_ready_counts_ready (f : forward_info) (h : f.ready_inv) :
    (∀ g : forward_info, g.buffer_head = [] → g.packets_ready = 0 → g.ready_inv) ∧
    (∀ p : usb_packet, p.ready = false → (enqueue_packet f p).ready_inv) ∧
    (∀ (le : Bool) (io : submit_io) (dev : server_usb_device) (hdr : usbip_header),
      dev.fwd = f → (handle_submit le io dev hdr).2.fwd.ready_inv) ∧
    (∀ (i : Nat) (res : xfer_result), complete_enabled f i res = true →
      (xfer_completion_callback f i res).ready_inv) ∧
    (∀ (alloc_ok : Bool) (dev : server_usb_device) (hdr : usbip_header)
      (r : Bool × server_usb_device),
      dev.fwd = f → handle_unlink alloc_ok dev hdr = some r → r.2.fwd.ready_inv) ∧
    (∀ (t u : Nat) (r : Bool × forward_info),
      unlink_packet f t u = some r → r.2.ready_inv) ∧
    (dequeue_ready_packet f).2.ready_inv ∧
    ((dequeue_ready_packet f).1 = none ↔ ready_count f.buffer_head = 0) := by
  refine ⟨?_, ?_, ?_, ?_, ?_, ?_, ?_, ?_⟩
  · intro g hg h0
    unfold forward_info.ready_inv
    rw [hg, h0]
    rfl
  · intro p hp
    apply ready_inv_of_diff f _ h
    rw [enqueue_packet_eq]
    simp only []
    rw [ready_count_append, ready_count_cons, hp]
    simp [ready_count]
  · intro le io dev hdr hf
    apply ready_inv_of_diff f _ h
    rw [← hf]
    rcases handle_submit_effect le io dev hdr with ⟨_, h2⟩ | ⟨_, x, h2⟩
    · rw [h2]
    · rw [h2]
      simp only []
      rw [ready_count_append, ready_count_cons]
      simp [ready_count]
  · intro i res hen
    exact ready_inv_of_diff f _ h (xfer_completion_callback_ready f i res hen)
  · intro a dev hdr r hf hr
    apply ready_inv_of_diff f _ h
    rw [← hf]
    rcases handle_unlink_effect a dev hdr r hr with
      ⟨pre, p, x, post, he, _, _, hres⟩ | ⟨_, ⟨_, hres⟩ | ⟨_, hres⟩⟩
    · rw [hres]
      simp only []
      rw [he, ready_count_middle, ready_count_middle]
      rfl
    · rw [hres]
    · rw [hres]
      simp only []
      rw [ready_count_append, ready_count_cons]
      simp [ready_count]
  · intro t u r hr
    exact ready_inv_of_diff f _ h (unlink_packet_ready f t u r hr)
  · exact ready_inv_of_diff f _ h (dequeue_ready_packet_ready f)
  · by_cases hex : ∃ p ∈ f.buffer_head, p.ready = true
    · obtain ⟨pre, p, post, he, _, hp, hres⟩ := dequeue_ready_packet_some f hex
      rw [hres, he, ready_count_middle, hp]
      simp only [if_true, reduceCtorEq, false_iff]
      have : 0 ≤ ready_count (pre ++ post) := Int.natCast_nonneg _
      omega
    · have hn : ∀ p ∈ f.buffer_head, p.ready = false := by
        intro p hp
        cases hr : p.ready with
        | false => rfl
        | true => exact absurd ⟨p, hp, hr⟩ hex
      rw [dequeue_ready_packet_none f hn]
      simp only [true_iff]
      unfold ready_count
      rw [List.countP_eq_zero.mpr]
      · rfl
      · intro p hp
        simp [hn p hp]

theorem C29_packets_ready_counts_ready_witness :
    (fwd_dev_of [packet_completed (packet_in 10) transfer_in
      (res_of LIBUSB_TRANSFER_COMPLETED 64)] 1 link0).fwd.ready_inv ∧
    (dequeue_ready_packet (fwd_dev_of [packet_completed (packet_in 10) transfer_in
      (res_of LIBUSB_TRANSFER_COMPLETED 64)] 1 link0).fwd).2.ready_inv :=
  ⟨by unfold forward_info.ready_inv; decide,
   (C29_packets_ready_counts_ready (fwd_dev_of [packet_completed (packet_in 10) transfer_in
      (res_of LIBUSB_TRANSFER_COMPLETED 64)] 1 link0).fwd
      (by unfold forward_info.ready_inv; decide)).2.2.2.2.2.2.1⟩

/-- C21, the code at the failing input: with nothing attached, the detach request
for bus-id 1-1 at 10.0.0.1:3240 makes `detach_remote_device` return false and emit
one event of type DETACH_FAILED.  `handle_event` of the interface has a case for
it that would call the detach callback with success = false, the server address,
the port and the device; but the mask `interface_task_init` sets does not contain
DETACH_FAILED, so `event_enqueue` leaves every mailbox of the client as it was, the
interface task stays waiting in `event_dequeue` and no callback is called.  The
sibling event ATTACH_FAILED is in the mask. -/
theorem C21_detach_failed_not_in_interface_mask :
    (detach_remote_device true [] (request_of 1)).ret = false ∧
    (detach_remote_device true [] (request_of 1)).events =
      [inform_detached true demo_udev (ipv4_of 1) 3240 false] ∧
    (inform_detached true demo_udev (ipv4_of 1) 3240 false).type = EVENT_DETACH_FAILED ∧
    intf_handle_event all_subscribed
        (inform_detached true demo_udev (ipv4_of 1) 3240 false).node =
      some (.detach false (ipv4_of 1) 3240 (demo_udev.mem true)) ∧
    (∃ bus1, event_enqueue 0 (fun _ => true) client_bus
        (inform_detached true demo_udev (ipv4_of 1) 3240 false) = some (true, bus1) ∧
      bus1.head = client_bus.head ∧
      ∀ t ∈ bus1.head, t.event = [] ∧ intf_loop_round all_subscribed t = none) ∧
    EVENT_DETACH_FAILED &&& interface_event_mask = 0 ∧
    EVENT_ATTACH_FAILED &&& interface_event_mask ≠ 0 ∧
    (∀ (le : Bool) (dev : usbip_usb_device) (server_ip : List Nat) (port : Nat),
      (inform_detached le dev server_ip port false).type &&& interface_event_mask = 0) := by
  have hmask : EVENT_DETACH_FAILED &&& interface_event_mask = 0 := by decide
  have hno : ∀ t ∈ client_bus.head,
      (inform_detached true demo_udev (ipv4_of 1) 3240 false).type &&& t.event_mask = 0 := by
    decide
  refine ⟨rfl, rfl, rfl, by decide, ?_, hmask, by decide, ?_⟩
  · refine ⟨{ client_bus with event_count := 1 }, ?_, rfl, by decide⟩
    unfold event_enqueue
    rw [event_enqueue_tasks_no_match 0 (fun _ => true) _ client_bus.head 0 hno]
    rfl
  · intro le dev server_ip port
    exact hmask

/-- The device `insert_device` is given becomes the head. -/
theorem insert_device_eq (usb_head : List server_usb_device) (device : server_usb_device) :
    insert_device usb_head device = device :: usb_head := by
  cases usb_head <;> rfl

/-- Devices inserted one after the other end up in reverse order in front of the
list. -/
theorem foldl_insert_device (ds : List server_usb_device) :
    ∀ usb_head : List server_usb_device,
      ds.foldl insert_device usb_head = ds.reverse ++ usb_head := by
  induction ds with
  | nil => intro usb_head; rfl
  | cons d rest ih =>
    intro usb_head
    rw [List.foldl_cons, ih, insert_device_eq]
    simp

/-- The list `add_new_devices` leaves: the devices it inserted, the last one
first, in front of the old list; their `info` come from the entries of `devs` in
the order of `devs`. -/
theorem add_new_devices_head (alloc : Nat → Bool) :
    ∀ (devs : List libusb_device) (i : Nat) (st : usb_task_state),
      ∃ added : List server_usb_device,
        (add_new_devices alloc i st devs).2.1.usb_head = added.reverse ++ st.usb_head ∧
        (add_new_devices alloc i st devs).2.1.usb_bus_info_head = st.usb_bus_info_head ∧
        (add_new_devices alloc i st devs).2.2 = added.map (fun d => d.info.udev) ∧
        (added.map (fun d => d.info)).Sublist (devs.filterMap (fun d => d.basic_info)) := by
  intro devs
  induction devs with
  | nil =>
    intro i st
    exact ⟨[], rfl, rfl, rfl, List.Sublist.refl _⟩
  | cons dev rest ih =>
    intro i st
    have hskip : ∃ added : List server_usb_device,
        (add_new_devices alloc (i + 1) st rest).2.1.usb_head = added.reverse ++ st.usb_head ∧
        (add_new_devices alloc (i + 1) st rest).2.1.usb_bus_info_head = st.usb_bus_info_head ∧
        (add_new_devices alloc (i + 1) st rest).2.2 = added.map (fun d => d.info.udev) ∧
        (added.map (fun d => d.info)).Sublist
          ((dev :: rest).filterMap (fun d => d.basic_info)) := by
      obtain ⟨added, h1, h2, h3, h4⟩ := ih (i + 1) st
      refine ⟨added, h1, h2, h3, h4.trans ?_⟩
      rw [List.filterMap_cons]
      cases dev.basic_info with
      | none => exact List.Sublist.refl _
      | some info => exact List.sublist_cons_self _ _
    unfold add_new_devices
    cases hc : dev.bDeviceClass with
    | none => exact hskip
    | some cls =>
      simp only []
      by_cases h9 : cls = 0x09
      · rw [if_pos h9]
        exact hskip
      · rw [if_neg h9]
        cases hb : dev.busid with
        | none => exact hskip
        | some busid =>
          simp only []
          by_cases he : device_already_exists st.usb_head busid = true
          · rw [if_pos he]
            exact hskip
          · rw [if_neg he]
            by_cases hd : bus_is_disabled st.usb_bus_info_head dev.bus_number = true
            · rw [if_pos hd]
              exact hskip
            · rw [if_neg hd]
              by_cases ha : (!alloc i) = true
              · rw [if_pos ha]
                exact ⟨[], rfl, rfl, rfl, List.nil_sublist _⟩
              · rw [if_neg ha]
                cases hi : dev.basic_info with
                | none => exact hskip
                | some info =>
                  simp only []
                  have hst := ih (i + 1)
                    (usb_task_state.mk (insert_device st.usb_head (device_entry_of info))
                      st.usb_bus_info_head)
                  obtain ⟨added, h1, h2, h3, h4⟩ := hst
                  refine ⟨device_entry_of info :: added, ?_, h2, ?_, ?_⟩
                  · rw [h1, insert_device_eq]
                    simp
                  · rw [h3]
                    rfl
                  · rw [List.filterMap_cons, hi]
                    exact List.Sublist.cons₂ _ h4
/-- What a device-list request puts on a link that takes every byte: the operation
header, then the body for the tracked devices that are not exported, in the order
of `usb_head`. -/
theorem devlist_reply_sent (le : Bool) (net : Transport) (usb_head : List server_usb_device)
    (link : est_conn) (hnet : net.good) (hwf : ∀ d ∈ usb_head, d.info.wf) :
    (handle_usbip_req_devicelist le net usb_head true (some link)).map est_conn.sent =
      some (link.sent ++ op_common_wire 0x0111 0x0005 0 ++
        devlist_reply_body
          ((usb_head.filter (fun d => !d.info.exported)).map (fun d => d.info))) := by
  unfold handle_usbip_req_devicelist
  simp only [get_devicelist_eq, Bool.false_or]
  obtain ⟨h1, h2⟩ := usbip_net_send_usbip_header_good le net hnet link
    { version := USBIP_DEFAULT_PROTOCOL_VERSION, code := USBIP_OP_REP_DEVLIST,
      status := USBIP_ST_OK }
  simp only [h1, Bool.not_true, Bool.false_eq_true, if_false]
  obtain ⟨n1, n2⟩ := network_send_data_good net hnet
    (usbip_net_send_usbip_header le net link
      { version := USBIP_DEFAULT_PROTOCOL_VERSION, code := USBIP_OP_REP_DEVLIST,
        status := USBIP_ST_OK }).2
    (mem32 le (usbip_net_devlist_reply_to_network_order le
      { ndev := ((usb_head.filter (fun d => !d.info.exported)).map
        (fun d => d.info)).length % 4294967296 }).ndev)
  simp only [n1, Bool.not_true, Bool.false_eq_true, if_false]
  have hw : ∀ i ∈ (usb_head.filter (fun d => !d.info.exported)).map (fun d => d.info),
      i.wf := by
    intro i hi
    obtain ⟨d, hd, rfl⟩ := List.mem_map.mp hi
    exact hwf d (List.mem_filter.mp hd).1
  obtain ⟨_, d2⟩ := devicelist_send_devices_good le net hnet _
    (network_send_data net
      (usbip_net_send_usbip_header le net link
        { version := USBIP_DEFAULT_PROTOCOL_VERSION, code := USBIP_OP_REP_DEVLIST,
          status := USBIP_ST_OK }).2
      (mem32 le (usbip_net_devlist_reply_to_network_order le
        { ndev := ((usb_head.filter (fun d => !d.info.exported)).map
          (fun d => d.info)).length % 4294967296 }).ndev)).2 hw
  simp only [Option.map_some']
  rw [d2, n2, h2]
  simp only [usbip_net_devlist_reply_to_network_order,
    mem32_htonl, be32_mod, devlist_reply_body, List.append_assoc,
    USBIP_DEFAULT_PROTOCOL_VERSION, USBIP_OP_REP_DEVLIST, USBIP_ST_OK]

/-- C24, as the code has it: `insert_device` puts each new device at the head of
the tracked list and `get_devicelist` walks the list from the head, so the
device-list reply names the devices most recently added first.  For devices `ds`
inserted one after the other (as `add_new_devices` does for the entries of the
libusb list it accepts, in the order of that list), the tracked list is `ds`
reversed in front of the older devices; if A was inserted before B and neither is
exported, the `info` of B precedes the `info` of A in the list the reply is built
from, and on a link that takes every byte the reply is the operation header
followed by `ndev` and the UsbDevice and interface records in that order. -/
theorem C24_devlist_most_recent_first (usb_head ds : List server_usb_device) :
    ds.foldl insert_device usb_head = ds.reverse ++ usb_head ∧
    get_devicelist (ds.foldl insert_device usb_head) false true =
      some (((ds.reverse ++ usb_head).filter (fun d => !d.info.exported)).map
        (fun d => d.info)) ∧
    (∀ (a b c : List server_usb_device) (A B : server_usb_device),
      ds = a ++ A :: b ++ B :: c → A.info.exported = false → B.info.exported = false →
      ∃ pre mid post : List usb_device_info,
        get_devicelist (ds.foldl insert_device usb_head) false true =
          some (pre ++ B.info :: mid ++ A.info :: post) ∧
        ∀ (le : Bool) (net : Transport) (link : est_conn), net.good →
          (∀ d ∈ ds ++ usb_head, d.info.wf) →
          (handle_usbip_req_devicelist le net (ds.foldl insert_device usb_head) true
              (some link)).map est_conn.sent =
            some (link.sent ++ op_common_wire 0x0111 0x0005 0 ++
              devlist_reply_body (pre ++ B.info :: mid ++ A.info :: post))) ∧
    (∀ (alloc : Nat → Bool) (st : usb_task_state) (devs : List libusb_device),
      st.usb_head = usb_head →
      ∃ added : List server_usb_device,
        (add_new_devices alloc 0 st devs).2.1.usb_head = added.foldl insert_device usb_head ∧
        (add_new_devices alloc 0 st devs).2.2 = added.map (fun d => d.info.udev) ∧
        (added.map (fun d => d.info)).Sublist (devs.filterMap (fun d => d.basic_info))) := by
  have hfold := foldl_insert_device ds usb_head
  have hlist : get_devicelist (ds.foldl insert_device usb_head) false true =
      some (((ds.reverse ++ usb_head).filter (fun d => !d.info.exported)).map
        (fun d => d.info)) := by
    rw [get_devicelist_eq, hfold]
    simp only [Bool.false_or]
  refine ⟨hfold, hlist, ?_, ?_⟩
  · intro a b c A B hds hA hB
    have hrev : ds.reverse ++ usb_head =
        c.reverse ++ B :: (b.reverse ++ A :: (a.reverse ++ usb_head)) := by
      rw [hds]
      simp
    have hsplit : ((ds.reverse ++ usb_head).filter (fun d => !d.info.exported)).map
          (fun d => d.info) =
        (c.reverse.filter (fun d => !d.info.exported)).map (fun d => d.info) ++
          B.info :: (b.reverse.filter (fun d => !d.info.exported)).map (fun d => d.info) ++
          A.info :: ((a.reverse ++ usb_head).filter (fun d => !d.info.exported)).map
            (fun d => d.info) := by
      rw [hrev]
      simp [List.filter_cons, hA, hB]
    refine ⟨_, _, _, hlist.trans (congrArg some hsplit), ?_⟩
    intro le net link hnet hwf
    have hwf2 : ∀ d ∈ ds.foldl insert_device usb_head, d.info.wf := by
      intro d hd
      rw [hfold] at hd
      apply hwf d
      rcases List.mem_append.mp hd with h | h
      · exact List.mem_append_left _ (List.mem_reverse.mp h)
      · exact List.mem_append_right _ h
    rw [devlist_reply_sent le net _ link hnet hwf2, hfold, hsplit]
  · intro alloc st devs hst
    obtain ⟨added, h1, _, h3, h4⟩ := add_new_devices_head alloc devs 0 st
    refine ⟨added, ?_, h3, h4⟩
    rw [h1, hst, foldl_insert_device]

/-- C24, counterexample: libusb lists the device with bus-id 1-1 and then the one
with bus-id 1-2, nothing was tracked before; `add_new_devices` inserts them in that
order and the device-list reply carries the record of 1-2, with its interface,
before the record of 1-1. -/
theorem C24_counterexample_later_device_listed_first :
    (add_new_devices (fun _ => true) 0 usb_task_empty
        [libusb_device_of demo_info, libusb_device_of demo_info_b]).2.2 =
      [demo_info.udev, demo_info_b.udev] ∧
    (add_new_devices (fun _ => true) 0 usb_task_empty
        [libusb_device_of demo_info, libusb_device_of demo_info_b]).2.1.usb_head =
      [device_entry_of demo_info_b, device_entry_of demo_info] ∧
    get_devicelist (add_new_devices (fun _ => true) 0 usb_task_empty
        [libusb_device_of demo_info, libusb_device_of demo_info_b]).2.1.usb_head false true =
      some [demo_info_b, demo_info] ∧
    (handle_usbip_req_devicelist true net_all
        (add_new_devices (fun _ => true) 0 usb_task_empty
          [libusb_device_of demo_info, libusb_device_of demo_info_b]).2.1.usb_head
        true (some link0)).map est_conn.sent =
      some ([0x01, 0x11, 0x00, 0x05, 0, 0, 0, 0, 0, 0, 0, 2] ++
        demo_info_b.udev.wire ++ [3, 1, 1, 0] ++
        demo_info.udev.wire ++ [3, 1, 1, 0, 3, 0, 0, 0]) := by
  refine ⟨by decide, by decide, by decide, ?_⟩
  rfl

/-- The offset after a sub-packet is the offset before it plus its length. -/
theorem spec_iso_offset_succ (pre rest : List libusb_iso_packet_descriptor)
    (d : libusb_iso_packet_descriptor) :
    spec_iso_offset (pre ++ d :: rest) (pre.length + 1) =
      (spec_iso_offset (pre ++ d :: rest) pre.length + d.length) % 4294967296 := by
  unfold spec_iso_offset
  have h1 : (pre ++ d :: rest).take pre.length = pre := by
    rw [List.take_append_eq_append_take]
    simp
  have h2 : (pre ++ d :: rest).take (pre.length + 1) = pre ++ [d] := by
    rw [List.take_append_eq_append_take]
    simp
  rw [h1, h2]
  simp only [List.map_append, List.sum_append, List.map_cons, List.map_nil, List.sum_cons,
    List.sum_nil, Nat.add_zero]
  omega

/-- First loop of `send_iso_xfer_data` on a link that takes every byte. -/
theorem send_iso_data_loop_good (net : Transport) (hnet : net.good) (buffer : List Nat) :
    ∀ (rest pre : List libusb_iso_packet_descriptor) (link : est_conn),
      (send_iso_data_loop net buffer rest (spec_iso_offset (pre ++ rest) pre.length) link).1 =
        true ∧
      (send_iso_data_loop net buffer rest (spec_iso_offset (pre ++ rest) pre.length) link).2.sent =
        link.sent ++ ((rest.enumFrom pre.length).map (fun p =>
          (buffer.drop (spec_iso_offset (pre ++ rest) p.1)).take p.2.actual_length)).flatten := by
  intro rest
  induction rest with
  | nil => intro pre link; simp [send_iso_data_loop]
  | cons d rest ih =>
    intro pre link
    unfold send_iso_data_loop
    obtain ⟨n1, n2⟩ := network_send_data_good net hnet link
      ((buffer.drop (spec_iso_offset (pre ++ d :: rest) pre.length)).take d.actual_length)
    simp only [n1, Bool.not_true, Bool.false_eq_true, if_false]
    rw [← spec_iso_offset_succ]
    have hih := ih (pre ++ [d])
      (network_send_data net link
        ((buffer.drop (spec_iso_offset (pre ++ d :: rest) pre.length)).take d.actual_length)).2
    have happ : pre ++ [d] ++ rest = pre ++ d :: rest := by simp
    have hlen : (pre ++ [d]).length = pre.length + 1 := by simp
    rw [happ, hlen] at hih
    refine ⟨hih.1, ?_⟩
    rw [hih.2, n2]
    simp [List.enumFrom_cons]

/-- Second loop of `send_iso_xfer_data` on a link that takes every byte. -/
theorem send_iso_desc_loop_good (le : Bool) (net : Transport) (hnet : net.good) :
    ∀ (rest pre : List libusb_iso_packet_descriptor) (link : est_conn),
      (send_iso_desc_loop le net rest (spec_iso_offset (pre ++ rest) pre.length) link).1 =
        true ∧
      (send_iso_desc_loop le net rest (spec_iso_offset (pre ++ rest) pre.length) link).2.sent =
        link.sent ++ ((rest.enumFrom pre.length).map (fun p =>
          be32 (spec_iso_offset (pre ++ rest) p.1) ++ be32 p.2.length ++
            be32 p.2.actual_length ++
            be32 (u32_of_int (convert_libusb_status p.2.status)))).flatten := by
  intro rest
  induction rest with
  | nil => intro pre link; simp [send_iso_desc_loop]
  | cons d rest ih =>
    intro pre link
    unfold send_iso_desc_loop
    obtain ⟨n1, n2⟩ := network_send_data_good net hnet link
      (fill_iso le d (spec_iso_offset (pre ++ d :: rest) pre.length))
    simp only [n1, Bool.not_true, Bool.false_eq_true, if_false]
    rw [← spec_iso_offset_succ]
    have hih := ih (pre ++ [d])
      (network_send_data net link
        (fill_iso le d (spec_iso_offset (pre ++ d :: rest) pre.length))).2
    have happ : pre ++ [d] ++ rest = pre ++ d :: rest := by simp
    have hlen : (pre ++ [d]).length = pre.length + 1 := by simp
    rw [happ, hlen] at hih
    refine ⟨hih.1, ?_⟩
    rw [hih.2, n2]
    simp [List.enumFrom_cons, fill_iso, mem32_htonl]

/-- The offset before the first sub-packet is 0. -/
theorem spec_iso_offset_zero (descs : List libusb_iso_packet_descriptor) :
    spec_iso_offset descs 0 = 0 := by
  simp [spec_iso_offset]
/-- C27: on a link that takes every byte, `send_iso_xfer_data` for direction IN
returns true having written, for the sub-packets 0..n-1 in order, the
`actual_length` bytes of the buffer that start at the sum of the `length`s of the
sub-packets before it, and then the n descriptor records of 16 bytes: offset (that
same sum), `length`, `actual_length` and the status converted by
`convert_libusb_status`, each as a big-endian 32-bit word.  For any other
direction it writes the n descriptor records only.  The sums are `uint32_t`
values; they are the plain sums as long as those stay below 2^32. -/
theorem C27_iso_reply_stream (le : Bool) (net : Transport) (hnet : net.good)
    (xfer : libusb_transfer) (link : est_conn) :
    (send_iso_xfer_data le net xfer USBIP_DIR_IN link).1 = true ∧
    (send_iso_xfer_data le net xfer USBIP_DIR_IN link).2.sent =
      link.sent ++ spec_iso_data xfer.buffer xfer.iso_descs ++
        spec_iso_descriptors xfer.iso_descs ∧
    (∀ dir : Nat, dir ≠ USBIP_DIR_IN →
      (send_iso_xfer_data le net xfer dir link).1 = true ∧
      (send_iso_xfer_data le net xfer dir link).2.sent =
        link.sent ++ spec_iso_descriptors xfer.iso_descs) ∧
    (spec_iso_descriptors xfer.iso_descs).length = 16 * xfer.iso_descs.length ∧
    (∀ i : Nat, ((xfer.iso_descs.take i).map (fun d => d.length)).sum < 4294967296 →
      spec_iso_offset xfer.iso_descs i = ((xfer.iso_descs.take i).map (fun d => d.length)).sum) := by
  have hd := send_iso_data_loop_good net hnet xfer.buffer xfer.iso_descs [] link
  simp only [List.nil_append, List.length_nil, spec_iso_offset_zero] at hd
  have hs : ∀ l : est_conn,
      (send_iso_desc_loop le net xfer.iso_descs 0 l).1 = true ∧
      (send_iso_desc_loop le net xfer.iso_descs 0 l).2.sent =
        l.sent ++ spec_iso_descriptors xfer.iso_descs := by
    intro l
    have h := send_iso_desc_loop_good le net hnet xfer.iso_descs [] l
    simp only [List.nil_append, List.length_nil, spec_iso_offset_zero] at h
    exact h
  refine ⟨?_, ?_, ?_, ?_, ?_⟩
  · unfold send_iso_xfer_data
    simp only [if_true]
    rw [← libusb_transfer.iso_descs]
    simp only [hd.1, Bool.not_true, Bool.false_eq_true, if_false]
    exact (hs _).1
  · unfold send_iso_xfer_data
    simp only [if_true]
    rw [← libusb_transfer.iso_descs]
    simp only [hd.1, Bool.not_true, Bool.false_eq_true, if_false]
    rw [(hs _).2, hd.2]
    rfl
  · intro dir hdir
    unfold send_iso_xfer_data
    simp only [hdir, if_false, Bool.not_true, Bool.false_eq_true]
    rw [← libusb_transfer.iso_descs]
    exact hs link
  · unfold spec_iso_descriptors
    rw [List.length_flatten, List.map_map]
    have hc : ∀ l : List (Nat × libusb_iso_packet_descriptor),
        (l.map (List.length ∘ fun p =>
          be32 (spec_iso_offset xfer.iso_descs p.1) ++ be32 p.2.length ++
            be32 p.2.actual_length ++
            be32 (u32_of_int (convert_libusb_status p.2.status)))).sum = 16 * l.length := by
      intro l
      induction l with
      | nil => rfl
      | cons p rest ih =>
        rw [List.map_cons, List.sum_cons, ih]
        simp only [Function.comp, List.length_append, be32, List.length_cons, List.length_nil]
        omega
    rw [hc, List.enum_length]
  · intro i hi
    unfold spec_iso_offset
    exact Nat.mod_eq_of_lt hi

theorem C27_iso_reply_stream_witness :
    Transport.good net_all ∧
    (send_iso_xfer_data true net_all transfer_iso_in USBIP_DIR_IN link0).2.sent =
      link0.sent ++ spec_iso_data transfer_iso_in.buffer transfer_iso_in.iso_descs ++
        spec_iso_descriptors transfer_iso_in.iso_descs ∧
    spec_iso_data transfer_iso_in.buffer transfer_iso_in.iso_descs =
      [1, 2, 3, 11, 12, 13, 14, 15, 16, 17, 18] ∧
    spec_iso_descriptors transfer_iso_in.iso_descs =
      [0, 0, 0, 0, 0, 0, 0, 8, 0, 0, 0, 3, 0, 0, 0, 0,
       0, 0, 0, 8, 0, 0, 0, 8, 0, 0, 0, 8, 0xFF, 0xFF, 0xFF, 0xFB] :=
  ⟨net_all_good,
   (C27_iso_reply_stream true net_all net_all_good transfer_iso_in link0).2.1,
   by decide, by decide⟩

/-- The loop of `network_send_data` on a bounded transport, for any fuel above the
number of bytes left. -/
theorem network_send_data_loop_bounded (net : Transport) (hb : net.bounded) :
    ∀ (fuel : Nat) (link : est_conn) (rest : List Nat), rest.length < fuel →
      spec_all_or_fail (network_send_data_loop net fuel link rest).1
        (network_send_data_log net fuel link rest) rest.length ∧
      (network_send_data_loop net fuel link rest).2.calls =
        link.calls + (network_send_data_log net fuel link rest).length ∧
      (∀ i c, (network_send_data_log net fuel link rest).get? i = some c →
        c.2 = net (link.calls + i) c.1) ∧
      ((network_send_data_loop net fuel link rest).1 = true →
        (network_send_data_loop net fuel link rest).2.sent = link.sent ++ rest) ∧
      (network_send_data_loop net fuel link rest,
        network_send_data_log net fuel link rest) =
        (network_send_data_loop net (rest.length + 1) link rest,
          network_send_data_log net (rest.length + 1) link rest) := by
  intro fuel
  induction fuel using Nat.strong_induction_on with
  | _ fuel ih =>
    intro link rest hlt
    cases fuel with
    | zero => omega
    | succ fuel =>
      by_cases h0 : rest.length = 0
      · have hnil : rest = [] := List.length_eq_zero.mp h0
        subst hnil
        simp [network_send_data_loop, network_send_data_log, spec_all_or_fail]
      · have hunf : ∀ f : Nat,
            network_send_data_loop net (f + 1) link rest =
              (if (network_send net link rest).1 ≤ 0 then (false, (network_send net link rest).2)
               else network_send_data_loop net f (network_send net link rest).2
                 (rest.drop (network_send net link rest).1.toNat)) ∧
            network_send_data_log net (f + 1) link rest =
              (if (network_send net link rest).1 ≤ 0 then
                 [(rest.length, (network_send net link rest).1)]
               else (rest.length, (network_send net link rest).1) ::
                 network_send_data_log net f (network_send net link rest).2
                   (rest.drop (network_send net link rest).1.toNat)) := by
          intro f
          constructor
          · rw [network_send_data_loop]
            simp only [h0, if_false]
          · rw [network_send_data_log]
            simp only [h0, if_false]
        have hret : (network_send net link rest).1 = net link.calls rest.length := rfl
        have hcalls : (network_send net link rest).2.calls = link.calls + 1 := rfl
        have hsent : (network_send net link rest).2.sent =
            link.sent ++ rest.take (net link.calls rest.length).toNat := rfl
        rw [(hunf fuel).1, (hunf fuel).2, (hunf rest.length).1, (hunf rest.length).2]
        by_cases hle : (network_send net link rest).1 ≤ 0
        · simp only [hle, if_true]
          refine ⟨⟨?_, ?_, ?_⟩, ?_, ?_, ?_, by trivial⟩
          · simp only [List.length_singleton]
            omega
          · simp only [Bool.false_eq_true, List.mem_singleton, forall_eq, false_iff, not_lt]
            exact hle
          · intro _
            exact ⟨[], _, rfl, hle, by simp⟩
          · simp [hcalls]
          · intro i c hc
            cases i with
            | zero =>
              simp only [List.get?_cons_zero, Option.some.injEq] at hc
              rw [← hc]
              exact hret
            | succ i => simp at hc
          · intro h
            simp at h
        · simp only [hle, if_false]
          have hpos : 1 ≤ net link.calls rest.length ∧
              net link.calls rest.length ≤ (rest.length : Int) := by
            rcases hb link.calls rest.length with h | h
            · rw [hret] at hle
              exact absurd h hle
            · exact h
          have hk : 1 ≤ (net link.calls rest.length).toNat ∧
              (net link.calls rest.length).toNat ≤ rest.length := by
            omega
          have hdrop : (rest.drop (network_send net link rest).1.toNat).length =
              rest.length - (net link.calls rest.length).toNat := by
            rw [hret, List.length_drop]
          have hlt1 : (rest.drop (network_send net link rest).1.toNat).length < fuel := by
            omega
          have hlt2 : (rest.drop (network_send net link rest).1.toNat).length < rest.length := by
            omega
          obtain ⟨⟨a1, a2, a3⟩, a4, a5, a6, a7⟩ := ih fuel (Nat.lt_succ_self _)
            (network_send net link rest).2 _ hlt1
          obtain ⟨_, _, _, _, b7⟩ := ih rest.length (by omega)
            (network_send net link rest).2 _ hlt2
          have hpos2 : (0 : Int) < (network_send net link rest).1 := by
            rw [hret]
            omega
          refine ⟨⟨?_, ?_, ?_⟩, ?_, ?_, ?_, ?_⟩
          · simp only [List.length_cons]
            omega
          · rw [a2]
            simp only [List.mem_cons, forall_eq_or_imp, hpos2, true_and]
          · intro hf
            obtain ⟨pre, c, hlog, hc, hpre⟩ := a3 hf
            refine ⟨(rest.length, (network_send net link rest).1) :: pre, c, ?_, hc, ?_⟩
            · rw [hlog]
              rfl
            · intro x hx
              rcases List.mem_cons.mp hx with h | h
              · rw [h]
                exact hpos2
              · exact hpre x h
          · rw [a4, hcalls]
            simp only [List.length_cons]
            omega
          · intro i c hc
            cases i with
            | zero =>
              simp only [List.get?_cons_zero, Option.some.injEq] at hc
              rw [← hc]
              exact hret
            | succ i =>
              simp only [List.get?_cons_succ] at hc
              rw [a5 i c hc, hcalls]
              congr 1
              omega
          · intro h
            rw [a6 h, hsent, hret, List.append_assoc, List.take_append_drop]
          · simp only [Prod.mk.injEq] at a7 b7 ⊢
            exact ⟨a7.1.trans b7.1.symm, congrArg _ (a7.2.trans b7.2.symm)⟩
/-- The loop of `network_recv_data` on a bounded transport, for any fuel above the
number of bytes still asked for. -/
theorem network_recv_data_loop_bounded (net : Transport) (hb : net.bounded) :
    ∀ (fuel : Nat) (link : rx_conn) (remaining : Nat) (data : List Nat), remaining < fuel →
      spec_all_or_fail (network_recv_data_loop net fuel link remaining data).1
        (network_recv_data_log net fuel link remaining) remaining ∧
      (network_recv_data_loop net fuel link remaining data).2.2.calls =
        link.calls + (network_recv_data_log net fuel link remaining).length ∧
      (∃ got : List Nat,
        (network_recv_data_loop net fuel link remaining data).2.1 = data ++ got ∧
        got ++ (network_recv_data_loop net fuel link remaining data).2.2.pending =
          link.pending ∧
        ((network_recv_data_loop net fuel link remaining data).1 = true →
          got.length = remaining)) ∧
      (network_recv_data_loop net fuel link remaining data,
        network_recv_data_log net fuel link remaining) =
        (network_recv_data_loop net (remaining + 1) link remaining data,
          network_recv_data_log net (remaining + 1) link remaining) := by
  intro fuel
  induction fuel using Nat.strong_induction_on with
  | _ fuel ih =>
    intro link remaining data hlt
    cases fuel with
    | zero => omega
    | succ fuel =>
      by_cases h0 : remaining = 0
      · subst h0
        simp [network_recv_data_loop, network_recv_data_log, spec_all_or_fail]
      · have hunf : ∀ f : Nat,
            network_recv_data_loop net (f + 1) link remaining data =
              (if (network_recv net link remaining).1 ≤ 0 then
                 (false, data, (network_recv net link remaining).2.2)
               else network_recv_data_loop net f (network_recv net link remaining).2.2
                 (remaining - (network_recv net link remaining).1.toNat)
                 (data ++ (network_recv net link remaining).2.1)) ∧
            network_recv_data_log net (f + 1) link remaining =
              (if (network_recv net link remaining).1 ≤ 0 then
                 [(remaining, (network_recv net link remaining).1)]
               else (remaining, (network_recv net link remaining).1) ::
                 network_recv_data_log net f (network_recv net link remaining).2.2
                   (remaining - (network_recv net link remaining).1.toNat)) := by
          intro f
          constructor
          · rw [network_recv_data_loop]
            simp only [h0, if_false]
          · rw [network_recv_data_log]
            simp only [h0, if_false]
        have hret : (network_recv net link remaining).1 =
            min (net link.calls remaining) (link.pending.length : Int) := rfl
        have hcalls : (network_recv net link remaining).2.2.calls = link.calls + 1 := rfl
        have hgot : (network_recv net link remaining).2.1 ++
            (network_recv net link remaining).2.2.pending = link.pending :=
          List.take_append_drop _ _
        have hgotlen : (network_recv net link remaining).2.1.length =
            min (network_recv net link remaining).1.toNat link.pending.length :=
          List.length_take _ _
        rw [(hunf fuel).1, (hunf fuel).2, (hunf remaining).1, (hunf remaining).2]
        by_cases hle : (network_recv net link remaining).1 ≤ 0
        · simp only [hle, if_true]
          refine ⟨⟨?_, ?_, ?_⟩, ?_, ?_, by trivial⟩
          · simp only [List.length_singleton]
            omega
          · simp only [Bool.false_eq_true, List.mem_singleton, forall_eq, false_iff, not_lt]
            exact hle
          · intro _
            exact ⟨[], _, rfl, hle, by simp⟩
          · simp [hcalls]
          · refine ⟨[], by simp, ?_, by simp⟩
            have hz : (network_recv net link remaining).1.toNat = 0 := by omega
            show [] ++ link.pending.drop (network_recv net link remaining).1.toNat = link.pending
            rw [hz]
            rfl
        · simp only [hle, if_false]
          have hk : 1 ≤ (network_recv net link remaining).1.toNat ∧
              (network_recv net link remaining).1.toNat ≤ remaining ∧
              (network_recv net link remaining).1.toNat ≤ link.pending.length := by
            rcases hb link.calls remaining with h | h
            · rw [hret] at hle
              omega
            · rw [hret] at hle ⊢
              omega
          have hlt1 : remaining - (network_recv net link remaining).1.toNat < fuel := by omega
          have hlt2 : remaining - (network_recv net link remaining).1.toNat < remaining := by
            omega
          obtain ⟨⟨a1, a2, a3⟩, a4, ⟨got, g1, g2, g3⟩, a7⟩ := ih fuel (Nat.lt_succ_self _)
            (network_recv net link remaining).2.2 _
            (data ++ (network_recv net link remaining).2.1) hlt1
          obtain ⟨_, _, _, b7⟩ := ih remaining (by omega)
            (network_recv net link remaining).2.2 _
            (data ++ (network_recv net link remaining).2.1) hlt2
          have hpos2 : (0 : Int) < (network_recv net link remaining).1 := by omega
          refine ⟨⟨?_, ?_, ?_⟩, ?_, ?_, ?_⟩
          · simp only [List.length_cons]
            omega
          · rw [a2]
            simp only [List.mem_cons, forall_eq_or_imp, hpos2, true_and]
          · intro hf
            obtain ⟨pre, c, hlog, hc, hpre⟩ := a3 hf
            refine ⟨(remaining, (network_recv net link remaining).1) :: pre, c, ?_, hc, ?_⟩
            · rw [hlog]
              rfl
            · intro x hx
              rcases List.mem_cons.mp hx with h | h
              · rw [h]
                exact hpos2
              · exact hpre x h
          · rw [a4, hcalls]
            simp only [List.length_cons]
            omega
          · refine ⟨(network_recv net link remaining).2.1 ++ got, ?_, ?_, ?_⟩
            · rw [g1, List.append_assoc]
            · rw [List.append_assoc, g2, hgot]
            · intro h
              rw [List.length_append, g3 h, hgotlen]
              omega
          · simp only [Prod.mk.injEq] at a7 b7 ⊢
            exact ⟨a7.1.trans b7.1.symm, congrArg _ (a7.2.trans b7.2.symm)⟩

/-- The loop of `network_recv_data` on a transport that never fails, the stream
holding at least the bytes still asked for. -/
theorem network_recv_data_loop_good (net : Transport) (hnet : net.good) :
    ∀ (fuel : Nat) (link : rx_conn) (remaining : Nat) (data : List Nat), remaining < fuel →
      remaining ≤ link.pending.length →
      (network_recv_data_loop net fuel link remaining data).1 = true ∧
      (network_recv_data_loop net fuel link remaining data).2.1 =
        data ++ link.pending.take remaining ∧
      (network_recv_data_loop net fuel link remaining data).2.2.pending =
        link.pending.drop remaining := by
  intro fuel
  induction fuel with
  | zero => intro _ _ _ h; omega
  | succ fuel ih =>
    intro link remaining data hlt hlen
    by_cases h0 : remaining = 0
    · subst h0
      simp [network_recv_data_loop]
    · rw [network_recv_data_loop]
      simp only [h0, if_false]
      have hret : (network_recv net link remaining).1 =
          min (net link.calls remaining) (link.pending.length : Int) := rfl
      have hpend : (network_recv net link remaining).2.2.pending =
          link.pending.drop (network_recv net link remaining).1.toNat := rfl
      have hgot : (network_recv net link remaining).2.1 =
          link.pending.take (network_recv net link remaining).1.toNat := rfl
      have hg := hnet link.calls remaining (by omega)
      have hk : 1 ≤ (network_recv net link remaining).1.toNat ∧
          (network_recv net link remaining).1.toNat ≤ remaining := by
        rw [hret]
        omega
      have hpos : ¬ (network_recv net link remaining).1 ≤ 0 := by
        rw [hret]
        omega
      simp only [hpos, if_false]
      obtain ⟨i1, i2, i3⟩ := ih (network_recv net link remaining).2.2
        (remaining - (network_recv net link remaining).1.toNat)
        (data ++ (network_recv net link remaining).2.1) (by omega)
        (by rw [hpend, List.length_drop]; omega)
      refine ⟨i1, ?_, ?_⟩
      · rw [i2, hpend, hgot, List.append_assoc, ← List.take_add]
        congr 2
        omega
      · rw [i3, hpend, List.drop_drop]
        congr 1
        omega

/-- On a transport that never fails, `network_recv_data` for `len` bytes of which
the stream holds at least that many returns true with the first `len` bytes of the
stream, which are taken off it. -/
theorem network_recv_data_good (net : Transport) (hnet : net.good) (link : rx_conn)
    (len : Nat) (hlen : len ≤ link.pending.length) :
    (network_recv_data net link len).1 = true ∧
    (network_recv_data net link len).2.1 = link.pending.take len ∧
    (network_recv_data net link len).2.2.pending = link.pending.drop len := by
  have h := network_recv_data_loop_good net hnet (len + 1) link len [] (Nat.lt_succ_self _) hlen
  exact h
/-- The transport `net_third_fails` is bounded. -/
theorem net_third_fails_bounded : net_third_fails.bounded := by
  intro i n
  unfold net_third_fails
  by_cases h : i = 2
  · simp [h]
  · simp only [h, if_false]
    omega

/-- C23: on a transport each call of which returns a value that is not positive
or a count between 1 and the number of bytes asked for, `network_send_data`
returns after at most `len` calls of `network_send` (the result is the same for
every bound on the iterations above `len`); it returns true iff every call
returned a positive count, and then the bytes the link took are the bytes of the
buffer, in order, each once; when it returns false the last call made is the first
one whose value was not positive.  The same holds of `network_recv_data` and
`network_recv`, where true comes with the first `len` bytes of the stream stored
in the buffer and taken off the stream. -/
theorem C23_send_recv_all_or_fail (net : Transport) (hb : net.bounded) (link : est_conn)
    (data : List Nat) (rlink : rx_conn) (len : Nat) :
    (∀ fuel : Nat, data.length < fuel →
      network_send_data_loop net fuel link data = network_send_data net link data) ∧
    spec_all_or_fail (network_send_data net link data).1
      (network_send_data_log net (data.length + 1) link data) data.length ∧
    (network_send_data net link data).2.calls =
      link.calls + (network_send_data_log net (data.length + 1) link data).length ∧
    (∀ i c, (network_send_data_log net (data.length + 1) link data).get? i = some c →
      c.2 = net (link.calls + i) c.1) ∧
    ((network_send_data net link data).1 = true →
      (network_send_data net link data).2.sent = link.sent ++ data) ∧
    (∀ fuel : Nat, len < fuel →
      network_recv_data_loop net fuel rlink len [] = network_recv_data net rlink len) ∧
    spec_all_or_fail (network_recv_data net rlink len).1
      (network_recv_data_log net (len + 1) rlink len) len ∧
    (network_recv_data net rlink len).2.2.calls =
      rlink.calls + (network_recv_data_log net (len + 1) rlink len).length ∧
    ((network_recv_data net rlink len).1 = true →
      (network_recv_data net rlink len).2.1 = rlink.pending.take len ∧
      (network_recv_data net rlink len).2.1.length = len ∧
      (network_recv_data net rlink len).2.2.pending = rlink.pending.drop len) := by
  obtain ⟨s1, s2, s3, s4, _⟩ :=
    network_send_data_loop_bounded net hb (data.length + 1) link data (Nat.lt_succ_self _)
  obtain ⟨r1, r2, ⟨got, g1, g2, g3⟩, _⟩ :=
    network_recv_data_loop_bounded net hb (len + 1) rlink len [] (Nat.lt_succ_self _)
  refine ⟨?_, s1, s2, s3, s4, ?_, r1, r2, ?_⟩
  · intro fuel hf
    have h := (network_send_data_loop_bounded net hb fuel link data hf).2.2.2.2
    exact (Prod.mk.inj h).1
  · intro fuel hf
    have h := (network_recv_data_loop_bounded net hb fuel rlink len [] hf).2.2.2
    exact (Prod.mk.inj h).1
  · intro h
    have hlen := g3 h
    have hgot : (network_recv_data net rlink len).2.1 = got := by
      rw [network_recv_data, g1]
      rfl
    have hpend : got ++ (network_recv_data net rlink len).2.2.pending = rlink.pending := g2
    refine ⟨?_, ?_, ?_⟩
    · rw [hgot, ← hpend, List.take_left' hlen]
    · rw [hgot, hlen]
    · rw [← hpend, List.drop_left' hlen]

theorem C23_send_recv_all_or_fail_witness :
    net_third_fails.bounded ∧
    spec_all_or_fail (network_send_data net_third_fails link0 [1, 2, 3, 4, 5, 6]).1
      (network_send_data_log net_third_fails 7 link0 [1, 2, 3, 4, 5, 6]) 6 ∧
    network_send_data net_third_fails link0 [1, 2, 3, 4, 5, 6] =
      (false, { sent := [1, 2, 3, 4], calls := 3, shut := false }) ∧
    network_send_data_log net_third_fails 7 link0 [1, 2, 3, 4, 5, 6] =
      [(6, 2), (4, 2), (2, -1)] ∧
    network_recv_data net_third_fails { pending := [1, 2, 3, 4, 5, 6], calls := 0 } 4 =
      (true, [1, 2, 3, 4], { pending := [5, 6], calls := 2 }) :=
  ⟨net_third_fails_bounded,
   (C23_send_recv_all_or_fail net_third_fails net_third_fails_bounded link0 [1, 2, 3, 4, 5, 6]
      { pending := [], calls := 0 } 0).2.1,
   by decide, by decide, by decide⟩

/-- Reading a big-endian word from memory and passing it through `ntohl`. -/
theorem ntohl_load32_be32 (le : Bool) (x : Nat) (h : x < 4294967296) :
    ntohl le (load32 le (be32 x)) = x := by
  cases le
  · simp only [ntohl, load32, be32, Bool.false_eq_true, if_false, List.getD_cons_zero,
      List.getD_cons_succ]
    omega
  · obtain ⟨a, b, c, d, ha, hb, hc, hd, rfl⟩ := split32 x h
    have e1 : (a + 256 * b + 65536 * c + 16777216 * d) / 16777216 % 256 = d := by omega
    have e2 : (a + 256 * b + 65536 * c + 16777216 * d) / 65536 % 256 = c := by omega
    have e3 : (a + 256 * b + 65536 * c + 16777216 * d) / 256 % 256 = b := by omega
    have e4 : (a + 256 * b + 65536 * c + 16777216 * d) % 256 = a := by omega
    simp only [ntohl, load32, be32, if_true, List.getD_cons_zero, List.getD_cons_succ, e1, e2,
      e3, e4]
    exact bswap32_bytes d c b a hd hc hb ha

/-- Reading a big-endian half word from memory and passing it through `ntohs`. -/
theorem ntohs_load16_be16 (le : Bool) (x : Nat) (h : x < 65536) :
    ntohs le (load16 le (be16 x)) = x := by
  cases le
  · simp only [ntohs, load16, be16, Bool.false_eq_true, if_false, List.getD_cons_zero,
      List.getD_cons_succ]
    omega
  · obtain ⟨a, b, ha, hb, rfl⟩ := split16 x h
    have e1 : (a + 256 * b) / 256 % 256 = b := by omega
    have e2 : (a + 256 * b) % 256 = a := by omega
    simp only [ntohs, load16, be16, if_true, List.getD_cons_zero, List.getD_cons_succ, e1, e2]
    exact bswap16_bytes b a hb ha

/-- The operation header the client makes of the 8 bytes of a header on the wire. -/
theorem usbip_op_common_load_wire (le : Bool) (v c s : Nat) (hv : v < 65536) (hc : c < 65536)
    (hs : s < 4294967296) :
    usbip_common_header_from_network_order le (usbip_op_common.load le (op_common_wire v c s)) =
      { version := v, code := c, status := s } := by
  have h1 : (op_common_wire v c s).take 2 = be16 v := rfl
  have h2 : ((op_common_wire v c s).drop 2).take 2 = be16 c := rfl
  have h3 : ((op_common_wire v c s).drop 4).take 4 = be32 s := rfl
  simp only [usbip_common_header_from_network_order, usbip_op_common.load, h1, h2, h3,
    ntohs_load16_be16 le v hv, ntohs_load16_be16 le c hc, ntohl_load32_be32 le s hs]

/-- The device record the client makes of the 312 bytes of a record on the wire. -/
theorem usbip_usb_device_load_wire (le : Bool) (d : usbip_usb_device) (h : d.wf) :
    usbip_net_dev_from_network_order le (usbip_usb_device.load le d.wire) = d := by
  obtain ⟨hpath, _, hbusid, _, hb, hd, hs, hv, hp, hc, _⟩ := h
  have hw : d.wire = d.path ++ (d.busid ++ (be32 d.busnum ++ (be32 d.devnum ++ (be32 d.speed ++
      (be16 d.idVendor ++ (be16 d.idProduct ++ (be16 d.bcdDevice ++
        [d.bDeviceClass, d.bDeviceSubClass, d.bDeviceProtocol, d.bConfigurationValue,
         d.bNumConfigurations, d.bNumInterfaces]))))))) := by
    simp only [usbip_usb_device.wire, List.append_assoc]
  have t0 : d.wire.take 256 = d.path := by rw [hw, List.take_left' hpath]
  have d0 : d.wire.drop 256 = d.busid ++ (be32 d.busnum ++ (be32 d.devnum ++ (be32 d.speed ++
      (be16 d.idVendor ++ (be16 d.idProduct ++ (be16 d.bcdDevice ++
        [d.bDeviceClass, d.bDeviceSubClass, d.bDeviceProtocol, d.bConfigurationValue,
         d.bNumConfigurations, d.bNumInterfaces])))))) := by rw [hw, List.drop_left' hpath]
  have t1 : (d.wire.drop 256).take 32 = d.busid := by rw [d0, List.take_left' hbusid]
  have d1 : d.wire.drop 288 = be32 d.busnum ++ (be32 d.devnum ++ (be32 d.speed ++
      (be16 d.idVendor ++ (be16 d.idProduct ++ (be16 d.bcdDevice ++
        [d.bDeviceClass, d.bDeviceSubClass, d.bDeviceProtocol, d.bConfigurationValue,
         d.bNumConfigurations, d.bNumInterfaces]))))) := by
    have : d.wire.drop 288 = (d.wire.drop 256).drop 32 := by rw [List.drop_drop]
    rw [this, d0, List.drop_left' hbusid]
  have dk : ∀ k, d.wire.drop (288 + k) = (d.wire.drop 288).drop k := by
    intro k
    rw [List.drop_drop]
  have gk : ∀ k, d.wire.getD (288 + k) 0 = (d.wire.drop 288).getD k 0 := by
    intro k
    simp only [List.getD_eq_getElem?_getD, List.getElem?_drop]
  have e2 := dk 4
  have e3 := dk 8
  have e4 := dk 12
  have e5 := dk 14
  have e6 := dk 16
  have g1 := gk 18
  have g2 := gk 19
  have g3 := gk 20
  have g4 := gk 21
  have g5 := gk 22
  have g6 := gk 23
  simp only [Nat.reduceAdd] at e2 e3 e4 e5 e6 g1 g2 g3 g4 g5 g6
  have f1 : (d.wire.drop 288).take 4 = be32 d.busnum := by rw [d1]; rfl
  have f2 : (d.wire.drop 292).take 4 = be32 d.devnum := by rw [e2, d1]; rfl
  have f3 : (d.wire.drop 296).take 4 = be32 d.speed := by rw [e3, d1]; rfl
  have f4 : (d.wire.drop 300).take 2 = be16 d.idVendor := by rw [e4, d1]; rfl
  have f5 : (d.wire.drop 302).take 2 = be16 d.idProduct := by rw [e5, d1]; rfl
  have f6 : (d.wire.drop 304).take 2 = be16 d.bcdDevice := by rw [e6, d1]; rfl
  have c1 : d.wire.getD 306 0 = d.bDeviceClass := by rw [g1, d1]; rfl
  have c2 : d.wire.getD 307 0 = d.bDeviceSubClass := by rw [g2, d1]; rfl
  have c3 : d.wire.getD 308 0 = d.bDeviceProtocol := by rw [g3, d1]; rfl
  have c4 : d.wire.getD 309 0 = d.bConfigurationValue := by rw [g4, d1]; rfl
  have c5 : d.wire.getD 310 0 = d.bNumConfigurations := by rw [g5, d1]; rfl
  have c6 : d.wire.getD 311 0 = d.bNumInterfaces := by rw [g6, d1]; rfl
  simp only [usbip_net_dev_from_network_order, usbip_usb_device.load, t0, t1, f1, f2, f3, f4,
    f5, f6, c1, c2, c3, c4, c5, c6, ntohl_load32_be32 le _ hb, ntohl_load32_be32 le _ hd,
    ntohl_load32_be32 le _ hs, ntohs_load16_be16 le _ hv, ntohs_load16_be16 le _ hp,
    ntohs_load16_be16 le _ hc]
/-- A UsbDevice record is 312 bytes. -/
theorem usbip_usb_device_wire_length (d : usbip_usb_device) (h : d.wf) :
    d.wire.length = 312 := by
  obtain ⟨hpath, _, hbusid, _⟩ := h
  simp only [usbip_usb_device.wire, List.length_append, hpath, hbusid, be32, be16,
    List.length_cons, List.length_nil]

/-- The interface records of a device are 4 bytes each. -/
theorem interface_records_length (l : List usbip_usb_interface) :
    (l.map usbip_usb_interface.mem).flatten.length = 4 * l.length := by
  induction l with
  | nil => rfl
  | cons i rest ih =>
    simp only [List.map_cons, List.flatten_cons, List.length_append, ih, List.length_cons,
      usbip_usb_interface.mem, List.length_nil]
    omega

/-- Inner loop of the client on a transport that never fails: `k` interface records
are taken off the stream. -/
theorem devlist_recv_interfaces_good (net : Transport) (hnet : net.good) :
    ∀ (k : Nat) (link : rx_conn), 4 * k ≤ link.pending.length →
      (devlist_recv_interfaces net k link).1 = true ∧
      (devlist_recv_interfaces net k link).2.pending = link.pending.drop (4 * k) := by
  intro k
  induction k with
  | zero => intro link _; simp [devlist_recv_interfaces]
  | succ k ih =>
    intro link hlen
    obtain ⟨r1, _, r3⟩ := network_recv_data_good net hnet link 4 (by omega)
    rw [devlist_recv_interfaces]
    simp only [r1, Bool.not_true, Bool.false_eq_true, if_false]
    obtain ⟨i1, i2⟩ := ih (network_recv_data net link 4).2.2
      (by rw [r3, List.length_drop]; omega)
    refine ⟨i1, ?_⟩
    rw [i2, r3, List.drop_drop]
    congr 1
    omega

/-- Outer loop of the client on a transport that never fails, reading the records
of `infos`: the array is filled with their device records, in order, and the
records are taken off the stream. -/
theorem devlist_recv_devices_good (le : Bool) (net : Transport) (hnet : net.good) :
    ∀ (infos : List usb_device_info) (link : rx_conn) (list : List usbip_usb_device)
      (tail : List Nat), (∀ i ∈ infos, i.wf ∧ i.udev.wf) →
      link.pending = (infos.map devlist_record).flatten ++ tail →
      (devlist_recv_devices le net infos.length link list).1 = true ∧
      (devlist_recv_devices le net infos.length link list).2.1 =
        list ++ infos.map (fun i => i.udev) ∧
      (devlist_recv_devices le net infos.length link list).2.2.pending = tail := by
  intro infos
  induction infos with
  | nil =>
    intro link list tail _ hp
    simp only [List.map_nil, List.flatten_nil, List.nil_append] at hp
    simp [devlist_recv_devices, hp]
  | cons i rest ih =>
    intro link list tail hwf hp
    obtain ⟨hi, hu⟩ := hwf i (List.mem_cons_self _ _)
    have hwl := usbip_usb_device_wire_length i.udev hu
    have hil : ((i.interface.take i.udev.bNumInterfaces).map usbip_usb_interface.mem).flatten.length
        = 4 * i.udev.bNumInterfaces := by
      rw [interface_records_length, List.length_take, hi.1]
      have := hi.2
      omega
    have hp2 : link.pending = i.udev.wire ++
        (((i.interface.take i.udev.bNumInterfaces).map usbip_usb_interface.mem).flatten ++
          ((rest.map devlist_record).flatten ++ tail)) := by
      rw [hp]
      simp only [List.map_cons, List.flatten_cons, devlist_record, List.append_assoc]
    obtain ⟨r1, r2, r3⟩ := network_recv_data_good net hnet link 312
      (by rw [hp2, List.length_append, hwl]; omega)
    rw [hp2, List.take_left' hwl] at r2
    rw [hp2, List.drop_left' hwl] at r3
    rw [List.length_cons, devlist_recv_devices]
    simp only [r1, Bool.not_true, Bool.false_eq_true, if_false, r2,
      usbip_usb_device_load_wire le i.udev hu]
    obtain ⟨j1, j2⟩ := devlist_recv_interfaces_good net hnet i.udev.bNumInterfaces
      (network_recv_data net link 312).2.2
      (by rw [r3, List.length_append, hil]; omega)
    rw [r3, List.drop_left' hil] at j2
    simp only [j1, Bool.not_true, Bool.false_eq_true, if_false]
    obtain ⟨k1, k2, k3⟩ := ih
      (devlist_recv_interfaces net i.udev.bNumInterfaces (network_recv_data net link 312).2.2).2
      (list ++ [i.udev]) tail (fun x hx => hwf x (List.mem_cons_of_mem _ hx)) j2
    refine ⟨k1, ?_, k3⟩
    rw [k2]
    simp

/-- The body of a device-list reply is `ndev` followed by the records of the
devices. -/
theorem devlist_reply_body_records (infos : List usb_device_info) :
    devlist_reply_body infos = be32 infos.length ++ (infos.map devlist_record).flatten := rfl

/-- The client's command on the stream of a device-list reply for `infos`. -/
theorem exec_usbip_devlist_command_on_reply (le : Bool) (net_tx net_rx : Transport)
    (htx : net_tx.good) (hrx : net_rx.good) (infos : List usb_device_info)
    (hwf : ∀ i ∈ infos, i.wf ∧ i.udev.wf) (hcount : infos.length < 4294967296)
    (link : client_link)
    (hp : link.rx.pending = op_common_wire 0x0111 0x0005 0 ++ devlist_reply_body infos) :
    (exec_usbip_devlist_command le net_tx net_rx (some link) true).ret = true ∧
    (exec_usbip_devlist_command le net_tx net_rx (some link) true).list =
      some (infos.map (fun i => i.udev)) ∧
    (exec_usbip_devlist_command le net_tx net_rx (some link) true).len =
      (infos.length * 312) % 4294967296 ∧
    (exec_usbip_devlist_command le net_tx net_rx (some link) true).link.map
      (fun l => (l.rx.pending, l.closed)) = some ([], true) := by
  have hhl : (op_common_wire 0x0111 0x0005 0).length = 8 := rfl
  have hbl : (be32 infos.length).length = 4 := rfl
  have hp2 : link.rx.pending = op_common_wire 0x0111 0x0005 0 ++
      (be32 infos.length ++ ((infos.map devlist_record).flatten ++ [])) := by
    rw [hp, devlist_reply_body_records, List.append_nil]
  obtain ⟨s1, _⟩ := usbip_net_send_usbip_header_good le net_tx htx link.tx
    { version := USBIP_DEFAULT_PROTOCOL_VERSION, code := USBIP_OP_REQ_DEVLIST,
      status := USBIP_ST_OK }
  obtain ⟨r1, r2, r3⟩ := network_recv_data_good net_rx hrx link.rx 8
    (by rw [hp2, List.length_append, hhl]; omega)
  rw [hp2, List.take_left' hhl] at r2
  rw [hp2, List.drop_left' hhl] at r3
  have hh : usbip_net_recv_usbip_header le net_rx link.rx
      (usbip_common_header_to_network_order le
        { version := USBIP_DEFAULT_PROTOCOL_VERSION, code := USBIP_OP_REQ_DEVLIST,
          status := USBIP_ST_OK }) =
      (true, { version := 0x0111, code := 0x0005, status := 0 },
        (network_recv_data net_rx link.rx 8).2.2) := by
    unfold usbip_net_recv_usbip_header
    simp only [r1, if_true, r2]
    rw [usbip_op_common_load_wire le 0x0111 0x0005 0 (by omega) (by omega) (by omega)]
  obtain ⟨n1, n2, n3⟩ := network_recv_data_good net_rx hrx
    (network_recv_data net_rx link.rx 8).2.2 4
    (by rw [r3, List.length_append, hbl]; omega)
  rw [r3, List.take_left' hbl] at n2
  rw [r3, List.drop_left' hbl] at n3
  obtain ⟨d1, d2, d3⟩ := devlist_recv_devices_good le net_rx hrx infos
    (network_recv_data net_rx (network_recv_data net_rx link.rx 8).2.2 4).2.2 [] [] hwf n3
  have hc : ¬ ((0x0005 : Nat) ≠ USBIP_OP_REP_DEVLIST) := by decide
  have hst : ¬ ((0 : Nat) ≠ USBIP_ST_OK) := by decide
  unfold exec_usbip_devlist_command
  simp only [s1, hh, hc, hst, n1, n2, usbip_net_devlist_reply_from_network_order,
    ntohl_load32_be32 le infos.length hcount, d1, d2, d3, Bool.not_true, Bool.false_eq_true,
    if_false, List.nil_append, Option.map_some', and_self]
/-- C28: the client decodes what the server encodes.  The server, tracking
`usb_head` (every record within the ranges of its C types, `bNumInterfaces` at most
32), answers a device-list request on a link that takes every byte; the client's
`exec_usbip_devlist_command` reads exactly the bytes the server wrote, on a link
that delivers them, with `calloc` returning an array.  Then it returns true, the
array holds the UsbDevice records of the server's devices that are not exported,
field for field and in the server's order, `*len` is `ndev * 312` (as a
`uint32_t`), and the stream is read to its end.  The two hosts may differ in byte
order. -/
theorem C28_devlist_decode_undoes_encode (le_s le_c : Bool) (net_s net_tx net_rx : Transport)
    (hs : net_s.good) (htx : net_tx.good) (hrx : net_rx.good)
    (usb_head : List server_usb_device)
    (hwf : ∀ d ∈ usb_head, d.info.wf ∧ d.info.udev.wf)
    (hcount : usb_head.length < 2147483648) (slink : est_conn) (link : client_link)
    (hstream : (handle_usbip_req_devicelist le_s net_s usb_head true (some slink)).map
      est_conn.sent = some (slink.sent ++ link.rx.pending)) :
    (exec_usbip_devlist_command le_c net_tx net_rx (some link) true).ret = true ∧
    (exec_usbip_devlist_command le_c net_tx net_rx (some link) true).list =
      some ((usb_head.filter (fun d => !d.info.exported)).map (fun d => d.info.udev)) ∧
    (exec_usbip_devlist_command le_c net_tx net_rx (some link) true).len =
      ((usb_head.filter (fun d => !d.info.exported)).length * 312) % 4294967296 ∧
    ((usb_head.filter (fun d => !d.info.exported)).length * 312 < 4294967296 →
      (exec_usbip_devlist_command le_c net_tx net_rx (some link) true).len =
        (usb_head.filter (fun d => !d.info.exported)).length * 312) ∧
    (exec_usbip_devlist_command le_c net_tx net_rx (some link) true).link.map
      (fun l => (l.rx.pending, l.closed)) = some ([], true) := by
  have hsent := devlist_reply_sent le_s net_s usb_head slink hs (fun d hd => (hwf d hd).1)
  rw [hstream, Option.some.injEq, List.append_assoc] at hsent
  have hp := List.append_cancel_left hsent
  have hwf2 : ∀ i ∈ (usb_head.filter (fun d => !d.info.exported)).map (fun d => d.info),
      i.wf ∧ i.udev.wf := by
    intro i hi
    obtain ⟨d, hd, rfl⟩ := List.mem_map.mp hi
    exact hwf d (List.mem_filter.mp hd).1
  have hlen : ((usb_head.filter (fun d => !d.info.exported)).map (fun d => d.info)).length <
      4294967296 := by
    rw [List.length_map]
    have := List.length_filter_le (fun d : server_usb_device => !d.info.exported) usb_head
    omega
  obtain ⟨e1, e2, e3, e4⟩ := exec_usbip_devlist_command_on_reply le_c net_tx net_rx htx hrx
    _ hwf2 hlen link hp
  rw [List.map_map] at e2
  rw [List.length_map] at e3
  refine ⟨e1, e2, e3, ?_, e4⟩
  intro hsmall
  rw [e3, Nat.mod_eq_of_lt hsmall]

theorem C28_devlist_decode_undoes_encode_witness :
    (Transport.good net_all ∧
      (∀ d ∈ [device_entry_of demo_info_b, demo_dev], d.info.wf ∧ d.info.udev.wf) ∧
      (handle_usbip_req_devicelist true net_all [device_entry_of demo_info_b, demo_dev] true
        (some link0)).map est_conn.sent =
        some (link0.sent ++ (client_link_of demo_reply_stream).rx.pending)) ∧
    (exec_usbip_devlist_command false net_all net_all
        (some (client_link_of demo_reply_stream)) true).ret = true ∧
    (exec_usbip_devlist_command false net_all net_all
        (some (client_link_of demo_reply_stream)) true).list =
      some (([device_entry_of demo_info_b, demo_dev].filter
        (fun d => !d.info.exported)).map (fun d => d.info.udev)) :=
  ⟨⟨net_all_good, by decide, rfl⟩,
   (C28_devlist_decode_undoes_encode true false net_all net_all net_all net_all_good
      net_all_good net_all_good [device_entry_of demo_info_b, demo_dev] (by decide)
      (by decide) link0 (client_link_of demo_reply_stream) rfl).1,
   (C28_devlist_decode_undoes_encode true false net_all net_all net_all net_all_good
      net_all_good net_all_good [device_entry_of demo_info_b, demo_dev] (by decide)
      (by decide) link0 (client_link_of demo_reply_stream) rfl).2.1⟩

end RemoteHub
